import Mathlib

/-!
# Dependency graph traversal of `generate_dag_k8s_resource.go`

A shallow embedding of the graph builder (`DAGTraverser.GenerateDAGForResource`), of the
nine per-kind resolvers (`getRelatedResources*`), of `getHPAForController`, of the
`Graph` accumulator (`addNode`, `addEdge`), of the helpers of `helper_funcs.go`, and of the
part of `GetK8sDeploymentInfoHandler.ServeHTTP` that runs the traversal and builds the
response.

Modelling conventions
* The Kubernetes client (`*kubernetes.Clientset`) is an external collaborator.  It is a
  record of functions, one per request the code sends: a `Get` answers with an object or an
  error text, a `List` with the items or an error text.  The same request gets the same
  answer during one traversal.
* Go strings are `String`; Go maps with string keys are association lists read with
  `List.lookup`; instants and durations are integers counting nanoseconds.
* A `float64` is the whole number of units of 2^-1074 it holds; its operations round to the
  nearest value, ties to even.
* A nil pointer dereference is the failure `Failure.panic`; an `error` value is its text.
* `DAGTraverser.Visited` (a `map[string]bool` used as a set) is the list of its keys.
* The recursion of `GenerateDAGForResource` is driven by a fuel counter bounding the depth
  of nested calls; `none` means the counter ran out.
-/

namespace K8sMon

/-! ## Kubernetes API objects (the fields the code reads) -/

/-- Go `map[string]string` (labels, selectors). -/
abbrev LabelMap := List (String × String)

/-- The type `metav1.OwnerReference`. -/
structure OwnerReference where
  Kind : String := ""
  Name : String := ""
deriving DecidableEq, Repr

/-- Shared shape of `DeploymentCondition`, `ReplicaSetCondition`, `PodCondition`,
`metav1.Condition` and `PersistentVolumeClaimCondition`. -/
structure Condition where
  Status : String := ""
  Message : String := ""
  LastTransitionTime : Int := 0
deriving DecidableEq, Repr

/-- The type `metav1.ObjectMeta`. -/
structure ObjectMeta where
  Name : String := ""
  Namespace : String := ""
  Labels : LabelMap := []
  OwnerReferences : List OwnerReference := []
  CreationTimestamp : Int := 0
deriving DecidableEq, Repr

/-- The type `metav1.LabelSelectorRequirement`. -/
structure LabelSelectorRequirement where
  Key : String := ""
  Operator : String := ""
  Values : List String := []
deriving DecidableEq, Repr

/-- The type `metav1.LabelSelector`. -/
structure LabelSelector where
  MatchLabels : LabelMap := []
  MatchExpressions : List LabelSelectorRequirement := []
deriving DecidableEq, Repr

/-- The three volume sources of `v1core.Volume` the Pod resolver looks at; each is a pointer
in Go, `none` is nil, and the payload is the referenced object name. -/
structure Volume where
  PersistentVolumeClaim : Option String := none
  Secret : Option String := none
  ConfigMap : Option String := none
deriving DecidableEq, Repr

/-- The type `v1core.EnvFromSource`: `ConfigMapRef` and `SecretRef` are pointers, the payload is
`.Name`. -/
structure EnvFromSource where
  ConfigMapRef : Option String := none
  SecretRef : Option String := none
deriving DecidableEq, Repr

/-- The type `v1core.EnvVarSource`: `ConfigMapKeyRef` and `SecretKeyRef` are pointers. -/
structure EnvVarSource where
  ConfigMapKeyRef : Option String := none
  SecretKeyRef : Option String := none
deriving DecidableEq, Repr

/-- The type `v1core.EnvVar`. -/
structure EnvVar where
  ValueFrom : Option EnvVarSource := none
deriving DecidableEq, Repr

/-- The type `v1core.Container`. -/
structure Container where
  EnvFrom : List EnvFromSource := []
  Env : List EnvVar := []
deriving DecidableEq, Repr

/-- The type `v1core.PodSpec`. -/
structure PodSpec where
  Volumes : List Volume := []
  Containers : List Container := []
  InitContainers : List Container := []
  ServiceAccountName : String := ""
  NodeName : String := ""
deriving DecidableEq, Repr

/-- The type `v1core.PodTemplateSpec`. -/
structure PodTemplateSpec where
  Spec : PodSpec := {}
deriving DecidableEq, Repr

/-- The type `v1.DeploymentSpec`; `Replicas` and `Selector` are pointers, `Strategy` stands for
`Strategy.Type`. -/
structure DeploymentSpec where
  Replicas : Option Int := none
  Selector : Option LabelSelector := none
  Strategy : String := ""
  Template : PodTemplateSpec := {}
deriving DecidableEq, Repr

/-- Holder of `Status.Conditions` for Deployments, Services and PersistentVolumeClaims. -/
structure ConditionsStatus where
  Conditions : List Condition := []
deriving DecidableEq, Repr

/-- The type `v1.Deployment`. -/
structure Deployment extends ObjectMeta where
  Spec : DeploymentSpec := {}
  Status : ConditionsStatus := {}
deriving DecidableEq, Repr

/-- The type `v1.ReplicaSetSpec`; `Replicas` is a pointer. -/
structure ReplicaSetSpec where
  Replicas : Option Int := none
  Template : PodTemplateSpec := {}
deriving DecidableEq, Repr

/-- The type `v1.ReplicaSetStatus` of the API (not the status record of this program). -/
structure ReplicaSetAPIStatus where
  Replicas : Int := 0
  Conditions : List Condition := []
deriving DecidableEq, Repr

/-- The type `v1.ReplicaSet`. -/
structure ReplicaSet extends ObjectMeta where
  Spec : ReplicaSetSpec := {}
  Status : ReplicaSetAPIStatus := {}
deriving DecidableEq, Repr

/-- The type `v1core.ContainerStatus`. -/
structure ContainerStatus where
  Ready : Bool := false
  RestartCount : Int := 0
deriving DecidableEq, Repr

/-- The type `v1core.PodStatus` of the API. -/
structure PodAPIStatus where
  Phase : String := ""
  Conditions : List Condition := []
  ContainerStatuses : List ContainerStatus := []
deriving DecidableEq, Repr

/-- The type `v1core.Pod`. -/
structure Pod extends ObjectMeta where
  Spec : PodSpec := {}
  Status : PodAPIStatus := {}
deriving DecidableEq, Repr

/-- The type `v1core.ServiceSpec`; a nil `Selector` map is `none`. -/
structure ServiceSpec where
  Selector : Option LabelMap := none
  SessionAffinity : String := ""
deriving DecidableEq, Repr

/-- The type `v1core.Service`. -/
structure Service extends ObjectMeta where
  Spec : ServiceSpec := {}
  Status : ConditionsStatus := {}
deriving DecidableEq, Repr

/-- The type `v1core.ObjectReference`. -/
structure ObjectReference where
  Name : String := ""
  Namespace : String := ""
deriving DecidableEq, Repr

/-- The type `v1core.ServiceAccount`. -/
structure ServiceAccount extends ObjectMeta where
  Secrets : List ObjectReference := []
deriving DecidableEq, Repr

/-- The type `networkingv1.IngressBackend`; `Service` is a pointer whose payload is `.Name`. -/
structure IngressBackend where
  Service : Option String := none
deriving DecidableEq, Repr

/-- The type `networkingv1.HTTPIngressPath`. -/
structure HTTPIngressPath where
  Backend : IngressBackend := {}
deriving DecidableEq, Repr

/-- The type `networkingv1.IngressRule`; `HTTP` is a pointer whose payload is `.Paths`. -/
structure IngressRule where
  HTTP : Option (List HTTPIngressPath) := none
deriving DecidableEq, Repr

/-- The type `networkingv1.IngressSpec`; `TLS` holds the `SecretName` of each entry. -/
structure IngressSpec where
  DefaultBackend : Option IngressBackend := none
  Rules : List IngressRule := []
  TLS : List String := []
deriving DecidableEq, Repr

/-- The type `networkingv1.Ingress`. -/
structure Ingress extends ObjectMeta where
  Spec : IngressSpec := {}
deriving DecidableEq, Repr

/-- The type `v1core.PersistentVolumeClaim`. -/
structure PersistentVolumeClaim extends ObjectMeta where
  Status : ConditionsStatus := {}
deriving DecidableEq, Repr

/-- The type `v1core.ConfigMap`. -/
structure ConfigMap extends ObjectMeta where
deriving DecidableEq, Repr

/-- The type `v1core.Secret`. -/
structure Secret extends ObjectMeta where
deriving DecidableEq, Repr

/-- The type `autoscalingv1.CrossVersionObjectReference`. -/
structure CrossVersionObjectReference where
  Kind : String := ""
  Name : String := ""
deriving DecidableEq, Repr

/-- The type `autoscalingv1.HorizontalPodAutoscaler`; `ScaleTargetRef` is `Spec.ScaleTargetRef`. -/
structure HorizontalPodAutoscaler extends ObjectMeta where
  ScaleTargetRef : CrossVersionObjectReference := {}
deriving DecidableEq, Repr

/-- The type `policyv1.PodDisruptionBudget`; `Selector` is the pointer `Spec.Selector`. -/
structure PodDisruptionBudget extends ObjectMeta where
  Selector : Option LabelSelector := none
deriving DecidableEq, Repr

/-- The type `networkingv1.NetworkPolicy`; `PodSelector` is the value `Spec.PodSelector`. -/
structure NetworkPolicy extends ObjectMeta where
  PodSelector : LabelSelector := {}
deriving DecidableEq, Repr

/-- The type `v1core.Event`, with `InvolvedObject.Kind` and `InvolvedObject.Name` flattened. -/
structure Event where
  InvolvedKind : String := ""
  InvolvedName : String := ""
  Reason : String := ""
  Message : String := ""
deriving DecidableEq, Repr

/-- The requests `generate_dag_k8s_resource.go` and `get_k8s_deployment_info.go` send through
`*kubernetes.Clientset`, and the clock read by `time.Since`.  A `List` takes the namespace
and, where the code passes `ListOptions.LabelSelector`, the label set the selector string is
printed from (`[]` for empty `ListOptions`); `ListPodsSelected` is the listing of Pods whose
selector string is printed from a whole `metav1.LabelSelector`. -/
structure Clientset where
  GetDeployment : String → String → Except String Deployment
  ListDeployments : String → LabelMap → Except String (List Deployment)
  GetReplicaSet : String → String → Except String ReplicaSet
  ListReplicaSets : String → Except String (List ReplicaSet)
  GetPod : String → String → Except String Pod
  ListPods : String → LabelMap → Except String (List Pod)
  GetService : String → String → Except String Service
  ListServices : String → Except String (List Service)
  GetServiceAccount : String → String → Except String ServiceAccount
  GetIngress : String → String → Except String Ingress
  ListIngresses : String → Except String (List Ingress)
  GetPersistentVolumeClaim : String → String → Except String PersistentVolumeClaim
  GetConfigMap : String → String → Except String ConfigMap
  GetSecret : String → String → Except String Secret
  ListHorizontalPodAutoscalers : String → Except String (List HorizontalPodAutoscaler)
  ListPodDisruptionBudgets : String → Except String (List PodDisruptionBudget)
  ListNetworkPolicies : String → Except String (List NetworkPolicy)
  ListPodsSelected : String → LabelSelector → Except String (List Pod)
  ListEvents : String → Except String (List Event)
  Now : Int

/-! ## Library functions the code calls -/

/-- Outcome of a step that did not produce its value: a Go `error` (its text) or a runtime
panic (nil pointer dereference, index out of range). -/
inductive Failure where
  | error (msg : String)
  | panic
deriving DecidableEq, Repr

/-- A value or a `Failure`. -/
abbrev Res (α : Type) := Except Failure α

/-- Body of a `for ... range` loop that appends to `relatedResources` and may panic: the
pieces appended by each iteration, in order, or the first failure. -/
def forEach {α β : Type} (f : α → Res (List β)) : List α → Res (List β)
  | [] => .ok []
  | a :: rest =>
    match f a with
    | .error e => .error e
    | .ok xs =>
      match forEach f rest with
      | .error e => .error e
      | .ok ys => .ok (xs ++ ys)

/-- Go `strconv.ParseBool`: the value and the error, if any. -/
def ParseBool (str : String) : Bool × Option String :=
  if str ∈ ["1", "t", "T", "TRUE", "true", "True"] then (true, none)
  else if str ∈ ["0", "f", "F", "FALSE", "false", "False"] then (false, none)
  else (false, some ("strconv.ParseBool: parsing \"" ++ str ++ "\": invalid syntax"))

/-- Go `strings.Split(s, "_")[0]`: the part of `s` before its first underscore (all of `s`
when it has none). -/
def splitFirst (s : String) : String :=
  String.mk (s.data.takeWhile (fun ch => ch != '_'))

/-- Go `labels.SelectorFromSet(sel).Matches(labels.Set(ls))`: every pair of `sel` is a label
of `ls`; a nil or empty `sel` selects everything. -/
def selectorFromSetMatches (sel : LabelMap) (ls : LabelMap) : Bool :=
  sel.all (fun kv => ls.lookup kv.1 == some kv.2)

/-- Operators of `selection.Operator` that a `metav1.LabelSelector` can produce. -/
inductive Operator where
  | equals
  | isIn
  | notIn
  | doesExist
  | doesNotExist
deriving DecidableEq, Repr

/-- The type `labels.Requirement`. -/
structure Requirement where
  key : String
  operator : Operator
  strValues : List String
deriving DecidableEq, Repr

/-- The type `labels.Selector` as returned by `metav1.LabelSelectorAsSelector`:
`labels.Nothing()` or a conjunction of requirements (`labels.Everything()` is the empty one). -/
inductive Selector where
  | nothing
  | requirements (rs : List Requirement)
deriving DecidableEq, Repr

/-- Go `Requirement.Matches`. -/
def Requirement.Matches (r : Requirement) (ls : LabelMap) : Bool :=
  match r.operator with
  | .equals | .isIn =>
    match ls.lookup r.key with
    | some v => r.strValues.contains v
    | none => false
  | .notIn =>
    match ls.lookup r.key with
    | some v => !(r.strValues.contains v)
    | none => true
  | .doesExist => (ls.lookup r.key).isSome
  | .doesNotExist => (ls.lookup r.key).isNone

/-- Go `Selector.Matches`. -/
def Selector.Matches (s : Selector) (ls : LabelMap) : Bool :=
  match s with
  | .nothing => false
  | .requirements rs => rs.all (fun r => r.Matches ls)

/-- The character class `[-A-Za-z0-9_.]` of the patterns of package `validation`. -/
def isNameChar (ch : Char) : Bool :=
  ch.isAlphanum || ch == '-' || ch == '_' || ch == '.'

/-- A match of the pattern `([A-Za-z0-9][-A-Za-z0-9_.]*)?[A-Za-z0-9]` on the whole string
(`qualifiedNameRegexp`): not empty, the first and the last character alphanumeric, the others
of the class `[-A-Za-z0-9_.]`. -/
def matchesQualifiedName (s : String) : Bool :=
  match s.data with
  | [] => false
  | first :: rest =>
    first.isAlphanum && ((first :: rest).getLast?.any Char.isAlphanum) && rest.all isNameChar

/-- A match of the pattern `[a-z0-9]([-a-z0-9]*[a-z0-9])?` on the whole string (a DNS-1123
label). -/
def matchesDNS1123Label (s : String) : Bool :=
  match s.data with
  | [] => false
  | first :: rest =>
    (first.isLower || first.isDigit) &&
      ((first :: rest).getLast?.any (fun ch => ch.isLower || ch.isDigit)) &&
      rest.all (fun ch => ch.isLower || ch.isDigit || ch == '-')

/-- Go `strings.Split(s, sep)` for a separator of one character `sep`: the pieces of `s`
between the occurrences of `sep`. -/
def splitOnChar (sep : Char) (s : String) : List String :=
  (s.data.foldr
    (fun ch pieces =>
      if ch = sep then [] :: pieces
      else
        match pieces with
        | [] => [[ch]]
        | piece :: others => (ch :: piece) :: others)
    [[]]).map String.mk

/-- Go `validation.IsDNS1123Subdomain`, whether it reports no error: at most 253 bytes, and
DNS-1123 labels separated by single dots. -/
def IsDNS1123Subdomain (value : String) : Bool :=
  decide (value.utf8ByteSize ≤ 253) && (splitOnChar '.' value).all matchesDNS1123Label

/-- Go `validation.IsQualifiedName`, whether it reports no error: an optional DNS subdomain
followed by a slash, then a name of at most 63 bytes that matches `qualifiedNameRegexp`. -/
def IsQualifiedName (value : String) : Bool :=
  match splitOnChar '/' value with
  | [name] => decide (name.utf8ByteSize ≤ 63) && matchesQualifiedName name
  | [domain, name] =>
    domain != "" && IsDNS1123Subdomain domain &&
      decide (name.utf8ByteSize ≤ 63) && matchesQualifiedName name
  | _ => false

/-- Go `validation.IsValidLabelValue`, whether it reports no error: at most 63 bytes, empty or
a match of `qualifiedNameRegexp`. -/
def IsValidLabelValue (value : String) : Bool :=
  decide (value.utf8ByteSize ≤ 63) && (value == "" || matchesQualifiedName value)

/-- Go `labels.NewRequirement`: the requirement, or `none` for the error result.  The key must
be a qualified name, the number of values must suit the operator, every value must be a valid
label value. -/
def NewRequirement (key : String) (op : Operator) (vals : List String) : Option Requirement :=
  let countFits : Bool :=
    match op with
    | .isIn | .notIn => !vals.isEmpty
    | .equals => vals.length == 1
    | .doesExist | .doesNotExist => vals.isEmpty
  if IsQualifiedName key && countFits && vals.all IsValidLabelValue then some ⟨key, op, vals⟩
  else none

/-- The body of the loop over `ps.MatchExpressions` of `metav1.LabelSelectorAsSelector`: the
operator is translated and handed to `labels.NewRequirement`; `none` is the error result. -/
def requirementOfExpression (e : LabelSelectorRequirement) : Option Requirement :=
  if e.Operator = "In" then NewRequirement e.Key .isIn e.Values
  else if e.Operator = "NotIn" then NewRequirement e.Key .notIn e.Values
  else if e.Operator = "Exists" then NewRequirement e.Key .doesExist e.Values
  else if e.Operator = "DoesNotExist" then NewRequirement e.Key .doesNotExist e.Values
  else none

/-- Go `metav1.LabelSelectorAsSelector`: `none` is the `(nil, err)` result. -/
def LabelSelectorAsSelector (ps : Option LabelSelector) : Option Selector :=
  match ps with
  | none => some .nothing
  | some sel =>
    if sel.MatchLabels = [] ∧ sel.MatchExpressions = [] then some (.requirements [])
    else
      match (sel.MatchLabels.map (fun kv => NewRequirement kv.1 .equals [kv.2])).allSome with
      | none => none
      | some fromLabels =>
        match (sel.MatchExpressions.map requirementOfExpression).allSome with
        | none => none
        | some fromExpressions => some (.requirements (fromLabels ++ fromExpressions))

/-- The call `selector.Matches(labels.Set(ls))` on the result of `LabelSelectorAsSelector`
whose error is dropped: a nil selector panics. -/
def selectorMatches (ps : Option LabelSelector) (ls : LabelMap) : Res Bool :=
  match LabelSelectorAsSelector ps with
  | none => .error .panic
  | some s => .ok (s.Matches ls)

/-! ## float64 arithmetic of the Go runtime

A finite non-negative `float64` is a whole number of units of 2^-1074 (the smallest
subnormal); it is represented by that number.  Every operation returns the IEEE 754
round-to-nearest-even image of the exact result, as the Go specification requires. -/

/-- The quotient `num / den` rounded to the nearest integer, a tie going to the even one. -/
def roundHalfEven (num den : Nat) : Nat :=
  let q := num / den
  let r := num % den
  if 2 * r < den then q
  else if den < 2 * r then q + 1
  else if q % 2 = 0 then q else q + 1

/-- The distance, in units, between neighbouring `float64` values around a value of `t` units:
the greatest power of two `p` below 2^2048 with `2^52 * p ≤ t`, or one unit when `t < 2^53`
(subnormals and the first binade).  The power is found bit by bit, highest first. -/
def float64Spacing (t : Nat) : Nat :=
  [(2 ^ 256) ^ 4, (2 ^ 256) ^ 2, 2 ^ 256, 2 ^ 128, 2 ^ 64, 2 ^ 32, 2 ^ 16, 2 ^ 8, 2 ^ 4, 2 ^ 2,
    2].foldl
    (fun spacing factor => if 2 ^ 52 * (spacing * factor) ≤ t then spacing * factor else spacing)
    1

/-- Rounding of the exact value `num / den` (in units) to a `float64`: to the nearest multiple
of the spacing at that value, which keeps 53 significant bits, ties to the even multiple. -/
def roundFloat64 (num den : Nat) : Nat :=
  roundHalfEven num (den * float64Spacing (num / den)) * float64Spacing (num / den)

/-- The `float64` value 1.0, that is 2^1074 units. -/
def float64One : Nat := (2 ^ 179) ^ 6

/-- Conversion `float64(n)` of a non-negative integer. -/
def float64OfNat (n : Nat) : Nat := roundFloat64 (n * float64One) 1

/-- Division `x / y` of two non-negative `float64` values, `y` not zero. -/
def float64Div (x y : Nat) : Nat := roundFloat64 (x * float64One) y

/-- Addition `x + y` of two non-negative `float64` values. -/
def float64Add (x y : Nat) : Nat := roundFloat64 (x + y) 1

/-- Conversion `int(x)` of a non-negative `float64`: the fraction is discarded. -/
def float64ToNat (x : Nat) : Nat := x / float64One

/-- Conversion `int(x)` of a signed `float64` (a signed number of units): truncation toward
zero. -/
def float64ToInt (x : Int) : Int := Int.tdiv x float64One

/-! ## Package `time` of the Go standard library

The methods `Duration.Seconds`, `Duration.Minutes` and `Duration.Hours` are not code of the
repository; they are transcribed from the source of package `time`. -/

/-- Nanoseconds in one second (`time.Second`). -/
def Second : Int := 1000000000

/-- Go `Time.Sub`: the difference, saturated to the range of `time.Duration` (int64). -/
def timeSub (t u : Int) : Int :=
  max (-(2 : Int) ^ 63) (min ((2 : Int) ^ 63 - 1) (t - u))

/-- The body shared by `Duration.Seconds`, `Duration.Minutes` and `Duration.Hours` on a
non-negative duration of `d` nanoseconds, `unit` being the nanoseconds in one second, minute
or hour: `float64(d / unit) + float64(d % unit) / float64(unit)`. -/
def float64Duration (unit d : Nat) : Nat :=
  float64Add (float64OfNat (d / unit)) (float64Div (float64OfNat (d % unit)) (float64OfNat unit))

/-- The same on any duration.  Go integer division and remainder truncate toward zero and
the float64 operations are symmetric in the sign, so a negative duration yields the negated
value of its magnitude. -/
def signedFloat64Duration (unit : Nat) (d : Int) : Int :=
  if d < 0 then -(float64Duration unit d.natAbs : Int) else (float64Duration unit d.natAbs : Int)

/-- Method `Duration.Seconds`: `float64(d / Second) + float64(d % Second) / 1e9`. -/
def Duration.Seconds (d : Int) : Int := signedFloat64Duration 1000000000 d

/-- Method `Duration.Minutes`: `float64(d / Minute) + float64(d % Minute) / (60 * 1e9)`. -/
def Duration.Minutes (d : Int) : Int := signedFloat64Duration 60000000000 d

/-- Method `Duration.Hours`: `float64(d / Hour) + float64(d % Hour) / (60 * 60 * 1e9)`. -/
def Duration.Hours (d : Int) : Int := signedFloat64Duration 3600000000000 d

/-! ## `helper_funcs.go` -/

/-- Function `DurationTimeShort`. -/
def DurationTimeShort (elapsed : Int) : String :=
  let secs := float64ToInt (Duration.Seconds elapsed)
  let mins := float64ToInt (Duration.Minutes elapsed)
  let hours := float64ToInt (Duration.Hours elapsed)
  let days := Int.tdiv hours 24
  if days > 0 then toString days ++ "d"
  else if hours > 0 then toString hours ++ "h"
  else if mins > 0 then toString mins ++ "m"
  else toString secs ++ "s"

/-- Function `ElapsedTimeShort`, with the clock reading `now` of `time.Since` made explicit. -/
def ElapsedTimeShort (now startTime : Int) : String :=
  DurationTimeShort (timeSub now startTime)

/-! ## Data model of `generate_dag_k8s_resource.go` -/

/-- The type `KubernetesResource`. -/
structure KubernetesResource where
  ResourceName : String := ""
  ResourceType : String := ""
  ResourceNamespace : String := ""
deriving DecidableEq, Repr

/-- The type `DeploymentStatus`. -/
structure DeploymentStatus where
  Ok : Bool := false
  Namespace : String := ""
  Created : String := ""
  DeploymentStrategy : String := ""
  Selectors : List String := []
  Message : String := ""
deriving DecidableEq, Repr

/-- The type `ReplicaSetStatus`. -/
structure ReplicaSetStatus where
  Ok : Bool := false
  Namespace : String := ""
  Created : String := ""
  CurrentReplicas : String := ""
  DesiredReplicas : String := ""
  Message : String := ""
deriving DecidableEq, Repr

/-- The type `PodStatus`. -/
structure PodStatus where
  Ok : Bool := false
  Namespace : String := ""
  Created : String := ""
  ServiceAccount : String := ""
  Node : String := ""
  ControlledBy : List String := []
  Message : String := ""
deriving DecidableEq, Repr

/-- The type `ServiceStatus`. -/
structure ServiceStatus where
  Ok : Bool := false
  Namespace : String := ""
  Created : String := ""
  SessionAffinity : String := ""
  Message : String := ""
deriving DecidableEq, Repr

/-- The type `IngressStatus`. -/
structure IngressStatus where
  Ok : Bool := false
  Namespace : String := ""
  Created : String := ""
  DefaultBackend : String := ""
  Message : String := ""
deriving DecidableEq, Repr

/-- The type `ServiceAccountStatus`. -/
structure ServiceAccountStatus where
  Ok : Bool := false
  Namespace : String := ""
  Created : String := ""
  Message : String := ""
deriving DecidableEq, Repr

/-- The type `PersistentVolumeClaimStatus`. -/
structure PersistentVolumeClaimStatus where
  Ok : Bool := false
  Namespace : String := ""
  Created : String := ""
  Message : String := ""
deriving DecidableEq, Repr

/-- The type `SecretStatus`. -/
structure SecretStatus where
  Ok : Bool := false
  Namespace : String := ""
  Created : String := ""
  Message : String := ""
deriving DecidableEq, Repr

/-- The type `ConfigMapStatus`. -/
structure ConfigMapStatus where
  Ok : Bool := false
  Namespace : String := ""
  Created : String := ""
  Message : String := ""
deriving DecidableEq, Repr

/-- The type `HPAStatus`. -/
structure HPAStatus where
  Ok : Bool := false
  Namespace : String := ""
  Created : String := ""
  Message : String := ""
deriving DecidableEq, Repr

/-- The ten status types, all of which implement `StatusInterface`. -/
inductive Status where
  | Deployment (s : DeploymentStatus)
  | ReplicaSet (s : ReplicaSetStatus)
  | Pod (s : PodStatus)
  | Service (s : ServiceStatus)
  | ServiceAccount (s : ServiceAccountStatus)
  | Ingress (s : IngressStatus)
  | PersistentVolumeClaim (s : PersistentVolumeClaimStatus)
  | Secret (s : SecretStatus)
  | ConfigMap (s : ConfigMapStatus)
  | HPA (s : HPAStatus)
deriving DecidableEq, Repr

/-- The method `OK()` of `StatusInterface`. -/
def Status.OK : Status → Bool
  | .Deployment s => s.Ok
  | .ReplicaSet s => s.Ok
  | .Pod s => s.Ok
  | .Service s => s.Ok
  | .ServiceAccount s => s.Ok
  | .Ingress s => s.Ok
  | .PersistentVolumeClaim s => s.Ok
  | .Secret s => s.Ok
  | .ConfigMap s => s.Ok
  | .HPA s => s.Ok

/-- The JSON field `message` of a status. -/
def Status.Message : Status → String
  | .Deployment s => s.Message
  | .ReplicaSet s => s.Message
  | .Pod s => s.Message
  | .Service s => s.Message
  | .ServiceAccount s => s.Message
  | .Ingress s => s.Message
  | .PersistentVolumeClaim s => s.Message
  | .Secret s => s.Message
  | .ConfigMap s => s.Message
  | .HPA s => s.Message

/-- A Go `interface{}` value handed to `addNode`: one of the status types, or any value that
does not implement `StatusInterface`. -/
inductive AnyValue where
  | status (s : Status)
  | other
deriving DecidableEq, Repr

/-- The type `ResourceViewerNodes`. -/
structure ResourceViewerNodes where
  ID : String
  Title : String
  Description : String
  Color : String
  Status : AnyValue
deriving DecidableEq, Repr

/-- The type `ResourceViewerEdges`. -/
structure ResourceViewerEdges where
  Source : String
  Target : String
deriving DecidableEq, Repr

/-- The type `Graph`. -/
structure Graph where
  Nodes : List ResourceViewerNodes := []
  Edges : List ResourceViewerEdges := []
deriving DecidableEq, Repr

/-- The type `DAGTraverser`: `Visited` lists the keys of the Go map, `Graph` is the pointed-to graph. -/
structure DAGTraverser where
  Visited : List String := []
  Graph : Graph := {}
deriving DecidableEq, Repr

/-- Method `CreateGraph`. -/
def CreateGraph : Graph :=
  { Nodes := [], Edges := [] }

/-- Method `Graph.addNode`: the graph after the call and the returned error (`none` is nil). -/
def Graph.addNode (dt : Graph) (kr : KubernetesResource) (status : AnyValue) :
    Graph × Option String :=
  let node : ResourceViewerNodes :=
    { ID := kr.ResourceName ++ "-" ++ kr.ResourceType
      Title := kr.ResourceName
      Description := kr.ResourceType
      Status := status
      Color := "#63f828" }
  match status with
  | .status statusObj =>
    let node := if !statusObj.OK then { node with Color := "#f10909" } else node
    ({ dt with Nodes := dt.Nodes ++ [node] }, none)
  | .other => (dt, some "failed to assert StatusInterface: false")

/-- Method `Graph.addEdge`. -/
def Graph.addEdge (dt : Graph) (resource relatedResource : String) : Graph :=
  { dt with Edges := dt.Edges ++ [{ Source := resource, Target := relatedResource }] }

/-! ## Status normalisation shared by five resolvers -/

/-- The selection loop over `Status.Conditions` (lines 295-303, and its copies in the
ReplicaSet, Pod, Service and PersistentVolumeClaim resolvers): start from the first condition
and replace it by any condition whose `LastTransitionTime` is strictly after the current one.
With no conditions the zero value is kept. -/
def latestCondition (conditions : List Condition) : Condition :=
  match conditions with
  | [] => {}
  | first :: _ =>
    conditions.foldl
      (fun latest condition =>
        if condition.LastTransitionTime > latest.LastTransitionTime then condition else latest)
      first

/-- The variable `latestConditionOK`: `true` with no conditions, else the value part of
`strconv.ParseBool(string(latestCondition.Status))`, the error being dropped. -/
def latestConditionOK (conditions : List Condition) : Bool :=
  match conditions with
  | [] => true
  | _ :: _ => (ParseBool (latestCondition conditions).Status).1

/-- The variable `latestConditionMessage`, `okText` being the per-kind text. -/
def latestConditionMessage (okText : String) (conditions : List Condition) : String :=
  if (latestCondition conditions).Message = "" ∧ latestConditionOK conditions = true then okText
  else (latestCondition conditions).Message

/-- The scan `for kr := range dt.Visited` that sets `replicaSetVisited`, `deploymentVisited`,
`ingressVisited`, `podVisited`, `serviceVisited` or `secretVisited`. -/
def kindVisited (kind : String) (visited : List String) : Bool :=
  visited.any (fun key => splitFirst key == kind)

/-! ## The resolvers -/

/-- Inner loop of lines 340-348 for one ReplicaSet of the listing. -/
def ownedReplicaSet (kr : KubernetesResource) (replica : ReplicaSet) :
    Res (List KubernetesResource) :=
  forEach
    (fun (ref : OwnerReference) =>
      if ref.Name = kr.ResourceName then
        match replica.Spec.Replicas with
        | none => .error .panic
        | some replicas =>
          if replicas > 0 then
            .ok [{ ResourceName := replica.Name, ResourceType := "ReplicaSet",
                   ResourceNamespace := replica.Namespace }]
          else .ok []
      else .ok [])
    replica.OwnerReferences

/-- Method `getRelatedResourcesDeployments`.  The listing of Services assigns the named result `err`
and is not checked, so its error is what the final bare `return` hands back. -/
def getRelatedResourcesDeployments (clientSet : Clientset) (visited : List String)
    (kr : KubernetesResource) : Res (List KubernetesResource × DeploymentStatus) :=
  match clientSet.GetDeployment kr.ResourceNamespace kr.ResourceName with
  | .error err => .error (.error ("unable to get deployment: " ++ err))
  | .ok deployment =>
    match deployment.Spec.Selector with
    | none => .error .panic
    | some selector =>
      let status : DeploymentStatus :=
        { Ok := latestConditionOK deployment.Status.Conditions
          Namespace := deployment.Namespace
          Created := ElapsedTimeShort clientSet.Now deployment.CreationTimestamp
          DeploymentStrategy := deployment.Spec.Strategy
          Selectors := selector.MatchLabels.map (fun kv => kv.1 ++ ":" ++ kv.2)
          Message := latestConditionMessage "Deployment is OK" deployment.Status.Conditions }
      match clientSet.ListReplicaSets kr.ResourceNamespace with
      | .error err => .error (.error ("unable to list replica sets: " ++ err))
      | .ok replicaSets =>
        match (if kindVisited "ReplicaSet" visited then (.ok [] : Res (List KubernetesResource))
               else forEach (ownedReplicaSet kr) replicaSets) with
        | .error f => .error f
        | .ok fromReplicaSets =>
          match (if deployment.Spec.Template.Spec.ServiceAccountName ≠ "" then
                   match clientSet.GetServiceAccount kr.ResourceNamespace
                       deployment.Spec.Template.Spec.ServiceAccountName with
                   | .error err =>
                     (.error (.error ("unable to get service account: " ++ err)) :
                       Res (List KubernetesResource))
                   | .ok serviceAccount =>
                     .ok [{ ResourceName := serviceAccount.Name, ResourceType := "ServiceAccount",
                            ResourceNamespace := serviceAccount.Namespace }]
                 else .ok []) with
          | .error f => .error f
          | .ok fromServiceAccount =>
            match clientSet.ListServices deployment.Namespace with
            | .error err => .error (.error err)
            | .ok services =>
              let fromServices : List KubernetesResource :=
                (services.filter
                  (fun service =>
                    selectorFromSetMatches (service.Spec.Selector.getD []) deployment.Labels)).map
                  (fun service =>
                    { ResourceName := service.Name, ResourceType := "Service",
                      ResourceNamespace := service.Namespace })
              .ok (fromReplicaSets ++ fromServiceAccount ++ fromServices, status)

/-- Method `getRelatedResourcesReplicaSet`. -/
def getRelatedResourcesReplicaSet (clientSet : Clientset) (visited : List String)
    (kr : KubernetesResource) : Res (List KubernetesResource × ReplicaSetStatus) :=
  match clientSet.GetReplicaSet kr.ResourceNamespace kr.ResourceName with
  | .error err => .error (.error ("unable to get replica set: " ++ err))
  | .ok replicaSet =>
    let status : ReplicaSetStatus :=
      { Ok := latestConditionOK replicaSet.Status.Conditions
        Namespace := replicaSet.Namespace
        Created := ElapsedTimeShort clientSet.Now replicaSet.CreationTimestamp
        CurrentReplicas := toString replicaSet.Status.Replicas
        DesiredReplicas := toString replicaSet.Status.Replicas
        Message := latestConditionMessage "ReplicaSet is OK" replicaSet.Status.Conditions }
    match (if kindVisited "Deployment" visited then (.ok [] : Res (List KubernetesResource))
           else forEach
             (fun (owner : OwnerReference) =>
               if owner.Kind = "Deployment" then
                 match clientSet.GetDeployment kr.ResourceNamespace owner.Name with
                 | .error err => .error (.error ("unable to get deployment: " ++ err))
                 | .ok deployment =>
                   .ok [{ ResourceName := deployment.Name, ResourceType := "Deployment",
                          ResourceNamespace := deployment.Namespace }]
               else .ok [])
             replicaSet.OwnerReferences) with
    | .error f => .error f
    | .ok fromOwners =>
      match clientSet.ListPods kr.ResourceNamespace [] with
      | .error err => .error (.error ("unable to list pods: " ++ err))
      | .ok pods =>
        let fromPods : List KubernetesResource :=
          pods.flatMap
            (fun pod =>
              (pod.OwnerReferences.filter (fun ref => ref.Name = kr.ResourceName)).map
                (fun _ =>
                  { ResourceName := pod.Name, ResourceType := "Pod",
                    ResourceNamespace := pod.Namespace }))
        if replicaSet.Spec.Template.Spec.ServiceAccountName ≠ "" then
          match clientSet.GetServiceAccount kr.ResourceNamespace
              replicaSet.Spec.Template.Spec.ServiceAccountName with
          | .error err => .error (.error ("unable to get service account: " ++ err))
          | .ok serviceAccount =>
            .ok (fromOwners ++ fromPods ++
                  [{ ResourceName := serviceAccount.Name, ResourceType := "ServiceAccount",
                     ResourceNamespace := serviceAccount.Namespace }], status)
        else .ok (fromOwners ++ fromPods, status)

/-- One `if x != nil { append }` step of the Pod resolver: a reference to the object
named by the pointer payload, in the Pod's namespace. -/
def refTo (kind ns : String) : Option String → List KubernetesResource
  | none => []
  | some name => [{ ResourceName := name, ResourceType := kind, ResourceNamespace := ns }]

/-- Body of the loop over `pod.Spec.Volumes` (lines 497-519). -/
def volumeRefs (ns : String) (volume : Volume) : List KubernetesResource :=
  refTo "PersistentVolumeClaim" ns volume.PersistentVolumeClaim ++
    refTo "Secret" ns volume.Secret ++ refTo "ConfigMap" ns volume.ConfigMap

/-- Body of the loops over `pod.Spec.Containers` and `pod.Spec.InitContainers`
(lines 521-592). -/
def containerRefs (ns : String) (container : Container) : List KubernetesResource :=
  container.EnvFrom.flatMap
      (fun envFrom =>
        refTo "ConfigMap" ns envFrom.ConfigMapRef ++ refTo "Secret" ns envFrom.SecretRef) ++
    container.Env.flatMap
      (fun env =>
        match env.ValueFrom with
        | none => []
        | some valueFrom =>
          refTo "ConfigMap" ns valueFrom.ConfigMapKeyRef ++
            refTo "Secret" ns valueFrom.SecretKeyRef)

/-- Method `getRelatedResourcesPod`. -/
def getRelatedResourcesPod (clientSet : Clientset) (_visited : List String)
    (kr : KubernetesResource) : Res (List KubernetesResource × PodStatus) :=
  match clientSet.GetPod kr.ResourceNamespace kr.ResourceName with
  | .error err => .error (.error ("unable to get pod: " ++ err))
  | .ok pod =>
    let status : PodStatus :=
      { Ok := latestConditionOK pod.Status.Conditions
        Namespace := pod.Namespace
        Created := ElapsedTimeShort clientSet.Now pod.CreationTimestamp
        ServiceAccount := pod.Spec.ServiceAccountName
        Node := pod.Spec.NodeName
        ControlledBy := pod.OwnerReferences.map (fun control => control.Name)
        Message := latestConditionMessage "Pod is OK" pod.Status.Conditions }
    let fromSpec : List KubernetesResource :=
      pod.Spec.Volumes.flatMap (volumeRefs kr.ResourceNamespace) ++
        pod.Spec.Containers.flatMap (containerRefs kr.ResourceNamespace) ++
        pod.Spec.InitContainers.flatMap (containerRefs kr.ResourceNamespace) ++
        (if pod.Spec.ServiceAccountName ≠ "" then
          [{ ResourceName := pod.Spec.ServiceAccountName, ResourceType := "ServiceAccount",
             ResourceNamespace := kr.ResourceNamespace }]
        else [])
    match clientSet.ListServices pod.Namespace with
    | .error err => .error (.error ("unable to get services: " ++ err))
    | .ok svcList =>
      let fromServices : List KubernetesResource :=
        (svcList.filter
          (fun svc =>
            match svc.Spec.Selector with
            | none => false
            | some selector => selectorFromSetMatches selector pod.Labels)).map
          (fun svc =>
            { ResourceName := svc.Name, ResourceType := "Service",
              ResourceNamespace := kr.ResourceNamespace })
      match clientSet.ListPodDisruptionBudgets kr.ResourceNamespace with
      | .error err => .error (.error ("unable to get PDBs: " ++ err))
      | .ok pdbs =>
        match forEach
            (fun (pdb : PodDisruptionBudget) =>
              match selectorMatches pdb.Selector pod.Labels with
              | .error f => .error f
              | .ok matched =>
                .ok (if matched then
                  [{ ResourceName := pdb.Name, ResourceType := "PodDisruptionBudget",
                     ResourceNamespace := kr.ResourceNamespace }]
                else []))
            pdbs with
        | .error f => .error f
        | .ok fromPDBs =>
          match clientSet.ListNetworkPolicies kr.ResourceNamespace with
          | .error err => .error (.error ("unable to get NetworkPolicies: " ++ err))
          | .ok netpols =>
            match forEach
                (fun (netpol : NetworkPolicy) =>
                  match selectorMatches (some netpol.PodSelector) pod.Labels with
                  | .error f => .error f
                  | .ok matched =>
                    .ok (if matched then
                      [{ ResourceName := netpol.Name, ResourceType := "NetworkPolicy",
                         ResourceNamespace := kr.ResourceNamespace }]
                    else []))
                netpols with
            | .error f => .error f
            | .ok fromNetpols =>
              .ok (fromSpec ++ fromServices ++ fromPDBs ++ fromNetpols, status)

/-- The loop over `rule.IngressRuleValue.HTTP.Paths` of lines 699-708: whether a path's
backend Service is named `name`, scanning up to the first hit (`break`). -/
def pathsNameService (name : String) : List HTTPIngressPath → Res Bool
  | [] => .ok false
  | path :: rest =>
    match path.Backend.Service with
    | none => .error .panic
    | some serviceName => if serviceName = name then .ok true else pathsNameService name rest

/-- Body of the loop over `ingresses.Items` (lines 697-710): one identity per rule of the
Ingress that has a path to the Service. -/
def ingressRefs (kr : KubernetesResource) (ingress : Ingress) : Res (List KubernetesResource) :=
  forEach
    (fun (rule : IngressRule) =>
      match rule.HTTP with
      | none => .error .panic
      | some paths =>
        match pathsNameService kr.ResourceName paths with
        | .error f => .error f
        | .ok found =>
          .ok (if found then
            [{ ResourceName := ingress.Name, ResourceType := "Ingress",
               ResourceNamespace := ingress.Namespace }]
          else []))
    ingress.Spec.Rules

/-- Method `getRelatedResourcesService`. -/
def getRelatedResourcesService (clientSet : Clientset) (visited : List String)
    (kr : KubernetesResource) : Res (List KubernetesResource × ServiceStatus) :=
  match clientSet.GetService kr.ResourceNamespace kr.ResourceName with
  | .error err => .error (.error ("unable to get service: " ++ err))
  | .ok service =>
    let status : ServiceStatus :=
      { Ok := latestConditionOK service.Status.Conditions
        Namespace := service.Namespace
        Created := ElapsedTimeShort clientSet.Now service.CreationTimestamp
        SessionAffinity := service.Spec.SessionAffinity
        Message := latestConditionMessage "Service is OK" service.Status.Conditions }
    match (if kindVisited "Ingress" visited then (.ok [] : Res (List KubernetesResource))
           else
             match clientSet.ListIngresses kr.ResourceNamespace with
             | .error err => .error (.error ("unable to get ingress: " ++ err))
             | .ok ingresses => forEach (ingressRefs kr) ingresses) with
    | .error f => .error f
    | .ok fromIngresses =>
      match (if kindVisited "Pod" visited then (.ok [] : Res (List KubernetesResource))
             else
               match clientSet.ListPods service.Namespace (service.Spec.Selector.getD []) with
               | .error err => .error (.error ("unable to get pods: " ++ err))
               | .ok podList =>
                 .ok (podList.map (fun pod =>
                   { ResourceName := pod.Name, ResourceType := "Pod",
                     ResourceNamespace := pod.Namespace }))) with
      | .error f => .error f
      | .ok fromPods =>
        if kindVisited "Deployment" visited then .ok (fromIngresses ++ fromPods, status)
        else
          match clientSet.ListDeployments kr.ResourceNamespace
              (service.Spec.Selector.getD []) with
          | .error err => .error (.error ("unable to get deployments: " ++ err))
          | .ok deployments =>
            .ok (fromIngresses ++ fromPods ++
              (deployments.filter
                (fun deployment =>
                  selectorFromSetMatches (service.Spec.Selector.getD []) deployment.Labels)).map
                (fun deployment =>
                  { ResourceName := deployment.Name, ResourceType := "Deployment",
                    ResourceNamespace := deployment.Namespace }), status)

/-- Method `getRelatedResourcesServiceAccount`. -/
def getRelatedResourcesServiceAccount (clientSet : Clientset) (_visited : List String)
    (kr : KubernetesResource) : Res (List KubernetesResource × ServiceAccountStatus) :=
  match clientSet.GetServiceAccount kr.ResourceNamespace kr.ResourceName with
  | .error err => .error (.error ("unable to list service accounts: " ++ err))
  | .ok serviceAccount =>
    .ok (serviceAccount.Secrets.map
          (fun secret =>
            { ResourceName := secret.Name, ResourceType := "Secret",
              ResourceNamespace := secret.Namespace }),
         { Ok := true
           Namespace := serviceAccount.Namespace
           Created := ElapsedTimeShort clientSet.Now serviceAccount.CreationTimestamp
           Message := "ServiceAccount is OK" })

/-- Method `getRelatedResourcesIngress`. -/
def getRelatedResourcesIngress (clientSet : Clientset) (visited : List String)
    (kr : KubernetesResource) : Res (List KubernetesResource × IngressStatus) :=
  match clientSet.GetIngress kr.ResourceNamespace kr.ResourceName with
  | .error err => .error (.error ("unable to get ingress: " ++ err))
  | .ok ingress =>
    match (match ingress.Spec.DefaultBackend with
           | none => (.ok "" : Res String)
           | some backend =>
             match backend.Service with
             | none => .error .panic
             | some name => .ok name) with
    | .error f => .error f
    | .ok defaultBackend =>
      let status : IngressStatus :=
        { Ok := true
          Namespace := ingress.Namespace
          Created := ElapsedTimeShort clientSet.Now ingress.CreationTimestamp
          DefaultBackend := defaultBackend
          Message := "Ingress is OK" }
      match (if kindVisited "Service" visited then (.ok [] : Res (List KubernetesResource))
             else forEach
               (fun (rule : IngressRule) =>
                 match rule.HTTP with
                 | none => .error .panic
                 | some paths =>
                   forEach
                     (fun (path : HTTPIngressPath) =>
                       match path.Backend.Service with
                       | none => .error .panic
                       | some name =>
                         .ok [{ ResourceName := name, ResourceType := "Service",
                                ResourceNamespace := ingress.Namespace }])
                     paths)
               ingress.Spec.Rules) with
      | .error f => .error f
      | .ok fromRules =>
        .ok (fromRules ++
          (if kindVisited "Secret" visited then []
           else ingress.Spec.TLS.map (fun secretName =>
             { ResourceName := secretName, ResourceType := "Secret",
               ResourceNamespace := ingress.Namespace })), status)

/-- Method `getRelatedResourcesPersistentVolumeClaim`. -/
def getRelatedResourcesPersistentVolumeClaim (clientSet : Clientset) (_visited : List String)
    (kr : KubernetesResource) : Res (List KubernetesResource × PersistentVolumeClaimStatus) :=
  match clientSet.GetPersistentVolumeClaim kr.ResourceNamespace kr.ResourceName with
  | .error err => .error (.error ("unable to get PersistentVolumeClaim: " ++ err))
  | .ok pvc =>
    .ok ([],
         { Ok := latestConditionOK pvc.Status.Conditions
           Namespace := pvc.Namespace
           Created := ElapsedTimeShort clientSet.Now pvc.CreationTimestamp
           Message := latestConditionMessage "PersistentVolumeClaim is OK" pvc.Status.Conditions })

/-- Method `getRelatedResourcesConfigMap`: a failed fetch is not an error of the resolver. -/
def getRelatedResourcesConfigMap (clientSet : Clientset) (_visited : List String)
    (kr : KubernetesResource) : Res (List KubernetesResource × ConfigMapStatus) :=
  match clientSet.GetConfigMap kr.ResourceNamespace kr.ResourceName with
  | .error err => .ok ([], { Ok := false, Message := err })
  | .ok configMap =>
    .ok ([],
         { Ok := true
           Message := "ConfigMap is OK"
           Namespace := configMap.Namespace
           Created := ElapsedTimeShort clientSet.Now configMap.CreationTimestamp })

/-- Method `getRelatedResourcesSecret`: a failed fetch is not an error of the resolver. -/
def getRelatedResourcesSecret (clientSet : Clientset) (_visited : List String)
    (kr : KubernetesResource) : Res (List KubernetesResource × SecretStatus) :=
  match clientSet.GetSecret kr.ResourceNamespace kr.ResourceName with
  | .error err => .ok ([], { Ok := false, Message := err })
  | .ok secret =>
    .ok ([],
         { Ok := true
           Message := "Secret is OK"
           Namespace := secret.Namespace
           Created := ElapsedTimeShort clientSet.Now secret.CreationTimestamp })

/-- Method `getHPAForController`. -/
def getHPAForController (clientSet : Clientset) (kr : KubernetesResource) :
    Except String (List KubernetesResource) :=
  match clientSet.ListHorizontalPodAutoscalers kr.ResourceNamespace with
  | .error err => .error ("unable to get HPAs: " ++ err)
  | .ok hpas =>
    .ok ((hpas.filter
          (fun hpa =>
            hpa.ScaleTargetRef.Kind = kr.ResourceType ∧
              hpa.ScaleTargetRef.Name = kr.ResourceName)).map
          (fun hpa =>
            { ResourceName := hpa.Name, ResourceType := "HorizontalPodAutoscaler",
              ResourceNamespace := hpa.Namespace }))

/-! ## The graph builder -/

/-- Result of the `switch kr.ResourceType` of `GenerateDAGForResource` (lines 212-260). -/
inductive Resolved where
  | unsupported
  | failed (f : Failure)
  | ok (relatedResources : List KubernetesResource) (status : Status)
deriving DecidableEq, Repr

/-- One `case` of the switch: the resolver's error is wrapped with the text naming `kind`. -/
def switchCase {σ : Type} (kind : String) (toStatus : σ → Status)
    (r : Res (List KubernetesResource × σ)) : Resolved :=
  match r with
  | .error (.error err) =>
    .failed (.error ("unable to get related resources for " ++ kind ++ ": " ++ err))
  | .error .panic => .failed .panic
  | .ok (relatedResources, status) => .ok relatedResources (toStatus status)

/-- The `switch kr.ResourceType` of `GenerateDAGForResource`. -/
def resolveRelated (clientSet : Clientset) (visited : List String) (kr : KubernetesResource) :
    Resolved :=
  if kr.ResourceType = "Deployment" then
    switchCase "Deployment" .Deployment (getRelatedResourcesDeployments clientSet visited kr)
  else if kr.ResourceType = "ReplicaSet" then
    switchCase "ReplicaSet" .ReplicaSet (getRelatedResourcesReplicaSet clientSet visited kr)
  else if kr.ResourceType = "Pod" then
    switchCase "Pod" .Pod (getRelatedResourcesPod clientSet visited kr)
  else if kr.ResourceType = "Service" then
    switchCase "Service" .Service (getRelatedResourcesService clientSet visited kr)
  else if kr.ResourceType = "ServiceAccount" then
    switchCase "ServiceAccount" .ServiceAccount
      (getRelatedResourcesServiceAccount clientSet visited kr)
  else if kr.ResourceType = "Ingress" then
    switchCase "Ingress" .Ingress (getRelatedResourcesIngress clientSet visited kr)
  else if kr.ResourceType = "PersistentVolumeClaim" then
    switchCase "PersistentVolumeClaim" .PersistentVolumeClaim
      (getRelatedResourcesPersistentVolumeClaim clientSet visited kr)
  else if kr.ResourceType = "ConfigMap" then
    switchCase "ConfigMap" .ConfigMap (getRelatedResourcesConfigMap clientSet visited kr)
  else if kr.ResourceType = "Secret" then
    switchCase "Secret" .Secret (getRelatedResourcesSecret clientSet visited kr)
  else .unsupported

/-- How a call of `GenerateDAGForResource` ends: `return nil`, `return err`, or a panic. -/
inductive Exit where
  | nil
  | error (msg : String)
  | panic
deriving DecidableEq, Repr

/-- The assignment `dt.Visited[key] = true`. -/
def mapSet (visited : List String) (key : String) : List String :=
  if key ∈ visited then visited else visited ++ [key]

/-- The loop `for _, childResource := range relatedResources` (lines 280-285), `gen` being
the recursive call: stop at the first child that does not return nil. -/
def recurse (gen : DAGTraverser → KubernetesResource → Option (DAGTraverser × Exit)) :
    DAGTraverser → List KubernetesResource → Option (DAGTraverser × Exit)
  | dt, [] => some (dt, .nil)
  | dt, childResource :: rest =>
    match gen dt childResource with
    | none => none
    | some (dt', .nil) => recurse gen dt' rest
    | some (dt', .error err) => some (dt', .error err)
    | some (dt', .panic) => some (dt', .panic)

/-- The state after lines 269-277 for a resolved identity: the node is added, one edge per
related identity is added, the key is marked visited. -/
def accumulate (dt : DAGTraverser) (kr : KubernetesResource) (graph : Graph)
    (relatedResources : List KubernetesResource) : DAGTraverser :=
  { Visited := mapSet dt.Visited (kr.ResourceType ++ "_" ++ kr.ResourceName)
    Graph :=
      relatedResources.foldl
        (fun g relatedResource =>
          g.addEdge (kr.ResourceName ++ "-" ++ kr.ResourceType)
            (relatedResource.ResourceName ++ "-" ++ relatedResource.ResourceType))
        graph }

/-- Method `DAGTraverser.GenerateDAGForResource`: the traverser after the call and how the call
ended; `none` when `fuel` nested calls were not enough. -/
def GenerateDAGForResource (clientSet : Clientset) :
    Nat → DAGTraverser → KubernetesResource → Option (DAGTraverser × Exit)
  | 0, _, _ => none
  | fuel + 1, dt, kr =>
    if kr.ResourceType ++ "_" ++ kr.ResourceName ∈ dt.Visited then some (dt, .nil)
    else
      match resolveRelated clientSet dt.Visited kr with
      | .unsupported => some (dt, .nil)
      | .failed (.error err) => some (dt, .error err)
      | .failed .panic => some (dt, .panic)
      | .ok relatedResources status =>
        match getHPAForController clientSet kr with
        | .error err =>
          some (dt, .error ("unable to get related resources for Service: " ++ err))
        | .ok hpaRelatedResources =>
          match dt.Graph.addNode kr (.status status) with
          | (_, some err) => some (dt, .error ("failed to add node to graph: " ++ err))
          | (graph, none) =>
            recurse (GenerateDAGForResource clientSet fuel)
              (accumulate dt kr graph (relatedResources ++ hpaRelatedResources))
              (relatedResources ++ hpaRelatedResources)

/-- The traverser `ServeHTTP` builds before the traversal: empty `Visited`, `CreateGraph()`. -/
def freshTraverser : DAGTraverser :=
  { Visited := [], Graph := CreateGraph }

/-- The state in which `GenerateDAGForResource` starts visiting the children of a resolved
identity (after lines 269-277). -/
def expanded (dt : DAGTraverser) (kr : KubernetesResource) (status : Status)
    (relatedResources : List KubernetesResource) : DAGTraverser :=
  accumulate dt kr (dt.Graph.addNode kr (.status status)).1 relatedResources

/-- The nine kinds the switch of `GenerateDAGForResource` has a case for. -/
def supportedKinds : List String :=
  ["Deployment", "ReplicaSet", "Pod", "Service", "ServiceAccount", "Ingress",
   "PersistentVolumeClaim", "ConfigMap", "Secret"]

/-- The kinds resolvers give to related identities although the switch has no case for them. -/
def unexpandedKinds : List String :=
  ["HorizontalPodAutoscaler", "PodDisruptionBudget", "NetworkPolicy"]

/-! ## `get_k8s_deployment_info.go` -/

/-- The type `GetK8sDeploymentInfoHandler`. -/
structure GetK8sDeploymentInfoHandler where
  ID : String := ""
  Name : String := ""
  NS : String := ""
  Deployment : String := ""
deriving DecidableEq, Repr

/-- The local type `Pod` of `ServeHTTP` (an entry of `Summary.Pods`). -/
structure PodSummary where
  Name : String
  Ready : Nat
  ReadyDesired : Nat
  Phase : String
  Status : String
  Restarts : Int
  Node : String
  Age : String
deriving DecidableEq, Repr

/-- The local type `Event` of `ServeHTTP` (an entry of `Summary.Events`). -/
structure EventSummary where
  Reason : String
  Message : String
deriving DecidableEq, Repr

/-- The members of the local type `Response` that depend on the traversal or can make the
handler panic: `Graph`, `Summary.Pods` and `Summary.Events`.  The other members are built
by loops that cannot fail and are left out. -/
structure Response where
  Graph : Graph
  Pods : List PodSummary
  Events : List EventSummary
deriving DecidableEq, Repr

/-- What `ServeHTTP` does with the request: `c.NoContent(code)`, `c.JSON(code, response)`, or a
runtime panic. -/
inductive HTTPOutcome where
  | NoContent (code : Nat)
  | JSON (code : Nat) (response : Response)
  | Panic
deriving DecidableEq, Repr

/-- Body of the loop over `pods.Items` (lines 175-202): the summary of one Pod; reading
`pod.Status.ContainerStatuses[0]` panics when the Pod has no container status. -/
def podSummary (now : Int) (pod : Pod) : Res (List PodSummary) :=
  match pod.Status.ContainerStatuses with
  | [] => .error .panic
  | first :: _ =>
    .ok [{ Name := pod.Name
           Ready := (pod.Status.ContainerStatuses.filter (fun status => status.Ready)).length
           ReadyDesired := pod.Spec.Containers.length
           Phase := pod.Status.Phase
           Status := (latestCondition pod.Status.Conditions).Status
           Restarts := first.RestartCount
           Node := pod.Spec.NodeName
           Age := ElapsedTimeShort now pod.CreationTimestamp }]

/-- Method `GetK8sDeploymentInfoHandler.ServeHTTP`; `getClientSet` is the result of `GetClientSet`
and `fuel` bounds the nesting of the traversal.  The JSON and YAML re-encodings of the fetched
Deployment are not modelled (they do not fail on an object of the API types). -/
def ServeHTTP (fuel : Nat) (h : GetK8sDeploymentInfoHandler)
    (getClientSet : Except String Clientset) : Option HTTPOutcome :=
  match getClientSet with
  | .error _ => some (.NoContent 500)
  | .ok clientset =>
    let deploy : Deployment :=
      match clientset.GetDeployment h.NS h.Deployment with
      | .ok deploy => deploy
      | .error _ => {}
    match GenerateDAGForResource clientset fuel freshTraverser
        { ResourceName := h.Deployment, ResourceType := "Deployment",
          ResourceNamespace := h.NS } with
    | none => none
    | some (_, .error _) => some (.NoContent 500)
    | some (_, .panic) => some .Panic
    | some (traverser, .nil) =>
      match deploy.Spec.Replicas with
      | none => some .Panic
      | some _ =>
        match deploy.Spec.Selector with
        | none => some .Panic
        | some selector =>
          match clientset.ListPodsSelected h.NS selector with
          | .error _ => some (.NoContent 500)
          | .ok pods =>
            match forEach (podSummary clientset.Now) pods with
            | .error _ => some .Panic
            | .ok summaryPods =>
              match clientset.ListEvents h.NS with
              | .error _ => some (.NoContent 500)
              | .ok events =>
                some (.JSON 200
                  { Graph := traverser.Graph
                    Pods := summaryPods
                    Events :=
                      (events.filter (fun event =>
                        event.InvolvedKind = "Deployment" ∧ event.InvolvedName = h.Name)).map
                        (fun event => { Reason := event.Reason, Message := event.Message }) })

/-! ## Predicates used in the statements -/

/-- What lines 340-341 test before a ReplicaSet becomes a related identity of `kr`: the
listing of ReplicaSets in the namespace of `kr` holds a ReplicaSet called `name` that has an
owner reference whose name is that of `kr`, of whatever kind (`ref.Kind` is not compared),
and a positive `Spec.Replicas`. -/
def NameOwnedReplicaSet (c : Clientset) (kr : KubernetesResource) (name : String) : Prop :=
  ∃ items, c.ListReplicaSets kr.ResourceNamespace = .ok items ∧
    ∃ replica ∈ items, replica.Name = name ∧
      (∃ ref ∈ replica.OwnerReferences, ref.Name = kr.ResourceName) ∧
      ∃ n, replica.Spec.Replicas = some n ∧ 0 < n

/-- Ownership as the claim of C9 words it (not taken from the code): the listing of
ReplicaSets in the namespace of `kr` holds a ReplicaSet called `name` that has an owner
reference of kind Deployment whose name is that of `kr`, and a positive `Spec.Replicas`. -/
def OwnedByDeployment (c : Clientset) (kr : KubernetesResource) (name : String) : Prop :=
  ∃ items, c.ListReplicaSets kr.ResourceNamespace = .ok items ∧
    ∃ replica ∈ items, replica.Name = name ∧
      (∃ ref ∈ replica.OwnerReferences, ref.Kind = "Deployment" ∧ ref.Name = kr.ResourceName) ∧
      ∃ n, replica.Spec.Replicas = some n ∧ 0 < n

/-- An edge whose source is the id of a node of `g` and whose target is the id of a node of `g`
or is name + "-" + kind for one of the kinds the switch does not expand. -/
def EdgeAccounted (g : Graph) (e : ResourceViewerEdges) : Prop :=
  (∃ n ∈ g.Nodes, n.ID = e.Source) ∧
    ((∃ n ∈ g.Nodes, n.ID = e.Target) ∨
      ∃ name kind, kind ∈ unexpandedKinds ∧ e.Target = name ++ "-" ++ kind)

/-- Every visited key is the key of a node of a supported kind whose id is
title + "-" + description. -/
def VisitedHaveNodes (dt : DAGTraverser) : Prop :=
  ∀ k ∈ dt.Visited, ∃ n ∈ dt.Graph.Nodes, n.Description ∈ supportedKinds ∧
    k = n.Description ++ "_" ++ n.Title ∧ n.ID = n.Title ++ "-" ++ n.Description

/-- The kinds a related identity can have. -/
def relatedKinds : List String := supportedKinds ++ unexpandedKinds

/-- Below an expanded Deployment `root`: a Deployment is visited, and the ReplicaSets that
appear as nodes or edge targets have an owner reference with the name of `root`. -/
def OnlyNameOwnedReplicaSets (c : Clientset) (root : KubernetesResource) (dt : DAGTraverser) :
    Prop :=
  kindVisited "Deployment" dt.Visited = true ∧
    (∀ n ∈ dt.Graph.Nodes, n.Description = "ReplicaSet" → NameOwnedReplicaSet c root n.Title) ∧
    ∀ e ∈ dt.Graph.Edges, ∀ name, e.Target = name ++ "-" ++ "ReplicaSet" →
      NameOwnedReplicaSet c root name

/-- Every node has the id title + "-" + description and a supported kind. -/
def NodesWellFormed (dt : DAGTraverser) : Prop :=
  ∀ n ∈ dt.Graph.Nodes, n.ID = n.Title ++ "-" ++ n.Description ∧
    n.Description ∈ supportedKinds

/-- The edges leaving the root are those added when the root was expanded. -/
def RootEdgesFixed (root : KubernetesResource) (es : List ResourceViewerEdges)
    (dt : DAGTraverser) : Prop :=
  root.ResourceType ++ "_" ++ root.ResourceName ∈ dt.Visited ∧
    dt.Graph.Edges.filter
      (fun e => e.Source = root.ResourceName ++ "-" ++ root.ResourceType) = es

/-- Length of the longest chain of relations, starting from a kind, that no "already visited"
scan guards: ReplicaSet, Pod, ServiceAccount, Secret. -/
def kindHeight (kind : String) : Nat :=
  if kind = "ReplicaSet" then 3
  else if kind = "Deployment" ∨ kind = "Pod" then 2
  else if kind = "ServiceAccount" then 1
  else 0

/-- The supported kinds of which no key is visited. -/
def unvisitedKinds (visited : List String) : Finset String :=
  supportedKinds.toFinset.filter (fun kind => kindVisited kind visited = false)

/-- Bound on the nesting of calls below the expansion of `kr` at `visited`. -/
def depthMeasure (visited : List String) (kr : KubernetesResource) : Nat :=
  4 * (unvisitedKinds (mapSet visited (kr.ResourceType ++ "_" ++ kr.ResourceName))).card +
    kindHeight kr.ResourceType

/-! ## Predicates and reference definitions of the status and duration claims -/

/-- The outcome of status normalisation in the five resolvers that read conditions:
`ConditionStatus c kind conditions ok message` holds when the resolver of `kind`, run against
the cluster `c`, fetched an object whose `Status.Conditions` is `conditions` and returned a
status whose fields `Ok` and `Message` are `ok` and `message`. -/
inductive ConditionStatus (c : Clientset) : String → List Condition → Bool → String → Prop
  | deployment (visited : List String) (kr : KubernetesResource) (deployment : Deployment)
      (rel : List KubernetesResource) (status : DeploymentStatus) :
      c.GetDeployment kr.ResourceNamespace kr.ResourceName = .ok deployment →
      getRelatedResourcesDeployments c visited kr = .ok (rel, status) →
      ConditionStatus c "Deployment" deployment.Status.Conditions status.Ok status.Message
  | replicaSet (visited : List String) (kr : KubernetesResource) (replicaSet : ReplicaSet)
      (rel : List KubernetesResource) (status : ReplicaSetStatus) :
      c.GetReplicaSet kr.ResourceNamespace kr.ResourceName = .ok replicaSet →
      getRelatedResourcesReplicaSet c visited kr = .ok (rel, status) →
      ConditionStatus c "ReplicaSet" replicaSet.Status.Conditions status.Ok status.Message
  | pod (visited : List String) (kr : KubernetesResource) (pod : Pod)
      (rel : List KubernetesResource) (status : PodStatus) :
      c.GetPod kr.ResourceNamespace kr.ResourceName = .ok pod →
      getRelatedResourcesPod c visited kr = .ok (rel, status) →
      ConditionStatus c "Pod" pod.Status.Conditions status.Ok status.Message
  | service (visited : List String) (kr : KubernetesResource) (service : Service)
      (rel : List KubernetesResource) (status : ServiceStatus) :
      c.GetService kr.ResourceNamespace kr.ResourceName = .ok service →
      getRelatedResourcesService c visited kr = .ok (rel, status) →
      ConditionStatus c "Service" service.Status.Conditions status.Ok status.Message
  | pvc (visited : List String) (kr : KubernetesResource) (pvc : PersistentVolumeClaim)
      (rel : List KubernetesResource) (status : PersistentVolumeClaimStatus) :
      c.GetPersistentVolumeClaim kr.ResourceNamespace kr.ResourceName = .ok pvc →
      getRelatedResourcesPersistentVolumeClaim c visited kr = .ok (rel, status) →
      ConditionStatus c "PersistentVolumeClaim" pvc.Status.Conditions status.Ok status.Message

/-- The rendering of a duration as the specification words it (not taken from the code): the
count of the largest unit that fits, followed by the letter of that unit. -/
def specDurationTimeShort (d : Int) : String :=
  if d ≥ 24 * (3600 * Second) then toString (d / (24 * (3600 * Second))) ++ "d"
  else if d ≥ 3600 * Second then toString (d / (3600 * Second)) ++ "h"
  else if d ≥ 60 * Second then toString (d / (60 * Second)) ++ "m"
  else toString (d / Second) ++ "s"

/-! ## What two runs of a traversal are compared on -/

/-- The fields of a node two runs are compared on: id, title, description, colour, and the ok
flag and message of the status. -/
def nodeView (n : ResourceViewerNodes) :
    String × String × String × String × Option (Bool × String) :=
  (n.ID, n.Title, n.Description, n.Color,
    match n.Status with
    | .status s => some (s.OK, s.Message)
    | .other => none)

/-- The outcome of a call as two runs are compared on it: how the call ended, the nodes
through `nodeView`, and the edges. -/
def outcomeView (res : DAGTraverser × Exit) :
    Exit × List (String × String × String × String × Option (Bool × String)) ×
      List ResourceViewerEdges :=
  (res.2, res.1.Graph.Nodes.map nodeView, res.1.Graph.Edges)

/-- Two clients that give the same answer to every request, the items of every listing in
the same order; the clock reading may differ. -/
def SameAnswers (c c' : Clientset) : Prop :=
  c.GetDeployment = c'.GetDeployment ∧ c.ListDeployments = c'.ListDeployments ∧
  c.GetReplicaSet = c'.GetReplicaSet ∧ c.ListReplicaSets = c'.ListReplicaSets ∧
  c.GetPod = c'.GetPod ∧ c.ListPods = c'.ListPods ∧
  c.GetService = c'.GetService ∧ c.ListServices = c'.ListServices ∧
  c.GetServiceAccount = c'.GetServiceAccount ∧
  c.GetIngress = c'.GetIngress ∧ c.ListIngresses = c'.ListIngresses ∧
  c.GetPersistentVolumeClaim = c'.GetPersistentVolumeClaim ∧
  c.GetConfigMap = c'.GetConfigMap ∧ c.GetSecret = c'.GetSecret ∧
  c.ListHorizontalPodAutoscalers = c'.ListHorizontalPodAutoscalers ∧
  c.ListPodDisruptionBudgets = c'.ListPodDisruptionBudgets ∧
  c.ListNetworkPolicies = c'.ListNetworkPolicies ∧
  c.ListPodsSelected = c'.ListPodsSelected ∧ c.ListEvents = c'.ListEvents

/-- Two answers to a listing request that fail alike or hold the same items, the order of
which may differ. -/
def SameListing {α : Type} : Except String (List α) → Except String (List α) → Prop
  | .ok items, .ok items' => items.Perm items'
  | .error err, .error err' => err = err'
  | _, _ => False

/-- Two clients that answer from the same cluster state, as the specification words an
unchanged cluster (not taken from the code): every `Get` request has the same answer and
every listing request has the same items, the order of which may differ; the clock reading
may differ. -/
def SameClusterState (c c' : Clientset) : Prop :=
  c.GetDeployment = c'.GetDeployment ∧
  (∀ ns sel, SameListing (c.ListDeployments ns sel) (c'.ListDeployments ns sel)) ∧
  c.GetReplicaSet = c'.GetReplicaSet ∧
  (∀ ns, SameListing (c.ListReplicaSets ns) (c'.ListReplicaSets ns)) ∧
  c.GetPod = c'.GetPod ∧
  (∀ ns sel, SameListing (c.ListPods ns sel) (c'.ListPods ns sel)) ∧
  c.GetService = c'.GetService ∧
  (∀ ns, SameListing (c.ListServices ns) (c'.ListServices ns)) ∧
  c.GetServiceAccount = c'.GetServiceAccount ∧
  c.GetIngress = c'.GetIngress ∧
  (∀ ns, SameListing (c.ListIngresses ns) (c'.ListIngresses ns)) ∧
  c.GetPersistentVolumeClaim = c'.GetPersistentVolumeClaim ∧
  c.GetConfigMap = c'.GetConfigMap ∧ c.GetSecret = c'.GetSecret ∧
  (∀ ns, SameListing (c.ListHorizontalPodAutoscalers ns)
    (c'.ListHorizontalPodAutoscalers ns)) ∧
  (∀ ns, SameListing (c.ListPodDisruptionBudgets ns) (c'.ListPodDisruptionBudgets ns)) ∧
  (∀ ns, SameListing (c.ListNetworkPolicies ns) (c'.ListNetworkPolicies ns)) ∧
  (∀ ns sel, SameListing (c.ListPodsSelected ns sel) (c'.ListPodsSelected ns sel)) ∧
  (∀ ns, SameListing (c.ListEvents ns) (c'.ListEvents ns))

/-- The part of a resolution two runs are compared on: the failure, or the related identities
with the ok flag and message of the status. -/
def Resolved.view : Resolved → Option (Res (List KubernetesResource × Bool × String))
  | .unsupported => none
  | .failed f => some (.error f)
  | .ok relatedResources status => some (.ok (relatedResources, status.OK, status.Message))

/-- The wrapping of a resolver's error by a `case` of the switch, on the compared part. -/
def wrapResolverError (kind : String) (x : Res (List KubernetesResource × Bool × String)) :
    Res (List KubernetesResource × Bool × String) :=
  match x with
  | .error (.error err) =>
    .error (.error ("unable to get related resources for " ++ kind ++ ": " ++ err))
  | .error .panic => .error .panic
  | .ok t => .ok t

/-- Two traverser states that two runs can be in at the same point: the same keys in the
Visited set, in any order, the same nodes through `nodeView`, and the same edges. -/
def Similar (dt dt' : DAGTraverser) : Prop :=
  dt.Visited.Perm dt'.Visited ∧
    dt.Graph.Nodes.map nodeView = dt'.Graph.Nodes.map nodeView ∧
    dt.Graph.Edges = dt'.Graph.Edges

/-- Two results of a call that agree on how the call ended and leave similar states. -/
def SimilarResult : Option (DAGTraverser × Exit) → Option (DAGTraverser × Exit) → Prop
  | none, none => True
  | some r, some r' => r.2 = r'.2 ∧ Similar r.1 r'.1
  | _, _ => False

/-- Whether the switch of `GenerateDAGForResource` has a case for the kind of `r`. -/
def expandable (r : KubernetesResource) : Bool :=
  decide (r.ResourceType ∈ supportedKinds)

/-- Two clients that answer from the same cluster state and answer the listings of
Deployments, ReplicaSets, Pods, Services and Ingresses (the kinds a traversal expands) with
the items in the same order; the listings of autoscalers, PodDisruptionBudgets and
NetworkPolicies may come in another order, and the clock reading may differ. -/
def SameExpandableOrder (c c' : Clientset) : Prop :=
  SameClusterState c c' ∧ c.ListDeployments = c'.ListDeployments ∧
    c.ListReplicaSets = c'.ListReplicaSets ∧ c.ListPods = c'.ListPods ∧
    c.ListServices = c'.ListServices ∧ c.ListIngresses = c'.ListIngresses

/-- Two resolutions that agree on what a traversal makes of them: the same failure, or the
same related identities of expandable kinds in the same order, the other related identities
in any order, and statuses with the same ok flag and message. -/
def Resolved.agrees : Resolved → Resolved → Prop
  | .unsupported, .unsupported => True
  | .failed f, .failed f' => f = f'
  | .ok rel st, .ok rel' st' =>
    rel.Perm rel' ∧ rel.filter expandable = rel'.filter expandable ∧
      st.OK = st'.OK ∧ st.Message = st'.Message
  | _, _ => False

/-- Two traverser states that agree but for the order of the edges: the same keys in the
Visited set, in any order, the same nodes through `nodeView` in the same order, and the same
edges in any order. -/
def SimilarUpToEdgeOrder (dt dt' : DAGTraverser) : Prop :=
  dt.Visited.Perm dt'.Visited ∧
    dt.Graph.Nodes.map nodeView = dt'.Graph.Nodes.map nodeView ∧
    dt.Graph.Edges.Perm dt'.Graph.Edges

/-- Two results of a call that agree on how the call ended and leave states that agree but
for the order of the edges. -/
def AgreeUpToEdgeOrder : Option (DAGTraverser × Exit) → Option (DAGTraverser × Exit) → Prop
  | none, none => True
  | some r, some r' => r.2 = r'.2 ∧ SimilarUpToEdgeOrder r.1 r'.1
  | _, _ => False

/-! ## States of a traversal -/

/-- The traverser states a traversal against the cluster `c` goes through when it starts on
a fresh traverser: the fresh state, the state in which the children of a resolved identity
are visited, and the state a call hands back, however the call ended. -/
inductive Reachable (c : Clientset) : DAGTraverser → Prop
  | fresh : Reachable c freshTraverser
  | expand (dt : DAGTraverser) (kr : KubernetesResource) (rel : List KubernetesResource)
      (st : Status) (hpa : List KubernetesResource) :
      Reachable c dt →
      kr.ResourceType ++ "_" ++ kr.ResourceName ∉ dt.Visited →
      resolveRelated c dt.Visited kr = .ok rel st →
      getHPAForController c kr = .ok hpa →
      Reachable c (expanded dt kr st (rel ++ hpa))
  | call (fuel : Nat) (dt : DAGTraverser) (kr : KubernetesResource)
      (res : DAGTraverser × Exit) :
      Reachable c dt →
      GenerateDAGForResource c fuel dt kr = some res →
      Reachable c res.1

/-! ## Concrete clusters used to exercise the embedding -/

/-- A cluster that holds nothing: every `Get` fails, every `List` is empty. -/
def emptyCluster : Clientset :=
  { GetDeployment := fun _ _ => .error "not found"
    ListDeployments := fun _ _ => .ok []
    GetReplicaSet := fun _ _ => .error "not found"
    ListReplicaSets := fun _ => .ok []
    GetPod := fun _ _ => .error "not found"
    ListPods := fun _ _ => .ok []
    GetService := fun _ _ => .error "not found"
    ListServices := fun _ => .ok []
    GetServiceAccount := fun _ _ => .error "not found"
    GetIngress := fun _ _ => .error "not found"
    ListIngresses := fun _ => .ok []
    GetPersistentVolumeClaim := fun _ _ => .error "not found"
    GetConfigMap := fun _ _ => .error "not found"
    GetSecret := fun _ _ => .error "not found"
    ListHorizontalPodAutoscalers := fun _ => .ok []
    ListPodDisruptionBudgets := fun _ => .ok []
    ListNetworkPolicies := fun _ => .ok []
    ListPodsSelected := fun _ _ => .ok []
    ListEvents := fun _ => .ok []
    Now := 0 }

/-- Service "web" selecting `app=web`. -/
def svcWeb : Service :=
  { Name := "web", Namespace := "prod", Spec := { Selector := some [("app", "web")] } }

/-- Deployment "web-d" labelled `app=web`, whose Pods are labelled `app=web2`. -/
def depWeb : Deployment :=
  { Name := "web-d", Namespace := "prod", Labels := [("app", "web")]
    Spec := { Selector := some { MatchLabels := [("app", "web2")] }, Replicas := some 1 } }

/-- ReplicaSet "web-rs" owned by Deployment "web-d". -/
def rsWeb : ReplicaSet :=
  { Name := "web-rs", Namespace := "prod"
    OwnerReferences := [{ Kind := "Deployment", Name := "web-d" }]
    Spec := { Replicas := some 1 } }

/-- Pod "web-p" owned by ReplicaSet "web-rs", labelled `app=web2`. -/
def podWeb : Pod :=
  { Name := "web-p", Namespace := "prod", Labels := [("app", "web2")]
    OwnerReferences := [{ Kind := "ReplicaSet", Name := "web-rs" }] }

/-- A cluster with Service "web", Deployment "web-d", ReplicaSet "web-rs" and Pod "web-p":
the Service selects the Deployment (and the Deployment relates back to the Service), no Pod
matches the Service's selector, no Ingress exists. -/
def webCluster : Clientset :=
  { emptyCluster with
    GetService := fun _ name => if name = "web" then .ok svcWeb else .error "not found"
    ListServices := fun _ => .ok [svcWeb]
    GetDeployment := fun _ name => if name = "web-d" then .ok depWeb else .error "not found"
    ListDeployments := fun _ sel =>
      .ok ([depWeb].filter (fun deployment => selectorFromSetMatches sel deployment.Labels))
    GetReplicaSet := fun _ name => if name = "web-rs" then .ok rsWeb else .error "not found"
    ListReplicaSets := fun _ => .ok [rsWeb]
    GetPod := fun _ name => if name = "web-p" then .ok podWeb else .error "not found"
    ListPods := fun _ sel =>
      .ok ([podWeb].filter (fun pod => selectorFromSetMatches sel pod.Labels)) }

/-- The identity of Service "web". -/
def webRoot : KubernetesResource :=
  { ResourceName := "web", ResourceType := "Service", ResourceNamespace := "prod" }

/-- The traverser after the traversal of `webCluster` from `webRoot`. -/
def webFinal : DAGTraverser :=
  { Visited := ["Service_web", "Deployment_web-d", "ReplicaSet_web-rs", "Pod_web-p"]
    Graph :=
      { Nodes :=
          [{ ID := "web-Service", Title := "web", Description := "Service", Color := "#63f828"
             Status := .status (.Service
               { Ok := true, Namespace := "prod", Created := "0s", SessionAffinity := ""
                 Message := "Service is OK" }) },
           { ID := "web-d-Deployment", Title := "web-d", Description := "Deployment"
             Color := "#63f828"
             Status := .status (.Deployment
               { Ok := true, Namespace := "prod", Created := "0s", DeploymentStrategy := ""
                 Selectors := ["app:web2"], Message := "Deployment is OK" }) },
           { ID := "web-rs-ReplicaSet", Title := "web-rs", Description := "ReplicaSet"
             Color := "#63f828"
             Status := .status (.ReplicaSet
               { Ok := true, Namespace := "prod", Created := "0s", CurrentReplicas := "0"
                 DesiredReplicas := "0", Message := "ReplicaSet is OK" }) },
           { ID := "web-p-Pod", Title := "web-p", Description := "Pod", Color := "#63f828"
             Status := .status (.Pod
               { Ok := true, Namespace := "prod", Created := "0s", ServiceAccount := ""
                 Node := "", ControlledBy := ["web-rs"], Message := "Pod is OK" }) }]
        Edges :=
          [{ Source := "web-Service", Target := "web-d-Deployment" },
           { Source := "web-d-Deployment", Target := "web-rs-ReplicaSet" },
           { Source := "web-d-Deployment", Target := "web-Service" },
           { Source := "web-rs-ReplicaSet", Target := "web-p-Pod" }] } }

/-- Deployment "web" in namespace "prod". -/
def depPlain : Deployment :=
  { Name := "web", Namespace := "prod", Spec := { Selector := some {}, Replicas := some 1 } }

/-- Autoscaler "web-hpa" whose scale target is Deployment "web". -/
def hpaWeb : HorizontalPodAutoscaler :=
  { Name := "web-hpa", Namespace := "prod"
    ScaleTargetRef := { Kind := "Deployment", Name := "web" } }

/-- A cluster with Deployment "web" and an autoscaler targeting it. -/
def hpaCluster : Clientset :=
  { emptyCluster with
    GetDeployment := fun _ name => if name = "web" then .ok depPlain else .error "not found"
    ListHorizontalPodAutoscalers := fun _ => .ok [hpaWeb] }

/-- The identity of Deployment "web". -/
def deploymentRoot : KubernetesResource :=
  { ResourceName := "web", ResourceType := "Deployment", ResourceNamespace := "prod" }

/-- The traverser after the traversal of `hpaCluster` from `deploymentRoot`. -/
def hpaFinal : DAGTraverser :=
  { Visited := ["Deployment_web"]
    Graph :=
      { Nodes :=
          [{ ID := "web-Deployment", Title := "web", Description := "Deployment"
             Color := "#63f828"
             Status := .status (.Deployment
               { Ok := true, Namespace := "prod", Created := "0s", DeploymentStrategy := ""
                 Selectors := [], Message := "Deployment is OK" }) }]
        Edges := [{ Source := "web-Deployment", Target := "web-hpa-HorizontalPodAutoscaler" }] } }

/-- ReplicaSet "web-rs" owned by Deployment "web", with one replica. -/
def rsOwned : ReplicaSet :=
  { Name := "web-rs", Namespace := "prod"
    OwnerReferences := [{ Kind := "Deployment", Name := "web" }]
    Spec := { Replicas := some 1 } }

/-- A cluster with Deployment "web" whose ReplicaSet "web-rs" is listed but cannot be
fetched. -/
def brokenCluster : Clientset :=
  { emptyCluster with
    GetDeployment := fun _ name => if name = "web" then .ok depPlain else .error "not found"
    ListReplicaSets := fun _ => .ok [rsOwned]
    GetReplicaSet := fun _ _ => .error "forbidden" }

/-- The traverser after the failed traversal of `brokenCluster` from `deploymentRoot`. -/
def brokenFinal : DAGTraverser :=
  { Visited := ["Deployment_web"]
    Graph :=
      { Nodes :=
          [{ ID := "web-Deployment", Title := "web", Description := "Deployment"
             Color := "#63f828"
             Status := .status (.Deployment
               { Ok := true, Namespace := "prod", Created := "0s", DeploymentStrategy := ""
                 Selectors := [], Message := "Deployment is OK" }) }]
        Edges := [{ Source := "web-Deployment", Target := "web-rs-ReplicaSet" }] } }

/-- A cluster with Deployment "web" in which listing autoscalers fails. -/
def noHPACluster : Clientset :=
  { emptyCluster with
    GetDeployment := fun _ name => if name = "web" then .ok depPlain else .error "not found"
    ListHorizontalPodAutoscalers := fun _ => .error "boom" }

/-- Pod "db-0" mounting Secret "missing" in a volume. -/
def podDb : Pod :=
  { Name := "db-0", Namespace := "prod"
    Spec := { Volumes := [{ Secret := some "missing" }] }
    Status := { Conditions := [{ Status := "True", Message := "" }] } }

/-- A cluster with Pod "db-0" and no Secret. -/
def missingSecretCluster : Clientset :=
  { emptyCluster with
    GetPod := fun _ name => if name = "db-0" then .ok podDb else .error "not found"
    GetSecret := fun _ name => .error ("secrets \"" ++ name ++ "\" not found") }

/-- The identity of Secret "missing". -/
def missingSecret : KubernetesResource :=
  { ResourceName := "missing", ResourceType := "Secret", ResourceNamespace := "prod" }

/-- The traverser after the traversal of `missingSecretCluster` from Pod "db-0". -/
def missingSecretFinal : DAGTraverser :=
  { Visited := ["Pod_db-0", "Secret_missing"]
    Graph :=
      { Nodes :=
          [{ ID := "db-0-Pod", Title := "db-0", Description := "Pod", Color := "#63f828"
             Status := .status (.Pod
               { Ok := true, Namespace := "prod", Created := "0s", ServiceAccount := ""
                 Node := "", ControlledBy := [], Message := "Pod is OK" }) },
           { ID := "missing-Secret", Title := "missing", Description := "Secret"
             Color := "#f10909"
             Status := .status (.Secret
               { Ok := false, Namespace := "", Created := ""
                 Message := "secrets \"missing\" not found" }) }]
        Edges := [{ Source := "db-0-Pod", Target := "missing-Secret" }] } }

/-- ReplicaSet "web-old" owned by Deployment "web", scaled to 0. -/
def rsOld : ReplicaSet :=
  { Name := "web-old", Namespace := "prod"
    OwnerReferences := [{ Kind := "Deployment", Name := "web" }]
    Spec := { Replicas := some 0 } }

/-- ReplicaSet "web-new" owned by Deployment "web", scaled to 3. -/
def rsNew : ReplicaSet :=
  { Name := "web-new", Namespace := "prod"
    OwnerReferences := [{ Kind := "Deployment", Name := "web" }]
    Spec := { Replicas := some 3 }, Status := { Replicas := 3 } }

/-- A cluster with Deployment "web" owning ReplicaSets "web-old" (0 replicas) and "web-new"
(3 replicas). -/
def twoReplicaSetsCluster : Clientset :=
  { emptyCluster with
    GetDeployment := fun _ name => if name = "web" then .ok depPlain else .error "not found"
    ListReplicaSets := fun _ => .ok [rsOld, rsNew]
    GetReplicaSet := fun _ name =>
      if name = "web-old" then .ok rsOld
      else if name = "web-new" then .ok rsNew
      else .error "not found" }

/-- The traverser after the traversal of `twoReplicaSetsCluster` from `deploymentRoot`. -/
def twoReplicaSetsFinal : DAGTraverser :=
  { Visited := ["Deployment_web", "ReplicaSet_web-new"]
    Graph :=
      { Nodes :=
          [{ ID := "web-Deployment", Title := "web", Description := "Deployment"
             Color := "#63f828"
             Status := .status (.Deployment
               { Ok := true, Namespace := "prod", Created := "0s", DeploymentStrategy := ""
                 Selectors := [], Message := "Deployment is OK" }) },
           { ID := "web-new-ReplicaSet", Title := "web-new", Description := "ReplicaSet"
             Color := "#63f828"
             Status := .status (.ReplicaSet
               { Ok := true, Namespace := "prod", Created := "0s", CurrentReplicas := "3"
                 DesiredReplicas := "3", Message := "ReplicaSet is OK" }) }]
        Edges := [{ Source := "web-Deployment", Target := "web-new-ReplicaSet" }] } }

/-- ServiceAccount "sa" naming a Secret "tok" in namespace "a" and a Secret "tok" in
namespace "b". -/
def saTwoSecrets : ServiceAccount :=
  { Name := "sa", Namespace := "a"
    Secrets := [{ Name := "tok", Namespace := "a" }, { Name := "tok", Namespace := "b" }] }

/-- A cluster with ServiceAccount "sa" and a Secret "tok" in every namespace. -/
def twoSecretsCluster : Clientset :=
  { emptyCluster with
    GetServiceAccount := fun _ name =>
      if name = "sa" then .ok saTwoSecrets else .error "not found"
    GetSecret := fun ns name =>
      if name = "tok" then .ok { Name := "tok", Namespace := ns } else .error "not found" }

/-- The identity of ServiceAccount "sa". -/
def saRoot : KubernetesResource :=
  { ResourceName := "sa", ResourceType := "ServiceAccount", ResourceNamespace := "a" }

/-- The traverser after the traversal of `twoSecretsCluster` from `saRoot`. -/
def twoSecretsFinal : DAGTraverser :=
  { Visited := ["ServiceAccount_sa", "Secret_tok"]
    Graph :=
      { Nodes :=
          [{ ID := "sa-ServiceAccount", Title := "sa", Description := "ServiceAccount"
             Color := "#63f828"
             Status := .status (.ServiceAccount
               { Ok := true, Namespace := "a", Created := "0s"
                 Message := "ServiceAccount is OK" }) },
           { ID := "tok-Secret", Title := "tok", Description := "Secret", Color := "#63f828"
             Status := .status (.Secret
               { Ok := true, Namespace := "a", Created := "0s", Message := "Secret is OK" }) }]
        Edges := [{ Source := "sa-ServiceAccount", Target := "tok-Secret" },
                  { Source := "sa-ServiceAccount", Target := "tok-Secret" }] } }

/-- Pod "ties" with four conditions, two of which share the most recent transition time. -/
def podTies : Pod :=
  { Name := "ties", Namespace := "prod"
    Status :=
      { Conditions :=
          [{ Status := "False", Message := "at one", LastTransitionTime := 1 },
           { Status := "True", Message := "first at five", LastTransitionTime := 5 },
           { Status := "False", Message := "second at five", LastTransitionTime := 5 },
           { Status := "False", Message := "at three", LastTransitionTime := 3 }] } }

/-- Pod "unknown" whose only condition has the status "Unknown". -/
def podUnknown : Pod :=
  { Name := "unknown", Namespace := "prod"
    Status := { Conditions := [{ Status := "Unknown", Message := "" }] } }

/-- Pod "failing" whose only condition has the status "False" and no message. -/
def podFailing : Pod :=
  { Name := "failing", Namespace := "prod"
    Status := { Conditions := [{ Status := "False", Message := "" }] } }

/-- A cluster with the Pods "ties", "unknown" and "failing". -/
def conditionsCluster : Clientset :=
  { emptyCluster with
    GetPod := fun _ name =>
      if name = "ties" then .ok podTies
      else if name = "unknown" then .ok podUnknown
      else if name = "failing" then .ok podFailing
      else .error "not found" }

/-- Autoscaler "api-hpa" targeting Deployment "api". -/
def hpaApi : HorizontalPodAutoscaler :=
  { Name := "api-hpa", Namespace := "prod"
    ScaleTargetRef := { Kind := "Deployment", Name := "api" } }

/-- Autoscaler "web-set" targeting StatefulSet "web". -/
def hpaWebSet : HorizontalPodAutoscaler :=
  { Name := "web-set", Namespace := "prod"
    ScaleTargetRef := { Kind := "StatefulSet", Name := "web" } }

/-- Autoscaler "web-burst" targeting Deployment "web". -/
def hpaWebBurst : HorizontalPodAutoscaler :=
  { Name := "web-burst", Namespace := "prod"
    ScaleTargetRef := { Kind := "Deployment", Name := "web" } }

/-- A cluster with Deployment "web" and four autoscalers, two of which target it. -/
def autoscalersCluster : Clientset :=
  { emptyCluster with
    GetDeployment := fun _ name => if name = "web" then .ok depPlain else .error "not found"
    ListHorizontalPodAutoscalers := fun _ => .ok [hpaWeb, hpaApi, hpaWebSet, hpaWebBurst] }

/-- The cluster `webCluster` two hours later. -/
def laterWebCluster : Clientset := { webCluster with Now := 7200000000000 }

/-- Deployment "web" whose Pods run under ServiceAccount "runner". -/
def depRunner : Deployment :=
  { Name := "web", Namespace := "prod"
    Spec := { Selector := some {}, Replicas := some 1
              Template := { Spec := { ServiceAccountName := "runner" } } } }

/-- A cluster with Deployment "web", whose ReplicaSet "web-rs" is listed but cannot be
fetched, and ServiceAccount "runner". -/
def brokenFirstChildCluster : Clientset :=
  { emptyCluster with
    GetDeployment := fun _ name => if name = "web" then .ok depRunner else .error "not found"
    ListReplicaSets := fun _ => .ok [rsOwned]
    GetReplicaSet := fun _ _ => .error "forbidden"
    GetServiceAccount := fun _ name =>
      if name = "runner" then .ok { Name := "runner", Namespace := "prod" }
      else .error "not found" }

/-- The status of Deployment "web" in the concrete clusters. -/
def webDeploymentStatus : Status :=
  .Deployment
    { Ok := true, Namespace := "prod", Created := "0s", DeploymentStrategy := ""
      Selectors := [], Message := "Deployment is OK" }

/-- The traverser after the failed traversal of `brokenFirstChildCluster` from
`deploymentRoot`. -/
def brokenFirstChildFinal : DAGTraverser :=
  { Visited := ["Deployment_web"]
    Graph :=
      { Nodes :=
          [{ ID := "web-Deployment", Title := "web", Description := "Deployment"
             Color := "#63f828", Status := .status webDeploymentStatus }]
        Edges := [{ Source := "web-Deployment", Target := "web-rs-ReplicaSet" },
                  { Source := "web-Deployment", Target := "runner-ServiceAccount" }] } }

/-- ReplicaSet "web-rs" asking for five replicas and reporting two. -/
def rsScaling : ReplicaSet :=
  { Name := "web-rs", Namespace := "prod"
    Spec := { Replicas := some 5 }, Status := { Replicas := 2 } }

/-- A cluster with ReplicaSet "web-rs". -/
def scalingCluster : Clientset :=
  { emptyCluster with
    GetReplicaSet := fun _ name => if name = "web-rs" then .ok rsScaling else .error "not found" }

/-- Pod "api-0" that mounts Secret "creds" as a volume and reads it through `envFrom`. -/
def podTwice : Pod :=
  { Name := "api-0", Namespace := "prod"
    Spec := { Volumes := [{ Secret := some "creds" }]
              Containers := [{ EnvFrom := [{ SecretRef := some "creds" }] }] } }

/-- A cluster with Pod "api-0" and Secret "creds". -/
def twiceCluster : Clientset :=
  { emptyCluster with
    GetPod := fun _ name => if name = "api-0" then .ok podTwice else .error "not found"
    GetSecret := fun _ name =>
      if name = "creds" then .ok { Name := "creds", Namespace := "prod" }
      else .error "not found" }

/-- The identity of Pod "api-0". -/
def podTwiceRoot : KubernetesResource :=
  { ResourceName := "api-0", ResourceType := "Pod", ResourceNamespace := "prod" }

/-- The identity of Secret "creds". -/
def credsSecret : KubernetesResource :=
  { ResourceName := "creds", ResourceType := "Secret", ResourceNamespace := "prod" }

/-- The status of Pod "api-0". -/
def podTwiceStatus : Status :=
  .Pod { Ok := true, Namespace := "prod", Created := "0s", ServiceAccount := "", Node := ""
         ControlledBy := [], Message := "Pod is OK" }

/-- The traverser after the traversal of `twiceCluster` from `podTwiceRoot`. -/
def twiceFinal : DAGTraverser :=
  { Visited := ["Pod_api-0", "Secret_creds"]
    Graph :=
      { Nodes :=
          [{ ID := "api-0-Pod", Title := "api-0", Description := "Pod", Color := "#63f828"
             Status := .status podTwiceStatus },
           { ID := "creds-Secret", Title := "creds", Description := "Secret"
             Color := "#63f828"
             Status := .status (.Secret
               { Ok := true, Namespace := "prod", Created := "0s"
                 Message := "Secret is OK" }) }]
        Edges := [{ Source := "api-0-Pod", Target := "creds-Secret" },
                  { Source := "api-0-Pod", Target := "creds-Secret" }] } }

/-- Service "ext" without a selector. -/
def svcExternal : Service :=
  { Name := "ext", Namespace := "prod" }

/-- Pod "web-0" with the label app=web. -/
def podLabelled : Pod :=
  { Name := "web-0", Namespace := "prod", Labels := [("app", "web")] }

/-- A cluster with Deployment "web", Pod "web-0", the Service "ext" without a selector and
the Service "web" selecting app=web. -/
def selectorlessCluster : Clientset :=
  { emptyCluster with
    GetDeployment := fun _ name => if name = "web" then .ok depPlain else .error "not found"
    GetPod := fun _ name => if name = "web-0" then .ok podLabelled else .error "not found"
    ListServices := fun _ => .ok [svcExternal, svcWeb] }

/-- Ingress "tcp" whose only rule has no HTTP section. -/
def ingressNoHTTP : Ingress :=
  { Name := "tcp", Namespace := "prod", Spec := { Rules := [{ HTTP := none }] } }

/-- Ingress "bucket" whose only path has a backend that is not a Service. -/
def ingressResourcePath : Ingress :=
  { Name := "bucket", Namespace := "prod"
    Spec := { Rules := [{ HTTP := some [{ Backend := { Service := none } }] }] } }

/-- Ingress "static" whose default backend is not a Service. -/
def ingressResourceDefault : Ingress :=
  { Name := "static", Namespace := "prod"
    Spec := { DefaultBackend := some { Service := none } } }

/-- A cluster with Service "web" and the Ingresses "tcp", "bucket" and "static", of which
only "tcp" is listed. -/
def ingressCluster : Clientset :=
  { emptyCluster with
    GetService := fun _ name => if name = "web" then .ok svcWeb else .error "not found"
    GetIngress := fun _ name =>
      if name = "tcp" then .ok ingressNoHTTP
      else if name = "bucket" then .ok ingressResourcePath
      else if name = "static" then .ok ingressResourceDefault
      else .error "not found"
    ListIngresses := fun _ => .ok [ingressNoHTTP] }

/-- Deployment "web" labelled `app=web` whose selector is `app=web`. -/
def depSelecting : Deployment :=
  { Name := "web", Namespace := "prod", Labels := [("app", "web")]
    Spec := { Selector := some { MatchLabels := [("app", "web")] }, Replicas := some 1 } }

/-- Pod "web-new" labelled `app=web` that is pending and has no container status yet. -/
def podPending : Pod :=
  { Name := "web-new", Namespace := "prod", Labels := [("app", "web")]
    Status := { Phase := "Pending" } }

/-- A cluster with Deployment "web" whose selector `app=web` selects the Pod "web-new". -/
def pendingCluster : Clientset :=
  { emptyCluster with
    GetDeployment := fun _ name => if name = "web" then .ok depSelecting else .error "not found"
    ListPodsSelected := fun _ selector =>
      .ok ([podPending].filter
        (fun pod => selectorFromSetMatches selector.MatchLabels pod.Labels)) }

/-- The identity of Deployment "web-d". -/
def webDeploymentRoot : KubernetesResource :=
  { ResourceName := "web-d", ResourceType := "Deployment", ResourceNamespace := "prod" }

/-- The status the Deployment resolver builds for Deployment "web-d" of `webCluster`. -/
def depWebStatus : Status :=
  .Deployment
    { Ok := true, Namespace := "prod", Created := "0s", DeploymentStrategy := ""
      Selectors := ["app:web2"], Message := "Deployment is OK" }

/-- The traverser after the traversal of `webCluster` from `webDeploymentRoot`. -/
def webDeploymentFinal : DAGTraverser :=
  { Visited := ["Deployment_web-d", "ReplicaSet_web-rs", "Pod_web-p", "Service_web"]
    Graph :=
      { Nodes :=
          [{ ID := "web-d-Deployment", Title := "web-d", Description := "Deployment"
             Color := "#63f828", Status := .status depWebStatus },
           { ID := "web-rs-ReplicaSet", Title := "web-rs", Description := "ReplicaSet"
             Color := "#63f828"
             Status := .status (.ReplicaSet
               { Ok := true, Namespace := "prod", Created := "0s", CurrentReplicas := "0"
                 DesiredReplicas := "0", Message := "ReplicaSet is OK" }) },
           { ID := "web-p-Pod", Title := "web-p", Description := "Pod", Color := "#63f828"
             Status := .status (.Pod
               { Ok := true, Namespace := "prod", Created := "0s", ServiceAccount := ""
                 Node := "", ControlledBy := ["web-rs"], Message := "Pod is OK" }) },
           { ID := "web-Service", Title := "web", Description := "Service", Color := "#63f828"
             Status := .status (.Service
               { Ok := true, Namespace := "prod", Created := "0s", SessionAffinity := ""
                 Message := "Service is OK" }) }]
        Edges :=
          [{ Source := "web-d-Deployment", Target := "web-rs-ReplicaSet" },
           { Source := "web-d-Deployment", Target := "web-Service" },
           { Source := "web-rs-ReplicaSet", Target := "web-p-Pod" }] } }

/-- ReplicaSet "web-canary" owned by the Rollout "web", scaled to 3. -/
def rsCanary : ReplicaSet :=
  { Name := "web-canary", Namespace := "prod"
    OwnerReferences := [{ Kind := "Rollout", Name := "web" }]
    Spec := { Replicas := some 3 }, Status := { Replicas := 3 } }

/-- A cluster with Deployment "web" owning ReplicaSets "web-old" (0 replicas) and "web-new"
(3 replicas), and a Rollout "web" owning ReplicaSet "web-canary" (3 replicas). -/
def rolloutCluster : Clientset :=
  { emptyCluster with
    GetDeployment := fun _ name => if name = "web" then .ok depPlain else .error "not found"
    ListReplicaSets := fun _ => .ok [rsOld, rsNew, rsCanary]
    GetReplicaSet := fun _ name =>
      if name = "web-old" then .ok rsOld
      else if name = "web-new" then .ok rsNew
      else if name = "web-canary" then .ok rsCanary
      else .error "not found" }

/-- Deployment "web" carrying the labels `a=1` and `b=1`. -/
def depTwoLabels : Deployment :=
  { Name := "web", Namespace := "prod", Labels := [("a", "1"), ("b", "1")]
    Spec := { Selector := some {}, Replicas := some 1 } }

/-- Service "a" selecting `a=1`. -/
def svcA : Service :=
  { Name := "a", Namespace := "prod", Spec := { Selector := some [("a", "1")] } }

/-- Service "b" selecting `b=1`. -/
def svcB : Service :=
  { Name := "b", Namespace := "prod", Spec := { Selector := some [("b", "1")] } }

/-- Pod "pa" labelled `a=1`. -/
def podA : Pod :=
  { Name := "pa", Namespace := "prod", Labels := [("a", "1")] }

/-- Pod "pb" labelled `b=1`. -/
def podB : Pod :=
  { Name := "pb", Namespace := "prod", Labels := [("b", "1")] }

/-- A cluster with Deployment "web", Services "a" and "b" and Pods "pa" and "pb", whose
listing of Services is `services`. -/
def twoServicesCluster (services : List Service) : Clientset :=
  { emptyCluster with
    GetDeployment := fun _ name => if name = "web" then .ok depTwoLabels else .error "not found"
    ListDeployments := fun _ sel =>
      .ok ([depTwoLabels].filter
        (fun deployment => selectorFromSetMatches sel deployment.Labels))
    GetService := fun _ name =>
      if name = "a" then .ok svcA else if name = "b" then .ok svcB else .error "not found"
    ListServices := fun _ => .ok services
    GetPod := fun _ name =>
      if name = "pa" then .ok podA else if name = "pb" then .ok podB else .error "not found"
    ListPods := fun _ sel =>
      .ok ([podA, podB].filter (fun pod => selectorFromSetMatches sel pod.Labels)) }

/-- The cluster `autoscalersCluster` listing its autoscalers in the reverse order. -/
def autoscalersReversedCluster : Clientset :=
  { autoscalersCluster with
    ListHorizontalPodAutoscalers := fun _ => .ok [hpaWebBurst, hpaWebSet, hpaApi, hpaWeb] }

/-! # Theorems -/

set_option maxRecDepth 2048

/-! ## Basic facts about the accumulator and the builder -/

/-- The node `addNode` builds for `kr` and a status implementing `StatusInterface`. -/
theorem addNode_status (g : Graph) (kr : KubernetesResource) (s : Status) :
    g.addNode kr (.status s) =
      ({ g with Nodes := g.Nodes ++
          [{ ID := kr.ResourceName ++ "-" ++ kr.ResourceType
             Title := kr.ResourceName
             Description := kr.ResourceType
             Status := .status s
             Color := if s.OK then "#63f828" else "#f10909" }] }, none) := by
  cases h : s.OK <;> simp [Graph.addNode, h]

theorem foldl_addEdge_nodes (src : String) (rs : List KubernetesResource) (g : Graph) :
    (rs.foldl (fun g r => g.addEdge src (r.ResourceName ++ "-" ++ r.ResourceType)) g).Nodes =
      g.Nodes := by
  induction rs generalizing g with
  | nil => rfl
  | cons r rs ih =>
    simp only [List.foldl]
    rw [ih]
    rfl

theorem foldl_addEdge_edges (src : String) (rs : List KubernetesResource) (g : Graph) :
    (rs.foldl (fun g r => g.addEdge src (r.ResourceName ++ "-" ++ r.ResourceType)) g).Edges =
      g.Edges ++ rs.map (fun r =>
        { Source := src, Target := r.ResourceName ++ "-" ++ r.ResourceType }) := by
  induction rs generalizing g with
  | nil => simp
  | cons r rs ih =>
    simp only [List.foldl]
    rw [ih]
    simp [Graph.addEdge]

theorem accumulate_nodes (dt : DAGTraverser) (kr : KubernetesResource) (g : Graph)
    (rs : List KubernetesResource) : (accumulate dt kr g rs).Graph.Nodes = g.Nodes := by
  simp [accumulate, foldl_addEdge_nodes]

theorem accumulate_edges (dt : DAGTraverser) (kr : KubernetesResource) (g : Graph)
    (rs : List KubernetesResource) :
    (accumulate dt kr g rs).Graph.Edges =
      g.Edges ++ rs.map (fun r =>
        { Source := kr.ResourceName ++ "-" ++ kr.ResourceType
          Target := r.ResourceName ++ "-" ++ r.ResourceType }) := by
  simp [accumulate, foldl_addEdge_edges]

theorem accumulate_visited (dt : DAGTraverser) (kr : KubernetesResource) (g : Graph)
    (rs : List KubernetesResource) :
    (accumulate dt kr g rs).Visited =
      mapSet dt.Visited (kr.ResourceType ++ "_" ++ kr.ResourceName) := rfl

theorem mem_mapSet (visited : List String) (key k : String) :
    k ∈ mapSet visited key ↔ k ∈ visited ∨ k = key := by
  unfold mapSet
  split
  · constructor
    · intro h; exact Or.inl h
    · rintro (h | h)
      · exact h
      · subst h; assumption
  · simp

theorem expanded_nodes (dt : DAGTraverser) (kr : KubernetesResource) (s : Status)
    (rs : List KubernetesResource) :
    (expanded dt kr s rs).Graph.Nodes = dt.Graph.Nodes ++
      [{ ID := kr.ResourceName ++ "-" ++ kr.ResourceType
         Title := kr.ResourceName
         Description := kr.ResourceType
         Status := .status s
         Color := if s.OK then "#63f828" else "#f10909" }] := by
  simp [expanded, accumulate_nodes, addNode_status]

theorem expanded_edges (dt : DAGTraverser) (kr : KubernetesResource) (s : Status)
    (rs : List KubernetesResource) :
    (expanded dt kr s rs).Graph.Edges = dt.Graph.Edges ++ rs.map (fun r =>
        { Source := kr.ResourceName ++ "-" ++ kr.ResourceType
          Target := r.ResourceName ++ "-" ++ r.ResourceType }) := by
  simp [expanded, accumulate_edges, addNode_status]

theorem expanded_visited (dt : DAGTraverser) (kr : KubernetesResource) (s : Status)
    (rs : List KubernetesResource) :
    (expanded dt kr s rs).Visited =
      mapSet dt.Visited (kr.ResourceType ++ "_" ++ kr.ResourceName) := rfl

/-- The ways one call of `GenerateDAGForResource` can go. -/
theorem GenerateDAGForResource_cases (c : Clientset) (fuel : Nat) (dt : DAGTraverser)
    (kr : KubernetesResource) :
    (GenerateDAGForResource c (fuel + 1) dt kr = some (dt, .nil) ∧
        (kr.ResourceType ++ "_" ++ kr.ResourceName ∈ dt.Visited ∨
          resolveRelated c dt.Visited kr = .unsupported)) ∨
      (kr.ResourceType ++ "_" ++ kr.ResourceName ∉ dt.Visited ∧
        ((∃ err, resolveRelated c dt.Visited kr = .failed (.error err) ∧
            GenerateDAGForResource c (fuel + 1) dt kr = some (dt, .error err)) ∨
          (resolveRelated c dt.Visited kr = .failed .panic ∧
            GenerateDAGForResource c (fuel + 1) dt kr = some (dt, .panic)) ∨
          (∃ rel st err, resolveRelated c dt.Visited kr = .ok rel st ∧
            getHPAForController c kr = .error err ∧
            GenerateDAGForResource c (fuel + 1) dt kr =
              some (dt, .error ("unable to get related resources for Service: " ++ err))) ∨
          (∃ rel st hpa, resolveRelated c dt.Visited kr = .ok rel st ∧
            getHPAForController c kr = .ok hpa ∧
            GenerateDAGForResource c (fuel + 1) dt kr =
              recurse (GenerateDAGForResource c fuel) (expanded dt kr st (rel ++ hpa))
                (rel ++ hpa)))) := by
  by_cases hv : kr.ResourceType ++ "_" ++ kr.ResourceName ∈ dt.Visited
  · left
    simp [GenerateDAGForResource, hv]
  · cases hr : resolveRelated c dt.Visited kr with
    | unsupported =>
      left
      simp [GenerateDAGForResource, hv, hr]
    | failed f =>
      right
      refine ⟨hv, ?_⟩
      cases f with
      | error err => left; exact ⟨err, rfl, by simp [GenerateDAGForResource, hv, hr]⟩
      | panic => right; left; exact ⟨rfl, by simp [GenerateDAGForResource, hv, hr]⟩
    | ok rel st =>
      right
      refine ⟨hv, ?_⟩
      cases hh : getHPAForController c kr with
      | error err =>
        right; right; left
        exact ⟨rel, st, err, rfl, rfl, by simp [GenerateDAGForResource, hv, hr, hh]⟩
      | ok hpa =>
        right; right; right
        refine ⟨rel, st, hpa, rfl, rfl, ?_⟩
        simp [GenerateDAGForResource, hv, hr, hh, addNode_status, expanded]

/-- The children loop keeps whatever each call keeps. -/
theorem recurse_invariant
    {gen : DAGTraverser → KubernetesResource → Option (DAGTraverser × Exit)}
    (P : DAGTraverser → Prop) (A : KubernetesResource → Prop)
    (hgen : ∀ dt kr res, P dt → A kr → gen dt kr = some res → P res.1) :
    ∀ (rs : List KubernetesResource) (dt : DAGTraverser) (res : DAGTraverser × Exit),
      P dt → (∀ r ∈ rs, A r) → recurse gen dt rs = some res → P res.1 := by
  intro rs
  induction rs with
  | nil =>
    intro dt res hP _ h
    simp [recurse] at h
    subst h
    exact hP
  | cons r rs ih =>
    intro dt res hP hA h
    have hAr : A r := hA r (List.mem_cons_self _ _)
    have hArs : ∀ x ∈ rs, A x := fun x hx => hA x (List.mem_cons_of_mem _ hx)
    cases hg : gen dt r with
    | none => simp [recurse, hg] at h
    | some p =>
      obtain ⟨dt1, e⟩ := p
      have hP1 : P dt1 := hgen dt r (dt1, e) hP hAr hg
      cases e with
      | nil =>
        simp [recurse, hg] at h
        exact ih dt1 res hP1 hArs h
      | error err =>
        simp [recurse, hg] at h
        subst h
        exact hP1
      | panic =>
        simp [recurse, hg] at h
        subst h
        exact hP1

/-- Induction principle of the traversal: a property `P` of the traverser that every
expansion of an admissible identity preserves, where the identities related to an admissible
identity are admissible, holds after every call on an admissible identity. -/
theorem GenerateDAGForResource_invariant (c : Clientset) (P : DAGTraverser → Prop)
    (A : KubernetesResource → Prop)
    (hstep : ∀ dt kr rel st hpa, P dt → A kr →
      kr.ResourceType ++ "_" ++ kr.ResourceName ∉ dt.Visited →
      resolveRelated c dt.Visited kr = .ok rel st → getHPAForController c kr = .ok hpa →
      P (expanded dt kr st (rel ++ hpa)) ∧ ∀ r ∈ rel ++ hpa, A r) :
    ∀ (fuel : Nat) (dt : DAGTraverser) (kr : KubernetesResource) (res : DAGTraverser × Exit),
      P dt → A kr → GenerateDAGForResource c fuel dt kr = some res → P res.1 := by
  intro fuel
  induction fuel with
  | zero =>
    intro dt kr res _ _ h
    simp [GenerateDAGForResource] at h
  | succ n ih =>
    intro dt kr res hP hA h
    rcases GenerateDAGForResource_cases c n dt kr with
      ⟨h1, _⟩ | ⟨hv, ⟨err, _, h1⟩ | ⟨_, h1⟩ | ⟨rel, st, err, _, _, h1⟩ | ⟨rel, st, hpa, hr, hh, h1⟩⟩
    · rw [h1] at h; cases h; exact hP
    · rw [h1] at h; cases h; exact hP
    · rw [h1] at h; cases h; exact hP
    · rw [h1] at h; cases h; exact hP
    · rw [h1] at h
      obtain ⟨hP1, hA1⟩ := hstep dt kr rel st hpa hP hA hv hr hh
      exact recurse_invariant P A ih (rel ++ hpa) _ res hP1 hA1 h

/-! ## Keys, ids and loops -/

theorem split_at_separator {α : Type} (s : α) :
    ∀ (a b x y : List α), s ∉ a → s ∉ b → a ++ s :: x = b ++ s :: y → a = b ∧ x = y := by
  intro a
  induction a with
  | nil =>
    intro b x y _ hb h
    cases b with
    | nil => simpa using h
    | cons hd tl =>
      simp only [List.nil_append, List.cons_append, List.cons.injEq] at h
      exact absurd (h.1 ▸ List.mem_cons_self _ _) hb
  | cons hd tl ih =>
    intro b x y ha hb h
    cases b with
    | nil =>
      simp only [List.nil_append, List.cons_append, List.cons.injEq] at h
      exact absurd (h.1 ▸ List.mem_cons_self _ _) ha
    | cons hd' tl' =>
      simp only [List.cons_append, List.cons.injEq] at h
      obtain ⟨h1, h2⟩ := ih tl' x y (fun hm => ha (List.mem_cons_of_mem _ hm))
        (fun hm => hb (List.mem_cons_of_mem _ hm)) h.2
      exact ⟨by rw [h.1, h1], h2⟩

/-- A key kind + "_" + name determines the kind and the name when the kinds have no "_". -/
theorem key_injective (k1 n1 k2 n2 : String) (h1 : '_' ∉ k1.data) (h2 : '_' ∉ k2.data)
    (h : k1 ++ "_" ++ n1 = k2 ++ "_" ++ n2) : k1 = k2 ∧ n1 = n2 := by
  have hd := congrArg String.data h
  simp only [String.data_append, List.append_assoc] at hd
  simp only [List.singleton_append] at hd
  obtain ⟨ha, hb⟩ := split_at_separator '_' _ _ _ _ h1 h2 hd
  exact ⟨String.ext ha, String.ext hb⟩

/-- An id name + "-" + kind determines the name and the kind when the kinds have no "-". -/
theorem id_injective (n1 k1 n2 k2 : String) (h1 : '-' ∉ k1.data) (h2 : '-' ∉ k2.data)
    (h : n1 ++ "-" ++ k1 = n2 ++ "-" ++ k2) : n1 = n2 ∧ k1 = k2 := by
  have hd := congrArg (fun s => s.data.reverse) h
  simp only [String.data_append, List.append_assoc, List.reverse_append] at hd
  simp only [List.reverse_cons, List.reverse_nil, List.nil_append, List.singleton_append] at hd
  obtain ⟨ha, hb⟩ := split_at_separator '-' _ _ _ _
    (by simpa using h1) (by simpa using h2) hd
  exact ⟨String.ext (List.reverse_injective hb), String.ext (List.reverse_injective ha)⟩

theorem forEach_mem {α β : Type} (f : α → Res (List β)) :
    ∀ (l : List α) (out : List β), forEach f l = .ok out →
      ∀ y ∈ out, ∃ a ∈ l, ∃ xs, f a = .ok xs ∧ y ∈ xs := by
  intro l
  induction l with
  | nil =>
    intro out h y hy
    simp [forEach] at h
    subst h
    cases hy
  | cons a rest ih =>
    intro out h y hy
    cases hfa : f a with
    | error e => simp [forEach, hfa] at h
    | ok xs =>
      cases hrest : forEach f rest with
      | error e => simp [forEach, hfa, hrest] at h
      | ok ys =>
        simp [forEach, hfa, hrest] at h
        subst h
        rcases List.mem_append.mp hy with hx | hx
        · exact ⟨a, List.mem_cons_self _ _, xs, hfa, hx⟩
        · obtain ⟨a', ha', xs', hf', hy'⟩ := ih ys hrest y hx
          exact ⟨a', List.mem_cons_of_mem _ ha', xs', hf', hy'⟩

theorem forEach_sub {α β : Type} (f : α → Res (List β)) :
    ∀ (l : List α) (out : List β), forEach f l = .ok out →
      ∀ a ∈ l, ∃ xs, f a = .ok xs ∧ ∀ y ∈ xs, y ∈ out := by
  intro l
  induction l with
  | nil => intro out _ a ha; cases ha
  | cons a rest ih =>
    intro out h b hb
    cases hfa : f a with
    | error e => simp [forEach, hfa] at h
    | ok xs =>
      cases hrest : forEach f rest with
      | error e => simp [forEach, hfa, hrest] at h
      | ok ys =>
        simp [forEach, hfa, hrest] at h
        subst h
        rcases List.mem_cons.mp hb with hx | hx
        · subst hx
          exact ⟨xs, hfa, fun y hy => List.mem_append_left _ hy⟩
        · obtain ⟨xs', hf', hy'⟩ := ih ys hrest b hx
          exact ⟨xs', hf', fun y hy => List.mem_append_right _ (hy' y hy)⟩

theorem supported_no_underscore : ∀ k ∈ supportedKinds, '_' ∉ k.data := by decide

theorem supported_no_dash : ∀ k ∈ supportedKinds, '-' ∉ k.data := by decide

theorem relatedKinds_no_dash : ∀ k ∈ relatedKinds, '-' ∉ k.data := by decide

theorem takeWhile_before_underscore :
    ∀ (l rest : List Char), '_' ∉ l →
      List.takeWhile (fun ch => ch != '_') (l ++ '_' :: rest) = l := by
  intro l
  induction l with
  | nil => intro rest _; simp
  | cons a l ih =>
    intro rest hl
    have ha : a ≠ '_' := fun e => hl (e ▸ List.mem_cons_self _ _)
    have hl' : '_' ∉ l := fun hm => hl (List.mem_cons_of_mem _ hm)
    simp [List.takeWhile_cons, ha, ih rest hl']

theorem splitFirst_key (kind name : String) (h : '_' ∉ kind.data) :
    splitFirst (kind ++ "_" ++ name) = kind := by
  unfold splitFirst
  apply String.ext
  simp only [String.data_append, List.append_assoc]
  exact takeWhile_before_underscore kind.data name.data h

theorem kindVisited_mapSet (kind : String) (v : List String) (key : String)
    (h : kindVisited kind v = true) : kindVisited kind (mapSet v key) = true := by
  unfold kindVisited at h ⊢
  rw [List.any_eq_true] at h ⊢
  obtain ⟨x, hx, hxk⟩ := h
  exact ⟨x, (mem_mapSet v key x).mpr (Or.inl hx), hxk⟩


/-! ## What each resolver can return -/

theorem ownedReplicaSet_mem (kr : KubernetesResource) (replica : ReplicaSet)
    (out : List KubernetesResource) (h : ownedReplicaSet kr replica = .ok out)
    (r : KubernetesResource) (hr : r ∈ out) :
    r.ResourceType = "ReplicaSet" ∧ r.ResourceName = replica.Name ∧
      (∃ ref ∈ replica.OwnerReferences, ref.Name = kr.ResourceName) ∧
      ∃ n, replica.Spec.Replicas = some n ∧ 0 < n := by
  obtain ⟨ref, href, xs, hxs, hmem⟩ := forEach_mem _ _ _ h r hr
  by_cases hn : ref.Name = kr.ResourceName
  · cases hrep : replica.Spec.Replicas with
    | none => simp [hn, hrep] at hxs
    | some n =>
      by_cases hpos : n > 0
      · simp [hn, hrep, hpos] at hxs
        subst hxs
        simp at hmem
        subst hmem
        exact ⟨rfl, rfl, ⟨ref, href, hn⟩, n, rfl, hpos⟩
      · simp [hn, hrep, hpos] at hxs
        subst hxs
        cases hmem
  · simp [hn] at hxs
    subst hxs
    cases hmem

theorem deployments_related (c : Clientset) (v : List String) (kr : KubernetesResource)
    (rel : List KubernetesResource) (st : DeploymentStatus)
    (h : getRelatedResourcesDeployments c v kr = .ok (rel, st))
    (r : KubernetesResource) (hr : r ∈ rel) :
    (r.ResourceType = "ReplicaSet" ∧ kindVisited "ReplicaSet" v = false ∧
        NameOwnedReplicaSet c kr r.ResourceName) ∨
      r.ResourceType = "ServiceAccount" ∨ r.ResourceType = "Service" := by
  unfold getRelatedResourcesDeployments at h
  split at h
  · cases h
  · split at h
    · cases h
    · split at h
      · cases h
      · rename_i replicaSets hlist
        split at h
        · cases h
        · rename_i fromRS hRS
          split at h
          · cases h
          · rename_i fromSA hSA
            split at h
            · cases h
            · simp only [Except.ok.injEq, Prod.mk.injEq] at h
              obtain ⟨hrel, -⟩ := h
              subst hrel
              simp only [List.mem_append] at hr
              rcases hr with (hr | hr) | hr
              · left
                split at hRS
                · simp at hRS; subst hRS; cases hr
                · rename_i hk
                  obtain ⟨replica, hrep, xs, hxs, hmem⟩ := forEach_mem _ _ _ hRS r hr
                  obtain ⟨h1, h2, h3, h4⟩ := ownedReplicaSet_mem kr replica xs hxs r hmem
                  exact ⟨h1, by simpa using hk, replicaSets, hlist, replica, hrep, h2.symm, h3, h4⟩
              · right; left
                split at hSA
                · split at hSA
                  · cases hSA
                  · simp at hSA; subst hSA; simp at hr; subst hr; rfl
                · simp at hSA; subst hSA; cases hr
              · right; right
                obtain ⟨svc, -, hsvc⟩ := List.mem_map.mp hr
                subst hsvc
                rfl


theorem replicaSet_related (c : Clientset) (v : List String) (kr : KubernetesResource)
    (rel : List KubernetesResource) (st : ReplicaSetStatus)
    (h : getRelatedResourcesReplicaSet c v kr = .ok (rel, st))
    (r : KubernetesResource) (hr : r ∈ rel) :
    (r.ResourceType = "Deployment" ∧ kindVisited "Deployment" v = false) ∨
      r.ResourceType = "Pod" ∨ r.ResourceType = "ServiceAccount" := by
  unfold getRelatedResourcesReplicaSet at h
  split at h
  · cases h
  · split at h
    · cases h
    · rename_i fromOwners hOwners
      have hown : ∀ x ∈ fromOwners,
          x.ResourceType = "Deployment" ∧ kindVisited "Deployment" v = false := by
        intro x hx
        split at hOwners
        · simp at hOwners; subst hOwners; cases hx
        · rename_i hk
          obtain ⟨owner, -, xs, hxs, hmem⟩ := forEach_mem _ _ _ hOwners x hx
          split at hxs
          · split at hxs
            · cases hxs
            · simp at hxs; subst hxs; simp at hmem; subst hmem
              exact ⟨rfl, by simpa using hk⟩
          · simp at hxs; subst hxs; cases hmem
      have hpods : ∀ (pods : List Pod), ∀ x ∈ pods.flatMap
          (fun pod =>
            (pod.OwnerReferences.filter (fun ref => ref.Name = kr.ResourceName)).map
              (fun _ =>
                ({ ResourceName := pod.Name, ResourceType := "Pod",
                   ResourceNamespace := pod.Namespace } : KubernetesResource))),
          x.ResourceType = "Pod" := by
        intro pods x hx
        obtain ⟨pod, -, hx2⟩ := List.mem_flatMap.mp hx
        obtain ⟨_, -, hx3⟩ := List.mem_map.mp hx2
        subst hx3
        rfl
      split at h
      · cases h
      · split at h
        · split at h
          · cases h
          · simp only [Except.ok.injEq, Prod.mk.injEq] at h
            obtain ⟨hrel, -⟩ := h
            subst hrel
            simp only [List.mem_append] at hr
            rcases hr with (hr | hr) | hr
            · exact Or.inl (hown r hr)
            · exact Or.inr (Or.inl (hpods _ r hr))
            · simp at hr; subst hr; exact Or.inr (Or.inr rfl)
        · simp only [Except.ok.injEq, Prod.mk.injEq] at h
          obtain ⟨hrel, -⟩ := h
          subst hrel
          simp only [List.mem_append] at hr
          rcases hr with hr | hr
          · exact Or.inl (hown r hr)
          · exact Or.inr (Or.inl (hpods _ r hr))

theorem refTo_kind (kind ns : String) (o : Option String) (r : KubernetesResource)
    (hr : r ∈ refTo kind ns o) : r.ResourceType = kind := by
  cases o with
  | none => cases hr
  | some n => simp [refTo] at hr; subst hr; rfl

theorem volumeRefs_kind (ns : String) (vol : Volume) (r : KubernetesResource)
    (hr : r ∈ volumeRefs ns vol) :
    r.ResourceType ∈ ["PersistentVolumeClaim", "Secret", "ConfigMap"] := by
  simp only [volumeRefs, List.mem_append] at hr
  rcases hr with (hr | hr) | hr
  · simp [refTo_kind _ _ _ r hr]
  · simp [refTo_kind _ _ _ r hr]
  · simp [refTo_kind _ _ _ r hr]

theorem containerRefs_kind (ns : String) (ct : Container) (r : KubernetesResource)
    (hr : r ∈ containerRefs ns ct) : r.ResourceType ∈ ["Secret", "ConfigMap"] := by
  simp only [containerRefs, List.mem_append, List.mem_flatMap] at hr
  rcases hr with ⟨e, -, he | he⟩ | ⟨e, -, he⟩
  · simp [refTo_kind _ _ _ r he]
  · simp [refTo_kind _ _ _ r he]
  · split at he
    · cases he
    · rcases List.mem_append.mp he with he | he
      · simp [refTo_kind _ _ _ r he]
      · simp [refTo_kind _ _ _ r he]

theorem pod_related (c : Clientset) (v : List String) (kr : KubernetesResource)
    (rel : List KubernetesResource) (st : PodStatus)
    (h : getRelatedResourcesPod c v kr = .ok (rel, st))
    (r : KubernetesResource) (hr : r ∈ rel) :
    r.ResourceType ∈ ["PersistentVolumeClaim", "Secret", "ConfigMap", "ServiceAccount",
      "Service", "PodDisruptionBudget", "NetworkPolicy"] := by
  unfold getRelatedResourcesPod at h
  cases hpod : c.GetPod kr.ResourceNamespace kr.ResourceName with
  | error e => simp [hpod] at h
  | ok pod =>
    simp only [hpod] at h
    cases hsvc : c.ListServices pod.Namespace with
    | error e => simp [hsvc] at h
    | ok svcList =>
      simp only [hsvc] at h
      cases hpdbs : c.ListPodDisruptionBudgets kr.ResourceNamespace with
      | error e => simp [hpdbs] at h
      | ok pdbs =>
        simp only [hpdbs] at h
        split at h
        · cases h
        · rename_i fromPDBs hPDB
          cases hnps : c.ListNetworkPolicies kr.ResourceNamespace with
          | error e => simp [hnps] at h
          | ok netpols =>
            simp only [hnps] at h
            split at h
            · cases h
            · rename_i fromNetpols hNP
              simp only [Except.ok.injEq, Prod.mk.injEq] at h
              obtain ⟨hrel, -⟩ := h
              subst hrel
              simp only [List.mem_append, List.mem_flatMap] at hr
              rcases hr with (((((⟨vol, -, hr⟩ | ⟨ct, -, hr⟩) | ⟨ct, -, hr⟩) | hr) | hr) | hr) | hr
              · have := volumeRefs_kind _ _ r hr
                simp at this ⊢
                tauto
              · have := containerRefs_kind _ _ r hr
                simp at this ⊢
                tauto
              · have := containerRefs_kind _ _ r hr
                simp at this ⊢
                tauto
              · split at hr
                · simp at hr; subst hr; simp
                · cases hr
              · obtain ⟨svc, -, hsvc⟩ := List.mem_map.mp hr
                subst hsvc
                simp
              · obtain ⟨pdb, -, xs, hxs, hmem⟩ := forEach_mem _ _ _ hPDB r hr
                split at hxs
                · cases hxs
                · simp at hxs; subst hxs
                  split at hmem
                  · simp at hmem; subst hmem; simp
                  · cases hmem
              · obtain ⟨np, -, xs, hxs, hmem⟩ := forEach_mem _ _ _ hNP r hr
                split at hxs
                · cases hxs
                · simp at hxs; subst hxs
                  split at hmem
                  · simp at hmem; subst hmem; simp
                  · cases hmem


theorem pathsNameService_ok (name : String) :
    ∀ (paths : List HTTPIngressPath) (b : Bool), pathsNameService name paths = .ok b →
      (b = true ↔ ∃ p ∈ paths, p.Backend.Service = some name) := by
  intro paths
  induction paths with
  | nil =>
    intro b h
    simp [pathsNameService] at h
    subst h
    simp
  | cons p rest ih =>
    intro b h
    unfold pathsNameService at h
    split at h
    · cases h
    · rename_i sn hsn
      split at h
      · rename_i heq
        simp at h
        subst h
        subst heq
        simp [hsn]
      · rename_i hne
        have := ih b h
        rw [this]
        constructor
        · rintro ⟨q, hq, hqs⟩
          exact ⟨q, List.mem_cons_of_mem _ hq, hqs⟩
        · rintro ⟨q, hq, hqs⟩
          rcases List.mem_cons.mp hq with hq | hq
          · subst hq
            rw [hsn] at hqs
            exact absurd (Option.some.inj hqs) hne
          · exact ⟨q, hq, hqs⟩

theorem ingressRefs_mem (kr : KubernetesResource) (ingress : Ingress)
    (out : List KubernetesResource) (h : ingressRefs kr ingress = .ok out)
    (r : KubernetesResource) (hr : r ∈ out) :
    r.ResourceType = "Ingress" ∧ r.ResourceName = ingress.Name ∧
      ∃ rule ∈ ingress.Spec.Rules, ∃ paths, rule.HTTP = some paths ∧
        ∃ p ∈ paths, p.Backend.Service = some kr.ResourceName := by
  obtain ⟨rule, hrule, xs, hxs, hmem⟩ := forEach_mem _ _ _ h r hr
  split at hxs
  · cases hxs
  · rename_i paths hpaths
    split at hxs
    · cases hxs
    · rename_i found hfound
      simp at hxs
      subst hxs
      split at hmem
      · rename_i hf
        simp at hmem
        subst hmem
        exact ⟨rfl, rfl, rule, hrule, paths, hpaths,
          (pathsNameService_ok _ _ _ hfound).mp hf⟩
      · cases hmem

theorem service_related (c : Clientset) (v : List String) (kr : KubernetesResource)
    (rel : List KubernetesResource) (st : ServiceStatus)
    (h : getRelatedResourcesService c v kr = .ok (rel, st))
    (r : KubernetesResource) (hr : r ∈ rel) :
    r.ResourceType = "Ingress" ∨ r.ResourceType = "Pod" ∨
      (r.ResourceType = "Deployment" ∧ kindVisited "Deployment" v = false) := by
  unfold getRelatedResourcesService at h
  cases hsvc : c.GetService kr.ResourceNamespace kr.ResourceName with
  | error e => simp [hsvc] at h
  | ok service =>
    simp only [hsvc] at h
    split at h
    · cases h
    · rename_i fromIngresses hIng
      have hing : ∀ x ∈ fromIngresses, x.ResourceType = "Ingress" := by
        intro x hx
        split at hIng
        · simp at hIng; subst hIng; cases hx
        · split at hIng
          · cases hIng
          · obtain ⟨ing, -, xs, hxs, hmem⟩ := forEach_mem _ _ _ hIng x hx
            exact (ingressRefs_mem kr ing xs hxs x hmem).1
      split at h
      · cases h
      · rename_i fromPods hPods
        have hpod : ∀ x ∈ fromPods, x.ResourceType = "Pod" := by
          intro x hx
          split at hPods
          · simp at hPods; subst hPods; cases hx
          · split at hPods
            · cases hPods
            · simp at hPods
              subst hPods
              obtain ⟨p, -, hp⟩ := List.mem_map.mp hx
              subst hp
              rfl
        split at h
        · simp only [Except.ok.injEq, Prod.mk.injEq] at h
          obtain ⟨hrel, -⟩ := h
          subst hrel
          rcases List.mem_append.mp hr with hr | hr
          · exact Or.inl (hing r hr)
          · exact Or.inr (Or.inl (hpod r hr))
        · rename_i hk
          split at h
          · cases h
          · simp only [Except.ok.injEq, Prod.mk.injEq] at h
            obtain ⟨hrel, -⟩ := h
            subst hrel
            simp only [List.mem_append] at hr
            rcases hr with (hr | hr) | hr
            · exact Or.inl (hing r hr)
            · exact Or.inr (Or.inl (hpod r hr))
            · obtain ⟨d, -, hd⟩ := List.mem_map.mp hr
              subst hd
              exact Or.inr (Or.inr ⟨rfl, by simpa using hk⟩)

theorem serviceAccount_related (c : Clientset) (v : List String) (kr : KubernetesResource)
    (rel : List KubernetesResource) (st : ServiceAccountStatus)
    (h : getRelatedResourcesServiceAccount c v kr = .ok (rel, st))
    (r : KubernetesResource) (hr : r ∈ rel) : r.ResourceType = "Secret" := by
  unfold getRelatedResourcesServiceAccount at h
  split at h
  · cases h
  · simp only [Except.ok.injEq, Prod.mk.injEq] at h
    obtain ⟨hrel, -⟩ := h
    subst hrel
    obtain ⟨x, -, hx⟩ := List.mem_map.mp hr
    subst hx
    rfl

theorem ingress_related (c : Clientset) (v : List String) (kr : KubernetesResource)
    (rel : List KubernetesResource) (st : IngressStatus)
    (h : getRelatedResourcesIngress c v kr = .ok (rel, st))
    (r : KubernetesResource) (hr : r ∈ rel) :
    r.ResourceType = "Service" ∨ r.ResourceType = "Secret" := by
  unfold getRelatedResourcesIngress at h
  split at h
  · cases h
  · split at h
    · cases h
    · split at h
      · cases h
      · rename_i fromRules hRules
        simp only [Except.ok.injEq, Prod.mk.injEq] at h
        obtain ⟨hrel, -⟩ := h
        subst hrel
        rcases List.mem_append.mp hr with hr | hr
        · left
          split at hRules
          · simp at hRules; subst hRules; cases hr
          · obtain ⟨rule, -, xs, hxs, hmem⟩ := forEach_mem _ _ _ hRules r hr
            split at hxs
            · cases hxs
            · obtain ⟨p, -, ys, hys, hmem2⟩ := forEach_mem _ _ _ hxs r hmem
              split at hys
              · cases hys
              · simp at hys; subst hys; simp at hmem2; subst hmem2; rfl
        · right
          split at hr
          · cases hr
          · obtain ⟨x, -, hx⟩ := List.mem_map.mp hr
            subst hx
            rfl

theorem pvc_related (c : Clientset) (v : List String) (kr : KubernetesResource)
    (rel : List KubernetesResource) (st : PersistentVolumeClaimStatus)
    (h : getRelatedResourcesPersistentVolumeClaim c v kr = .ok (rel, st)) : rel = [] := by
  unfold getRelatedResourcesPersistentVolumeClaim at h
  split at h
  · cases h
  · simp only [Except.ok.injEq, Prod.mk.injEq] at h
    exact h.1.symm

theorem configMap_related (c : Clientset) (v : List String) (kr : KubernetesResource)
    (rel : List KubernetesResource) (st : ConfigMapStatus)
    (h : getRelatedResourcesConfigMap c v kr = .ok (rel, st)) : rel = [] := by
  unfold getRelatedResourcesConfigMap at h
  split at h <;>
    · simp only [Except.ok.injEq, Prod.mk.injEq] at h
      exact h.1.symm

theorem secret_related (c : Clientset) (v : List String) (kr : KubernetesResource)
    (rel : List KubernetesResource) (st : SecretStatus)
    (h : getRelatedResourcesSecret c v kr = .ok (rel, st)) : rel = [] := by
  unfold getRelatedResourcesSecret at h
  split at h <;>
    · simp only [Except.ok.injEq, Prod.mk.injEq] at h
      exact h.1.symm

theorem hpa_related (c : Clientset) (kr : KubernetesResource) (hpa : List KubernetesResource)
    (h : getHPAForController c kr = .ok hpa) (r : KubernetesResource) (hr : r ∈ hpa) :
    r.ResourceType = "HorizontalPodAutoscaler" := by
  unfold getHPAForController at h
  split at h
  · cases h
  · simp only [Except.ok.injEq] at h
    subst h
    obtain ⟨x, -, hx⟩ := List.mem_map.mp hr
    subst hx
    rfl

theorem switchCase_ok {σ : Type} (kind : String) (toStatus : σ → Status)
    (x : Res (List KubernetesResource × σ)) (rel : List KubernetesResource) (st : Status)
    (h : switchCase kind toStatus x = .ok rel st) :
    ∃ s, x = .ok (rel, s) ∧ st = toStatus s := by
  unfold switchCase at h
  split at h
  · cases h
  · cases h
  · rename_i rel' s
    simp only [Resolved.ok.injEq] at h
    exact ⟨s, by rw [h.1], h.2.symm⟩

/-- The switch resolves exactly the nine supported kinds. -/
theorem resolveRelated_unsupported (c : Clientset) (v : List String) (kr : KubernetesResource)
    (h : kr.ResourceType ∉ supportedKinds) : resolveRelated c v kr = .unsupported := by
  simp only [supportedKinds, List.mem_cons, List.mem_singleton, List.not_mem_nil, not_or,
    or_false] at h
  obtain ⟨h1, h2, h3, h4, h5, h6, h7, h8, h9⟩ := h
  simp [resolveRelated, h1, h2, h3, h4, h5, h6, h7, h8, h9]

theorem switchCase_ne_unsupported {σ : Type} (kind : String) (toStatus : σ → Status)
    (x : Res (List KubernetesResource × σ)) : switchCase kind toStatus x ≠ .unsupported := by
  unfold switchCase
  split <;> simp

theorem resolveRelated_supported (c : Clientset) (v : List String) (kr : KubernetesResource)
    (h : resolveRelated c v kr ≠ .unsupported) : kr.ResourceType ∈ supportedKinds := by
  by_contra hn
  exact h (resolveRelated_unsupported c v kr hn)

theorem supported_resolves (c : Clientset) (v : List String) (kr : KubernetesResource)
    (h : kr.ResourceType ∈ supportedKinds) : resolveRelated c v kr ≠ .unsupported := by
  simp only [supportedKinds, List.mem_cons, List.mem_singleton, List.not_mem_nil,
    or_false] at h
  unfold resolveRelated
  split_ifs <;> first | exact switchCase_ne_unsupported _ _ _ | (exfalso; tauto)

/-- What the switch can return as a related identity. -/
theorem resolveRelated_related (c : Clientset) (v : List String) (kr : KubernetesResource)
    (rel : List KubernetesResource) (st : Status)
    (h : resolveRelated c v kr = .ok rel st) (r : KubernetesResource) (hr : r ∈ rel) :
    r.ResourceType ∈ supportedKinds ++ ["PodDisruptionBudget", "NetworkPolicy"] ∧
      (r.ResourceType = "Deployment" → kindVisited "Deployment" v = false) ∧
      (r.ResourceType = "ReplicaSet" → kr.ResourceType = "Deployment" ∧
        kindVisited "ReplicaSet" v = false ∧ NameOwnedReplicaSet c kr r.ResourceName) := by
  unfold resolveRelated at h
  split_ifs at h with h1 h2 h3 h4 h5 h6 h7 h8 h9
  · obtain ⟨s, hs, -⟩ := switchCase_ok _ _ _ _ _ h
    rcases deployments_related c v kr rel s hs r hr with ⟨ht, hk, ho⟩ | ht | ht
    · simp [ht, supportedKinds, h1, hk, ho]
    · simp [ht, supportedKinds]
    · simp [ht, supportedKinds]
  · obtain ⟨s, hs, -⟩ := switchCase_ok _ _ _ _ _ h
    rcases replicaSet_related c v kr rel s hs r hr with ⟨ht, hk⟩ | ht | ht
    · simp [ht, supportedKinds, hk]
    · simp [ht, supportedKinds]
    · simp [ht, supportedKinds]
  · obtain ⟨s, hs, -⟩ := switchCase_ok _ _ _ _ _ h
    have := pod_related c v kr rel s hs r hr
    simp only [List.mem_cons, List.mem_singleton, List.not_mem_nil, or_false] at this
    rcases this with ht | ht | ht | ht | ht | ht | ht <;> simp [ht, supportedKinds]
  · obtain ⟨s, hs, -⟩ := switchCase_ok _ _ _ _ _ h
    rcases service_related c v kr rel s hs r hr with ht | ht | ⟨ht, hk⟩
    · simp [ht, supportedKinds]
    · simp [ht, supportedKinds]
    · simp [ht, supportedKinds, hk]
  · obtain ⟨s, hs, -⟩ := switchCase_ok _ _ _ _ _ h
    have ht := serviceAccount_related c v kr rel s hs r hr
    simp [ht, supportedKinds]
  · obtain ⟨s, hs, -⟩ := switchCase_ok _ _ _ _ _ h
    rcases ingress_related c v kr rel s hs r hr with ht | ht <;> simp [ht, supportedKinds]
  · obtain ⟨s, hs, -⟩ := switchCase_ok _ _ _ _ _ h
    rw [pvc_related c v kr rel s hs] at hr
    cases hr
  · obtain ⟨s, hs, -⟩ := switchCase_ok _ _ _ _ _ h
    rw [configMap_related c v kr rel s hs] at hr
    cases hr
  · obtain ⟨s, hs, -⟩ := switchCase_ok _ _ _ _ _ h
    rw [secret_related c v kr rel s hs] at hr
    cases hr

theorem hpa_unsupported (c : Clientset) (kr : KubernetesResource)
    (hpa : List KubernetesResource) (h : getHPAForController c kr = .ok hpa) :
    ∀ r ∈ hpa, r.ResourceType ∉ supportedKinds := by
  intro r hr
  rw [hpa_related c kr hpa h r hr]
  decide

theorem related_kind (c : Clientset) (v : List String) (kr : KubernetesResource)
    (rel : List KubernetesResource) (st : Status) (hpa : List KubernetesResource)
    (hr : resolveRelated c v kr = .ok rel st) (hh : getHPAForController c kr = .ok hpa) :
    ∀ r ∈ rel ++ hpa, r.ResourceType ∈ relatedKinds := by
  intro r hmem
  rcases List.mem_append.mp hmem with h | h
  · have := (resolveRelated_related c v kr rel st hr r h).1
    simp only [relatedKinds, supportedKinds, unexpandedKinds, List.mem_append, List.mem_cons,
      List.mem_singleton, List.not_mem_nil, or_false] at this ⊢
    tauto
  · rw [hpa_related c kr hpa hh r h]
    decide

theorem deployment_related_kinds (c : Clientset) (v : List String) (kr : KubernetesResource)
    (rel : List KubernetesResource) (st : Status) (hk : kr.ResourceType = "Deployment")
    (h : resolveRelated c v kr = .ok rel st) :
    ∀ r ∈ rel, r.ResourceType ≠ "Deployment" := by
  intro r hr
  unfold resolveRelated at h
  rw [if_pos hk] at h
  obtain ⟨s, hs, -⟩ := switchCase_ok _ _ _ _ _ h
  rcases deployments_related c v kr rel s hs r hr with ⟨ht, -, -⟩ | ht | ht <;>
    · rw [ht]; decide

/-! ## C1: one node per (kind, name) -/

theorem expanded_nodup (dt : DAGTraverser) (kr : KubernetesResource) (st : Status)
    (rs : List KubernetesResource)
    (hP : (dt.Graph.Nodes.map (fun n => (n.Description, n.Title))).Nodup ∧
      ∀ n ∈ dt.Graph.Nodes, n.Description ++ "_" ++ n.Title ∈ dt.Visited)
    (hv : kr.ResourceType ++ "_" ++ kr.ResourceName ∉ dt.Visited) :
    ((expanded dt kr st rs).Graph.Nodes.map (fun n => (n.Description, n.Title))).Nodup ∧
      ∀ n ∈ (expanded dt kr st rs).Graph.Nodes,
        n.Description ++ "_" ++ n.Title ∈ (expanded dt kr st rs).Visited := by
  obtain ⟨hnd, hkeys⟩ := hP
  rw [expanded_nodes, expanded_visited]
  constructor
  · rw [List.map_append, List.nodup_append]
    refine ⟨hnd, by simp, ?_⟩
    intro p hp hq
    simp only [List.map_cons, List.map_nil, List.mem_singleton] at hq
    subst hq
    obtain ⟨n, hn, hnp⟩ := List.mem_map.mp hp
    have hk := hkeys n hn
    have h1 : n.Description = kr.ResourceType := congrArg Prod.fst hnp
    have h2 : n.Title = kr.ResourceName := congrArg Prod.snd hnp
    rw [h1, h2] at hk
    exact hv hk
  · intro n hn
    rw [mem_mapSet]
    rcases List.mem_append.mp hn with h | h
    · exact Or.inl (hkeys n h)
    · simp only [List.mem_singleton] at h
      subst h
      exact Or.inr rfl

/-- Nodes are unique by (Description, Title) after a traversal from a fresh traverser. -/
theorem traversal_nodes_nodup (c : Clientset) (fuel : Nat) (kr : KubernetesResource)
    (res : DAGTraverser × Exit)
    (h : GenerateDAGForResource c fuel freshTraverser kr = some res) :
    (res.1.Graph.Nodes.map (fun n => (n.Description, n.Title))).Nodup := by
  have key := GenerateDAGForResource_invariant c
    (fun dt => (dt.Graph.Nodes.map (fun n => (n.Description, n.Title))).Nodup ∧
      ∀ n ∈ dt.Graph.Nodes, n.Description ++ "_" ++ n.Title ∈ dt.Visited)
    (fun _ => True)
    (fun dt kr rel st hpa hP _ hv _ _ =>
      ⟨expanded_nodup dt kr st (rel ++ hpa) hP hv, fun _ _ => trivial⟩)
    fuel freshTraverser kr res (by simp [freshTraverser, CreateGraph]) trivial h
  exact key.1

/-- C1: after `GenerateDAGForResource` on a fresh traverser, whatever the cluster answers, the
root and the way the call ends (nil, error or panic), no two nodes of the graph have the same
(Description, Title), that is the same (kind, name). -/
theorem C1_nodes_unique (c : Clientset) (fuel : Nat) (kr : KubernetesResource)
    (res : DAGTraverser × Exit)
    (h : GenerateDAGForResource c fuel freshTraverser kr = some res) :
    (res.1.Graph.Nodes.map (fun n => (n.Description, n.Title))).Nodup :=
  traversal_nodes_nodup c fuel kr res h

/-- Witness of C1: in `webCluster` the Service "web" is reached twice (as the root and from
Deployment "web-d") and is one node. -/
theorem C1_nodes_unique_witness :
    GenerateDAGForResource webCluster 5 freshTraverser webRoot = some (webFinal, .nil) ∧
      (webFinal.Graph.Nodes.map (fun n => (n.Description, n.Title))).Nodup :=
  ⟨by rfl, C1_nodes_unique webCluster 5 webRoot (webFinal, .nil) (by rfl)⟩

/-! ## C2: termination -/

/-- The set `Visited` only grows. -/
theorem GenerateDAGForResource_visited_mono (c : Clientset) (fuel : Nat) (dt : DAGTraverser)
    (kr : KubernetesResource) (res : DAGTraverser × Exit)
    (h : GenerateDAGForResource c fuel dt kr = some res) : dt.Visited ⊆ res.1.Visited := by
  refine GenerateDAGForResource_invariant c (fun d => dt.Visited ⊆ d.Visited) (fun _ => True)
    ?_ fuel dt kr res (fun _ hx => hx) trivial h
  intro d k rel st hpa hP _ _ _ _
  refine ⟨?_, fun _ _ => trivial⟩
  intro x hx
  rw [expanded_visited, mem_mapSet]
  exact Or.inl (hP hx)

theorem remaining_mono (U v v' : List String) (h : v ⊆ v') :
    (U.toFinset \ v'.toFinset).card ≤ (U.toFinset \ v.toFinset).card := by
  apply Finset.card_le_card
  apply Finset.sdiff_subset_sdiff (Finset.Subset.refl _)
  intro x hx
  rw [List.mem_toFinset] at hx ⊢
  exact h hx

theorem remaining_lt (U v : List String) (key : String) (hU : key ∈ U) (hv : key ∉ v) :
    (U.toFinset \ (mapSet v key).toFinset).card < (U.toFinset \ v.toFinset).card := by
  apply Finset.card_lt_card
  rw [Finset.ssubset_iff_of_subset]
  · refine ⟨key, ?_, ?_⟩
    · simp [hU, hv]
    · simp [mem_mapSet]
  · apply Finset.sdiff_subset_sdiff (Finset.Subset.refl _)
    intro x hx
    rw [List.mem_toFinset] at hx ⊢
    rw [mem_mapSet]
    exact Or.inl hx

theorem recurse_total (c : Clientset) (U : List String) (n : Nat)
    (ih : ∀ (dt : DAGTraverser) (kr : KubernetesResource),
      kr.ResourceType ++ "_" ++ kr.ResourceName ∈ U →
      (U.toFinset \ dt.Visited.toFinset).card < n →
      ∃ res, GenerateDAGForResource c n dt kr = some res) :
    ∀ (rs : List KubernetesResource) (dt : DAGTraverser),
      (∀ r ∈ rs, r.ResourceType ++ "_" ++ r.ResourceName ∈ U) →
      (U.toFinset \ dt.Visited.toFinset).card < n →
      ∃ res, recurse (GenerateDAGForResource c n) dt rs = some res := by
  intro rs
  induction rs with
  | nil => intro dt _ _; exact ⟨(dt, .nil), rfl⟩
  | cons r rs ihl =>
    intro dt hrs hm
    obtain ⟨⟨dt1, e⟩, hg⟩ := ih dt r (hrs r (List.mem_cons_self _ _)) hm
    have hsub := GenerateDAGForResource_visited_mono c n dt r (dt1, e) hg
    cases e with
    | nil =>
      obtain ⟨res, hres⟩ := ihl dt1 (fun x hx => hrs x (List.mem_cons_of_mem _ hx))
        (lt_of_le_of_lt (remaining_mono U _ _ hsub) hm)
      exact ⟨res, by simp [recurse, hg, hres]⟩
    | error err => exact ⟨(dt1, .error err), by simp [recurse, hg]⟩
    | panic => exact ⟨(dt1, .panic), by simp [recurse, hg]⟩

/-- With the keys of all identities the cluster can name listed in `U`, a call on an identity
of `U` with more fuel than there are keys of `U` not yet visited returns. -/
theorem GenerateDAGForResource_total (c : Clientset) (U : List String)
    (hU : ∀ visited kr rel st hpa, resolveRelated c visited kr = .ok rel st →
      getHPAForController c kr = .ok hpa →
      ∀ r ∈ rel ++ hpa, r.ResourceType ++ "_" ++ r.ResourceName ∈ U) :
    ∀ (fuel : Nat) (dt : DAGTraverser) (kr : KubernetesResource),
      kr.ResourceType ++ "_" ++ kr.ResourceName ∈ U →
      (U.toFinset \ dt.Visited.toFinset).card < fuel →
      ∃ res, GenerateDAGForResource c fuel dt kr = some res := by
  intro fuel
  induction fuel with
  | zero => intro dt kr _ h; exact absurd h (Nat.not_lt_zero _)
  | succ n ih =>
    intro dt kr hk hm
    rcases GenerateDAGForResource_cases c n dt kr with
      ⟨h1, _⟩ | ⟨hv, ⟨err, _, h1⟩ | ⟨_, h1⟩ | ⟨rel, st, err, _, _, h1⟩ | ⟨rel, st, hpa, hr, hh, h1⟩⟩
    · exact ⟨_, h1⟩
    · exact ⟨_, h1⟩
    · exact ⟨_, h1⟩
    · exact ⟨_, h1⟩
    · rw [h1]
      have hlt := remaining_lt U dt.Visited _ hk hv
      exact recurse_total c U n ih (rel ++ hpa) (expanded dt kr st (rel ++ hpa))
        (hU dt.Visited kr rel st hpa hr hh) (by rw [expanded_visited]; omega)

/-- With a finite list `U` holding the key of every identity the resolvers and the autoscaler
lookup can return, `U.length + 2` nested calls are enough from a fresh traverser. -/
theorem terminates_within_keys (c : Clientset) (U : List String)
    (hU : ∀ visited kr rel st hpa, resolveRelated c visited kr = .ok rel st →
      getHPAForController c kr = .ok hpa →
      ∀ r ∈ rel ++ hpa, r.ResourceType ++ "_" ++ r.ResourceName ∈ U)
    (kr : KubernetesResource) (fuel : Nat) (hfuel : U.length + 2 ≤ fuel) :
    ∃ res, GenerateDAGForResource c fuel freshTraverser kr = some res := by
  apply GenerateDAGForResource_total c ((kr.ResourceType ++ "_" ++ kr.ResourceName) :: U)
    (fun visited k rel st hpa hr hh r hmem =>
      List.mem_cons_of_mem _ (hU visited k rel st hpa hr hh r hmem))
    fuel freshTraverser kr (List.mem_cons_self _ _)
  calc (((kr.ResourceType ++ "_" ++ kr.ResourceName) :: U).toFinset \
          freshTraverser.Visited.toFinset).card
      ≤ ((kr.ResourceType ++ "_" ++ kr.ResourceName) :: U).toFinset.card :=
        Finset.card_le_card Finset.sdiff_subset
    _ ≤ ((kr.ResourceType ++ "_" ++ kr.ResourceName) :: U).length := List.toFinset_card_le _
    _ = U.length + 1 := by simp
    _ < fuel := by omega

theorem service_related_flags (c : Clientset) (v : List String) (kr : KubernetesResource)
    (rel : List KubernetesResource) (st : ServiceStatus)
    (h : getRelatedResourcesService c v kr = .ok (rel, st))
    (r : KubernetesResource) (hr : r ∈ rel) :
    (r.ResourceType = "Ingress" ∨ r.ResourceType = "Pod" ∨ r.ResourceType = "Deployment") ∧
      kindVisited r.ResourceType v = false := by
  unfold getRelatedResourcesService at h
  cases hsvc : c.GetService kr.ResourceNamespace kr.ResourceName with
  | error e => simp [hsvc] at h
  | ok service =>
    simp only [hsvc] at h
    split at h
    · cases h
    · rename_i fromIngresses hIng
      have hing : ∀ x ∈ fromIngresses,
          x.ResourceType = "Ingress" ∧ kindVisited "Ingress" v = false := by
        intro x hx
        split at hIng
        · simp at hIng; subst hIng; cases hx
        · rename_i hk
          split at hIng
          · cases hIng
          · obtain ⟨ing, -, xs, hxs, hmem⟩ := forEach_mem _ _ _ hIng x hx
            exact ⟨(ingressRefs_mem kr ing xs hxs x hmem).1, by simpa using hk⟩
      split at h
      · cases h
      · rename_i fromPods hPods
        have hpod : ∀ x ∈ fromPods, x.ResourceType = "Pod" ∧ kindVisited "Pod" v = false := by
          intro x hx
          split at hPods
          · simp at hPods; subst hPods; cases hx
          · rename_i hk
            split at hPods
            · cases hPods
            · simp at hPods
              subst hPods
              obtain ⟨p, -, hp⟩ := List.mem_map.mp hx
              subst hp
              exact ⟨rfl, by simpa using hk⟩
        have hfin : ∀ x, (x ∈ fromIngresses ∨ x ∈ fromPods) →
            (x.ResourceType = "Ingress" ∨ x.ResourceType = "Pod" ∨
              x.ResourceType = "Deployment") ∧ kindVisited x.ResourceType v = false := by
          rintro x (hx | hx)
          · obtain ⟨h1, h2⟩ := hing x hx
            exact ⟨Or.inl h1, by rw [h1]; exact h2⟩
          · obtain ⟨h1, h2⟩ := hpod x hx
            exact ⟨Or.inr (Or.inl h1), by rw [h1]; exact h2⟩
        split at h
        · simp only [Except.ok.injEq, Prod.mk.injEq] at h
          obtain ⟨hrel, -⟩ := h
          subst hrel
          exact hfin r (List.mem_append.mp hr)
        · rename_i hk
          split at h
          · cases h
          · simp only [Except.ok.injEq, Prod.mk.injEq] at h
            obtain ⟨hrel, -⟩ := h
            subst hrel
            simp only [List.mem_append] at hr
            rcases hr with hr | hr
            · exact hfin r hr
            · obtain ⟨d, -, hd⟩ := List.mem_map.mp hr
              subst hd
              exact ⟨Or.inr (Or.inr rfl), by simpa using hk⟩

theorem ingress_related_flags (c : Clientset) (v : List String) (kr : KubernetesResource)
    (rel : List KubernetesResource) (st : IngressStatus)
    (h : getRelatedResourcesIngress c v kr = .ok (rel, st))
    (r : KubernetesResource) (hr : r ∈ rel) :
    (r.ResourceType = "Service" ∨ r.ResourceType = "Secret") ∧
      kindVisited r.ResourceType v = false := by
  unfold getRelatedResourcesIngress at h
  split at h
  · cases h
  · split at h
    · cases h
    · split at h
      · cases h
      · rename_i fromRules hRules
        simp only [Except.ok.injEq, Prod.mk.injEq] at h
        obtain ⟨hrel, -⟩ := h
        subst hrel
        rcases List.mem_append.mp hr with hr | hr
        · split at hRules
          · simp at hRules; subst hRules; cases hr
          · rename_i hk
            obtain ⟨rule, -, xs, hxs, hmem⟩ := forEach_mem _ _ _ hRules r hr
            split at hxs
            · cases hxs
            · obtain ⟨p, -, ys, hys, hmem2⟩ := forEach_mem _ _ _ hxs r hmem
              split at hys
              · cases hys
              · simp at hys; subst hys; simp at hmem2; subst hmem2
                exact ⟨Or.inl rfl, by simpa using hk⟩
        · split at hr
          · cases hr
          · rename_i hk
            obtain ⟨x, -, hx⟩ := List.mem_map.mp hr
            subst hx
            exact ⟨Or.inr rfl, by simpa using hk⟩

/-- A related identity of a supported kind is either lower in `kindHeight` than the identity
it relates to, or of another kind of which nothing was visited when the resolver ran. -/
theorem related_descends (c : Clientset) (v : List String) (kr : KubernetesResource)
    (rel : List KubernetesResource) (st : Status)
    (h : resolveRelated c v kr = .ok rel st) (r : KubernetesResource) (hr : r ∈ rel)
    (hsup : r.ResourceType ∈ supportedKinds) :
    kindHeight r.ResourceType < kindHeight kr.ResourceType ∨
      (kindVisited r.ResourceType v = false ∧ r.ResourceType ≠ kr.ResourceType) := by
  unfold resolveRelated at h
  split_ifs at h with h1 h2 h3 h4 h5 h6 h7 h8 h9
  · obtain ⟨s, hs, -⟩ := switchCase_ok _ _ _ _ _ h
    rcases deployments_related c v kr rel s hs r hr with ⟨ht, hk, -⟩ | ht | ht
    · right; rw [ht, h1]; exact ⟨hk, by decide⟩
    · left; rw [ht, h1]; decide
    · left; rw [ht, h1]; decide
  · obtain ⟨s, hs, -⟩ := switchCase_ok _ _ _ _ _ h
    rcases replicaSet_related c v kr rel s hs r hr with ⟨ht, hk⟩ | ht | ht
    · right; rw [ht, h2]; exact ⟨hk, by decide⟩
    · left; rw [ht, h2]; decide
    · left; rw [ht, h2]; decide
  · obtain ⟨s, hs, -⟩ := switchCase_ok _ _ _ _ _ h
    have := pod_related c v kr rel s hs r hr
    simp only [List.mem_cons, List.mem_singleton, List.not_mem_nil, or_false] at this
    rcases this with ht | ht | ht | ht | ht | ht | ht
    · left; rw [ht, h3]; decide
    · left; rw [ht, h3]; decide
    · left; rw [ht, h3]; decide
    · left; rw [ht, h3]; decide
    · left; rw [ht, h3]; decide
    · rw [ht] at hsup; exact absurd hsup (by decide)
    · rw [ht] at hsup; exact absurd hsup (by decide)
  · obtain ⟨s, hs, -⟩ := switchCase_ok _ _ _ _ _ h
    obtain ⟨ht, hk⟩ := service_related_flags c v kr rel s hs r hr
    right
    refine ⟨hk, ?_⟩
    rw [h4]
    rcases ht with ht | ht | ht <;> rw [ht] <;> decide
  · obtain ⟨s, hs, -⟩ := switchCase_ok _ _ _ _ _ h
    have ht := serviceAccount_related c v kr rel s hs r hr
    left; rw [ht, h5]; decide
  · obtain ⟨s, hs, -⟩ := switchCase_ok _ _ _ _ _ h
    obtain ⟨ht, hk⟩ := ingress_related_flags c v kr rel s hs r hr
    right
    refine ⟨hk, ?_⟩
    rw [h6]
    rcases ht with ht | ht <;> rw [ht] <;> decide
  · obtain ⟨s, hs, -⟩ := switchCase_ok _ _ _ _ _ h
    rw [pvc_related c v kr rel s hs] at hr
    cases hr
  · obtain ⟨s, hs, -⟩ := switchCase_ok _ _ _ _ _ h
    rw [configMap_related c v kr rel s hs] at hr
    cases hr
  · obtain ⟨s, hs, -⟩ := switchCase_ok _ _ _ _ _ h
    rw [secret_related c v kr rel s hs] at hr
    cases hr


theorem kindVisited_mono (kind : String) (v v' : List String) (hsub : v ⊆ v')
    (h : kindVisited kind v = true) : kindVisited kind v' = true := by
  unfold kindVisited at h ⊢
  rw [List.any_eq_true] at h ⊢
  obtain ⟨x, hx, hxk⟩ := h
  exact ⟨x, hsub hx, hxk⟩

theorem unvisitedKinds_mono (v v' : List String) (hsub : v ⊆ v') :
    unvisitedKinds v' ⊆ unvisitedKinds v := by
  intro k hk
  simp only [unvisitedKinds, Finset.mem_filter] at hk ⊢
  refine ⟨hk.1, ?_⟩
  by_contra hne
  have ht : kindVisited k v = true := by simpa using hne
  rw [kindVisited_mono k v v' hsub ht] at hk
  exact absurd hk.2 (by decide)

theorem unvisitedKinds_card_lt (v v' : List String) (hsub : v ⊆ v') (kind : String)
    (hk : kind ∈ supportedKinds) (h0 : kindVisited kind v = false)
    (h1 : kindVisited kind v' = true) :
    (unvisitedKinds v').card < (unvisitedKinds v).card := by
  apply Finset.card_lt_card
  rw [Finset.ssubset_iff_of_subset (unvisitedKinds_mono v v' hsub)]
  refine ⟨kind, ?_, ?_⟩
  · simp only [unvisitedKinds, Finset.mem_filter, List.mem_toFinset]
    exact ⟨hk, h0⟩
  · simp only [unvisitedKinds, Finset.mem_filter, List.mem_toFinset, not_and]
    intro _
    rw [h1]
    decide

theorem unvisitedKinds_card_le (v : List String) : (unvisitedKinds v).card ≤ 9 := by
  calc (unvisitedKinds v).card ≤ supportedKinds.toFinset.card :=
        Finset.card_le_card (Finset.filter_subset _ _)
    _ ≤ supportedKinds.length := List.toFinset_card_le _
    _ = 9 := rfl

theorem kindHeight_le (kind : String) : kindHeight kind ≤ 3 := by
  unfold kindHeight
  split_ifs <;> omega

theorem kindVisited_own_key (kind name : String) (v : List String)
    (hk : kind ∈ supportedKinds) : kindVisited kind (mapSet v (kind ++ "_" ++ name)) = true := by
  unfold kindVisited
  rw [List.any_eq_true]
  refine ⟨kind ++ "_" ++ name, (mem_mapSet _ _ _).mpr (Or.inr rfl), ?_⟩
  rw [splitFirst_key _ _ (supported_no_underscore _ hk)]
  simp

theorem kindVisited_other_key (kind kind' name : String) (v : List String)
    (hk : kind ∈ supportedKinds) (hne : kind' ≠ kind) (h : kindVisited kind' v = false) :
    kindVisited kind' (mapSet v (kind ++ "_" ++ name)) = false := by
  by_contra hc
  have ht : kindVisited kind' (mapSet v (kind ++ "_" ++ name)) = true := by simpa using hc
  unfold kindVisited at ht h
  rw [List.any_eq_true] at ht
  obtain ⟨x, hx, hxk⟩ := ht
  rcases (mem_mapSet _ _ _).mp hx with hx | hx
  · have : v.any (fun key => splitFirst key == kind') = true :=
      List.any_eq_true.mpr ⟨x, hx, hxk⟩
    rw [this] at h
    cases h
  · subst hx
    rw [splitFirst_key _ _ (supported_no_underscore _ hk)] at hxk
    have hx2 : kind = kind' := by simpa using hxk
    exact hne hx2.symm

theorem subset_mapSet (v : List String) (key : String) : v ⊆ mapSet v key :=
  fun _ hx => (mem_mapSet _ _ _).mpr (Or.inl hx)

/-- The measure of a child expanded later is below the measure of its parent. -/
theorem depthMeasure_child (c : Clientset) (v : List String) (kr : KubernetesResource)
    (rel : List KubernetesResource) (st : Status) (hpa : List KubernetesResource)
    (hr : resolveRelated c v kr = .ok rel st) (hh : getHPAForController c kr = .ok hpa)
    (r : KubernetesResource) (hmem : r ∈ rel ++ hpa) (hsup : r.ResourceType ∈ supportedKinds)
    (v' : List String) (hsub : mapSet v (kr.ResourceType ++ "_" ++ kr.ResourceName) ⊆ v') :
    depthMeasure v' r < depthMeasure v kr := by
  have hksup : kr.ResourceType ∈ supportedKinds :=
    resolveRelated_supported c v kr (by rw [hr]; simp)
  have hrel : r ∈ rel := by
    rcases List.mem_append.mp hmem with hm | hm
    · exact hm
    · exact absurd hsup (hpa_unsupported c kr hpa hh r hm)
  have hsub2 : mapSet v (kr.ResourceType ++ "_" ++ kr.ResourceName) ⊆
      mapSet v' (r.ResourceType ++ "_" ++ r.ResourceName) :=
    fun x hx => subset_mapSet _ _ (hsub hx)
  unfold depthMeasure
  rcases related_descends c v kr rel st hr r hrel hsup with hlt | ⟨hflag, hne⟩
  · have := Finset.card_le_card (unvisitedKinds_mono _ _ hsub2)
    omega
  · have hlt := unvisitedKinds_card_lt _ _ hsub2 r.ResourceType hsup
      (kindVisited_other_key _ _ _ _ hksup hne hflag)
      (kindVisited_own_key _ _ _ hsup)
    have := kindHeight_le r.ResourceType
    omega

theorem recurse_total_depth (c : Clientset) (n : Nat) (w : List String) (bound : Nat)
    (hn : bound + 1 < n + 1)
    (ih : ∀ (dt : DAGTraverser) (kr : KubernetesResource),
      depthMeasure dt.Visited kr + 1 < n → ∃ res, GenerateDAGForResource c n dt kr = some res) :
    ∀ (rs : List KubernetesResource) (dt : DAGTraverser), w ⊆ dt.Visited →
      (∀ r ∈ rs, r.ResourceType ∈ supportedKinds → ∀ v', w ⊆ v' →
        depthMeasure v' r < bound) →
      ∃ res, recurse (GenerateDAGForResource c n) dt rs = some res := by
  intro rs
  induction rs with
  | nil => intro dt _ _; exact ⟨(dt, .nil), rfl⟩
  | cons r rs ihl =>
    intro dt hw hrs
    have hg : ∃ res, GenerateDAGForResource c n dt r = some res := by
      by_cases hsup : r.ResourceType ∈ supportedKinds
      · have := hrs r (List.mem_cons_self _ _) hsup dt.Visited hw
        exact ih dt r (by omega)
      · cases n with
        | zero => omega
        | succ m =>
          by_cases hv : r.ResourceType ++ "_" ++ r.ResourceName ∈ dt.Visited
          · exact ⟨(dt, .nil), by simp [GenerateDAGForResource, hv]⟩
          · exact ⟨(dt, .nil), by simp [GenerateDAGForResource, hv,
              resolveRelated_unsupported c dt.Visited r hsup]⟩
    obtain ⟨⟨dt1, e⟩, hg⟩ := hg
    have hsub := GenerateDAGForResource_visited_mono c n dt r (dt1, e) hg
    cases e with
    | nil =>
      obtain ⟨res, hres⟩ := ihl dt1 (fun x hx => hsub (hw hx))
        (fun x hx => hrs x (List.mem_cons_of_mem _ hx))
      exact ⟨res, by simp [recurse, hg, hres]⟩
    | error err => exact ⟨(dt1, .error err), by simp [recurse, hg]⟩
    | panic => exact ⟨(dt1, .panic), by simp [recurse, hg]⟩

/-- A call returns as soon as the fuel exceeds the measure of its identity by two. -/
theorem GenerateDAGForResource_total_depth (c : Clientset) :
    ∀ (fuel : Nat) (dt : DAGTraverser) (kr : KubernetesResource),
      depthMeasure dt.Visited kr + 1 < fuel →
      ∃ res, GenerateDAGForResource c fuel dt kr = some res := by
  intro fuel
  induction fuel with
  | zero => intro dt kr h; omega
  | succ n ih =>
    intro dt kr hm
    rcases GenerateDAGForResource_cases c n dt kr with
      ⟨h1, _⟩ | ⟨hv, ⟨err, _, h1⟩ | ⟨_, h1⟩ | ⟨rel, st, err, _, _, h1⟩ | ⟨rel, st, hpa, hr, hh, h1⟩⟩
    · exact ⟨_, h1⟩
    · exact ⟨_, h1⟩
    · exact ⟨_, h1⟩
    · exact ⟨_, h1⟩
    · rw [h1]
      exact recurse_total_depth c n
        (mapSet dt.Visited (kr.ResourceType ++ "_" ++ kr.ResourceName))
        (depthMeasure dt.Visited kr) hm ih (rel ++ hpa) (expanded dt kr st (rel ++ hpa))
        (by rw [expanded_visited]; exact fun _ hx => hx)
        (fun r hmem hsup v' hsub => depthMeasure_child c dt.Visited kr rel st hpa hr hh r hmem
          hsup v' hsub)

theorem depthMeasure_le (v : List String) (kr : KubernetesResource) :
    depthMeasure v kr ≤ 39 := by
  unfold depthMeasure
  have h1 := unvisitedKinds_card_le (mapSet v (kr.ResourceType ++ "_" ++ kr.ResourceName))
  have h2 := kindHeight_le kr.ResourceType
  omega

/-- C2: for every cluster state (every listing is a finite list) and every root,
`GenerateDAGForResource` on a fresh traverser returns, however cyclic the relationships are:
41 nested calls are always enough.  When moreover a finite list `U` holds the key
kind + "_" + name of every identity the resolvers and the autoscaler lookup can return,
`U.length + 2` nested calls are enough, since every nested expansion marks a key of `U` that
was not yet in the Visited set. -/
theorem C2_terminates (c : Clientset) (kr : KubernetesResource) :
    (∀ fuel, 41 ≤ fuel → ∃ res, GenerateDAGForResource c fuel freshTraverser kr = some res) ∧
      ∀ U : List String,
        (∀ visited k rel st hpa, resolveRelated c visited k = .ok rel st →
          getHPAForController c k = .ok hpa →
          ∀ r ∈ rel ++ hpa, r.ResourceType ++ "_" ++ r.ResourceName ∈ U) →
        ∀ fuel, U.length + 2 ≤ fuel →
          ∃ res, GenerateDAGForResource c fuel freshTraverser kr = some res := by
  constructor
  · intro fuel hfuel
    have := depthMeasure_le freshTraverser.Visited kr
    exact GenerateDAGForResource_total_depth c fuel freshTraverser kr (by omega)
  · intro U hU fuel hfuel
    exact terminates_within_keys c U hU kr fuel hfuel

/-- Every identity `webCluster` can name has its key among four. -/
theorem webCluster_keys (visited : List String) (kr : KubernetesResource)
    (rel : List KubernetesResource) (st : Status) (hpa : List KubernetesResource)
    (hr : resolveRelated webCluster visited kr = .ok rel st)
    (hh : getHPAForController webCluster kr = .ok hpa) :
    ∀ r ∈ rel ++ hpa, r.ResourceType ++ "_" ++ r.ResourceName ∈
      ["Service_web", "Deployment_web-d", "ReplicaSet_web-rs", "Pod_web-p"] := by
  have hh2 : hpa = [] := by
    have : getHPAForController webCluster kr = .ok [] := rfl
    rw [this] at hh
    cases hh
    rfl
  subst hh2
  rw [List.append_nil]
  unfold resolveRelated at hr
  split_ifs at hr
  · -- Deployment
    obtain ⟨s, hs, -⟩ := switchCase_ok _ _ _ _ _ hr
    unfold getRelatedResourcesDeployments at hs
    by_cases hn : kr.ResourceName = "web-d"
    · have hg : webCluster.GetDeployment kr.ResourceNamespace kr.ResourceName = .ok depWeb := by
        simp [webCluster, hn]
      have hl : webCluster.ListReplicaSets kr.ResourceNamespace = .ok [rsWeb] := rfl
      have hsv : webCluster.ListServices depWeb.Namespace = .ok [svcWeb] := rfl
      have hsel : depWeb.Spec.Selector = some { MatchLabels := [("app", "web2")] } := rfl
      have hsa : depWeb.Spec.Template.Spec.ServiceAccountName = "" := rfl
      have hf : [svcWeb].filter (fun service =>
          selectorFromSetMatches (service.Spec.Selector.getD []) depWeb.Labels) = [svcWeb] := by
        decide
      have ho : forEach (ownedReplicaSet kr) [rsWeb] =
          .ok [{ ResourceName := "web-rs", ResourceType := "ReplicaSet",
                 ResourceNamespace := "prod" }] := by
        simp [forEach, ownedReplicaSet, rsWeb, hn]
      simp only [hg, hl, hsv, hsel, hsa, hf, ho] at hs
      by_cases hk : kindVisited "ReplicaSet" visited = true <;>
        simp [hk] at hs <;> obtain ⟨rfl, -⟩ := hs <;> intro r hr <;> simp at hr <;>
        rcases hr with rfl | rfl <;> decide
    · have hg : webCluster.GetDeployment kr.ResourceNamespace kr.ResourceName =
          .error "not found" := by
        simp [webCluster, hn]
      simp [hg] at hs
  · -- ReplicaSet
    obtain ⟨s, hs, -⟩ := switchCase_ok _ _ _ _ _ hr
    unfold getRelatedResourcesReplicaSet at hs
    by_cases hn : kr.ResourceName = "web-rs"
    · have hg : webCluster.GetReplicaSet kr.ResourceNamespace kr.ResourceName = .ok rsWeb := by
        simp [webCluster, hn]
      have hd : webCluster.GetDeployment kr.ResourceNamespace "web-d" = .ok depWeb := rfl
      have hp : webCluster.ListPods kr.ResourceNamespace [] = .ok [podWeb] := rfl
      have hsa : rsWeb.Spec.Template.Spec.ServiceAccountName = "" := rfl
      have ho : rsWeb.OwnerReferences = [{ Kind := "Deployment", Name := "web-d" }] := rfl
      simp only [hg, hp, hsa, ho, forEach, hd] at hs
      by_cases hk : kindVisited "Deployment" visited = true <;>
        simp [hk, podWeb, depWeb, hn] at hs <;> obtain ⟨rfl, -⟩ := hs <;> intro r hr <;>
        simp at hr <;> rcases hr with rfl | rfl <;> decide
    · have hg : webCluster.GetReplicaSet kr.ResourceNamespace kr.ResourceName =
          .error "not found" := by
        simp [webCluster, hn]
      simp [hg] at hs
  · -- Pod
    obtain ⟨s, hs, -⟩ := switchCase_ok _ _ _ _ _ hr
    unfold getRelatedResourcesPod at hs
    by_cases hn : kr.ResourceName = "web-p"
    · have hg : webCluster.GetPod kr.ResourceNamespace kr.ResourceName = .ok podWeb := by
        simp [webCluster, hn]
      have hsv : webCluster.ListServices podWeb.Namespace = .ok [svcWeb] := rfl
      have hpdb : webCluster.ListPodDisruptionBudgets kr.ResourceNamespace = .ok [] := rfl
      have hnp : webCluster.ListNetworkPolicies kr.ResourceNamespace = .ok [] := rfl
      simp only [hg, hsv, hpdb, hnp, forEach] at hs
      simp [podWeb, svcWeb, selectorFromSetMatches] at hs
      obtain ⟨rfl, -⟩ := hs
      intro r hr
      cases hr
    · have hg : webCluster.GetPod kr.ResourceNamespace kr.ResourceName =
          .error "not found" := by
        simp [webCluster, hn]
      simp [hg] at hs
  · -- Service
    obtain ⟨s, hs, -⟩ := switchCase_ok _ _ _ _ _ hr
    unfold getRelatedResourcesService at hs
    by_cases hn : kr.ResourceName = "web"
    · have hg : webCluster.GetService kr.ResourceNamespace kr.ResourceName = .ok svcWeb := by
        simp [webCluster, hn]
      have hi : webCluster.ListIngresses kr.ResourceNamespace = .ok [] := rfl
      have hp : webCluster.ListPods svcWeb.Namespace (svcWeb.Spec.Selector.getD []) = .ok [] := by
        rfl
      have hd : webCluster.ListDeployments kr.ResourceNamespace
          (svcWeb.Spec.Selector.getD []) = .ok [depWeb] := by
        rfl
      have hf : [depWeb].filter (fun deployment =>
          selectorFromSetMatches (svcWeb.Spec.Selector.getD []) deployment.Labels) =
            [depWeb] := by
        decide
      simp only [hg, hi, hp, hd, hf, forEach] at hs
      by_cases hk : kindVisited "Deployment" visited = true <;>
      by_cases hk2 : kindVisited "Pod" visited = true <;>
      by_cases hk3 : kindVisited "Ingress" visited = true <;>
        simp [hk, hk2, hk3, depWeb] at hs <;> obtain ⟨rfl, -⟩ := hs <;> intro r hr <;>
        simp at hr <;> subst hr <;> decide
    · have hg : webCluster.GetService kr.ResourceNamespace kr.ResourceName =
          .error "not found" := by
        simp [webCluster, hn]
      simp [hg] at hs
  · obtain ⟨s, hs, -⟩ := switchCase_ok _ _ _ _ _ hr
    have hg : getRelatedResourcesServiceAccount webCluster visited kr =
        .error (.error "unable to list service accounts: not found") := rfl
    rw [hg] at hs
    cases hs
  · obtain ⟨s, hs, -⟩ := switchCase_ok _ _ _ _ _ hr
    have hg : getRelatedResourcesIngress webCluster visited kr =
        .error (.error "unable to get ingress: not found") := rfl
    rw [hg] at hs
    cases hs
  · obtain ⟨s, hs, -⟩ := switchCase_ok _ _ _ _ _ hr
    have hg : getRelatedResourcesPersistentVolumeClaim webCluster visited kr =
        .error (.error "unable to get PersistentVolumeClaim: not found") := rfl
    rw [hg] at hs
    cases hs
  · obtain ⟨s, hs, -⟩ := switchCase_ok _ _ _ _ _ hr
    rw [configMap_related _ _ _ _ _ hs]
    intro r hr
    cases hr
  · obtain ⟨s, hs, -⟩ := switchCase_ok _ _ _ _ _ hr
    rw [secret_related _ _ _ _ _ hs]
    intro r hr
    cases hr

/-- Witness of C2: `webCluster` is cyclic (Service "web" selects Deployment "web-d", which
relates back to the Service) and names four keys; six nested calls are enough. -/
theorem C2_terminates_witness :
    ∃ res, GenerateDAGForResource webCluster 6 freshTraverser webRoot = some res :=
  (C2_terminates webCluster webRoot).2
    ["Service_web", "Deployment_web-d", "ReplicaSet_web-rs", "Pod_web-p"]
    webCluster_keys 6 (by decide)

/-! ## C3: colour of a node -/

/-- C3: for every identity and every status implementing `OK()`, `addNode` appends one node and
returns no error; the node is coloured "#f10909" if and only if `OK()` is false, and
"#63f828" otherwise. -/
theorem C3_node_colour (g : Graph) (kr : KubernetesResource) (s : Status) :
    ∃ node, g.addNode kr (.status s) = ({ g with Nodes := g.Nodes ++ [node] }, none) ∧
      (node.Color = "#f10909" ↔ s.OK = false) ∧
      (node.Color = "#63f828" ↔ s.OK = true) := by
  refine ⟨_, addNode_status g kr s, ?_, ?_⟩ <;> cases s.OK <;> simp

/-! ## C4: node ids and edge endpoints -/

/-- A call only appends to the node and edge sequences. -/
theorem GenerateDAGForResource_grows (c : Clientset) (fuel : Nat) (dt : DAGTraverser)
    (kr : KubernetesResource) (res : DAGTraverser × Exit)
    (h : GenerateDAGForResource c fuel dt kr = some res) :
    (∃ mn, res.1.Graph.Nodes = dt.Graph.Nodes ++ mn) ∧
      ∃ me, res.1.Graph.Edges = dt.Graph.Edges ++ me := by
  refine GenerateDAGForResource_invariant c
    (fun d => (∃ mn, d.Graph.Nodes = dt.Graph.Nodes ++ mn) ∧
      ∃ me, d.Graph.Edges = dt.Graph.Edges ++ me) (fun _ => True)
    ?_ fuel dt kr res ⟨⟨[], by simp⟩, ⟨[], by simp⟩⟩ trivial h
  intro d k rel st hpa hP _ _ _ _
  obtain ⟨⟨mn, hn⟩, ⟨me, he⟩⟩ := hP
  exact ⟨⟨⟨_, by rw [expanded_nodes, hn, List.append_assoc]⟩,
    ⟨_, by rw [expanded_edges, he, List.append_assoc]⟩⟩, fun _ _ => trivial⟩

/-- The children loop only appends to the node and edge sequences. -/
theorem recurse_grows (c : Clientset) (fuel : Nat) (rs : List KubernetesResource)
    (dt : DAGTraverser) (res : DAGTraverser × Exit)
    (h : recurse (GenerateDAGForResource c fuel) dt rs = some res) :
    (∃ mn, res.1.Graph.Nodes = dt.Graph.Nodes ++ mn) ∧
      ∃ me, res.1.Graph.Edges = dt.Graph.Edges ++ me := by
  refine recurse_invariant
    (fun d => (∃ mn, d.Graph.Nodes = dt.Graph.Nodes ++ mn) ∧
      ∃ me, d.Graph.Edges = dt.Graph.Edges ++ me) (fun _ => True)
    ?_ rs dt res ⟨⟨[], by simp⟩, ⟨[], by simp⟩⟩ (fun _ _ => trivial) h
  intro d k r hP _ hg
  obtain ⟨⟨mn, hn⟩, ⟨me, he⟩⟩ := hP
  obtain ⟨⟨mn', hn'⟩, ⟨me', he'⟩⟩ := GenerateDAGForResource_grows c fuel d k r hg
  exact ⟨⟨mn ++ mn', by rw [hn', hn, List.append_assoc]⟩,
    ⟨me ++ me', by rw [he', he, List.append_assoc]⟩⟩

/-- C4: when an unvisited identity `kr` is expanded (its resolver returned `rel`, the autoscaler
lookup `hpa`), the graph after the call is the graph before it, followed by the node of `kr`
with id = name + "-" + kind, title = name and description = kind, and by one edge per related
identity `r` whose source is that node id and whose target is `r`'s name + "-" + `r`'s kind
(then come the nodes and edges of the nested calls); and that target is the id `addNode`
gives the node of `r`, whatever the graph and status. -/
theorem C4_ids_match (c : Clientset) (fuel : Nat) (dt : DAGTraverser) (kr : KubernetesResource)
    (rel : List KubernetesResource) (st : Status) (hpa : List KubernetesResource)
    (res : DAGTraverser × Exit)
    (hv : kr.ResourceType ++ "_" ++ kr.ResourceName ∉ dt.Visited)
    (hr : resolveRelated c dt.Visited kr = .ok rel st)
    (hh : getHPAForController c kr = .ok hpa)
    (h : GenerateDAGForResource c (fuel + 1) dt kr = some res) :
    ∃ node moreNodes moreEdges,
      node.ID = kr.ResourceName ++ "-" ++ kr.ResourceType ∧
      node.Title = kr.ResourceName ∧ node.Description = kr.ResourceType ∧
      res.1.Graph.Nodes = dt.Graph.Nodes ++ node :: moreNodes ∧
      res.1.Graph.Edges = dt.Graph.Edges ++
        (rel ++ hpa).map (fun r =>
          { Source := node.ID, Target := r.ResourceName ++ "-" ++ r.ResourceType }) ++
        moreEdges ∧
      ∀ r ∈ rel ++ hpa, ∀ (g : Graph) (s : Status), ∃ n,
        (g.addNode r (.status s)).1.Nodes = g.Nodes ++ [n] ∧
          n.ID = r.ResourceName ++ "-" ++ r.ResourceType := by
  rcases GenerateDAGForResource_cases c fuel dt kr with
    ⟨_, h1 | h1⟩ | ⟨_, ⟨err, h1, _⟩ | ⟨h1, _⟩ | ⟨rel', st', err, _, h1, _⟩ |
      ⟨rel', st', hpa', hr', hh', h1⟩⟩
  · exact absurd h1 hv
  · rw [hr] at h1; cases h1
  · rw [hr] at h1; cases h1
  · rw [hr] at h1; cases h1
  · rw [hh] at h1; cases h1
  · rw [hr] at hr'; cases hr'
    rw [hh] at hh'; cases hh'
    rw [h1] at h
    obtain ⟨⟨mn, hn⟩, ⟨me, he⟩⟩ := recurse_grows c fuel _ _ res h
    rw [expanded_nodes] at hn
    rw [expanded_edges] at he
    refine ⟨{ ID := kr.ResourceName ++ "-" ++ kr.ResourceType
              Title := kr.ResourceName
              Description := kr.ResourceType
              Status := .status st
              Color := if st.OK then "#63f828" else "#f10909" },
      mn, me, rfl, rfl, rfl, ?_, ?_, ?_⟩
    · rw [hn, List.append_assoc]; rfl
    · rw [he]
    · intro r _ g s
      exact ⟨_, by rw [addNode_status], rfl⟩

/-- Witness of C4: the expansion of Service "web" in `webCluster`. -/
theorem C4_ids_match_witness :
    ∃ node moreNodes moreEdges,
      node.ID = "web-Service" ∧ node.Title = "web" ∧ node.Description = "Service" ∧
      webFinal.Graph.Nodes = [] ++ node :: moreNodes ∧
      webFinal.Graph.Edges = [] ++
        (([{ ResourceName := "web-d", ResourceType := "Deployment",
             ResourceNamespace := "prod" }] : List KubernetesResource) ++ []).map
          (fun (r : KubernetesResource) =>
            ({ Source := node.ID, Target := r.ResourceName ++ "-" ++ r.ResourceType } :
              ResourceViewerEdges)) ++
        moreEdges ∧
      ∀ r ∈ ([{ ResourceName := "web-d", ResourceType := "Deployment",
                ResourceNamespace := "prod" }] : List KubernetesResource) ++ [],
        ∀ (g : Graph) (s : Status), ∃ n,
          (g.addNode r (.status s)).1.Nodes = g.Nodes ++ [n] ∧
            n.ID = r.ResourceName ++ "-" ++ r.ResourceType :=
  C4_ids_match webCluster 4 freshTraverser webRoot
    [{ ResourceName := "web-d", ResourceType := "Deployment", ResourceNamespace := "prod" }]
    (.Service { Ok := true, Namespace := "prod", Created := "0s", SessionAffinity := ""
                Message := "Service is OK" })
    [] (webFinal, .nil) (by decide) (by rfl) (by rfl) (by rfl)

/-! ## C5: edges and nodes -/

theorem EdgeAccounted_mono (g g' : Graph) (e : ResourceViewerEdges)
    (hsub : ∀ n ∈ g.Nodes, n ∈ g'.Nodes) (h : EdgeAccounted g e) : EdgeAccounted g' e := by
  obtain ⟨⟨n, hn, hs⟩, ht⟩ := h
  refine ⟨⟨n, hsub n hn, hs⟩, ?_⟩
  rcases ht with ⟨m, hm, hmt⟩ | ht
  · exact Or.inl ⟨m, hsub m hm, hmt⟩
  · exact Or.inr ht

theorem VisitedHaveNodes_expanded (c : Clientset) (dt : DAGTraverser) (kr : KubernetesResource)
    (rel : List KubernetesResource) (st : Status) (rs : List KubernetesResource)
    (hI : VisitedHaveNodes dt) (hr : resolveRelated c dt.Visited kr = .ok rel st) :
    VisitedHaveNodes (expanded dt kr st rs) := by
  intro key hkey
  rw [expanded_visited, mem_mapSet] at hkey
  rw [expanded_nodes]
  rcases hkey with hkey | hkey
  · obtain ⟨n, hn, h1, h2, h3⟩ := hI key hkey
    exact ⟨n, List.mem_append_left _ hn, h1, h2, h3⟩
  · refine ⟨_, List.mem_append_right _ (List.mem_singleton_self _), ?_, hkey, rfl⟩
    exact resolveRelated_supported c dt.Visited kr (by rw [hr]; simp)

theorem VisitedHaveNodes_invariant (c : Clientset) (fuel : Nat) (dt : DAGTraverser)
    (kr : KubernetesResource) (res : DAGTraverser × Exit) (hI : VisitedHaveNodes dt)
    (h : GenerateDAGForResource c fuel dt kr = some res) : VisitedHaveNodes res.1 :=
  GenerateDAGForResource_invariant c VisitedHaveNodes (fun _ => True)
    (fun d k rel st hpa hP _ _ hr _ =>
      ⟨VisitedHaveNodes_expanded c d k rel st (rel ++ hpa) hP hr, fun _ _ => trivial⟩)
    fuel dt kr res hI trivial h

theorem expanded_has_node (dt : DAGTraverser) (kr : KubernetesResource) (st : Status)
    (rs : List KubernetesResource) :
    ∃ nd ∈ (expanded dt kr st rs).Graph.Nodes,
      nd.ID = kr.ResourceName ++ "-" ++ kr.ResourceType ∧ nd.Title = kr.ResourceName ∧
        nd.Description = kr.ResourceType := by
  rw [expanded_nodes]
  exact ⟨_, List.mem_append_right _ (List.mem_singleton_self _), rfl, rfl, rfl⟩

theorem nodes_subset_of_grows {dt dt' : DAGTraverser}
    (h : ∃ mn, dt'.Graph.Nodes = dt.Graph.Nodes ++ mn) :
    ∀ n ∈ dt.Graph.Nodes, n ∈ dt'.Graph.Nodes := by
  obtain ⟨mn, hmn⟩ := h
  intro n hn
  rw [hmn]
  exact List.mem_append_left _ hn

/-- After a children loop that ends with nil, every child of a supported kind has a node and
every edge added by the loop is accounted for. -/
theorem recurse_resolves (c : Clientset) (fuel : Nat)
    (ih : ∀ (dt : DAGTraverser) (kr : KubernetesResource) (dt' : DAGTraverser),
      VisitedHaveNodes dt → GenerateDAGForResource c fuel dt kr = some (dt', .nil) →
      (kr.ResourceType ∈ supportedKinds →
        ∃ n ∈ dt'.Graph.Nodes, n.ID = kr.ResourceName ++ "-" ++ kr.ResourceType) ∧
      ∀ e ∈ dt'.Graph.Edges, e ∈ dt.Graph.Edges ∨ EdgeAccounted dt'.Graph e) :
    ∀ (rs : List KubernetesResource) (dt dt' : DAGTraverser),
      VisitedHaveNodes dt → recurse (GenerateDAGForResource c fuel) dt rs = some (dt', .nil) →
      (∀ r ∈ rs, r.ResourceType ∈ supportedKinds →
        ∃ n ∈ dt'.Graph.Nodes, n.ID = r.ResourceName ++ "-" ++ r.ResourceType) ∧
      ∀ e ∈ dt'.Graph.Edges, e ∈ dt.Graph.Edges ∨ EdgeAccounted dt'.Graph e := by
  intro rs
  induction rs with
  | nil =>
    intro dt dt' _ h
    simp [recurse] at h
    subst h
    exact ⟨fun r hr _ => (by cases hr), fun e he => Or.inl he⟩
  | cons r rs ihl =>
    intro dt dt' hI h
    cases hg : GenerateDAGForResource c fuel dt r with
    | none => simp [recurse, hg] at h
    | some p =>
      obtain ⟨dt1, e1⟩ := p
      cases e1 with
      | error err => simp [recurse, hg] at h
      | panic => simp [recurse, hg] at h
      | nil =>
        simp [recurse, hg] at h
        have hI1 := VisitedHaveNodes_invariant c fuel dt r (dt1, .nil) hI hg
        obtain ⟨hA1, hB1⟩ := ih dt r dt1 hI hg
        obtain ⟨hA2, hB2⟩ := ihl dt1 dt' hI1 h
        have hsub := nodes_subset_of_grows (recurse_grows c fuel rs dt1 (dt', .nil) h).1
        constructor
        · intro x hx hsup
          rcases List.mem_cons.mp hx with hx | hx
          · subst hx
            obtain ⟨n, hn, hid⟩ := hA1 hsup
            exact ⟨n, hsub n hn, hid⟩
          · exact hA2 x hx hsup
        · intro e he
          rcases hB2 e he with he1 | hacc
          · rcases hB1 e he1 with he0 | hacc1
            · exact Or.inl he0
            · exact Or.inr (EdgeAccounted_mono _ _ e hsub hacc1)
          · exact Or.inr hacc

/-- After a call that ends with nil, an identity of a supported kind has a node and every
edge added by the call is accounted for. -/
theorem GenerateDAGForResource_resolves (c : Clientset) :
    ∀ (fuel : Nat) (dt : DAGTraverser) (kr : KubernetesResource) (dt' : DAGTraverser),
      VisitedHaveNodes dt → GenerateDAGForResource c fuel dt kr = some (dt', .nil) →
      (kr.ResourceType ∈ supportedKinds →
        ∃ n ∈ dt'.Graph.Nodes, n.ID = kr.ResourceName ++ "-" ++ kr.ResourceType) ∧
      ∀ e ∈ dt'.Graph.Edges, e ∈ dt.Graph.Edges ∨ EdgeAccounted dt'.Graph e := by
  intro fuel
  induction fuel with
  | zero =>
    intro dt kr dt' _ h
    simp [GenerateDAGForResource] at h
  | succ n ih =>
    intro dt kr dt' hI h
    rcases GenerateDAGForResource_cases c n dt kr with
      ⟨h1, hvis | hun⟩ | ⟨hv, ⟨err, _, h1⟩ | ⟨_, h1⟩ | ⟨rel, st, err, _, _, h1⟩ |
        ⟨rel, st, hpa, hr, hh, h1⟩⟩
    · rw [h1] at h
      cases h
      refine ⟨fun hsup => ?_, fun e he => Or.inl he⟩
      obtain ⟨nd, hnd, hd, hkey, hid⟩ := hI _ hvis
      obtain ⟨hk, hn⟩ := key_injective _ _ _ _ (supported_no_underscore _ hsup)
        (supported_no_underscore _ hd) hkey
      exact ⟨nd, hnd, by rw [hid, hk, hn]⟩
    · rw [h1] at h
      cases h
      exact ⟨fun hsup => absurd hun (supported_resolves c _ kr hsup), fun e he => Or.inl he⟩
    · rw [h1] at h; cases h
    · rw [h1] at h; cases h
    · rw [h1] at h; cases h
    · rw [h1] at h
      have hI1 := VisitedHaveNodes_expanded c dt kr rel st (rel ++ hpa) hI hr
      obtain ⟨hA, hB⟩ := recurse_resolves c n ih (rel ++ hpa) _ dt' hI1 h
      have hsub := nodes_subset_of_grows (recurse_grows c n _ _ (dt', .nil) h).1
      obtain ⟨nd0, hnd0, hid0, -, -⟩ := expanded_has_node dt kr st (rel ++ hpa)
      have hnode : ∃ nd ∈ dt'.Graph.Nodes,
          nd.ID = kr.ResourceName ++ "-" ++ kr.ResourceType := ⟨nd0, hsub _ hnd0, hid0⟩
      refine ⟨fun _ => hnode, ?_⟩
      intro e he
      rcases hB e he with he1 | hacc
      · rw [expanded_edges] at he1
        rcases List.mem_append.mp he1 with he0 | hnew
        · exact Or.inl he0
        · right
          obtain ⟨r, hrmem, hre⟩ := List.mem_map.mp hnew
          subst hre
          refine ⟨hnode, ?_⟩
          by_cases hsup : r.ResourceType ∈ supportedKinds
          · exact Or.inl (hA r hrmem hsup)
          · right
            refine ⟨r.ResourceName, r.ResourceType, ?_, rfl⟩
            rcases List.mem_append.mp hrmem with hrel | hhpa
            · have hk := (resolveRelated_related c dt.Visited kr rel st hr r hrel).1
              rcases List.mem_append.mp hk with hk | hk
              · exact absurd hk hsup
              · simp only [List.mem_cons, List.mem_singleton, List.not_mem_nil, or_false] at hk
                rcases hk with hk | hk <;> simp [hk, unexpandedKinds]
            · simp [hpa_related c kr hpa hh r hhpa, unexpandedKinds]
      · exact Or.inr hacc

/-- C5, counterexample: in `hpaCluster` the traversal from Deployment "web" succeeds and
leaves the edge to the autoscaler "web-hpa" without a node for its target. -/
theorem C5_counterexample :
    GenerateDAGForResource hpaCluster 2 freshTraverser deploymentRoot =
        some (hpaFinal, .nil) ∧
      ¬ ∀ e ∈ hpaFinal.Graph.Edges,
        (∃ n ∈ hpaFinal.Graph.Nodes, n.ID = e.Source) ∧
          ∃ n ∈ hpaFinal.Graph.Nodes, n.ID = e.Target :=
  ⟨by rfl, by decide⟩

/-- C5, amended: after every successful traversal on a fresh traverser, the source of every
edge is the id of a node of the graph, and the target of every edge is the id of a node of
the graph or is name + "-" + kind for a related identity of a kind that is never expanded
(HorizontalPodAutoscaler, PodDisruptionBudget, NetworkPolicy). -/
theorem C5_edges_accounted (c : Clientset) (fuel : Nat) (kr : KubernetesResource)
    (dt' : DAGTraverser)
    (h : GenerateDAGForResource c fuel freshTraverser kr = some (dt', .nil)) :
    ∀ e ∈ dt'.Graph.Edges,
      (∃ n ∈ dt'.Graph.Nodes, n.ID = e.Source) ∧
        ((∃ n ∈ dt'.Graph.Nodes, n.ID = e.Target) ∨
          ∃ name kind, kind ∈ ["HorizontalPodAutoscaler", "PodDisruptionBudget",
            "NetworkPolicy"] ∧ e.Target = name ++ "-" ++ kind) := by
  intro e he
  have hI : VisitedHaveNodes freshTraverser := by
    intro k hk
    cases hk
  rcases (GenerateDAGForResource_resolves c fuel freshTraverser kr dt' hI h).2 e he with h0 | h1
  · cases h0
  · exact h1

/-- Witness of C5 (amended): the traversal of `hpaCluster`. -/
theorem C5_edges_accounted_witness :
    GenerateDAGForResource hpaCluster 2 freshTraverser deploymentRoot =
        some (hpaFinal, .nil) ∧
      ∀ e ∈ hpaFinal.Graph.Edges,
        (∃ n ∈ hpaFinal.Graph.Nodes, n.ID = e.Source) ∧
          ((∃ n ∈ hpaFinal.Graph.Nodes, n.ID = e.Target) ∨
            ∃ name kind, kind ∈ ["HorizontalPodAutoscaler", "PodDisruptionBudget",
              "NetworkPolicy"] ∧ e.Target = name ++ "-" ++ kind) :=
  ⟨by rfl, C5_edges_accounted hpaCluster 2 deploymentRoot hpaFinal (by rfl)⟩

/-! ## C6: errors and partial graphs -/

/-- C6, counterexample: in `brokenCluster` the traversal from Deployment "web" returns the
error of the ReplicaSet "web-rs", and the traverser's graph then holds the node of the
Deployment and the edge to the ReplicaSet, neither of which was there before the call. -/
theorem C6_counterexample :
    GenerateDAGForResource brokenCluster 2 freshTraverser deploymentRoot =
        some (brokenFinal, .error
          "unable to get related resources for ReplicaSet: unable to get replica set: forbidden") ∧
      ¬ (∀ n ∈ brokenFinal.Graph.Nodes, n ∈ freshTraverser.Graph.Nodes) ∧
      ¬ (∀ e ∈ brokenFinal.Graph.Edges, e ∈ freshTraverser.Graph.Edges) :=
  ⟨by rfl, by decide, by decide⟩

/-- C6, amended: when the traversal started by `GetK8sDeploymentInfoHandler` returns an error,
no graph, partial or not, reaches the caller: the handler answers with status 500 and no
content. -/
theorem C6_no_graph_on_error (h : GetK8sDeploymentInfoHandler) (clientset : Clientset)
    (fuel : Nat) (dt' : DAGTraverser) (msg : String)
    (herr : GenerateDAGForResource clientset fuel freshTraverser
      { ResourceName := h.Deployment, ResourceType := "Deployment",
        ResourceNamespace := h.NS } = some (dt', .error msg)) :
    ServeHTTP fuel h (.ok clientset) = some (.NoContent 500) := by
  simp only [ServeHTTP, herr]

/-- Witness of C6 (amended): the handler on `brokenCluster`. -/
theorem C6_no_graph_on_error_witness :
    ServeHTTP 2 { ID := "1", Name := "local", NS := "prod", Deployment := "web" }
      (.ok brokenCluster) = some (.NoContent 500) :=
  C6_no_graph_on_error { ID := "1", Name := "local", NS := "prod", Deployment := "web" }
    brokenCluster 2 brokenFinal
    "unable to get related resources for ReplicaSet: unable to get replica set: forbidden"
    (by rfl)

/-! ## C7 and C8: fatal and soft fetch errors -/

theorem switchCase_error {σ : Type} (kind : String) (toStatus : σ → Status)
    (x : Res (List KubernetesResource × σ)) (err : String)
    (h : switchCase kind toStatus x = .failed (.error err)) :
    ∃ cause, err = "unable to get related resources for " ++ kind ++ ": " ++ cause := by
  unfold switchCase at h
  split at h
  · rename_i e
    simp only [Resolved.failed.injEq, Failure.error.injEq] at h
    exact ⟨e, h.symm⟩
  · cases h
  · cases h

/-- An error of the switch names the kind of the identity being resolved. -/
theorem resolveRelated_error_names_kind (c : Clientset) (v : List String)
    (kr : KubernetesResource) (err : String)
    (h : resolveRelated c v kr = .failed (.error err)) :
    ∃ cause,
      err = "unable to get related resources for " ++ kr.ResourceType ++ ": " ++ cause := by
  unfold resolveRelated at h
  split_ifs at h with h1 h2 h3 h4 h5 h6 h7 h8 h9
  · rw [h1]; exact switchCase_error _ _ _ _ h
  · rw [h2]; exact switchCase_error _ _ _ _ h
  · rw [h3]; exact switchCase_error _ _ _ _ h
  · rw [h4]; exact switchCase_error _ _ _ _ h
  · rw [h5]; exact switchCase_error _ _ _ _ h
  · rw [h6]; exact switchCase_error _ _ _ _ h
  · rw [h7]; exact switchCase_error _ _ _ _ h
  · rw [h8]; exact switchCase_error _ _ _ _ h
  · rw [h9]; exact switchCase_error _ _ _ _ h

/-- C7, the code against the claim: an error of the resolver of an identity is returned with
the text "unable to get related resources for K: " where K is the identity's kind, as
claimed; but at the failing input, the Deployment "web" of `noHPACluster` whose resolver
succeeds and whose listing of autoscalers fails, the error returned names the kind Service
instead of Deployment. -/
theorem C7_hpa_error_names_Service :
    (∀ (c : Clientset) (fuel : Nat) (dt : DAGTraverser) (kr : KubernetesResource)
        (err : String),
        kr.ResourceType ++ "_" ++ kr.ResourceName ∉ dt.Visited →
        resolveRelated c dt.Visited kr = .failed (.error err) →
        GenerateDAGForResource c (fuel + 1) dt kr = some (dt, .error err) ∧
          ∃ cause, err =
            "unable to get related resources for " ++ kr.ResourceType ++ ": " ++ cause) ∧
      GenerateDAGForResource noHPACluster 1 freshTraverser deploymentRoot =
        some (freshTraverser,
          .error "unable to get related resources for Service: unable to get HPAs: boom") := by
  refine ⟨?_, by rfl⟩
  intro c fuel dt kr err hv hr
  refine ⟨?_, resolveRelated_error_names_kind c dt.Visited kr err hr⟩
  simp [GenerateDAGForResource, hv, hr]

/-- Identities of kinds the switch has no case for are skipped by the children loop. -/
theorem recurse_unsupported (c : Clientset) (fuel : Nat) (dt : DAGTraverser) :
    ∀ (rs : List KubernetesResource), (∀ r ∈ rs, r.ResourceType ∉ supportedKinds) →
      recurse (GenerateDAGForResource c (fuel + 1)) dt rs = some (dt, .nil) := by
  intro rs
  induction rs with
  | nil => intro _; rfl
  | cons r rs ih =>
    intro h
    have hr : GenerateDAGForResource c (fuel + 1) dt r = some (dt, .nil) := by
      by_cases hv : r.ResourceType ++ "_" ++ r.ResourceName ∈ dt.Visited
      · simp [GenerateDAGForResource, hv]
      · simp [GenerateDAGForResource, hv,
          resolveRelated_unsupported c dt.Visited r (h r (List.mem_cons_self _ _))]
    simp only [recurse, hr]
    exact ih (fun x hx => h x (List.mem_cons_of_mem _ hx))

theorem resolveRelated_secret_error (c : Clientset) (v : List String) (kr : KubernetesResource)
    (err : String) (hk : kr.ResourceType = "Secret")
    (hg : c.GetSecret kr.ResourceNamespace kr.ResourceName = .error err) :
    resolveRelated c v kr = .ok [] (.Secret { Ok := false, Message := err }) := by
  simp [resolveRelated, hk, switchCase, getRelatedResourcesSecret, hg]

theorem resolveRelated_configMap_error (c : Clientset) (v : List String)
    (kr : KubernetesResource) (err : String) (hk : kr.ResourceType = "ConfigMap")
    (hg : c.GetConfigMap kr.ResourceNamespace kr.ResourceName = .error err) :
    resolveRelated c v kr = .ok [] (.ConfigMap { Ok := false, Message := err }) := by
  simp [resolveRelated, hk, switchCase, getRelatedResourcesConfigMap, hg]

/-- C8: for a Secret or ConfigMap identity that is not yet visited, whose fetch fails with
`err` while the autoscalers of its namespace can be listed, `GenerateDAGForResource` returns
nil and appends exactly one node, for that identity, coloured "#f10909", whose status has
ok = false and message = `err`; a children loop that reaches such an identity (for instance
the loop of a Pod that references a missing Secret) goes on with the next child. -/
theorem C8_soft_fetch_error (c : Clientset) (fuel : Nat) (dt : DAGTraverser)
    (kr : KubernetesResource) (err : String) (hpas : List HorizontalPodAutoscaler)
    (hfetch : (kr.ResourceType = "Secret" ∧
        c.GetSecret kr.ResourceNamespace kr.ResourceName = .error err) ∨
      (kr.ResourceType = "ConfigMap" ∧
        c.GetConfigMap kr.ResourceNamespace kr.ResourceName = .error err))
    (hhpa : c.ListHorizontalPodAutoscalers kr.ResourceNamespace = .ok hpas)
    (hv : kr.ResourceType ++ "_" ++ kr.ResourceName ∉ dt.Visited) :
    ∃ dt' node s,
      GenerateDAGForResource c (fuel + 2) dt kr = some (dt', .nil) ∧
      dt'.Graph.Nodes = dt.Graph.Nodes ++ [node] ∧
      node.Title = kr.ResourceName ∧ node.Description = kr.ResourceType ∧
      node.Color = "#f10909" ∧ node.Status = .status s ∧
      s.OK = false ∧ s.Message = err ∧
      ∀ rest, recurse (GenerateDAGForResource c (fuel + 2)) dt (kr :: rest) =
        recurse (GenerateDAGForResource c (fuel + 2)) dt' rest := by
  obtain ⟨hpa, hh⟩ : ∃ hpa, getHPAForController c kr = .ok hpa := by
    simp [getHPAForController, hhpa]
  have hun := hpa_unsupported c kr hpa hh
  have main : ∀ s : Status, resolveRelated c dt.Visited kr = .ok [] s →
      GenerateDAGForResource c (fuel + 2) dt kr = some (expanded dt kr s ([] ++ hpa), .nil) := by
    intro s hs
    rcases GenerateDAGForResource_cases c (fuel + 1) dt kr with
      ⟨_, h2 | h2⟩ | ⟨_, ⟨e, h2, _⟩ | ⟨h2, _⟩ | ⟨rel', st', e, _, h2, _⟩ |
        ⟨rel', st', hpa', hr', hh', h2⟩⟩
    · exact absurd h2 hv
    · rw [hs] at h2; cases h2
    · rw [hs] at h2; cases h2
    · rw [hs] at h2; cases h2
    · rw [hh] at h2; cases h2
    · rw [hs] at hr'; cases hr'
      rw [hh] at hh'; cases hh'
      rw [h2]
      exact recurse_unsupported c fuel _ _ (by simpa using hun)
  rcases hfetch with ⟨hk, hg⟩ | ⟨hk, hg⟩
  · have hs := resolveRelated_secret_error c dt.Visited kr err hk hg
    have hm := main _ hs
    refine ⟨_, _, _, hm, expanded_nodes _ _ _ _, rfl, rfl, rfl, rfl, rfl, rfl, ?_⟩
    intro rest
    simp only [recurse, hm]
  · have hs := resolveRelated_configMap_error c dt.Visited kr err hk hg
    have hm := main _ hs
    refine ⟨_, _, _, hm, expanded_nodes _ _ _ _, rfl, rfl, rfl, rfl, rfl, rfl, ?_⟩
    intro rest
    simp only [recurse, hm]

/-- Witness of C8: the Secret "missing" of `missingSecretCluster`, alone and as the child
of Pod "db-0", whose traversal ends with nil. -/
theorem C8_soft_fetch_error_witness :
    (∃ dt' node s,
      GenerateDAGForResource missingSecretCluster (0 + 2) freshTraverser missingSecret =
        some (dt', .nil) ∧
      dt'.Graph.Nodes = freshTraverser.Graph.Nodes ++ [node] ∧
      node.Title = missingSecret.ResourceName ∧
      node.Description = missingSecret.ResourceType ∧
      node.Color = "#f10909" ∧ node.Status = .status s ∧
      s.OK = false ∧ s.Message = "secrets \"missing\" not found" ∧
      ∀ rest, recurse (GenerateDAGForResource missingSecretCluster (0 + 2)) freshTraverser
          (missingSecret :: rest) =
        recurse (GenerateDAGForResource missingSecretCluster (0 + 2)) dt' rest) ∧
    GenerateDAGForResource missingSecretCluster 3 freshTraverser
        { ResourceName := "db-0", ResourceType := "Pod", ResourceNamespace := "prod" } =
      some (missingSecretFinal, .nil) :=
  ⟨C8_soft_fetch_error missingSecretCluster 0 freshTraverser missingSecret
    "secrets \"missing\" not found" [] (Or.inl ⟨rfl, rfl⟩) rfl (by decide), by rfl⟩

/-! ## C9: ReplicaSets below a Deployment -/

theorem OnlyNameOwnedReplicaSets_step (c : Clientset) (root : KubernetesResource)
    (dt : DAGTraverser) (kr : KubernetesResource) (rel : List KubernetesResource) (st : Status)
    (hpa : List KubernetesResource) (hP : OnlyNameOwnedReplicaSets c root dt)
    (hA : kr.ResourceType ≠ "Deployment" ∧
      (kr.ResourceType = "ReplicaSet" → NameOwnedReplicaSet c root kr.ResourceName))
    (hr : resolveRelated c dt.Visited kr = .ok rel st)
    (hh : getHPAForController c kr = .ok hpa) :
    OnlyNameOwnedReplicaSets c root (expanded dt kr st (rel ++ hpa)) ∧
      ∀ r ∈ rel ++ hpa, r.ResourceType ≠ "Deployment" ∧
        (r.ResourceType = "ReplicaSet" → NameOwnedReplicaSet c root r.ResourceName) := by
  obtain ⟨hvis, hnodes, hedges⟩ := hP
  have hnoRS : ∀ r ∈ rel ++ hpa, r.ResourceType ≠ "ReplicaSet" := by
    intro r hmem ht
    rcases List.mem_append.mp hmem with h | h
    · exact hA.1 ((resolveRelated_related c dt.Visited kr rel st hr r h).2.2 ht).1
    · rw [hpa_related c kr hpa hh r h] at ht
      exact absurd ht (by decide)
  refine ⟨⟨?_, ?_, ?_⟩, ?_⟩
  · rw [expanded_visited]
    exact kindVisited_mapSet _ _ _ hvis
  · intro n hn hd
    rw [expanded_nodes] at hn
    rcases List.mem_append.mp hn with h | h
    · exact hnodes n h hd
    · simp only [List.mem_singleton] at h
      subst h
      exact hA.2 hd
  · intro e he name ht
    rw [expanded_edges] at he
    rcases List.mem_append.mp he with h | h
    · exact hedges e h name ht
    · obtain ⟨r, hrmem, hre⟩ := List.mem_map.mp h
      subst hre
      have hk := related_kind c dt.Visited kr rel st hpa hr hh r hrmem
      obtain ⟨-, hty⟩ := id_injective _ _ _ _ (relatedKinds_no_dash _ hk) (by decide) ht
      exact absurd hty (hnoRS r hrmem)
  · intro r hmem
    refine ⟨?_, fun ht => absurd ht (hnoRS r hmem)⟩
    intro ht
    rcases List.mem_append.mp hmem with h | h
    · have := (resolveRelated_related c dt.Visited kr rel st hr r h).2.1 ht
      rw [hvis] at this
      cases this
    · rw [hpa_related c kr hpa hh r h] at ht
      exact absurd ht (by decide)

/-- First half of C9. -/
theorem replicaSets_owned (c : Clientset) (fuel : Nat) (root : KubernetesResource)
    (dt' : DAGTraverser) (exit : Exit) (hroot : root.ResourceType = "Deployment")
    (h : GenerateDAGForResource c fuel freshTraverser root = some (dt', exit)) :
    (∀ n ∈ dt'.Graph.Nodes, n.Description = "ReplicaSet" → NameOwnedReplicaSet c root n.Title) ∧
      ∀ e ∈ dt'.Graph.Edges, ∀ name, e.Target = name ++ "-" ++ "ReplicaSet" →
        NameOwnedReplicaSet c root name := by
  have hfresh : (∀ n ∈ freshTraverser.Graph.Nodes, n.Description = "ReplicaSet" →
      NameOwnedReplicaSet c root n.Title) ∧
      ∀ e ∈ freshTraverser.Graph.Edges, ∀ name, e.Target = name ++ "-" ++ "ReplicaSet" →
        NameOwnedReplicaSet c root name :=
    ⟨fun n hn => (by cases hn), fun e he => (by cases he)⟩
  cases fuel with
  | zero => simp [GenerateDAGForResource] at h
  | succ n =>
    rcases GenerateDAGForResource_cases c n freshTraverser root with
      ⟨h1, _⟩ | ⟨hv, ⟨err, _, h1⟩ | ⟨_, h1⟩ | ⟨rel, st, err, _, _, h1⟩ |
        ⟨rel, st, hpa, hr, hh, h1⟩⟩
    · rw [h1] at h; cases h; exact hfresh
    · rw [h1] at h; cases h; exact hfresh
    · rw [h1] at h; cases h; exact hfresh
    · rw [h1] at h; cases h; exact hfresh
    · rw [h1] at h
      have hrelA : ∀ r ∈ rel ++ hpa, r.ResourceType ≠ "Deployment" ∧
          (r.ResourceType = "ReplicaSet" → NameOwnedReplicaSet c root r.ResourceName) := by
        intro r hmem
        rcases List.mem_append.mp hmem with hm | hm
        · exact ⟨deployment_related_kinds c _ root rel st hroot hr r hm,
            fun ht => ((resolveRelated_related c _ root rel st hr r hm).2.2 ht).2.2⟩
        · rw [hpa_related c root hpa hh r hm]
          exact ⟨by decide, fun ht => absurd ht (by decide)⟩
      have hP1 : OnlyNameOwnedReplicaSets c root (expanded freshTraverser root st (rel ++ hpa)) := by
        refine ⟨?_, ?_, ?_⟩
        · rw [expanded_visited, hroot]
          simp only [freshTraverser, mapSet, List.not_mem_nil, if_false, List.nil_append,
            kindVisited, List.any_cons, List.any_nil, Bool.or_false]
          rw [splitFirst_key _ _ (by decide)]
          decide
        · intro nd hn hd
          rw [expanded_nodes] at hn
          rcases List.mem_append.mp hn with hm | hm
          · cases hm
          · simp only [List.mem_singleton] at hm
            subst hm
            have hd' : root.ResourceType = "ReplicaSet" := hd
            rw [hroot] at hd'
            exact absurd hd' (by decide)
        · intro e he name ht
          rw [expanded_edges] at he
          rcases List.mem_append.mp he with hm | hm
          · cases hm
          · obtain ⟨r, hrmem, hre⟩ := List.mem_map.mp hm
            subst hre
            have hk := related_kind c _ root rel st hpa hr hh r hrmem
            obtain ⟨hnm, hty⟩ := id_injective _ _ _ _ (relatedKinds_no_dash _ hk) (by decide) ht
            rw [← hnm]
            exact (hrelA r hrmem).2 hty
      have hfin := recurse_invariant (OnlyNameOwnedReplicaSets c root)
        (fun r => r.ResourceType ≠ "Deployment" ∧
          (r.ResourceType = "ReplicaSet" → NameOwnedReplicaSet c root r.ResourceName))
        (GenerateDAGForResource_invariant c (OnlyNameOwnedReplicaSets c root) _
          (fun d k rl s hp hP hA _ hr' hh' => OnlyNameOwnedReplicaSets_step c root d k rl s hp hP hA hr' hh')
          n)
        (rel ++ hpa) _ (dt', exit) hP1 hrelA h
      exact hfin.2


theorem ownedReplicaSet_complete (kr : KubernetesResource) (replica : ReplicaSet)
    (out : List KubernetesResource) (h : ownedReplicaSet kr replica = .ok out)
    (hown : ∃ ref ∈ replica.OwnerReferences, ref.Name = kr.ResourceName)
    (n : Int) (hn : replica.Spec.Replicas = some n) (hpos : 0 < n) :
    ({ ResourceName := replica.Name, ResourceType := "ReplicaSet",
       ResourceNamespace := replica.Namespace } : KubernetesResource) ∈ out := by
  obtain ⟨ref, href, hname⟩ := hown
  obtain ⟨xs, hxs, hsub⟩ := forEach_sub _ _ _ h ref href
  simp only [hname, hn, if_true, gt_iff_lt, hpos] at hxs
  simp only [Except.ok.injEq] at hxs
  subst hxs
  exact hsub _ (List.mem_singleton_self _)

theorem deployments_related_complete (c : Clientset) (v : List String)
    (kr : KubernetesResource) (rel : List KubernetesResource) (st : DeploymentStatus)
    (h : getRelatedResourcesDeployments c v kr = .ok (rel, st))
    (hk : kindVisited "ReplicaSet" v = false) (items : List ReplicaSet)
    (hitems : c.ListReplicaSets kr.ResourceNamespace = .ok items)
    (replica : ReplicaSet) (hmem : replica ∈ items)
    (hown : ∃ ref ∈ replica.OwnerReferences, ref.Name = kr.ResourceName)
    (n : Int) (hn : replica.Spec.Replicas = some n) (hpos : 0 < n) :
    ({ ResourceName := replica.Name, ResourceType := "ReplicaSet",
       ResourceNamespace := replica.Namespace } : KubernetesResource) ∈ rel := by
  unfold getRelatedResourcesDeployments at h
  split at h
  · cases h
  · split at h
    · cases h
    · simp only [hitems, hk] at h
      split at h
      · cases h
      · rename_i fromRS hRS
        split at h
        · cases h
        · split at h
          · cases h
          · simp only [Except.ok.injEq, Prod.mk.injEq] at h
            obtain ⟨hrel, -⟩ := h
            subst hrel
            simp only [Bool.false_eq_true, if_false] at hRS
            obtain ⟨xs, hxs, hsub⟩ := forEach_sub _ _ _ hRS replica hmem
            exact List.mem_append_left _ (List.mem_append_left _
              (hsub _ (ownedReplicaSet_complete kr replica xs hxs hown n hn hpos)))

theorem NodesWellFormed_invariant (c : Clientset) (fuel : Nat) (kr : KubernetesResource)
    (res : DAGTraverser × Exit)
    (h : GenerateDAGForResource c fuel freshTraverser kr = some res) :
    NodesWellFormed res.1 := by
  refine GenerateDAGForResource_invariant c NodesWellFormed (fun _ => True) ?_
    fuel freshTraverser kr res (fun n hn => by cases hn) trivial h
  intro d k rel st hpa hP _ _ hr _
  refine ⟨?_, fun _ _ => trivial⟩
  intro n hn
  rw [expanded_nodes] at hn
  rcases List.mem_append.mp hn with hm | hm
  · exact hP n hm
  · simp only [List.mem_singleton] at hm
    subst hm
    exact ⟨rfl, resolveRelated_supported c d.Visited k (by rw [hr]; simp)⟩

theorem nodup_all_eq {α : Type} (p : α) :
    ∀ (l : List α), l.Nodup → (∀ x ∈ l, x = p) → l.length ≤ 1 := by
  intro l hnd hall
  match l, hnd, hall with
  | [], _, _ => simp
  | [_], _, _ => simp
  | a :: b :: rest, hnd, hall =>
    have ha := hall a (List.mem_cons_self _ _)
    have hb := hall b (List.mem_cons_of_mem _ (List.mem_cons_self _ _))
    rw [List.nodup_cons] at hnd
    exact absurd (ha.trans hb.symm ▸ List.mem_cons_self _ _) hnd.1


/-- What the code guarantees about the ReplicaSets below a root Deployment: in every
successful traversal rooted at a Deployment on a fresh traverser, a ReplicaSet is a node, or
the target of an edge, only if the listing of ReplicaSets in the root's namespace holds a
ReplicaSet of that name with an owner reference whose name is the root's (of whatever kind)
and a spec replica count greater than 0.  When exactly two ReplicaSets of that listing have
such a reference, `rs0` with 0 replicas and `rs3` with 3, the graph has exactly one node of
kind ReplicaSet, that of `rs3`, and `rs0` is neither a node nor the target of an edge. -/
theorem replicaSets_of_root_by_name (c : Clientset) (fuel : Nat) (root : KubernetesResource)
    (dt' : DAGTraverser) (hroot : root.ResourceType = "Deployment")
    (h : GenerateDAGForResource c fuel freshTraverser root = some (dt', .nil)) :
    ((∀ n ∈ dt'.Graph.Nodes, n.Description = "ReplicaSet" → NameOwnedReplicaSet c root n.Title) ∧
      ∀ e ∈ dt'.Graph.Edges, ∀ name, e.Target = name ++ "-" ++ "ReplicaSet" →
        NameOwnedReplicaSet c root name) ∧
    ∀ (items : List ReplicaSet) (rs0 rs3 : ReplicaSet),
      c.ListReplicaSets root.ResourceNamespace = .ok items →
      (∀ x ∈ items, (∃ ref ∈ x.OwnerReferences, ref.Name = root.ResourceName) ↔
        (x = rs0 ∨ x = rs3)) →
      rs0 ∈ items → rs3 ∈ items →
      rs0.Spec.Replicas = some 0 → rs3.Spec.Replicas = some 3 → rs0.Name ≠ rs3.Name →
      (∃ node, dt'.Graph.Nodes.filter (fun n => n.Description = "ReplicaSet") = [node] ∧
        node.Title = rs3.Name) ∧
      (∀ n ∈ dt'.Graph.Nodes, ¬ (n.Description = "ReplicaSet" ∧ n.Title = rs0.Name)) ∧
      ∀ e ∈ dt'.Graph.Edges, e.Target ≠ rs0.Name ++ "-" ++ "ReplicaSet" := by
  have hfirst := replicaSets_owned c fuel root dt' .nil hroot h
  refine ⟨hfirst, ?_⟩
  intro items rs0 rs3 hitems hown _ hmem3 hrep0 hrep3 hne
  have hOwnedName : ∀ name, NameOwnedReplicaSet c root name → name = rs3.Name := by
    rintro name ⟨items', hitems', replica, hrm, hrn, hro, m, hm, hmpos⟩
    rw [hitems] at hitems'
    cases hitems'
    rcases (hown replica hrm).mp hro with hx | hx
    · subst hx
      rw [hrep0] at hm
      cases hm
      exact absurd hmpos (by decide)
    · subst hx
      exact hrn.symm
  -- the node of `rs3`
  have hnode : ∃ nd ∈ dt'.Graph.Nodes, nd.Description = "ReplicaSet" ∧ nd.Title = rs3.Name := by
    cases fuel with
    | zero => simp [GenerateDAGForResource] at h
    | succ n =>
      have hwf := NodesWellFormed_invariant c (n + 1) root (dt', .nil) h
      rcases GenerateDAGForResource_cases c n freshTraverser root with
        ⟨_, hvis | hun⟩ | ⟨hv, ⟨err, _, h1⟩ | ⟨_, h1⟩ | ⟨rel, st, err, _, _, h1⟩ |
          ⟨rel, st, hpa, hr, hh, h1⟩⟩
      · cases hvis
      · exact absurd hun (supported_resolves c _ root (by rw [hroot]; decide))
      · rw [h1] at h; cases h
      · rw [h1] at h; cases h
      · rw [h1] at h; cases h
      · rw [h1] at h
        have hr' := hr
        unfold resolveRelated at hr'
        rw [if_pos hroot] at hr'
        obtain ⟨s, hs, -⟩ := switchCase_ok _ _ _ _ _ hr'
        have hin := deployments_related_complete c _ root rel s hs rfl items hitems rs3 hmem3
          ((hown rs3 hmem3).mpr (Or.inr rfl)) 3 hrep3 (by decide)
        have hI1 := VisitedHaveNodes_expanded c freshTraverser root rel st (rel ++ hpa)
          (fun k hk => by cases hk) hr
        obtain ⟨nd, hnd, hid⟩ := (recurse_resolves c n (GenerateDAGForResource_resolves c n)
          (rel ++ hpa) _ dt' hI1 h).1 _ (List.mem_append_left _ hin)
          (show "ReplicaSet" ∈ supportedKinds by decide)
        obtain ⟨hidwf, hsup⟩ := hwf nd hnd
        rw [hidwf] at hid
        obtain ⟨ht, hd⟩ := id_injective _ _ _ _ (supported_no_dash _ hsup)
          (show '-' ∉ ("ReplicaSet" : String).data by decide) hid
        exact ⟨nd, hnd, hd, ht⟩
  obtain ⟨nd, hnd, hndd, hndt⟩ := hnode
  have hL : ∀ x ∈ dt'.Graph.Nodes.filter (fun n => n.Description = "ReplicaSet"),
      (x.Description, x.Title) = ("ReplicaSet", rs3.Name) := by
    intro x hx
    rw [List.mem_filter] at hx
    have hxd : x.Description = "ReplicaSet" := by simpa using hx.2
    rw [hxd, hOwnedName _ (hfirst.1 x hx.1 hxd)]
  have hnd2 : ((dt'.Graph.Nodes.filter (fun n => n.Description = "ReplicaSet")).map
      (fun n => (n.Description, n.Title))).Nodup :=
    List.Nodup.sublist (List.Sublist.map _ (List.filter_sublist _))
      (traversal_nodes_nodup c fuel root (dt', .nil) h)
  have hlen := nodup_all_eq ("ReplicaSet", rs3.Name) _ hnd2 (by
    intro p hp
    obtain ⟨x, hx, hxp⟩ := List.mem_map.mp hp
    rw [← hxp]
    exact hL x hx)
  rw [List.length_map] at hlen
  have hmemL : nd ∈ dt'.Graph.Nodes.filter (fun n => n.Description = "ReplicaSet") := by
    rw [List.mem_filter]
    exact ⟨hnd, by simpa using hndd⟩
  refine ⟨?_, ?_, ?_⟩
  · cases hLL : dt'.Graph.Nodes.filter (fun n => n.Description = "ReplicaSet") with
    | nil => rw [hLL] at hmemL; cases hmemL
    | cons x rest =>
      cases rest with
      | nil =>
        rw [hLL] at hmemL
        simp only [List.mem_singleton] at hmemL
        exact ⟨x, rfl, by rw [← hmemL]; exact hndt⟩
      | cons y rest' =>
        rw [hLL] at hlen
        simp at hlen
  · rintro x hx ⟨hxd, hxt⟩
    have := hOwnedName _ (hfirst.1 x hx hxd)
    rw [hxt] at this
    exact hne this
  · intro e he ht
    exact hne (hOwnedName _ (hfirst.2 e he _ ht))

/-- C9, the code against the claim: line 341 compares the name of an owner reference and not
its kind.  In `rolloutCluster` the ReplicaSets owned by Deployment "web" are "web-old"
(0 replicas) and "web-new" (3 replicas); "web-canary" is owned by the Rollout "web" and has
no owner reference of kind Deployment.  The traversal from Deployment "web" succeeds and
"web-canary" is a node and the target of an edge, so the graph has two ReplicaSet nodes.
What the code does guarantee is the claim with ownership read by name alone: a ReplicaSet is
a node or an edge target only if it has an owner reference with the root's name, of whatever
kind, and a positive replica count, and when exactly two listed ReplicaSets have such a
reference, one with 0 replicas and one with 3, the only ReplicaSet node is that of the
second. -/
theorem C9_owner_kind_not_compared :
    ((GenerateDAGForResource rolloutCluster 3 freshTraverser deploymentRoot).map
        (fun res => (res.2, res.1.Graph.Nodes.map (fun n => (n.Description, n.Title)),
          res.1.Graph.Edges)) =
        some (.nil,
          [("Deployment", "web"), ("ReplicaSet", "web-new"), ("ReplicaSet", "web-canary")],
          [{ Source := "web-Deployment", Target := "web-new-ReplicaSet" },
           { Source := "web-Deployment", Target := "web-canary-ReplicaSet" }]) ∧
      OwnedByDeployment rolloutCluster deploymentRoot "web-new" ∧
      ¬ OwnedByDeployment rolloutCluster deploymentRoot "web-canary" ∧
      ∀ replica ∈ [rsOld, rsNew, rsCanary],
        (∃ ref ∈ replica.OwnerReferences, ref.Kind = "Deployment" ∧ ref.Name = "web") ↔
          (replica = rsOld ∨ replica = rsNew)) ∧
    ∀ (c : Clientset) (fuel : Nat) (root : KubernetesResource) (dt' : DAGTraverser),
      root.ResourceType = "Deployment" →
      GenerateDAGForResource c fuel freshTraverser root = some (dt', .nil) →
      ((∀ n ∈ dt'.Graph.Nodes, n.Description = "ReplicaSet" →
          NameOwnedReplicaSet c root n.Title) ∧
        ∀ e ∈ dt'.Graph.Edges, ∀ name, e.Target = name ++ "-" ++ "ReplicaSet" →
          NameOwnedReplicaSet c root name) ∧
      ∀ (items : List ReplicaSet) (rs0 rs3 : ReplicaSet),
        c.ListReplicaSets root.ResourceNamespace = .ok items →
        (∀ x ∈ items, (∃ ref ∈ x.OwnerReferences, ref.Name = root.ResourceName) ↔
          (x = rs0 ∨ x = rs3)) →
        rs0 ∈ items → rs3 ∈ items →
        rs0.Spec.Replicas = some 0 → rs3.Spec.Replicas = some 3 → rs0.Name ≠ rs3.Name →
        (∃ node, dt'.Graph.Nodes.filter (fun n => n.Description = "ReplicaSet") = [node] ∧
          node.Title = rs3.Name) ∧
        (∀ n ∈ dt'.Graph.Nodes, ¬ (n.Description = "ReplicaSet" ∧ n.Title = rs0.Name)) ∧
        ∀ e ∈ dt'.Graph.Edges, e.Target ≠ rs0.Name ++ "-" ++ "ReplicaSet" := by
  refine ⟨⟨by rfl, ?_, ?_, ?_⟩, fun c fuel root dt' hroot h =>
    replicaSets_of_root_by_name c fuel root dt' hroot h⟩
  · exact ⟨[rsOld, rsNew, rsCanary], rfl, rsNew, by decide, rfl,
      ⟨{ Kind := "Deployment", Name := "web" }, List.mem_singleton.2 rfl, rfl, rfl⟩,
      3, rfl, by decide⟩
  · rintro ⟨items, hitems, replica, hmem, hname, ⟨ref, href, hkind, -⟩, -⟩
    have hitems' : items = [rsOld, rsNew, rsCanary] := by
      have : (Except.ok [rsOld, rsNew, rsCanary] : Except String (List ReplicaSet)) =
          .ok items := hitems
      cases this
      rfl
    subst hitems'
    simp only [List.mem_cons, List.mem_singleton, List.not_mem_nil, or_false] at hmem
    rcases hmem with rfl | rfl | rfl
    · exact absurd hname (by decide)
    · exact absurd hname (by decide)
    · simp only [rsCanary, List.mem_singleton] at href
      subst href
      exact absurd hkind (by decide)
  · intro replica hmem
    simp only [List.mem_cons, List.mem_singleton, List.not_mem_nil, or_false] at hmem
    rcases hmem with rfl | rfl | rfl
    · exact ⟨fun _ => Or.inl rfl,
        fun _ => ⟨{ Kind := "Deployment", Name := "web" }, List.mem_singleton.2 rfl, rfl, rfl⟩⟩
    · exact ⟨fun _ => Or.inr rfl,
        fun _ => ⟨{ Kind := "Deployment", Name := "web" }, List.mem_singleton.2 rfl, rfl, rfl⟩⟩
    · constructor
      · rintro ⟨ref, href, hkind, -⟩
        simp only [rsCanary, List.mem_singleton] at href
        subst href
        exact absurd hkind (by decide)
      · intro h
        rcases h with h | h
        · exact absurd h (by decide)
        · exact absurd h (by decide)

/-- Witness of C9: Deployment "web" of `twoReplicaSetsCluster`, where no other owner is
called "web", has "web-old" (0 replicas) and "web-new" (3 replicas); the only ReplicaSet node
is "web-new". -/
theorem C9_owner_kind_not_compared_witness :
    (∃ node, twoReplicaSetsFinal.Graph.Nodes.filter (fun n => n.Description = "ReplicaSet") =
        [node] ∧ node.Title = "web-new") ∧
      (∀ n ∈ twoReplicaSetsFinal.Graph.Nodes,
        ¬ (n.Description = "ReplicaSet" ∧ n.Title = "web-old")) ∧
      ∀ e ∈ twoReplicaSetsFinal.Graph.Edges, e.Target ≠ "web-old" ++ "-" ++ "ReplicaSet" :=
  (C9_owner_kind_not_compared.2 twoReplicaSetsCluster 3 deploymentRoot twoReplicaSetsFinal rfl
    (by rfl)).2 [rsOld, rsNew] rsOld rsNew rfl (by decide) (by decide) (by decide) rfl rfl
    (by decide)

/-! ## C10: a Service selecting one Deployment -/

theorem service_related_exact (c : Clientset) (root : KubernetesResource) (service : Service)
    (ingresses : List Ingress) (deployments : List Deployment) (d : Deployment)
    (rel : List KubernetesResource) (st : ServiceStatus)
    (hsvc : c.GetService root.ResourceNamespace root.ResourceName = .ok service)
    (hing : c.ListIngresses root.ResourceNamespace = .ok ingresses)
    (hnoing : ∀ ing ∈ ingresses, ∀ rule ∈ ing.Spec.Rules, ∀ paths, rule.HTTP = some paths →
      ∀ p ∈ paths, p.Backend.Service ≠ some root.ResourceName)
    (hpods : c.ListPods service.Namespace (service.Spec.Selector.getD []) = .ok [])
    (hdeps : c.ListDeployments root.ResourceNamespace (service.Spec.Selector.getD []) =
      .ok deployments)
    (hone : deployments.filter
      (fun x => selectorFromSetMatches (service.Spec.Selector.getD []) x.Labels) = [d])
    (h : getRelatedResourcesService c [] root = .ok (rel, st)) :
    rel = [{ ResourceName := d.Name, ResourceType := "Deployment",
             ResourceNamespace := d.Namespace }] := by
  unfold getRelatedResourcesService at h
  simp only [hsvc, hing, hpods, hdeps, hone, kindVisited, List.any_nil, Bool.false_eq_true,
    if_false] at h
  split at h
  · cases h
  · rename_i fromIng hIng
    have hnil : fromIng = [] := by
      rw [List.eq_nil_iff_forall_not_mem]
      intro x hx
      obtain ⟨ing, hingm, xs, hxs, hmem⟩ := forEach_mem _ _ _ hIng x hx
      obtain ⟨-, -, rule, hrule, paths, hpaths, p, hp, hps⟩ := ingressRefs_mem root ing xs hxs x hmem
      exact hnoing ing hingm rule hrule paths hpaths p hp hps
    subst hnil
    simp only [List.map_nil, List.append_nil, List.nil_append, List.map_cons, Except.ok.injEq,
      Prod.mk.injEq] at h
    exact h.1.symm

theorem hpa_none (c : Clientset) (root : KubernetesResource)
    (hpas : List HorizontalPodAutoscaler) (hpa : List KubernetesResource)
    (hhpa : c.ListHorizontalPodAutoscalers root.ResourceNamespace = .ok hpas)
    (hnohpa : ∀ a ∈ hpas, ¬ (a.ScaleTargetRef.Kind = root.ResourceType ∧
      a.ScaleTargetRef.Name = root.ResourceName))
    (h : getHPAForController c root = .ok hpa) : hpa = [] := by
  unfold getHPAForController at h
  simp only [hhpa, Except.ok.injEq] at h
  subst h
  rw [List.map_eq_nil_iff, List.filter_eq_nil_iff]
  intro a ha
  simpa using hnohpa a ha

theorem RootEdgesFixed_step (c : Clientset) (root : KubernetesResource)
    (es : List ResourceViewerEdges) (hsup : root.ResourceType ∈ supportedKinds)
    (dt : DAGTraverser) (kr : KubernetesResource) (rel : List KubernetesResource) (st : Status)
    (rs : List KubernetesResource) (hP : RootEdgesFixed root es dt)
    (hv : kr.ResourceType ++ "_" ++ kr.ResourceName ∉ dt.Visited)
    (hr : resolveRelated c dt.Visited kr = .ok rel st) :
    RootEdgesFixed root es (expanded dt kr st rs) := by
  obtain ⟨hvis, hes⟩ := hP
  refine ⟨?_, ?_⟩
  · rw [expanded_visited, mem_mapSet]
    exact Or.inl hvis
  · rw [expanded_edges, List.filter_append, hes]
    have hnew : (rs.map (fun r =>
        ({ Source := kr.ResourceName ++ "-" ++ kr.ResourceType
           Target := r.ResourceName ++ "-" ++ r.ResourceType } : ResourceViewerEdges))).filter
        (fun e => e.Source = root.ResourceName ++ "-" ++ root.ResourceType) = [] := by
      rw [List.filter_eq_nil_iff]
      intro e he
      obtain ⟨r, -, hre⟩ := List.mem_map.mp he
      subst hre
      simp only [decide_eq_true_eq]
      intro heq
      have hks := resolveRelated_supported c dt.Visited kr (by rw [hr]; simp)
      obtain ⟨hn, ht⟩ := id_injective _ _ _ _ (supported_no_dash _ hks)
        (supported_no_dash _ hsup) heq
      rw [hn, ht] at hv
      exact hv hvis
    rw [hnew, List.append_nil]


/-- C10, counterexample: in `webCluster` no Ingress exists, no Pod matches the selector of
Service "web", exactly one Deployment matches it and no autoscaler exists; the traversal from
the Service succeeds and the graph holds a node of kind Pod, reached through the Deployment
and its ReplicaSet. -/
theorem C10_counterexample :
    webCluster.GetService "prod" "web" = .ok svcWeb ∧
      webCluster.ListIngresses "prod" = .ok [] ∧
      webCluster.ListPods "prod" [("app", "web")] = .ok [] ∧
      webCluster.ListDeployments "prod" [("app", "web")] = .ok [depWeb] ∧
      [depWeb].filter (fun x => selectorFromSetMatches [("app", "web")] x.Labels) = [depWeb] ∧
      webCluster.ListHorizontalPodAutoscalers "prod" = .ok [] ∧
      GenerateDAGForResource webCluster 5 freshTraverser webRoot = some (webFinal, .nil) ∧
      ¬ ∀ n ∈ webFinal.Graph.Nodes, n.Description ≠ "Ingress" ∧ n.Description ≠ "Pod" :=
  ⟨rfl, rfl, rfl, rfl, by decide, rfl, by rfl, by decide⟩

/-- C10, amended: for every successful traversal on a fresh traverser rooted at a Service such
that no Ingress backend names it, no Pod matches its selector, exactly one Deployment `d`
matches its selector and no autoscaler targets it, the graph has exactly one edge whose
source is the Service, and its target is `d` (so no edge leads from the Service to an Ingress
or a Pod). -/
theorem C10_service_single_edge (c : Clientset) (fuel : Nat) (root : KubernetesResource)
    (dt' : DAGTraverser) (service : Service) (ingresses : List Ingress)
    (deployments : List Deployment) (d : Deployment) (hpas : List HorizontalPodAutoscaler)
    (hroot : root.ResourceType = "Service")
    (hsvc : c.GetService root.ResourceNamespace root.ResourceName = .ok service)
    (hing : c.ListIngresses root.ResourceNamespace = .ok ingresses)
    (hnoing : ∀ ing ∈ ingresses, ∀ rule ∈ ing.Spec.Rules, ∀ paths, rule.HTTP = some paths →
      ∀ p ∈ paths, p.Backend.Service ≠ some root.ResourceName)
    (hpods : c.ListPods service.Namespace (service.Spec.Selector.getD []) = .ok [])
    (hdeps : c.ListDeployments root.ResourceNamespace (service.Spec.Selector.getD []) =
      .ok deployments)
    (hone : deployments.filter
      (fun x => selectorFromSetMatches (service.Spec.Selector.getD []) x.Labels) = [d])
    (hhpa : c.ListHorizontalPodAutoscalers root.ResourceNamespace = .ok hpas)
    (hnohpa : ∀ a ∈ hpas, ¬ (a.ScaleTargetRef.Kind = "Service" ∧
      a.ScaleTargetRef.Name = root.ResourceName))
    (h : GenerateDAGForResource c fuel freshTraverser root = some (dt', .nil)) :
    dt'.Graph.Edges.filter (fun e => e.Source = root.ResourceName ++ "-" ++ "Service") =
      [{ Source := root.ResourceName ++ "-" ++ "Service"
         Target := d.Name ++ "-" ++ "Deployment" }] := by
  have hsup : root.ResourceType ∈ supportedKinds := by rw [hroot]; decide
  cases fuel with
  | zero => simp [GenerateDAGForResource] at h
  | succ n =>
    rcases GenerateDAGForResource_cases c n freshTraverser root with
      ⟨_, hvis | hun⟩ | ⟨hv, ⟨err, _, h1⟩ | ⟨_, h1⟩ | ⟨rel, st, err, _, _, h1⟩ |
        ⟨rel, st, hpa, hr, hh, h1⟩⟩
    · cases hvis
    · exact absurd hun (supported_resolves c _ root hsup)
    · rw [h1] at h; cases h
    · rw [h1] at h; cases h
    · rw [h1] at h; cases h
    · rw [h1] at h
      have hr' := hr
      unfold resolveRelated at hr'
      simp only [hroot, String.reduceEq, if_false, if_true] at hr'
      obtain ⟨s, hs, -⟩ := switchCase_ok _ _ _ _ _ hr'
      have hrel := service_related_exact c root service ingresses deployments d rel s hsvc hing
        hnoing hpods hdeps hone hs
      have hhpa0 := hpa_none c root hpas hpa hhpa (by rw [hroot]; exact hnohpa) hh
      subst hrel
      subst hhpa0
      have hP1 : RootEdgesFixed root
          [⟨root.ResourceName ++ "-" ++ "Service", d.Name ++ "-" ++ "Deployment"⟩]
          (expanded freshTraverser root st ([⟨d.Name, "Deployment", d.Namespace⟩] ++ [])) := by
        refine ⟨?_, ?_⟩
        · rw [expanded_visited, mem_mapSet]
          exact Or.inr rfl
        · rw [expanded_edges, hroot]
          simp [freshTraverser, CreateGraph]
      have hfin := recurse_invariant
        (RootEdgesFixed root
          [⟨root.ResourceName ++ "-" ++ "Service", d.Name ++ "-" ++ "Deployment"⟩])
        (fun _ => True)
        (GenerateDAGForResource_invariant c _ _
          (fun dt k rl s' hp hP _ hv' hr'' _ =>
            ⟨RootEdgesFixed_step c root _ hsup dt k rl s' (rl ++ hp) hP hv' hr'',
              fun _ _ => trivial⟩) n)
        _ _ (dt', .nil) hP1 (fun _ _ => trivial) h
      have := hfin.2
      rw [hroot] at this
      exact this

/-- Witness of C10 (amended): Service "web" of `webCluster`. -/
theorem C10_service_single_edge_witness :
    webFinal.Graph.Edges.filter (fun e => e.Source = "web" ++ "-" ++ "Service") =
      [{ Source := "web" ++ "-" ++ "Service", Target := "web-d" ++ "-" ++ "Deployment" }] :=
  C10_service_single_edge webCluster 5 webRoot webFinal svcWeb [] [depWeb] depWeb [] rfl rfl
    rfl (fun _ h => by cases h) rfl rfl (by decide) rfl (fun _ h => by cases h) (by rfl)

/-! ## Status normalisation in the five resolvers that read conditions -/

theorem deployments_status (c : Clientset) (v : List String) (kr : KubernetesResource)
    (d : Deployment) (rel : List KubernetesResource) (s : DeploymentStatus)
    (hget : c.GetDeployment kr.ResourceNamespace kr.ResourceName = .ok d)
    (h : getRelatedResourcesDeployments c v kr = .ok (rel, s)) :
    s.Ok = latestConditionOK d.Status.Conditions ∧
      s.Message = latestConditionMessage "Deployment is OK" d.Status.Conditions := by
  simp only [getRelatedResourcesDeployments, hget] at h
  repeat (any_goals (first | (cases h; first | done | exact ⟨rfl, rfl⟩) | split at h))

theorem replicaSet_status (c : Clientset) (v : List String) (kr : KubernetesResource)
    (d : ReplicaSet) (rel : List KubernetesResource) (s : ReplicaSetStatus)
    (hget : c.GetReplicaSet kr.ResourceNamespace kr.ResourceName = .ok d)
    (h : getRelatedResourcesReplicaSet c v kr = .ok (rel, s)) :
    s.Ok = latestConditionOK d.Status.Conditions ∧
      s.Message = latestConditionMessage "ReplicaSet is OK" d.Status.Conditions := by
  simp only [getRelatedResourcesReplicaSet, hget] at h
  repeat (any_goals (first | (cases h; first | done | exact ⟨rfl, rfl⟩) | split at h))

theorem pod_status (c : Clientset) (v : List String) (kr : KubernetesResource)
    (d : Pod) (rel : List KubernetesResource) (s : PodStatus)
    (hget : c.GetPod kr.ResourceNamespace kr.ResourceName = .ok d)
    (h : getRelatedResourcesPod c v kr = .ok (rel, s)) :
    s.Ok = latestConditionOK d.Status.Conditions ∧
      s.Message = latestConditionMessage "Pod is OK" d.Status.Conditions := by
  simp only [getRelatedResourcesPod, hget] at h
  repeat (any_goals (first | (cases h; first | done | exact ⟨rfl, rfl⟩) | split at h))

theorem service_status (c : Clientset) (v : List String) (kr : KubernetesResource)
    (d : Service) (rel : List KubernetesResource) (s : ServiceStatus)
    (hget : c.GetService kr.ResourceNamespace kr.ResourceName = .ok d)
    (h : getRelatedResourcesService c v kr = .ok (rel, s)) :
    s.Ok = latestConditionOK d.Status.Conditions ∧
      s.Message = latestConditionMessage "Service is OK" d.Status.Conditions := by
  simp only [getRelatedResourcesService, hget] at h
  repeat (any_goals (first | (cases h; first | done | exact ⟨rfl, rfl⟩) | split at h))

theorem pvc_status (c : Clientset) (v : List String) (kr : KubernetesResource)
    (d : PersistentVolumeClaim) (rel : List KubernetesResource)
    (s : PersistentVolumeClaimStatus)
    (hget : c.GetPersistentVolumeClaim kr.ResourceNamespace kr.ResourceName = .ok d)
    (h : getRelatedResourcesPersistentVolumeClaim c v kr = .ok (rel, s)) :
    s.Ok = latestConditionOK d.Status.Conditions ∧
      s.Message = latestConditionMessage "PersistentVolumeClaim is OK" d.Status.Conditions := by
  simp only [getRelatedResourcesPersistentVolumeClaim, hget] at h
  cases h
  exact ⟨rfl, rfl⟩

/-- Each of the five resolvers computes `Ok` and `Message` from the conditions of the object it
fetched by the shared normalisation, with its own text. -/
theorem conditionStatus_eq (c : Clientset) (kind : String) (conds : List Condition)
    (ok : Bool) (msg : String) (h : ConditionStatus c kind conds ok msg) :
    ok = latestConditionOK conds ∧ msg = latestConditionMessage (kind ++ " is OK") conds := by
  cases h with
  | deployment v kr d rel s hget hres => exact deployments_status c v kr d rel s hget hres
  | replicaSet v kr d rel s hget hres => exact replicaSet_status c v kr d rel s hget hres
  | pod v kr d rel s hget hres => exact pod_status c v kr d rel s hget hres
  | service v kr d rel s hget hres => exact service_status c v kr d rel s hget hres
  | pvc v kr d rel s hget hres => exact pvc_status c v kr d rel s hget hres

/-- The selection loop started from `latest`: its result is `latest` when no condition of the
list is strictly after it, else it is strictly after `latest`, and every condition before it
in the list is strictly before it. -/
theorem foldl_latest (l : List Condition) : ∀ (latest : Condition),
    let r := l.foldl (fun latest condition =>
        if condition.LastTransitionTime > latest.LastTransitionTime then condition else latest)
        latest
    (∀ x ∈ l, x.LastTransitionTime ≤ r.LastTransitionTime) ∧
    latest.LastTransitionTime ≤ r.LastTransitionTime ∧
    ((r = latest) ∨
      (latest.LastTransitionTime < r.LastTransitionTime ∧
        ∃ pre post, l = pre ++ r :: post ∧
          ∀ x ∈ pre, x.LastTransitionTime < r.LastTransitionTime)) := by
  induction l with
  | nil => intro latest; simp
  | cons a l ih =>
    intro latest
    simp only [List.foldl_cons]
    by_cases ha : a.LastTransitionTime > latest.LastTransitionTime
    · rw [if_pos ha]
      obtain ⟨h1, h2, h3⟩ := ih a
      refine ⟨?_, le_trans (le_of_lt ha) h2, Or.inr ?_⟩
      · intro x hx
        rcases List.mem_cons.1 hx with rfl | hx
        · exact h2
        · exact h1 x hx
      · rcases h3 with h3 | ⟨h3, pre, post, hl, hpre⟩
        · rw [h3]
          exact ⟨ha, [], l, rfl, by simp⟩
        · refine ⟨lt_trans ha h3, a :: pre, post, congrArg (List.cons a) hl, ?_⟩
          intro x hx
          rcases List.mem_cons.1 hx with rfl | hx
          · exact h3
          · exact hpre x hx
    · rw [if_neg ha]
      obtain ⟨h1, h2, h3⟩ := ih latest
      refine ⟨?_, h2, ?_⟩
      · intro x hx
        rcases List.mem_cons.1 hx with rfl | hx
        · exact le_trans (not_lt.1 ha) h2
        · exact h1 x hx
      · rcases h3 with h3 | ⟨h3, pre, post, hl, hpre⟩
        · exact Or.inl h3
        · refine Or.inr ⟨h3, a :: pre, post, congrArg (List.cons a) hl, ?_⟩
          intro x hx
          rcases List.mem_cons.1 hx with rfl | hx
          · exact lt_of_le_of_lt (not_lt.1 ha) h3
          · exact hpre x hx

/-- The condition `latestCondition` selects from a non-empty list sits at the first position
that holds the greatest transition time. -/
theorem latestCondition_first_latest (conds : List Condition) (hne : conds ≠ []) :
    ∃ pre post, conds = pre ++ latestCondition conds :: post ∧
      (∀ x ∈ pre, x.LastTransitionTime < (latestCondition conds).LastTransitionTime) ∧
      (∀ x ∈ conds, x.LastTransitionTime ≤ (latestCondition conds).LastTransitionTime) := by
  cases conds with
  | nil => exact absurd rfl hne
  | cons first rest =>
    have hfold : latestCondition (first :: rest) =
        rest.foldl (fun latest condition =>
          if condition.LastTransitionTime > latest.LastTransitionTime then condition else latest)
          first := by
      simp [latestCondition, List.foldl_cons]
    obtain ⟨h1, h2, h3⟩ := foldl_latest rest first
    rw [← hfold] at h1 h2 h3
    rcases h3 with h3 | ⟨h3, pre, post, hl, hpre⟩
    · refine ⟨[], rest, by rw [h3, List.nil_append], by simp, ?_⟩
      intro x hx
      rcases List.mem_cons.1 hx with rfl | hx
      · exact h2
      · exact h1 x hx
    · refine ⟨first :: pre, post, congrArg (List.cons first) hl, ?_, ?_⟩
      · intro x hx
        rcases List.mem_cons.1 hx with rfl | hx
        · exact h3
        · exact hpre x hx
      · intro x hx
        rcases List.mem_cons.1 hx with rfl | hx
        · exact h2
        · exact h1 x hx

/-- In a list whose images under `f` are pairwise distinct, at most one element has a given
image. -/
theorem filter_image_length_le_one {α β : Type} [DecidableEq β] (f : α → β) (b : β) :
    ∀ l : List α, (l.map f).Nodup → (l.filter (fun x => f x = b)).length ≤ 1
  | [], _ => by simp
  | x :: l, h => by
    rw [List.map_cons, List.nodup_cons] at h
    have ih := filter_image_length_le_one f b l h.2
    by_cases hx : f x = b
    · have hnone : l.filter (fun y => f y = b) = [] := by
        rw [List.filter_eq_nil_iff]
        intro y hy hyb
        have hyb2 : f y = b := by simpa using hyb
        exact h.1 (List.mem_map.2 ⟨y, hy, hyb2.trans hx.symm⟩)
      simp [List.filter_cons, hx, hnone]
    · simpa [List.filter_cons, hx] using ih

/-! ## C11: an identity whose key is visited is skipped, whatever its namespace -/

/-- C11: when the key kind + "_" + name of an identity is in the Visited set, a call of
`GenerateDAGForResource` on that kind and name, with any namespace, returns nil and leaves the
traverser (graph and Visited set) as it was; and a traversal from a fresh traverser never
holds more than one node for a kind and a name, and holds exactly one once the key of a
supported kind is visited, so two resources of that kind and name in different namespaces
share one node. -/
theorem C11_visited_is_noop (c : Clientset) (fuel : Nat) (dt : DAGTraverser)
    (kr : KubernetesResource)
    (hv : kr.ResourceType ++ "_" ++ kr.ResourceName ∈ dt.Visited) :
    (∀ ns, GenerateDAGForResource c (fuel + 1) dt { kr with ResourceNamespace := ns } =
        some (dt, .nil)) ∧
    (∀ gas root res, GenerateDAGForResource c gas freshTraverser root = some res →
        (res.1.Graph.Nodes.filter
          (fun node => (node.Description, node.Title) =
            (kr.ResourceType, kr.ResourceName))).length ≤ 1 ∧
        (kr.ResourceType ∈ supportedKinds →
          kr.ResourceType ++ "_" ++ kr.ResourceName ∈ res.1.Visited →
          (res.1.Graph.Nodes.filter
            (fun node => (node.Description, node.Title) =
              (kr.ResourceType, kr.ResourceName))).length = 1)) := by
  refine ⟨fun ns => ?_, fun gas root res h => ?_⟩
  · simp only [GenerateDAGForResource]
    rw [if_pos hv]
  · have hle := filter_image_length_le_one
      (fun n : ResourceViewerNodes => (n.Description, n.Title))
      (kr.ResourceType, kr.ResourceName) _ (traversal_nodes_nodup c gas root res h)
    refine ⟨hle, fun hsup hkey => le_antisymm hle ?_⟩
    have hI : VisitedHaveNodes freshTraverser := by
      intro k hk
      cases hk
    obtain ⟨n, hn, hnsup, hk, _⟩ :=
      VisitedHaveNodes_invariant c gas freshTraverser root res hI h _ hkey
    obtain ⟨h1, h2⟩ := key_injective _ _ _ _ (supported_no_underscore _ hsup)
      (supported_no_underscore _ hnsup) hk
    exact List.length_pos_of_mem
      (List.mem_filter.2 ⟨hn, by simp [h1, h2]⟩)

/-- Witness of C11: ServiceAccount "sa" names a Secret "tok" in namespace "a" and one in
namespace "b"; the traversal expands the first, skips the second, and ends with one node
"tok" of kind Secret and two edges to it. -/
theorem C11_visited_is_noop_witness :
    "Secret" ++ "_" ++ "tok" ∈ twoSecretsFinal.Visited ∧
    GenerateDAGForResource twoSecretsCluster 2 freshTraverser saRoot =
      some (twoSecretsFinal, .nil) ∧
    GenerateDAGForResource twoSecretsCluster 1 twoSecretsFinal
        { ResourceName := "tok", ResourceType := "Secret", ResourceNamespace := "b" } =
      some (twoSecretsFinal, .nil) ∧
    (twoSecretsFinal.Graph.Nodes.filter
      (fun node => (node.Description, node.Title) = ("Secret", "tok"))).length = 1 :=
  ⟨by decide, by rfl,
    (C11_visited_is_noop twoSecretsCluster 0 twoSecretsFinal
      { ResourceName := "tok", ResourceType := "Secret", ResourceNamespace := "a" }
      (by decide)).1 "b",
    ((C11_visited_is_noop twoSecretsCluster 0 twoSecretsFinal
      { ResourceName := "tok", ResourceType := "Secret", ResourceNamespace := "a" }
      (by decide)).2 2 saRoot (twoSecretsFinal, .nil) (by rfl)).2 (by decide) (by decide)⟩

/-! ## C12: the root node of a healthy Pod -/

/-- C12: when the root is a Pod whose only condition has the status "True" and an empty
message, a traversal from a fresh traverser that returns nil leaves as first node of the graph
the node of that Pod, with the colour "#63f828" and a status whose ok is true and whose message
is "Pod is OK". -/
theorem C12_healthy_pod_root (c : Clientset) (fuel : Nat) (kr : KubernetesResource) (pod : Pod)
    (cond : Condition) (dt : DAGTraverser)
    (hkind : kr.ResourceType = "Pod")
    (hget : c.GetPod kr.ResourceNamespace kr.ResourceName = .ok pod)
    (hconds : pod.Status.Conditions = [cond])
    (hstatus : cond.Status = "True") (hmsg : cond.Message = "")
    (hrun : GenerateDAGForResource c fuel freshTraverser kr = some (dt, .nil)) :
    ∃ (status : PodStatus) (rest : List ResourceViewerNodes),
      dt.Graph.Nodes =
        { ID := kr.ResourceName ++ "-" ++ "Pod", Title := kr.ResourceName, Description := "Pod",
          Color := "#63f828", Status := .status (.Pod status) } :: rest ∧
      status.Ok = true ∧ status.Message = "Pod is OK" := by
  cases fuel with
  | zero => simp [GenerateDAGForResource] at hrun
  | succ fuel =>
    have hres : ∀ rel st, resolveRelated c freshTraverser.Visited kr = .ok rel st →
        ∃ s : PodStatus, st = .Pod s ∧ s.Ok = true ∧ s.Message = "Pod is OK" := by
      intro rel st h
      simp only [resolveRelated, hkind] at h
      simp only [show ("Pod" = "Deployment") = False by decide,
        show ("Pod" = "ReplicaSet") = False by decide, if_false, if_true] at h
      obtain ⟨s, hs, hst⟩ := switchCase_ok _ _ _ _ _ h
      obtain ⟨hok, hm⟩ := pod_status c _ kr pod rel s hget hs
      refine ⟨s, hst, ?_, ?_⟩
      · rw [hok, hconds]
        simp [latestConditionOK, latestCondition, hstatus, ParseBool]
      · rw [hm, hconds]
        simp [latestConditionMessage, latestConditionOK, latestCondition, hstatus, hmsg,
          ParseBool]
    rcases GenerateDAGForResource_cases c fuel freshTraverser kr with h | ⟨_, h | h | h | h⟩
    · rcases h.2 with hvis | hun
      · simp [freshTraverser] at hvis
      · exact absurd hun (supported_resolves c freshTraverser.Visited kr
          (by rw [hkind]; decide))
    · obtain ⟨e, _, he⟩ := h; rw [hrun] at he; cases he
    · rw [hrun] at h; cases h.2
    · obtain ⟨r, s, e, _, _, he⟩ := h; rw [hrun] at he; cases he
    · obtain ⟨rel, st, hp, h1, _, h3⟩ := h
      obtain ⟨s, rfl, hok, hm⟩ := hres rel st h1
      rw [hrun] at h3
      obtain ⟨⟨mn, hn⟩, _⟩ := recurse_grows c fuel _ _ _ h3.symm
      refine ⟨s, mn, ?_, hok, hm⟩
      rw [hn, expanded_nodes]
      simp [freshTraverser, CreateGraph, hkind, Status.OK, hok]

/-- Witness of C12: the traversal of `missingSecretCluster` from Pod "db-0". -/
theorem C12_healthy_pod_root_witness :
    (missingSecretCluster.GetPod "prod" "db-0" = .ok podDb ∧
      podDb.Status.Conditions = [{ Status := "True", Message := "" }] ∧
      GenerateDAGForResource missingSecretCluster 3 freshTraverser
        { ResourceName := "db-0", ResourceType := "Pod", ResourceNamespace := "prod" } =
        some (missingSecretFinal, .nil)) ∧
    ∃ (status : PodStatus) (rest : List ResourceViewerNodes),
      missingSecretFinal.Graph.Nodes =
        { ID := "db-0" ++ "-" ++ "Pod", Title := "db-0", Description := "Pod",
          Color := "#63f828", Status := .status (.Pod status) } :: rest ∧
      status.Ok = true ∧ status.Message = "Pod is OK" :=
  ⟨⟨rfl, rfl, by rfl⟩,
    C12_healthy_pod_root missingSecretCluster 3
      { ResourceName := "db-0", ResourceType := "Pod", ResourceNamespace := "prod" } podDb
      { Status := "True", Message := "" } missingSecretFinal rfl rfl rfl rfl rfl (by rfl)⟩

/-! ## C13: two runs give the same graph -/

/-- The flag `kindVisited` reads from the Visited set does not depend on the order of the
keys. -/
theorem kindVisited_perm (kind : String) (v v' : List String) (h : v.Perm v') :
    kindVisited kind v = kindVisited kind v' := by
  rw [Bool.eq_iff_iff]
  simp only [kindVisited, List.any_eq_true]
  exact ⟨fun ⟨k, hk, hb⟩ => ⟨k, h.mem_iff.1 hk, hb⟩, fun ⟨k, hk, hb⟩ => ⟨k, h.mem_iff.2 hk, hb⟩⟩

/-- The related identities, the ok flag and the message a resolver returns do not depend on the
clock, nor on the Visited set beyond the flags `kindVisited` reads from it. -/
theorem deployments_now (c : Clientset) (n : Int) (v v' : List String)
    (hv : ∀ kind, kindVisited kind v' = kindVisited kind v) (kr : KubernetesResource) :
    Except.map (fun p : List KubernetesResource × DeploymentStatus => (p.1, p.2.Ok, p.2.Message))
      (getRelatedResourcesDeployments { c with Now := n } v' kr) =
    Except.map (fun p : List KubernetesResource × DeploymentStatus => (p.1, p.2.Ok, p.2.Message))
      (getRelatedResourcesDeployments c v kr) := by
  simp only [getRelatedResourcesDeployments, hv]
  repeat (any_goals (first | (simp only [Except.map]; done) | split))

theorem replicaSet_now (c : Clientset) (n : Int) (v v' : List String)
    (hv : ∀ kind, kindVisited kind v' = kindVisited kind v) (kr : KubernetesResource) :
    Except.map (fun p : List KubernetesResource × ReplicaSetStatus => (p.1, p.2.Ok, p.2.Message))
      (getRelatedResourcesReplicaSet { c with Now := n } v' kr) =
    Except.map (fun p : List KubernetesResource × ReplicaSetStatus => (p.1, p.2.Ok, p.2.Message))
      (getRelatedResourcesReplicaSet c v kr) := by
  simp only [getRelatedResourcesReplicaSet, hv]
  repeat (any_goals (first | (simp only [Except.map]; done) | split))

theorem pod_now (c : Clientset) (n : Int) (v v' : List String)
    (_hv : ∀ kind, kindVisited kind v' = kindVisited kind v) (kr : KubernetesResource) :
    Except.map (fun p : List KubernetesResource × PodStatus => (p.1, p.2.Ok, p.2.Message))
      (getRelatedResourcesPod { c with Now := n } v' kr) =
    Except.map (fun p : List KubernetesResource × PodStatus => (p.1, p.2.Ok, p.2.Message))
      (getRelatedResourcesPod c v kr) := by
  simp only [getRelatedResourcesPod]
  repeat (any_goals (first | (simp only [Except.map]; done) | split))

theorem service_now (c : Clientset) (n : Int) (v v' : List String)
    (hv : ∀ kind, kindVisited kind v' = kindVisited kind v) (kr : KubernetesResource) :
    Except.map (fun p : List KubernetesResource × ServiceStatus => (p.1, p.2.Ok, p.2.Message))
      (getRelatedResourcesService { c with Now := n } v' kr) =
    Except.map (fun p : List KubernetesResource × ServiceStatus => (p.1, p.2.Ok, p.2.Message))
      (getRelatedResourcesService c v kr) := by
  simp only [getRelatedResourcesService, hv]
  repeat (any_goals (first | (simp only [Except.map]; done) | split))

theorem serviceAccount_now (c : Clientset) (n : Int) (v v' : List String)
    (_hv : ∀ kind, kindVisited kind v' = kindVisited kind v) (kr : KubernetesResource) :
    Except.map
      (fun p : List KubernetesResource × ServiceAccountStatus => (p.1, p.2.Ok, p.2.Message))
      (getRelatedResourcesServiceAccount { c with Now := n } v' kr) =
    Except.map
      (fun p : List KubernetesResource × ServiceAccountStatus => (p.1, p.2.Ok, p.2.Message))
      (getRelatedResourcesServiceAccount c v kr) := by
  simp only [getRelatedResourcesServiceAccount]
  repeat (any_goals (first | (simp only [Except.map]; done) | split))

theorem ingress_now (c : Clientset) (n : Int) (v v' : List String)
    (hv : ∀ kind, kindVisited kind v' = kindVisited kind v) (kr : KubernetesResource) :
    Except.map (fun p : List KubernetesResource × IngressStatus => (p.1, p.2.Ok, p.2.Message))
      (getRelatedResourcesIngress { c with Now := n } v' kr) =
    Except.map (fun p : List KubernetesResource × IngressStatus => (p.1, p.2.Ok, p.2.Message))
      (getRelatedResourcesIngress c v kr) := by
  simp only [getRelatedResourcesIngress, hv]
  repeat (any_goals (first | (simp only [Except.map]; done) | split))

theorem pvc_now (c : Clientset) (n : Int) (v v' : List String)
    (_hv : ∀ kind, kindVisited kind v' = kindVisited kind v) (kr : KubernetesResource) :
    Except.map
      (fun p : List KubernetesResource × PersistentVolumeClaimStatus =>
        (p.1, p.2.Ok, p.2.Message))
      (getRelatedResourcesPersistentVolumeClaim { c with Now := n } v' kr) =
    Except.map
      (fun p : List KubernetesResource × PersistentVolumeClaimStatus =>
        (p.1, p.2.Ok, p.2.Message))
      (getRelatedResourcesPersistentVolumeClaim c v kr) := by
  simp only [getRelatedResourcesPersistentVolumeClaim]
  repeat (any_goals (first | (simp only [Except.map]; done) | split))

theorem configMap_now (c : Clientset) (n : Int) (v v' : List String)
    (_hv : ∀ kind, kindVisited kind v' = kindVisited kind v) (kr : KubernetesResource) :
    Except.map (fun p : List KubernetesResource × ConfigMapStatus => (p.1, p.2.Ok, p.2.Message))
      (getRelatedResourcesConfigMap { c with Now := n } v' kr) =
    Except.map (fun p : List KubernetesResource × ConfigMapStatus => (p.1, p.2.Ok, p.2.Message))
      (getRelatedResourcesConfigMap c v kr) := by
  simp only [getRelatedResourcesConfigMap]
  repeat (any_goals (first | (simp only [Except.map]; done) | split))

theorem secret_now (c : Clientset) (n : Int) (v v' : List String)
    (_hv : ∀ kind, kindVisited kind v' = kindVisited kind v) (kr : KubernetesResource) :
    Except.map (fun p : List KubernetesResource × SecretStatus => (p.1, p.2.Ok, p.2.Message))
      (getRelatedResourcesSecret { c with Now := n } v' kr) =
    Except.map (fun p : List KubernetesResource × SecretStatus => (p.1, p.2.Ok, p.2.Message))
      (getRelatedResourcesSecret c v kr) := by
  simp only [getRelatedResourcesSecret]
  repeat (any_goals (first | (simp only [Except.map]; done) | split))


/-- The compared part of a `case` of the switch, from the compared part of the resolver's
result. -/
theorem switchCase_view {σ : Type} (kind : String) (toStatus : σ → Status)
    (x : Res (List KubernetesResource × σ)) :
    (switchCase kind toStatus x).view =
      some (wrapResolverError kind (Except.map
          (fun p : List KubernetesResource × σ =>
            (p.1, (toStatus p.2).OK, (toStatus p.2).Message)) x)) := by
  rcases x with (e | _) | ⟨rel, s⟩ <;> rfl

/-- The resolution of an identity, as far as two runs are compared on it, depends neither on
the clock nor on anything of the Visited set but the flags `kindVisited` reads from it. -/
theorem resolveRelated_view (c : Clientset) (n : Int) (v v' : List String)
    (hv : ∀ kind, kindVisited kind v' = kindVisited kind v) (kr : KubernetesResource) :
    (resolveRelated { c with Now := n } v' kr).view = (resolveRelated c v kr).view := by
  unfold resolveRelated
  split
  · rw [switchCase_view, switchCase_view]
    exact congrArg (fun x => some (wrapResolverError _ x)) ((deployments_now c n v v' hv kr))
  split
  · rw [switchCase_view, switchCase_view]
    exact congrArg (fun x => some (wrapResolverError _ x)) ((replicaSet_now c n v v' hv kr))
  split
  · rw [switchCase_view, switchCase_view]
    exact congrArg (fun x => some (wrapResolverError _ x)) ((pod_now c n v v' hv kr))
  split
  · rw [switchCase_view, switchCase_view]
    exact congrArg (fun x => some (wrapResolverError _ x)) ((service_now c n v v' hv kr))
  split
  · rw [switchCase_view, switchCase_view]
    exact congrArg (fun x => some (wrapResolverError _ x)) ((serviceAccount_now c n v v' hv kr))
  split
  · rw [switchCase_view, switchCase_view]
    exact congrArg (fun x => some (wrapResolverError _ x)) ((ingress_now c n v v' hv kr))
  split
  · rw [switchCase_view, switchCase_view]
    exact congrArg (fun x => some (wrapResolverError _ x)) ((pvc_now c n v v' hv kr))
  split
  · rw [switchCase_view, switchCase_view]
    exact congrArg (fun x => some (wrapResolverError _ x)) ((configMap_now c n v v' hv kr))
  split
  · rw [switchCase_view, switchCase_view]
    exact congrArg (fun x => some (wrapResolverError _ x)) ((secret_now c n v v' hv kr))
  · rfl


/-- One call of `GenerateDAGForResource` with fuel left, the node of a resolved identity
being already added. -/
theorem GenerateDAGForResource_succ (c : Clientset) (fuel : Nat) (dt : DAGTraverser)
    (kr : KubernetesResource) :
    GenerateDAGForResource c (fuel + 1) dt kr =
      if kr.ResourceType ++ "_" ++ kr.ResourceName ∈ dt.Visited then some (dt, .nil)
      else match resolveRelated c dt.Visited kr with
        | .unsupported => some (dt, .nil)
        | .failed (.error err) => some (dt, .error err)
        | .failed .panic => some (dt, .panic)
        | .ok rel st =>
          match getHPAForController c kr with
          | .error err =>
            some (dt, .error ("unable to get related resources for Service: " ++ err))
          | .ok hpa =>
            recurse (GenerateDAGForResource c fuel) (expanded dt kr st (rel ++ hpa))
              (rel ++ hpa) := by
  simp only [GenerateDAGForResource]
  by_cases hv : kr.ResourceType ++ "_" ++ kr.ResourceName ∈ dt.Visited
  · rw [if_pos hv, if_pos hv]
  · rw [if_neg hv, if_neg hv]
    cases resolveRelated c dt.Visited kr with
    | unsupported => rfl
    | failed f => cases f <;> rfl
    | ok rel st =>
      cases getHPAForController c kr with
      | error e => rfl
      | ok hpa =>
        simp only [addNode_status, expanded]

/-- Expanding the same identity with statuses that agree on ok and message keeps two states
similar. -/
theorem similar_expanded (dt dt' : DAGTraverser) (kr : KubernetesResource) (st st' : Status)
    (rs : List KubernetesResource) (h : Similar dt dt') (hok : st.OK = st'.OK)
    (hmsg : st.Message = st'.Message) :
    Similar (expanded dt kr st rs) (expanded dt' kr st' rs) := by
  obtain ⟨hv, hn, he⟩ := h
  refine ⟨?_, ?_, ?_⟩
  · rw [expanded_visited, expanded_visited]
    unfold mapSet
    by_cases hk : kr.ResourceType ++ "_" ++ kr.ResourceName ∈ dt.Visited
    · rw [if_pos hk, if_pos (hv.mem_iff.1 hk)]
      exact hv
    · rw [if_neg hk, if_neg (fun h => hk (hv.mem_iff.2 h))]
      exact hv.append_right _
  · rw [expanded_nodes, expanded_nodes, List.map_append, List.map_append, hn]
    simp [nodeView, hok, hmsg]
  · rw [expanded_edges, expanded_edges, he]

/-- The loop over the children keeps two runs similar when each recursive call does. -/
theorem recurse_similar
    (gen gen' : DAGTraverser → KubernetesResource → Option (DAGTraverser × Exit))
    (hgen : ∀ dt dt' kr, Similar dt dt' → SimilarResult (gen dt kr) (gen' dt' kr)) :
    ∀ (rs : List KubernetesResource) (dt dt' : DAGTraverser), Similar dt dt' →
      SimilarResult (recurse gen dt rs) (recurse gen' dt' rs)
  | [], dt, dt', h => ⟨rfl, h⟩
  | r :: rs, dt, dt', h => by
    have h1 := hgen dt dt' r h
    simp only [recurse]
    rcases hg : gen dt r with _ | ⟨d, e⟩ <;> rcases hg' : gen' dt' r with _ | ⟨d', e'⟩ <;>
      rw [hg, hg'] at h1
    · trivial
    · exact h1.elim
    · exact h1.elim
    · obtain ⟨he, hs⟩ := h1
      simp only at he hs
      subst he
      cases e with
      | nil => exact recurse_similar gen gen' hgen rs d d' hs
      | error msg => exact ⟨rfl, hs⟩
      | panic => exact ⟨rfl, hs⟩


/-- A call from similar states, against clients that differ in the clock only, ends the same
way in similar states. -/
theorem GenerateDAGForResource_similar (c : Clientset) (n : Int) :
    ∀ (fuel : Nat) (dt dt' : DAGTraverser) (kr : KubernetesResource), Similar dt dt' →
      SimilarResult (GenerateDAGForResource c fuel dt kr)
        (GenerateDAGForResource { c with Now := n } fuel dt' kr)
  | 0, _, _, _, _ => by simp [GenerateDAGForResource, SimilarResult]
  | fuel + 1, dt, dt', kr, h => by
    have ih := GenerateDAGForResource_similar c n fuel
    rw [GenerateDAGForResource_succ, GenerateDAGForResource_succ]
    by_cases hk : kr.ResourceType ++ "_" ++ kr.ResourceName ∈ dt.Visited
    · rw [if_pos hk, if_pos (h.1.mem_iff.1 hk)]
      exact ⟨rfl, h⟩
    · rw [if_neg hk, if_neg (fun hk' => hk (h.1.mem_iff.2 hk'))]
      have hview := resolveRelated_view c n dt.Visited dt'.Visited
        (fun kind => (kindVisited_perm kind _ _ h.1).symm) kr
      have hhpa : getHPAForController { c with Now := n } kr = getHPAForController c kr := rfl
      rw [hhpa]
      rcases hr : resolveRelated c dt.Visited kr with _ | f | ⟨rel, st⟩ <;>
        rcases hr' : resolveRelated { c with Now := n } dt'.Visited kr with
          _ | f' | ⟨rel', st'⟩ <;>
        rw [hr, hr'] at hview <;>
        simp only [Resolved.view, Option.some.injEq, Except.ok.injEq, Except.error.injEq,
          Prod.mk.injEq, reduceCtorEq] at hview
      · exact ⟨rfl, h⟩
      · subst hview
        cases f' <;> exact ⟨rfl, h⟩
      · obtain ⟨rfl, hok, hmsg⟩ := hview
        cases getHPAForController c kr with
        | error e => exact ⟨rfl, h⟩
        | ok hpa =>
          exact recurse_similar _ _ ih _ _ _ (similar_expanded dt dt' kr st st' _ h hok.symm hmsg.symm)

/-- What the switch returns does not depend on the order of the keys of the Visited set. -/
theorem resolveRelated_perm (c : Clientset) (v v' : List String) (h : v.Perm v')
    (kr : KubernetesResource) : resolveRelated c v kr = resolveRelated c v' kr := by
  have hv : ∀ kind, kindVisited kind v = kindVisited kind v' :=
    fun kind => kindVisited_perm kind v v' h
  simp only [resolveRelated, getRelatedResourcesDeployments, getRelatedResourcesReplicaSet,
    getRelatedResourcesPod, getRelatedResourcesService, getRelatedResourcesServiceAccount,
    getRelatedResourcesIngress, getRelatedResourcesPersistentVolumeClaim,
    getRelatedResourcesConfigMap, getRelatedResourcesSecret, hv]

/-- Two clients with the same answers differ in the clock reading only. -/
theorem sameAnswers_eq (c c' : Clientset) (h : SameAnswers c c') :
    c' = { c with Now := c'.Now } := by
  obtain ⟨h1, h2, h3, h4, h5, h6, h7, h8, h9, h10, h11, h12, h13, h14, h15, h16, h17, h18,
    h19⟩ := h
  cases c
  cases c'
  simp only at h1 h2 h3 h4 h5 h6 h7 h8 h9 h10 h11 h12 h13 h14 h15 h16 h17 h18 h19
  subst h1 h2 h3 h4 h5 h6 h7 h8 h9 h10 h11 h12 h13 h14 h15 h16 h17 h18 h19
  rfl

theorem sameListing_refl {α : Type} (x : Except String (List α)) : SameListing x x := by
  cases x with
  | error e => exact rfl
  | ok items => exact List.Perm.refl items

/-- A loop whose iterations fail with a panic only ends the same way on a permutation of its
input, with the pieces it appended permuted. -/
theorem forEach_perm {α β : Type} (f : α → Res (List β))
    (honly : ∀ a e, f a = .error e → e = .panic) {l l' : List α} (h : l.Perm l') :
    (∀ e, forEach f l = .error e → forEach f l' = .error e) ∧
      ∀ out, forEach f l = .ok out → ∃ out', forEach f l' = .ok out' ∧ out.Perm out' := by
  induction h with
  | nil => exact ⟨fun e he => he, fun out hout => ⟨out, hout, List.Perm.refl _⟩⟩
  | cons a hp ih =>
    obtain ⟨ih1, ih2⟩ := ih
    simp only [forEach]
    cases hfa : f a with
    | error e => exact ⟨fun e he => he, fun out hout => by cases hout⟩
    | ok xs =>
      simp only
      rename_i l1 l2
      cases h1 : forEach f l1 with
      | error e =>
        rw [ih1 e h1]
        exact ⟨fun e he => he, fun out hout => by cases hout⟩
      | ok ys =>
        obtain ⟨ys', hys', hp⟩ := ih2 ys h1
        rw [hys']
        refine ⟨fun e he => (by cases he), fun out hout => ?_⟩
        simp only [Except.ok.injEq] at hout
        subst hout
        exact ⟨_, rfl, hp.append_left xs⟩
  | swap a b l1 =>
    simp only [forEach]
    cases hfa : f a with
    | error ea =>
      cases hfb : f b with
      | error eb =>
        refine ⟨fun e he => ?_, fun out hout => by cases hout⟩
        simp only [Except.error.injEq] at he ⊢
        rw [← he, honly a ea hfa, honly b eb hfb]
      | ok ys =>
        simp only
        cases forEach f l1 <;> exact ⟨fun e he => he, fun out hout => by cases hout⟩
    | ok xs =>
      cases hfb : f b with
      | error eb =>
        simp only
        cases h1 : forEach f l1 with
        | error e1 =>
          refine ⟨fun e he => ?_, fun out hout => by cases hout⟩
          simp only [Except.error.injEq] at he ⊢
          rw [← he, honly b eb hfb]
        | ok zs => exact ⟨fun e he => he, fun out hout => by cases hout⟩
      | ok ys =>
        simp only
        cases h1 : forEach f l1 with
        | error e1 => exact ⟨fun e he => he, fun out hout => by cases hout⟩
        | ok zs =>
          refine ⟨fun e he => (by cases he), fun out hout => ?_⟩
          simp only [Except.ok.injEq] at hout
          subst hout
          refine ⟨_, rfl, ?_⟩
          rw [← List.append_assoc, ← List.append_assoc]
          exact List.Perm.append_right zs List.perm_append_comm
  | trans _ _ ih1 ih2 =>
    refine ⟨fun e he => ih2.1 e (ih1.1 e he), fun out hout => ?_⟩
    obtain ⟨out1, h1, hp1⟩ := ih1.2 out hout
    obtain ⟨out2, h2, hp2⟩ := ih2.2 out1 h1
    exact ⟨out2, h2, hp1.trans hp2⟩

/-- The requests on which two clients with the same expandable order agree. -/
theorem sameExpandableOrder_gets (c c' : Clientset) (h : SameExpandableOrder c c') :
    c.GetDeployment = c'.GetDeployment ∧ c.GetReplicaSet = c'.GetReplicaSet ∧
    c.GetPod = c'.GetPod ∧ c.GetService = c'.GetService ∧
    c.GetServiceAccount = c'.GetServiceAccount ∧ c.GetIngress = c'.GetIngress ∧
    c.GetPersistentVolumeClaim = c'.GetPersistentVolumeClaim ∧
    c.GetConfigMap = c'.GetConfigMap ∧ c.GetSecret = c'.GetSecret ∧
    c.ListDeployments = c'.ListDeployments ∧ c.ListReplicaSets = c'.ListReplicaSets ∧
    c.ListPods = c'.ListPods ∧ c.ListServices = c'.ListServices ∧
    c.ListIngresses = c'.ListIngresses := by
  obtain ⟨⟨g1, -, g3, -, g5, -, g7, -, g9, g10, -, g12, g13, g14, -, -, -, -, -⟩,
    l1, l2, l3, l4, l5⟩ := h
  exact ⟨g1, g3, g5, g7, g9, g10, g12, g13, g14, l1, l2, l3, l4, l5⟩

theorem deployments_reordered (c c' : Clientset) (h : SameExpandableOrder c c')
    (v v' : List String) (hv : ∀ kind, kindVisited kind v' = kindVisited kind v)
    (kr : KubernetesResource) :
    Except.map
      (fun p : List KubernetesResource × DeploymentStatus => (p.1, p.2.Ok, p.2.Message))
      (getRelatedResourcesDeployments c' v' kr) =
    Except.map
      (fun p : List KubernetesResource × DeploymentStatus => (p.1, p.2.Ok, p.2.Message))
      (getRelatedResourcesDeployments c v kr) := by
  obtain ⟨g1, g3, g5, g7, g9, g10, g12, g13, g14, l1, l2, l3, l4, l5⟩ :=
    sameExpandableOrder_gets c c' h
  simp only [getRelatedResourcesDeployments, hv, ← g1, ← g3, ← g5, ← g7, ← g9, ← g10, ← g12, ← g13,
    ← g14, ← l1, ← l2, ← l3, ← l4, ← l5]
  repeat (any_goals (first | (simp only [Except.map]; done) | split))

theorem replicaSet_reordered (c c' : Clientset) (h : SameExpandableOrder c c')
    (v v' : List String) (hv : ∀ kind, kindVisited kind v' = kindVisited kind v)
    (kr : KubernetesResource) :
    Except.map
      (fun p : List KubernetesResource × ReplicaSetStatus => (p.1, p.2.Ok, p.2.Message))
      (getRelatedResourcesReplicaSet c' v' kr) =
    Except.map
      (fun p : List KubernetesResource × ReplicaSetStatus => (p.1, p.2.Ok, p.2.Message))
      (getRelatedResourcesReplicaSet c v kr) := by
  obtain ⟨g1, g3, g5, g7, g9, g10, g12, g13, g14, l1, l2, l3, l4, l5⟩ :=
    sameExpandableOrder_gets c c' h
  simp only [getRelatedResourcesReplicaSet, hv, ← g1, ← g3, ← g5, ← g7, ← g9, ← g10, ← g12, ← g13,
    ← g14, ← l1, ← l2, ← l3, ← l4, ← l5]
  repeat (any_goals (first | (simp only [Except.map]; done) | split))

theorem service_reordered (c c' : Clientset) (h : SameExpandableOrder c c')
    (v v' : List String) (hv : ∀ kind, kindVisited kind v' = kindVisited kind v)
    (kr : KubernetesResource) :
    Except.map
      (fun p : List KubernetesResource × ServiceStatus => (p.1, p.2.Ok, p.2.Message))
      (getRelatedResourcesService c' v' kr) =
    Except.map
      (fun p : List KubernetesResource × ServiceStatus => (p.1, p.2.Ok, p.2.Message))
      (getRelatedResourcesService c v kr) := by
  obtain ⟨g1, g3, g5, g7, g9, g10, g12, g13, g14, l1, l2, l3, l4, l5⟩ :=
    sameExpandableOrder_gets c c' h
  simp only [getRelatedResourcesService, hv, ← g1, ← g3, ← g5, ← g7, ← g9, ← g10, ← g12, ← g13,
    ← g14, ← l1, ← l2, ← l3, ← l4, ← l5]
  repeat (any_goals (first | (simp only [Except.map]; done) | split))

theorem serviceAccount_reordered (c c' : Clientset) (h : SameExpandableOrder c c')
    (v v' : List String) (_hv : ∀ kind, kindVisited kind v' = kindVisited kind v)
    (kr : KubernetesResource) :
    Except.map
      (fun p : List KubernetesResource × ServiceAccountStatus => (p.1, p.2.Ok, p.2.Message))
      (getRelatedResourcesServiceAccount c' v' kr) =
    Except.map
      (fun p : List KubernetesResource × ServiceAccountStatus => (p.1, p.2.Ok, p.2.Message))
      (getRelatedResourcesServiceAccount c v kr) := by
  obtain ⟨g1, g3, g5, g7, g9, g10, g12, g13, g14, l1, l2, l3, l4, l5⟩ :=
    sameExpandableOrder_gets c c' h
  simp only [getRelatedResourcesServiceAccount, ← g1, ← g3, ← g5, ← g7, ← g9, ← g10, ← g12, ← g13,
    ← g14, ← l1, ← l2, ← l3, ← l4, ← l5]
  repeat (any_goals (first | (simp only [Except.map]; done) | split))

theorem ingress_reordered (c c' : Clientset) (h : SameExpandableOrder c c')
    (v v' : List String) (hv : ∀ kind, kindVisited kind v' = kindVisited kind v)
    (kr : KubernetesResource) :
    Except.map
      (fun p : List KubernetesResource × IngressStatus => (p.1, p.2.Ok, p.2.Message))
      (getRelatedResourcesIngress c' v' kr) =
    Except.map
      (fun p : List KubernetesResource × IngressStatus => (p.1, p.2.Ok, p.2.Message))
      (getRelatedResourcesIngress c v kr) := by
  obtain ⟨g1, g3, g5, g7, g9, g10, g12, g13, g14, l1, l2, l3, l4, l5⟩ :=
    sameExpandableOrder_gets c c' h
  simp only [getRelatedResourcesIngress, hv, ← g1, ← g3, ← g5, ← g7, ← g9, ← g10, ← g12, ← g13,
    ← g14, ← l1, ← l2, ← l3, ← l4, ← l5]
  repeat (any_goals (first | (simp only [Except.map]; done) | split))

theorem pvc_reordered (c c' : Clientset) (h : SameExpandableOrder c c')
    (v v' : List String) (_hv : ∀ kind, kindVisited kind v' = kindVisited kind v)
    (kr : KubernetesResource) :
    Except.map
      (fun p : List KubernetesResource × PersistentVolumeClaimStatus => (p.1, p.2.Ok, p.2.Message))
      (getRelatedResourcesPersistentVolumeClaim c' v' kr) =
    Except.map
      (fun p : List KubernetesResource × PersistentVolumeClaimStatus => (p.1, p.2.Ok, p.2.Message))
      (getRelatedResourcesPersistentVolumeClaim c v kr) := by
  obtain ⟨g1, g3, g5, g7, g9, g10, g12, g13, g14, l1, l2, l3, l4, l5⟩ :=
    sameExpandableOrder_gets c c' h
  simp only [getRelatedResourcesPersistentVolumeClaim, ← g1, ← g3, ← g5, ← g7, ← g9, ← g10, ← g12, ← g13,
    ← g14, ← l1, ← l2, ← l3, ← l4, ← l5]
  repeat (any_goals (first | (simp only [Except.map]; done) | split))

theorem configMap_reordered (c c' : Clientset) (h : SameExpandableOrder c c')
    (v v' : List String) (_hv : ∀ kind, kindVisited kind v' = kindVisited kind v)
    (kr : KubernetesResource) :
    Except.map
      (fun p : List KubernetesResource × ConfigMapStatus => (p.1, p.2.Ok, p.2.Message))
      (getRelatedResourcesConfigMap c' v' kr) =
    Except.map
      (fun p : List KubernetesResource × ConfigMapStatus => (p.1, p.2.Ok, p.2.Message))
      (getRelatedResourcesConfigMap c v kr) := by
  obtain ⟨g1, g3, g5, g7, g9, g10, g12, g13, g14, l1, l2, l3, l4, l5⟩ :=
    sameExpandableOrder_gets c c' h
  simp only [getRelatedResourcesConfigMap, ← g1, ← g3, ← g5, ← g7, ← g9, ← g10, ← g12, ← g13,
    ← g14, ← l1, ← l2, ← l3, ← l4, ← l5]
  repeat (any_goals (first | (simp only [Except.map]; done) | split))

theorem secret_reordered (c c' : Clientset) (h : SameExpandableOrder c c')
    (v v' : List String) (_hv : ∀ kind, kindVisited kind v' = kindVisited kind v)
    (kr : KubernetesResource) :
    Except.map
      (fun p : List KubernetesResource × SecretStatus => (p.1, p.2.Ok, p.2.Message))
      (getRelatedResourcesSecret c' v' kr) =
    Except.map
      (fun p : List KubernetesResource × SecretStatus => (p.1, p.2.Ok, p.2.Message))
      (getRelatedResourcesSecret c v kr) := by
  obtain ⟨g1, g3, g5, g7, g9, g10, g12, g13, g14, l1, l2, l3, l4, l5⟩ :=
    sameExpandableOrder_gets c c' h
  simp only [getRelatedResourcesSecret, ← g1, ← g3, ← g5, ← g7, ← g9, ← g10, ← g12, ← g13,
    ← g14, ← l1, ← l2, ← l3, ← l4, ← l5]
  repeat (any_goals (first | (simp only [Except.map]; done) | split))

/-- The selector test of the Pod resolver fails with a panic only. -/
theorem selectorMatches_only_panic (ps : Option LabelSelector) (ls : LabelMap) (e : Failure)
    (h : selectorMatches ps ls = .error e) : e = .panic := by
  unfold selectorMatches at h
  split at h
  · cases h; rfl
  · cases h

/-- The autoscalers appended to the related list are the same, in another order, when the
listing of autoscalers comes in another order. -/
theorem hpa_reordered (c c' : Clientset)
    (h : ∀ ns, SameListing (c.ListHorizontalPodAutoscalers ns)
      (c'.ListHorizontalPodAutoscalers ns)) (kr : KubernetesResource) :
    (∀ e, getHPAForController c kr = .error e → getHPAForController c' kr = .error e) ∧
      ∀ hpa, getHPAForController c kr = .ok hpa →
        ∃ hpa', getHPAForController c' kr = .ok hpa' ∧ hpa.Perm hpa' := by
  have hs := h kr.ResourceNamespace
  unfold getHPAForController
  cases h1 : c.ListHorizontalPodAutoscalers kr.ResourceNamespace with
  | error e1 =>
    cases h2 : c'.ListHorizontalPodAutoscalers kr.ResourceNamespace with
    | error e2 =>
      rw [h1, h2] at hs
      have : e1 = e2 := hs
      subst this
      exact ⟨fun e he => he, fun hpa hh => by cases hh⟩
    | ok l2 =>
      rw [h1, h2] at hs
      exact hs.elim
  | ok l1 =>
    cases h2 : c'.ListHorizontalPodAutoscalers kr.ResourceNamespace with
    | error e2 =>
      rw [h1, h2] at hs
      exact hs.elim
    | ok l2 =>
      rw [h1, h2] at hs
      have hp : l1.Perm l2 := hs
      refine ⟨fun e he => (by cases he), fun hpa hh => ?_⟩
      simp only [Except.ok.injEq] at hh
      subst hh
      exact ⟨_, rfl, (hp.filter _).map _⟩

/-- Two answers to a listing request: both fail with the same text, or both hold items, the
same up to order. -/
theorem sameListing_cases {α : Type} {x y : Except String (List α)} (h : SameListing x y) :
    (∃ e, x = .error e ∧ y = .error e) ∨ ∃ l l', x = .ok l ∧ y = .ok l' ∧ l.Perm l' := by
  cases x with
  | error e =>
    cases y with
    | error e' => exact Or.inl ⟨e, rfl, by rw [show e = e' from h]⟩
    | ok l' => exact h.elim
  | ok l =>
    cases y with
    | error e' => exact h.elim
    | ok l' => exact Or.inr ⟨l, l', rfl, rfl, h⟩

/-- The Pod resolver against two clients with the same expandable order: the same failure,
or related lists that differ in the order of the PodDisruptionBudgets and of the
NetworkPolicies only, with statuses that agree on ok and message. -/
theorem pod_reordered (c c' : Clientset) (h : SameExpandableOrder c c')
    (v v' : List String) (kr : KubernetesResource) :
    (∀ e, getRelatedResourcesPod c v kr = .error e →
      getRelatedResourcesPod c' v' kr = .error e) ∧
    ∀ rel st, getRelatedResourcesPod c v kr = .ok (rel, st) →
      ∃ rel' st', getRelatedResourcesPod c' v' kr = .ok (rel', st') ∧ rel.Perm rel' ∧
        rel.filter expandable = rel'.filter expandable ∧
        st.Ok = st'.Ok ∧ st.Message = st'.Message := by
  obtain ⟨g1, g3, g5, g7, g9, g10, g12, g13, g14, l1, l2, l3, l4, l5⟩ :=
    sameExpandableOrder_gets c c' h
  obtain ⟨⟨-, -, -, -, -, -, -, -, -, -, -, -, -, -, -, hP, hN, -, -⟩, -⟩ := h
  have hP := hP kr.ResourceNamespace
  have hN := hN kr.ResourceNamespace
  simp only [getRelatedResourcesPod, ← g5, ← l4]
  cases hpod : c.GetPod kr.ResourceNamespace kr.ResourceName with
  | error e => exact ⟨fun e he => he, fun rel st hh => by cases hh⟩
  | ok pod =>
    simp only
    cases hsvc : c.ListServices pod.Namespace with
    | error e => exact ⟨fun e he => he, fun rel st hh => by cases hh⟩
    | ok svcList =>
      simp only
      rcases sameListing_cases hP with ⟨e, hp1, hp2⟩ | ⟨p1, p2, hp1, hp2, hpp⟩
      · rw [hp1, hp2]
        exact ⟨fun e he => he, fun rel st hh => by cases hh⟩
      · rw [hp1, hp2]
        simp only
        rcases sameListing_cases hN with ⟨e, hn1, hn2⟩ | ⟨n1, n2, hn1, hn2, hnn⟩
        · rw [hn1, hn2]
          simp only
          refine ⟨fun e he => ?_, fun rel st hh => ?_⟩
          · split at he
            · rename_i f heq
              rw [(forEach_perm _ (fun pdb e1 he1 => by
                split at he1
                · rename_i f1 hf1
                  cases he1
                  exact selectorMatches_only_panic _ _ _ hf1
                · cases he1) hpp).1 f heq]
              exact he
            · rename_i o1 heq
              obtain ⟨o2, ho2, -⟩ := (forEach_perm _ (fun pdb e1 he1 => by
                split at he1
                · rename_i f1 hf1
                  cases he1
                  exact selectorMatches_only_panic _ _ _ hf1
                · cases he1) hpp).2 o1 heq
              rw [ho2]
              exact he
          · split at hh
            · cases hh
            · cases hh
        · rw [hn1, hn2]
          simp only
          have hkind : ∀ (kind : String) (name ns : String) (matched : Bool)
              (x : KubernetesResource), kind ∉ supportedKinds →
              x ∈ (if matched = true then
                [({ ResourceName := name, ResourceType := kind,
                    ResourceNamespace := ns } : KubernetesResource)] else []) →
              expandable x = false := by
            intro kind name ns matched x hk hx
            cases matched with
            | false => cases hx
            | true =>
              simp only [if_true, List.mem_singleton] at hx
              subst hx
              simpa [expandable] using hk
          refine ⟨fun e he => ?_, fun rel st hh => ?_⟩
          · split at he
            · rename_i f heq
              rw [(forEach_perm _ (fun pdb e1 he1 => by
                split at he1
                · rename_i f1 hf1
                  cases he1
                  exact selectorMatches_only_panic _ _ _ hf1
                · cases he1) hpp).1 f heq]
              exact he
            · rename_i o1 heq
              obtain ⟨o2, ho2, -⟩ := (forEach_perm _ (fun pdb e1 he1 => by
                split at he1
                · rename_i f1 hf1
                  cases he1
                  exact selectorMatches_only_panic _ _ _ hf1
                · cases he1) hpp).2 o1 heq
              rw [ho2]
              simp only
              split at he
              · rename_i f heq2
                rw [(forEach_perm _ (fun pdb e1 he1 => by
                split at he1
                · rename_i f1 hf1
                  cases he1
                  exact selectorMatches_only_panic _ _ _ hf1
                · cases he1) hnn).1 f heq2]
                exact he
              · cases he
          · split at hh
            · cases hh
            · rename_i o1 heq
              obtain ⟨o2, ho2, hpo⟩ := (forEach_perm _ (fun pdb e1 he1 => by
                split at he1
                · rename_i f1 hf1
                  cases he1
                  exact selectorMatches_only_panic _ _ _ hf1
                · cases he1) hpp).2 o1 heq
              rw [ho2]
              simp only
              split at hh
              · cases hh
              · rename_i m1 heq2
                obtain ⟨m2, hm2, hpm⟩ := (forEach_perm _ (fun pdb e1 he1 => by
                split at he1
                · rename_i f1 hf1
                  cases he1
                  exact selectorMatches_only_panic _ _ _ hf1
                · cases he1) hnn).2 m1 heq2
                rw [hm2]
                simp only [Except.ok.injEq, Prod.mk.injEq] at hh
                obtain ⟨rfl, rfl⟩ := hh
                have hstep : ∀ {α : Type} (f : α → Res (List KubernetesResource))
                    (l : List α) (out : List KubernetesResource),
                    (∀ a xs, f a = .ok xs → ∀ x ∈ xs, expandable x = false) →
                    forEach f l = .ok out → out.filter expandable = [] := by
                  intro α f l out hf hout
                  rw [List.filter_eq_nil_iff]
                  intro x hx
                  obtain ⟨a, -, xs, hxs, hmem⟩ := forEach_mem f l out hout x hx
                  rw [hf a xs hxs x hmem]
                  exact Bool.false_ne_true
                have ho1 := hstep _ p1 o1 (fun a xs hxs x hx => by
                  split at hxs
                  · cases hxs
                  · simp only [Except.ok.injEq] at hxs
                    subst hxs
                    exact hkind _ _ _ _ x (by decide) hx) heq
                have ho2' := hstep _ p2 o2 (fun a xs hxs x hx => by
                  split at hxs
                  · cases hxs
                  · simp only [Except.ok.injEq] at hxs
                    subst hxs
                    exact hkind _ _ _ _ x (by decide) hx) ho2
                have hm1 := hstep _ n1 m1 (fun a xs hxs x hx => by
                  split at hxs
                  · cases hxs
                  · simp only [Except.ok.injEq] at hxs
                    subst hxs
                    exact hkind _ _ _ _ x (by decide) hx) heq2
                have hm2' := hstep _ n2 m2 (fun a xs hxs x hx => by
                  split at hxs
                  · cases hxs
                  · simp only [Except.ok.injEq] at hxs
                    subst hxs
                    exact hkind _ _ _ _ x (by decide) hx) hm2
                refine ⟨_, _, rfl, (hpo.append_left _).append hpm, ?_, rfl, rfl⟩
                simp only [List.filter_append, ho1, ho2', hm1, hm2']

/-- Two resolutions with the same compared part agree. -/
theorem agrees_of_view (r r' : Resolved) (h : r'.view = r.view) : r.agrees r' := by
  cases r with
  | unsupported =>
    cases r' with
    | unsupported => trivial
    | failed f' => cases h
    | ok rel' st' => cases h
  | failed f =>
    cases r' with
    | unsupported => cases h
    | failed f' =>
      simp only [Resolved.view, Option.some.injEq, Except.error.injEq] at h
      exact h.symm
    | ok rel' st' =>
      simp only [Resolved.view, Option.some.injEq, reduceCtorEq] at h
  | ok rel st =>
    cases r' with
    | unsupported => cases h
    | failed f' =>
      simp only [Resolved.view, Option.some.injEq, reduceCtorEq] at h
    | ok rel' st' =>
      simp only [Resolved.view, Option.some.injEq, Except.ok.injEq, Prod.mk.injEq] at h
      obtain ⟨rfl, hok, hmsg⟩ := h
      exact ⟨List.Perm.refl _, rfl, hok.symm, hmsg.symm⟩

/-- The resolution of an identity against two clients with the same expandable order, with
Visited sets that raise the same flags. -/
theorem resolveRelated_reordered (c c' : Clientset) (h : SameExpandableOrder c c')
    (v v' : List String) (hv : ∀ kind, kindVisited kind v' = kindVisited kind v)
    (kr : KubernetesResource) :
    (resolveRelated c v kr).agrees (resolveRelated c' v' kr) := by
  by_cases hpod : kr.ResourceType = "Pod"
  · unfold resolveRelated
    simp only [hpod, String.reduceEq, if_false, if_true]
    obtain ⟨hE, hO⟩ := pod_reordered c c' h v v' kr
    cases hx : getRelatedResourcesPod c v kr with
    | error f =>
      rw [hE f hx]
      cases f <;> exact rfl
    | ok p =>
      obtain ⟨rel, st⟩ := p
      obtain ⟨rel', st', h', hp, hf, hok, hmsg⟩ := hO rel st hx
      rw [h']
      exact ⟨hp, hf, hok, hmsg⟩
  · apply agrees_of_view
    unfold resolveRelated
    split
    · rw [switchCase_view, switchCase_view]
      exact congrArg (fun x => some (wrapResolverError _ x)) (deployments_reordered c c' h v v' hv kr)
    split
    · rw [switchCase_view, switchCase_view]
      exact congrArg (fun x => some (wrapResolverError _ x)) (replicaSet_reordered c c' h v v' hv kr)
    split
    · rw [switchCase_view, switchCase_view]
      exact congrArg (fun x => some (wrapResolverError _ x)) (service_reordered c c' h v v' hv kr)
    split
    · rw [switchCase_view, switchCase_view]
      exact congrArg (fun x => some (wrapResolverError _ x))
        (serviceAccount_reordered c c' h v v' hv kr)
    split
    · rw [switchCase_view, switchCase_view]
      exact congrArg (fun x => some (wrapResolverError _ x)) (ingress_reordered c c' h v v' hv kr)
    split
    · rw [switchCase_view, switchCase_view]
      exact congrArg (fun x => some (wrapResolverError _ x)) (pvc_reordered c c' h v v' hv kr)
    split
    · rw [switchCase_view, switchCase_view]
      exact congrArg (fun x => some (wrapResolverError _ x)) (configMap_reordered c c' h v v' hv kr)
    split
    · rw [switchCase_view, switchCase_view]
      exact congrArg (fun x => some (wrapResolverError _ x)) (secret_reordered c c' h v v' hv kr)
    · rfl

/-- Expanding the same identity with related lists that are the same up to order, and with
statuses that agree on ok and message, keeps two states in agreement but for the order of
the edges. -/
theorem similarUpToEdgeOrder_expanded (dt dt' : DAGTraverser) (kr : KubernetesResource)
    (st st' : Status) (rs rs' : List KubernetesResource) (h : SimilarUpToEdgeOrder dt dt')
    (hok : st.OK = st'.OK) (hmsg : st.Message = st'.Message) (hrs : rs.Perm rs') :
    SimilarUpToEdgeOrder (expanded dt kr st rs) (expanded dt' kr st' rs') := by
  obtain ⟨hv, hn, he⟩ := h
  refine ⟨?_, ?_, ?_⟩
  · rw [expanded_visited, expanded_visited]
    unfold mapSet
    by_cases hk : kr.ResourceType ++ "_" ++ kr.ResourceName ∈ dt.Visited
    · rw [if_pos hk, if_pos (hv.mem_iff.1 hk)]
      exact hv
    · rw [if_neg hk, if_neg (fun h => hk (hv.mem_iff.2 h))]
      exact hv.append_right _
  · rw [expanded_nodes, expanded_nodes, List.map_append, List.map_append, hn]
    simp [nodeView, hok, hmsg]
  · rw [expanded_edges, expanded_edges]
    exact he.append (hrs.map _)

/-- With fuel left, a call on an identity of a kind the switch has no case for changes
nothing. -/
theorem GenerateDAGForResource_unexpandable (c : Clientset) (fuel : Nat) (dt : DAGTraverser)
    (r : KubernetesResource) (h : expandable r = false) :
    GenerateDAGForResource c (fuel + 1) dt r = some (dt, .nil) := by
  have hk : r.ResourceType ∉ supportedKinds := by simpa [expandable] using h
  by_cases hv : r.ResourceType ++ "_" ++ r.ResourceName ∈ dt.Visited
  · simp [GenerateDAGForResource, hv]
  · simp [GenerateDAGForResource, hv, resolveRelated_unsupported c dt.Visited r hk]

/-- With fuel left, the children loop does what it does on the children of expandable
kinds. -/
theorem recurse_filter (c : Clientset) (fuel : Nat) :
    ∀ (rs : List KubernetesResource) (dt : DAGTraverser),
      recurse (GenerateDAGForResource c (fuel + 1)) dt rs =
        recurse (GenerateDAGForResource c (fuel + 1)) dt (rs.filter expandable)
  | [], _ => rfl
  | r :: rs, dt => by
    cases hr : expandable r with
    | false =>
      rw [List.filter_cons_of_neg (by rw [hr]; exact Bool.false_ne_true)]
      simp only [recurse, GenerateDAGForResource_unexpandable c fuel dt r hr]
      exact recurse_filter c fuel rs dt
    | true =>
      rw [List.filter_cons_of_pos hr]
      simp only [recurse]
      rcases GenerateDAGForResource c (fuel + 1) dt r with _ | ⟨d, e⟩
      · rfl
      · cases e with
        | nil => exact recurse_filter c fuel rs d
        | error msg => rfl
        | panic => rfl

/-- The loop over the children keeps two runs in agreement when each recursive call does. -/
theorem recurse_agree
    (gen gen' : DAGTraverser → KubernetesResource → Option (DAGTraverser × Exit))
    (hgen : ∀ dt dt' kr, SimilarUpToEdgeOrder dt dt' →
      AgreeUpToEdgeOrder (gen dt kr) (gen' dt' kr)) :
    ∀ (rs : List KubernetesResource) (dt dt' : DAGTraverser), SimilarUpToEdgeOrder dt dt' →
      AgreeUpToEdgeOrder (recurse gen dt rs) (recurse gen' dt' rs)
  | [], dt, dt', h => ⟨rfl, h⟩
  | r :: rs, dt, dt', h => by
    have h1 := hgen dt dt' r h
    simp only [recurse]
    rcases hg : gen dt r with _ | ⟨d, e⟩ <;> rcases hg' : gen' dt' r with _ | ⟨d', e'⟩ <;>
      rw [hg, hg'] at h1
    · trivial
    · exact h1.elim
    · exact h1.elim
    · obtain ⟨he, hs⟩ := h1
      simp only at he hs
      subst he
      cases e with
      | nil => exact recurse_agree gen gen' hgen rs d d' hs
      | error msg => exact ⟨rfl, hs⟩
      | panic => exact ⟨rfl, hs⟩

/-- A call from states that agree but for the order of the edges, against two clients with
the same expandable order, ends the same way in states that agree but for the order of the
edges. -/
theorem GenerateDAGForResource_reordered (c c' : Clientset) (h : SameExpandableOrder c c') :
    ∀ (fuel : Nat) (dt dt' : DAGTraverser) (kr : KubernetesResource),
      SimilarUpToEdgeOrder dt dt' →
      AgreeUpToEdgeOrder (GenerateDAGForResource c fuel dt kr)
        (GenerateDAGForResource c' fuel dt' kr)
  | 0, _, _, _, _ => by simp [GenerateDAGForResource, AgreeUpToEdgeOrder]
  | fuel + 1, dt, dt', kr, hs => by
    have ih := GenerateDAGForResource_reordered c c' h fuel
    rw [GenerateDAGForResource_succ, GenerateDAGForResource_succ]
    by_cases hk : kr.ResourceType ++ "_" ++ kr.ResourceName ∈ dt.Visited
    · rw [if_pos hk, if_pos (hs.1.mem_iff.1 hk)]
      exact ⟨rfl, hs⟩
    · rw [if_neg hk, if_neg (fun hk' => hk (hs.1.mem_iff.2 hk'))]
      have hag := resolveRelated_reordered c c' h dt.Visited dt'.Visited
        (fun kind => (kindVisited_perm kind _ _ hs.1).symm) kr
      obtain ⟨hpaE, hpaO⟩ := hpa_reordered c c' h.1.2.2.2.2.2.2.2.2.2.2.2.2.2.2.1 kr
      rcases hr : resolveRelated c dt.Visited kr with _ | f | ⟨rel, st⟩ <;>
        rcases hr' : resolveRelated c' dt'.Visited kr with _ | f' | ⟨rel', st'⟩ <;>
        rw [hr, hr'] at hag
      · exact ⟨rfl, hs⟩
      · exact hag.elim
      · exact hag.elim
      · exact hag.elim
      · have hf : f = f' := hag
        subst hf
        cases f <;> exact ⟨rfl, hs⟩
      · exact hag.elim
      · exact hag.elim
      · exact hag.elim
      · obtain ⟨hperm, hfilter, hok, hmsg⟩ := hag
        cases hh : getHPAForController c kr with
        | error e =>
          rw [hpaE e hh]
          exact ⟨rfl, hs⟩
        | ok hpa =>
          obtain ⟨hpa', hh', hpp⟩ := hpaO hpa hh
          rw [hh']
          have hexp := similarUpToEdgeOrder_expanded dt dt' kr st st' (rel ++ hpa)
            (rel' ++ hpa') hs hok hmsg (hperm.append hpp)
          simp only
          cases fuel with
          | zero =>
            cases hl : rel ++ hpa with
            | nil =>
              have hl' : rel' ++ hpa' = [] :=
                List.Perm.eq_nil ((hperm.append hpp).symm.trans (by rw [hl]))
              rw [hl'] at hexp ⊢
              rw [hl] at hexp
              exact ⟨rfl, hexp⟩
            | cons x xs =>
              cases hl' : rel' ++ hpa' with
              | nil =>
                have := (hperm.append hpp)
                rw [hl, hl'] at this
                exact absurd this.eq_nil (by simp)
              | cons y ys =>
                simp [recurse, GenerateDAGForResource, AgreeUpToEdgeOrder]
          | succ k =>
            have hnone : ∀ (c0 : Clientset) (l : List KubernetesResource),
                getHPAForController c0 kr = .ok l → l.filter expandable = [] := by
              intro c0 l hl
              rw [List.filter_eq_nil_iff]
              intro x hx
              have := hpa_unsupported c0 kr l hl x hx
              simpa [expandable] using this
            rw [recurse_filter c k, recurse_filter c' k, List.filter_append,
              List.filter_append, hnone c hpa hh, hnone c' hpa' hh', ← hfilter]
            exact recurse_agree _ _ ih _ _ _ hexp

/-- C13, counterexample: the clusters `twoServicesCluster [svcA, svcB]` and
`twoServicesCluster [svcB, svcA]` hold the same objects and differ only in the order in
which the two Services are listed.  The traversal from Deployment "web" succeeds on both;
on the first it reaches Pod "pa" through Service "a" and then skips the Pods of Service "b"
(a Pod is visited), on the second it reaches Pod "pb" and never "pa": the node sets
differ. -/
theorem C13_counterexample :
    SameClusterState (twoServicesCluster [svcA, svcB]) (twoServicesCluster [svcB, svcA]) ∧
    (GenerateDAGForResource (twoServicesCluster [svcA, svcB]) 6 freshTraverser
        deploymentRoot).map (fun res => (res.2, res.1.Graph.Nodes.map (fun n => n.ID))) =
      some (.nil, ["web-Deployment", "a-Service", "pa-Pod", "b-Service"]) ∧
    (GenerateDAGForResource (twoServicesCluster [svcB, svcA]) 6 freshTraverser
        deploymentRoot).map (fun res => (res.2, res.1.Graph.Nodes.map (fun n => n.ID))) =
      some (.nil, ["web-Deployment", "b-Service", "pb-Pod", "a-Service"]) ∧
    "pa-Pod" ∈ ["web-Deployment", "a-Service", "pa-Pod", "b-Service"] ∧
    "pa-Pod" ∉ ["web-Deployment", "b-Service", "pb-Pod", "a-Service"] :=
  ⟨⟨rfl, fun _ _ => sameListing_refl _, rfl, fun _ => sameListing_refl _, rfl,
      fun _ _ => sameListing_refl _, rfl, fun _ => List.Perm.swap svcB svcA [], rfl, rfl,
      fun _ => sameListing_refl _, rfl, rfl, rfl, fun _ => sameListing_refl _,
      fun _ => sameListing_refl _, fun _ => sameListing_refl _,
      fun _ _ => sameListing_refl _, fun _ => sameListing_refl _⟩,
    by rfl, by rfl, by decide, by decide⟩

/-- Two clients with the same answers have the same expandable order. -/
theorem sameAnswers_expandableOrder (c c' : Clientset) (h : SameAnswers c c') :
    SameExpandableOrder c c' := by
  obtain ⟨h1, h2, h3, h4, h5, h6, h7, h8, h9, h10, h11, h12, h13, h14, h15, h16, h17, h18,
    h19⟩ := h
  exact ⟨⟨h1, fun _ _ => by rw [h2]; exact sameListing_refl _, h3,
      fun _ => by rw [h4]; exact sameListing_refl _, h5,
      fun _ _ => by rw [h6]; exact sameListing_refl _, h7,
      fun _ => by rw [h8]; exact sameListing_refl _, h9, h10,
      fun _ => by rw [h11]; exact sameListing_refl _, h12, h13, h14,
      fun _ => by rw [h15]; exact sameListing_refl _,
      fun _ => by rw [h16]; exact sameListing_refl _,
      fun _ => by rw [h17]; exact sameListing_refl _,
      fun _ _ => by rw [h18]; exact sameListing_refl _,
      fun _ => by rw [h19]; exact sameListing_refl _⟩, h2, h4, h6, h8, h11⟩

/-- C13, amended: two runs of `GenerateDAGForResource` with the same root, started from
traversers with the same graph and the same Visited keys in any order (fresh traversers in
particular), against clients that answer from the same cluster state and list Deployments,
ReplicaSets, Pods, Services and Ingresses in the same order (the clock reading may differ),
both run out of fuel or end the same way with the same nodes (id, title, description,
colour, ok, message) and the same edges, whose order can differ when autoscalers,
PodDisruptionBudgets or NetworkPolicies are listed in another order; when every listing
comes in the same order the edges come in the same order too; and what the resolvers return
does not change when the keys of the Visited set are scanned in another order. -/
theorem C13_runs_agree (c c' : Clientset) (fuel : Nat) (dt dt' : DAGTraverser)
    (hvis : dt.Visited.Perm dt'.Visited) (hgraph : dt.Graph = dt'.Graph)
    (kr : KubernetesResource) :
    (SameExpandableOrder c c' →
      (GenerateDAGForResource c fuel dt kr).map
          (fun res => (res.2, res.1.Graph.Nodes.map nodeView)) =
        (GenerateDAGForResource c' fuel dt' kr).map
          (fun res => (res.2, res.1.Graph.Nodes.map nodeView)) ∧
      ∀ res res', GenerateDAGForResource c fuel dt kr = some res →
        GenerateDAGForResource c' fuel dt' kr = some res' →
        res.1.Graph.Edges.Perm res'.1.Graph.Edges) ∧
    (SameAnswers c c' →
      (GenerateDAGForResource c fuel dt kr).map outcomeView =
        (GenerateDAGForResource c' fuel dt' kr).map outcomeView) ∧
    ∀ visited visited', visited.Perm visited' →
      resolveRelated c visited kr = resolveRelated c visited' kr := by
  refine ⟨fun hsame => ?_, fun hsame => ?_, fun v v' h => resolveRelated_perm c v v' h kr⟩
  · have hs : SimilarUpToEdgeOrder dt dt' := ⟨hvis, by rw [hgraph], by rw [hgraph]⟩
    have h := GenerateDAGForResource_reordered c c' hsame fuel dt dt' kr hs
    rcases hg : GenerateDAGForResource c fuel dt kr with _ | r <;>
      rcases hg' : GenerateDAGForResource c' fuel dt' kr with _ | r' <;>
      rw [hg, hg'] at h
    · exact ⟨rfl, fun res res' hres => by cases hres⟩
    · exact h.elim
    · exact h.elim
    · obtain ⟨he, _, hn, hed⟩ := h
      refine ⟨by simp only [Option.map_some', he, hn], fun res res' hres hres' => ?_⟩
      cases hres
      cases hres'
      exact hed
  · have hs : Similar dt dt' := ⟨hvis, by rw [hgraph], by rw [hgraph]⟩
    have h := GenerateDAGForResource_similar c c'.Now fuel dt dt' kr hs
    rw [← sameAnswers_eq c c' hsame] at h
    rcases hg : GenerateDAGForResource c fuel dt kr with _ | r <;>
      rcases hg' : GenerateDAGForResource c' fuel dt' kr with _ | r' <;>
      rw [hg, hg'] at h
    · exact h.elim
    · exact h.elim
    · obtain ⟨he, _, hn, hed⟩ := h
      simp only [Option.map_some', outcomeView, he, hn, hed]

/-- Witness of C13 (amended): the traversal of `webCluster` from Service "web" and the same
traversal two hours later agree on everything that is compared, though the final graphs
differ in the ages they show; the traversals of `autoscalersCluster` and of the same cluster
listing its autoscalers in the reverse order give the same node and the same two edges, in
another order. -/
theorem C13_runs_agree_witness :
    (SameAnswers webCluster laterWebCluster ∧
      freshTraverser.Visited.Perm freshTraverser.Visited ∧
      freshTraverser.Graph = freshTraverser.Graph) ∧
    GenerateDAGForResource webCluster 5 freshTraverser webRoot ≠
      GenerateDAGForResource laterWebCluster 5 freshTraverser webRoot ∧
    (GenerateDAGForResource webCluster 5 freshTraverser webRoot).map outcomeView =
      (GenerateDAGForResource laterWebCluster 5 freshTraverser webRoot).map outcomeView ∧
    SameExpandableOrder autoscalersCluster autoscalersReversedCluster ∧
    (GenerateDAGForResource autoscalersCluster 2 freshTraverser deploymentRoot).map
        (fun res => res.1.Graph.Edges) =
      some [{ Source := "web-Deployment", Target := "web-hpa-HorizontalPodAutoscaler" },
            { Source := "web-Deployment", Target := "web-burst-HorizontalPodAutoscaler" }] ∧
    (GenerateDAGForResource autoscalersReversedCluster 2 freshTraverser deploymentRoot).map
        (fun res => res.1.Graph.Edges) =
      some [{ Source := "web-Deployment", Target := "web-burst-HorizontalPodAutoscaler" },
            { Source := "web-Deployment", Target := "web-hpa-HorizontalPodAutoscaler" }] ∧
    (GenerateDAGForResource autoscalersCluster 2 freshTraverser deploymentRoot).map
        (fun res => (res.2, res.1.Graph.Nodes.map nodeView)) =
      (GenerateDAGForResource autoscalersReversedCluster 2 freshTraverser deploymentRoot).map
        (fun res => (res.2, res.1.Graph.Nodes.map nodeView)) :=
  ⟨⟨⟨rfl, rfl, rfl, rfl, rfl, rfl, rfl, rfl, rfl, rfl, rfl, rfl, rfl, rfl, rfl, rfl, rfl, rfl,
      rfl⟩, List.Perm.refl _, rfl⟩,
    by decide,
    (C13_runs_agree webCluster laterWebCluster 5 freshTraverser freshTraverser
      (List.Perm.refl _) rfl webRoot).2.1
      ⟨rfl, rfl, rfl, rfl, rfl, rfl, rfl, rfl, rfl, rfl, rfl, rfl, rfl, rfl, rfl, rfl, rfl, rfl,
        rfl⟩,
    ⟨⟨rfl, fun _ _ => sameListing_refl _, rfl, fun _ => sameListing_refl _, rfl,
        fun _ _ => sameListing_refl _, rfl, fun _ => sameListing_refl _, rfl, rfl,
        fun _ => sameListing_refl _, rfl, rfl, rfl,
        fun _ => show List.Perm [hpaWeb, hpaApi, hpaWebSet, hpaWebBurst]
          [hpaWebBurst, hpaWebSet, hpaApi, hpaWeb] from
          List.reverse_perm [hpaWebBurst, hpaWebSet, hpaApi, hpaWeb],
        fun _ => sameListing_refl _, fun _ => sameListing_refl _,
        fun _ _ => sameListing_refl _, fun _ => sameListing_refl _⟩, rfl, rfl, rfl, rfl, rfl⟩,
    by rfl, by rfl,
    ((C13_runs_agree autoscalersCluster autoscalersReversedCluster 2 freshTraverser
      freshTraverser (List.Perm.refl _) rfl deploymentRoot).1
      ⟨⟨rfl, fun _ _ => sameListing_refl _, rfl, fun _ => sameListing_refl _, rfl,
        fun _ _ => sameListing_refl _, rfl, fun _ => sameListing_refl _, rfl, rfl,
        fun _ => sameListing_refl _, rfl, rfl, rfl,
        fun _ => show List.Perm [hpaWeb, hpaApi, hpaWebSet, hpaWebBurst]
          [hpaWebBurst, hpaWebSet, hpaApi, hpaWeb] from
          List.reverse_perm [hpaWebBurst, hpaWebSet, hpaApi, hpaWeb],
        fun _ => sameListing_refl _, fun _ => sameListing_refl _,
        fun _ _ => sameListing_refl _, fun _ => sameListing_refl _⟩, rfl, rfl, rfl, rfl,
        rfl⟩).1⟩

/-! ## C14: kinds without a case in the switch -/

/-- C14: for an identity whose kind is none of the nine kinds of the switch, a call of
`GenerateDAGForResource` with any fuel left returns nil and hands back the traverser it was
given: no node, no edge, no key added, nothing expanded. -/
theorem C14_unsupported_kind_is_noop (c : Clientset) (fuel : Nat) (dt : DAGTraverser)
    (kr : KubernetesResource) (hk : kr.ResourceType ∉ supportedKinds) :
    GenerateDAGForResource c (fuel + 1) dt kr = some (dt, .nil) := by
  simp only [GenerateDAGForResource]
  rw [resolveRelated_unsupported c dt.Visited kr hk]
  split <;> rfl

/-- Witness of C14: a StatefulSet identity met in the final state of the `webCluster`
traversal. -/
theorem C14_unsupported_kind_is_noop_witness :
    "StatefulSet" ∉ supportedKinds ∧
    GenerateDAGForResource webCluster 1 webFinal
        { ResourceName := "db", ResourceType := "StatefulSet", ResourceNamespace := "default" } =
      some (webFinal, .nil) :=
  ⟨by decide, C14_unsupported_kind_is_noop webCluster 0 webFinal
    { ResourceName := "db", ResourceType := "StatefulSet", ResourceNamespace := "default" }
    (by decide)⟩

/-! ## C15: a status string that is not a boolean -/

/-- C15, counterexample: the only condition of Pod "unknown" has the status "Unknown", which
`ParseBool` rejects; the status the Pod resolver computes has ok = false, not true. -/
theorem C15_counterexample :
    conditionsCluster.GetPod "prod" "unknown" = .ok podUnknown ∧
    podUnknown.Status.Conditions = [{ Status := "Unknown", Message := "" }] ∧
    (ParseBool "Unknown").2 ≠ none ∧
    getRelatedResourcesPod conditionsCluster []
        { ResourceName := "unknown", ResourceType := "Pod", ResourceNamespace := "prod" } =
      .ok ([], { Ok := false, Namespace := "prod", Created := "0s", ServiceAccount := "",
                 Node := "", ControlledBy := [], Message := "" }) :=
  ⟨rfl, rfl, by decide, by rfl⟩

/-- C15, amended: for every Deployment, ReplicaSet, Pod, Service and PersistentVolumeClaim
with a non-empty condition list whose selected (latest) condition carries a status string that
does not parse as a boolean, the status computed by the resolver has ok = false. -/
theorem C15_unparseable_status_not_ok (c : Clientset) (kind : String) (conds : List Condition)
    (ok : Bool) (msg : String) (h : ConditionStatus c kind conds ok msg) (hne : conds ≠ [])
    (hparse : (ParseBool (latestCondition conds).Status).2 ≠ none) : ok = false := by
  rw [(conditionStatus_eq c kind conds ok msg h).1]
  cases conds with
  | nil => exact absurd rfl hne
  | cons first rest =>
    simp only [latestConditionOK]
    unfold ParseBool at hparse ⊢
    split
    · rw [if_pos ‹_›] at hparse; exact absurd rfl hparse
    · split
      · rfl
      · rfl

/-- Witness of C15 (amended): Pod "unknown" of `conditionsCluster`. -/
theorem C15_unparseable_status_not_ok_witness :
    (ConditionStatus conditionsCluster "Pod" [{ Status := "Unknown", Message := "" }] false "" ∧
      ([{ Status := "Unknown", Message := "" }] : List Condition) ≠ [] ∧
      (ParseBool (latestCondition [{ Status := "Unknown", Message := "" }]).Status).2 ≠ none) ∧
    false = false :=
  ⟨⟨ConditionStatus.pod []
      { ResourceName := "unknown", ResourceType := "Pod", ResourceNamespace := "prod" }
      podUnknown []
      { Ok := false, Namespace := "prod", Created := "0s", ServiceAccount := "",
        Node := "", ControlledBy := [], Message := "" } rfl (by rfl), by decide, by decide⟩,
    C15_unparseable_status_not_ok conditionsCluster "Pod"
      [{ Status := "Unknown", Message := "" }] false ""
      (ConditionStatus.pod []
        { ResourceName := "unknown", ResourceType := "Pod", ResourceNamespace := "prod" }
        podUnknown []
        { Ok := false, Namespace := "prod", Created := "0s", ServiceAccount := "",
          Node := "", ControlledBy := [], Message := "" } rfl (by rfl))
      (by decide) (by decide)⟩

/-! ## C16: which condition is selected -/

/-- C16: for every Deployment, ReplicaSet, Pod, Service and PersistentVolumeClaim with a
non-empty condition list, the status is derived from one condition of the list, the selected
one: no condition of the list has a later transition time, every condition before it in the
list has a strictly earlier one (it is the first of those sharing the latest time), ok is the
parsed value of its status string, and the message is derived from its message. -/
theorem C16_latest_first_selected (c : Clientset) (kind : String) (conds : List Condition)
    (ok : Bool) (msg : String) (h : ConditionStatus c kind conds ok msg) (hne : conds ≠ []) :
    ∃ (selected : Condition) (pre post : List Condition),
      conds = pre ++ selected :: post ∧
      (∀ x ∈ conds, x.LastTransitionTime ≤ selected.LastTransitionTime) ∧
      (∀ x ∈ pre, x.LastTransitionTime < selected.LastTransitionTime) ∧
      ok = (ParseBool selected.Status).1 ∧
      msg = if selected.Message = "" ∧ ok = true then kind ++ " is OK"
            else selected.Message := by
  obtain ⟨pre, post, hl, hpre, hall⟩ := latestCondition_first_latest conds hne
  obtain ⟨hok, hm⟩ := conditionStatus_eq c kind conds ok msg h
  refine ⟨latestCondition conds, pre, post, hl, hall, hpre, ?_, ?_⟩
  · rw [hok]
    cases conds with
    | nil => exact absurd rfl hne
    | cons first rest => rfl
  · rw [hm, hok]
    rfl

/-- Witness of C16: Pod "ties" has conditions with transition times 1, 5, 5, 3; the status
comes from the first of the two conditions at time 5. -/
theorem C16_latest_first_selected_witness :
    (ConditionStatus conditionsCluster "Pod" podTies.Status.Conditions true "first at five" ∧
      podTies.Status.Conditions ≠ []) ∧
    latestCondition podTies.Status.Conditions =
      { Status := "True", Message := "first at five", LastTransitionTime := 5 } ∧
    ∃ (selected : Condition) (pre post : List Condition),
      podTies.Status.Conditions = pre ++ selected :: post ∧
      (∀ x ∈ podTies.Status.Conditions, x.LastTransitionTime ≤ selected.LastTransitionTime) ∧
      (∀ x ∈ pre, x.LastTransitionTime < selected.LastTransitionTime) ∧
      true = (ParseBool selected.Status).1 ∧
      "first at five" = if selected.Message = "" ∧ true = true then "Pod" ++ " is OK"
            else selected.Message :=
  ⟨⟨ConditionStatus.pod []
      { ResourceName := "ties", ResourceType := "Pod", ResourceNamespace := "prod" } podTies []
      { Ok := true, Namespace := "prod", Created := "0s", ServiceAccount := "",
        Node := "", ControlledBy := [], Message := "first at five" } rfl (by rfl),
      List.cons_ne_nil _ _⟩,
    rfl,
    C16_latest_first_selected conditionsCluster "Pod" podTies.Status.Conditions true
      "first at five"
      (ConditionStatus.pod []
        { ResourceName := "ties", ResourceType := "Pod", ResourceNamespace := "prod" } podTies []
        { Ok := true, Namespace := "prod", Created := "0s", ServiceAccount := "",
          Node := "", ControlledBy := [], Message := "first at five" } rfl (by rfl))
      (List.cons_ne_nil _ _)⟩

/-! ## C17: the status message -/

/-- C17: for every Deployment, ReplicaSet, Pod, Service and PersistentVolumeClaim, the status
message is the text kind + " is OK" when the selected condition's message is empty and ok is
true, which is the case of the empty condition list; in every other case it is the selected
condition's message as it stands, and so the empty message when ok is false and the condition
has no message. -/
theorem C17_status_message (c : Clientset) (kind : String) (conds : List Condition)
    (ok : Bool) (msg : String) (h : ConditionStatus c kind conds ok msg) :
    kind ∈ ["Deployment", "ReplicaSet", "Pod", "Service", "PersistentVolumeClaim"] ∧
    (conds = [] → msg = kind ++ " is OK") ∧
    ((latestCondition conds).Message = "" ∧ ok = true → msg = kind ++ " is OK") ∧
    (¬((latestCondition conds).Message = "" ∧ ok = true) →
      msg = (latestCondition conds).Message) ∧
    ((latestCondition conds).Message = "" ∧ ok = false → msg = "") := by
  obtain ⟨hok, hm⟩ := conditionStatus_eq c kind conds ok msg h
  refine ⟨by cases h <;> decide, ?_, ?_, ?_, ?_⟩
  · rintro rfl
    rw [hm]; rfl
  · intro hc
    rw [hok] at hc
    rw [hm, latestConditionMessage, if_pos hc]
  · intro hc
    rw [hok] at hc
    rw [hm, latestConditionMessage, if_neg hc]
  · rintro ⟨hc, hf⟩
    rw [hok] at hf
    rw [hm, latestConditionMessage, if_neg (by simp [hf]), hc]

/-- Witness of C17: Pod "failing" has one condition with the status "False" and no message;
its status message is empty. -/
theorem C17_status_message_witness :
    ConditionStatus conditionsCluster "Pod" podFailing.Status.Conditions false "" ∧
    "Pod" ∈ ["Deployment", "ReplicaSet", "Pod", "Service", "PersistentVolumeClaim"] ∧
    (podFailing.Status.Conditions = [] → "" = "Pod" ++ " is OK") ∧
    ((latestCondition podFailing.Status.Conditions).Message = "" ∧ false = true →
      "" = "Pod" ++ " is OK") ∧
    (¬((latestCondition podFailing.Status.Conditions).Message = "" ∧ false = true) →
      "" = (latestCondition podFailing.Status.Conditions).Message) ∧
    ((latestCondition podFailing.Status.Conditions).Message = "" ∧ false = false → "" = "") :=
  ⟨ConditionStatus.pod []
      { ResourceName := "failing", ResourceType := "Pod", ResourceNamespace := "prod" }
      podFailing []
      { Ok := false, Namespace := "prod", Created := "0s", ServiceAccount := "",
        Node := "", ControlledBy := [], Message := "" } rfl (by rfl),
    C17_status_message conditionsCluster "Pod" podFailing.Status.Conditions false ""
      (ConditionStatus.pod []
        { ResourceName := "failing", ResourceType := "Pod", ResourceNamespace := "prod" }
        podFailing []
        { Ok := false, Namespace := "prod", Created := "0s", ServiceAccount := "",
          Node := "", ControlledBy := [], Message := "" } rfl (by rfl))⟩

/-! ## C18: the status flag -/

/-- C18: for every Deployment, ReplicaSet, Pod, Service and PersistentVolumeClaim, ok is true
when the condition list is empty or the selected condition's status string is "True", and ok
is false when the list is not empty and the selected condition's status string is "False". -/
theorem C18_status_ok (c : Clientset) (kind : String) (conds : List Condition)
    (ok : Bool) (msg : String) (h : ConditionStatus c kind conds ok msg) :
    (conds = [] → ok = true) ∧
    ((latestCondition conds).Status = "True" → ok = true) ∧
    (conds ≠ [] → (latestCondition conds).Status = "False" → ok = false) := by
  obtain ⟨hok, _⟩ := conditionStatus_eq c kind conds ok msg h
  refine ⟨?_, ?_, ?_⟩
  · rintro rfl
    rw [hok]; rfl
  · intro hs
    rw [hok]
    cases conds with
    | nil => rfl
    | cons first rest => simp only [latestConditionOK, hs]; decide
  · intro hne hs
    rw [hok]
    cases conds with
    | nil => exact absurd rfl hne
    | cons first rest => simp only [latestConditionOK, hs]; decide

/-- Witness of C18: the selected condition of Pod "ties" has the status "True" and the
status of the Pod has ok = true. -/
theorem C18_status_ok_witness :
    ConditionStatus conditionsCluster "Pod" podTies.Status.Conditions true "first at five" ∧
    (latestCondition podTies.Status.Conditions).Status = "True" ∧
    (podTies.Status.Conditions = [] → true = true) ∧
    ((latestCondition podTies.Status.Conditions).Status = "True" → true = true) ∧
    (podTies.Status.Conditions ≠ [] →
      (latestCondition podTies.Status.Conditions).Status = "False" → true = false) :=
  ⟨ConditionStatus.pod []
      { ResourceName := "ties", ResourceType := "Pod", ResourceNamespace := "prod" } podTies []
      { Ok := true, Namespace := "prod", Created := "0s", ServiceAccount := "",
        Node := "", ControlledBy := [], Message := "first at five" } rfl (by rfl),
    rfl,
    C18_status_ok conditionsCluster "Pod" podTies.Status.Conditions true "first at five"
      (ConditionStatus.pod []
        { ResourceName := "ties", ResourceType := "Pod", ResourceNamespace := "prod" } podTies []
        { Ok := true, Namespace := "prod", Created := "0s", ServiceAccount := "",
          Node := "", ControlledBy := [], Message := "first at five" } rfl (by rfl))⟩

/-! ## float64 rounding -/

theorem roundHalfEven_le (a c y : Nat) (hc : 0 < c) (h : a ≤ y * c) : roundHalfEven a c ≤ y := by
  have hq : a / c ≤ y := Nat.div_le_of_le_mul (by rw [Nat.mul_comm]; exact h)
  have hdm := Nat.div_add_mod a c
  unfold roundHalfEven
  simp only
  rcases Nat.lt_or_ge (a / c) y with hlt | hge
  · split
    · omega
    · split
      · omega
      · split <;> omega
  · have hqy : a / c = y := le_antisymm hq hge
    have hr : a % c = 0 := by
      have : c * (a / c) = y * c := by rw [hqy, Nat.mul_comm]
      omega
    rw [hr, if_pos (by omega)]
    exact hq

theorem roundHalfEven_ge (a c y : Nat) (hc : 0 < c) (h : y * c ≤ a) : y ≤ roundHalfEven a c := by
  have hq : y ≤ a / c := (Nat.le_div_iff_mul_le hc).2 h
  unfold roundHalfEven
  simp only
  split
  · exact hq
  · split
    · omega
    · split <;> omega

theorem roundHalfEven_le_of_lt_mid (a c y : Nat) (hc : 0 < c) (h : 2 * a < (2 * y + 1) * c) :
    roundHalfEven a c ≤ y := by
  have hdm := Nat.div_add_mod a c
  have hq : a / c ≤ y := by
    by_contra hcon
    have h1 : y + 1 ≤ a / c := by omega
    have h2 : (y + 1) * c ≤ a := (Nat.le_div_iff_mul_le hc).1 h1
    have h3 : (2 * y + 1) * c + c = 2 * ((y + 1) * c) := by ring
    omega
  unfold roundHalfEven
  simp only
  rcases Nat.lt_or_ge (a / c) y with hlt | hge
  · split
    · omega
    · split
      · omega
      · split <;> omega
  · have hqy : a / c = y := le_antisymm hq hge
    have hr : 2 * (a % c) < c := by
      have h1 : c * (a / c) = y * c := by rw [hqy, Nat.mul_comm]
      have h3 : (2 * y + 1) * c = 2 * (y * c) + c := by ring
      omega
    rw [if_pos hr]
    exact hq

/-- The spacing is a power of two, and unless it is one unit the value reaches
2^52 spacings. -/
theorem float64Spacing_spec (t : Nat) :
    ∃ s, float64Spacing t = 2 ^ s ∧ (s = 0 ∨ 2 ^ (52 + s) ≤ t) := by
  have step : ∀ (l : List Nat), (∀ k ∈ l, ∃ j, k = 2 ^ j) → ∀ p,
      (∃ s, p = 2 ^ s ∧ (s = 0 ∨ 2 ^ (52 + s) ≤ t)) →
      ∃ s, l.foldl (fun spacing factor =>
          if 2 ^ 52 * (spacing * factor) ≤ t then spacing * factor else spacing) p = 2 ^ s ∧
        (s = 0 ∨ 2 ^ (52 + s) ≤ t) := by
    intro l
    induction l with
    | nil => intro _ p hp; exact hp
    | cons k l ih =>
      intro hl p hp
      simp only [List.foldl_cons]
      apply ih (fun k hk => hl k (List.mem_cons_of_mem _ hk))
      obtain ⟨j, rfl⟩ := hl k (List.mem_cons_self _ _)
      obtain ⟨s, rfl, hs⟩ := hp
      split
      · rename_i hle
        refine ⟨s + j, by rw [pow_add], Or.inr ?_⟩
        rw [← Nat.add_assoc, pow_add, pow_add 2 52 s, Nat.mul_assoc]
        exact hle
      · exact ⟨s, rfl, hs⟩
  refine step _ ?_ 1 ⟨0, rfl, Or.inl rfl⟩
  intro k hk
  simp only [List.mem_cons, List.mem_singleton, List.not_mem_nil, or_false] at hk
  rcases hk with rfl | rfl | rfl | rfl | rfl | rfl | rfl | rfl | rfl | rfl | rfl
  · exact ⟨1024, by rw [← pow_mul]⟩
  · exact ⟨512, by rw [← pow_mul]⟩
  · exact ⟨256, rfl⟩
  · exact ⟨128, rfl⟩
  · exact ⟨64, rfl⟩
  · exact ⟨32, rfl⟩
  · exact ⟨16, rfl⟩
  · exact ⟨8, rfl⟩
  · exact ⟨4, rfl⟩
  · exact ⟨2, rfl⟩
  · exact ⟨1, rfl⟩

theorem float64Spacing_dvd (t S : Nat) (ht : t < 2 ^ (53 + S)) : float64Spacing t ∣ 2 ^ S := by
  obtain ⟨s, hs, hb⟩ := float64Spacing_spec t
  rw [hs]
  apply pow_dvd_pow
  rcases hb with rfl | hb
  · exact Nat.zero_le _
  · have : 2 ^ (52 + s) < 2 ^ (53 + S) := lt_of_le_of_lt hb ht
    have := (Nat.pow_lt_pow_iff_right (by norm_num : 1 < 2)).1 this
    omega

theorem float64Spacing_pos (t : Nat) : 0 < float64Spacing t := by
  obtain ⟨s, hs, _⟩ := float64Spacing_spec t
  rw [hs]; positivity

theorem roundFloat64_le (num den Y : Nat) (hden : 0 < den) (h : num ≤ Y * den)
    (hdvd : float64Spacing (num / den) ∣ Y) : roundFloat64 num den ≤ Y := by
  obtain ⟨y, rfl⟩ := hdvd
  unfold roundFloat64
  have hp := float64Spacing_pos (num / den)
  have := roundHalfEven_le num (den * float64Spacing (num / den)) y (Nat.mul_pos hden hp)
    (by calc num ≤ float64Spacing (num / den) * y * den := h
          _ = y * (den * float64Spacing (num / den)) := by ring)
  calc roundHalfEven num (den * float64Spacing (num / den)) * float64Spacing (num / den)
      ≤ y * float64Spacing (num / den) := Nat.mul_le_mul_right _ this
    _ = float64Spacing (num / den) * y := Nat.mul_comm _ _

theorem roundFloat64_ge (num den Y : Nat) (hden : 0 < den) (h : Y * den ≤ num)
    (hdvd : float64Spacing (num / den) ∣ Y) : Y ≤ roundFloat64 num den := by
  obtain ⟨y, rfl⟩ := hdvd
  unfold roundFloat64
  have hp := float64Spacing_pos (num / den)
  have := roundHalfEven_ge num (den * float64Spacing (num / den)) y (Nat.mul_pos hden hp)
    (by calc y * (den * float64Spacing (num / den))
            = float64Spacing (num / den) * y * den := by ring
          _ ≤ num := h)
  calc float64Spacing (num / den) * y = y * float64Spacing (num / den) := Nat.mul_comm _ _
    _ ≤ roundHalfEven num (den * float64Spacing (num / den)) * float64Spacing (num / den) :=
        Nat.mul_le_mul_right _ this

/-- A value more than half a spacing below a representable `Y` rounds below `Y`. -/
theorem roundFloat64_lt (num den Y : Nat) (hden : 0 < den) (hY : 0 < Y)
    (h : 2 * num + float64Spacing (num / den) * den < 2 * (Y * den))
    (hdvd : float64Spacing (num / den) ∣ Y) : roundFloat64 num den < Y := by
  obtain ⟨y, rfl⟩ := hdvd
  unfold roundFloat64
  have hp := float64Spacing_pos (num / den)
  have hy : 0 < y := Nat.pos_of_ne_zero (by rintro rfl; simp at hY)
  obtain ⟨z, rfl⟩ : ∃ z, y = z + 1 := ⟨y - 1, by omega⟩
  have := roundHalfEven_le_of_lt_mid num (den * float64Spacing (num / den)) z
    (Nat.mul_pos hden hp)
    (by
      have e : (2 * z + 1) * (den * float64Spacing (num / den)) +
          float64Spacing (num / den) * den =
          2 * (float64Spacing (num / den) * (z + 1) * den) := by ring
      omega)
  calc roundHalfEven num (den * float64Spacing (num / den)) * float64Spacing (num / den)
      ≤ z * float64Spacing (num / den) := Nat.mul_le_mul_right _ this
    _ < (z + 1) * float64Spacing (num / den) := Nat.mul_lt_mul_of_pos_right (by omega) hp
    _ = float64Spacing (num / den) * (z + 1) := Nat.mul_comm _ _


theorem float64One_eq : float64One = 2 ^ (53 + 1021) := by
  unfold float64One; rw [← pow_mul]

theorem float64OfNat_exact (e n : Nat) (hU : float64One = 2 ^ (53 + e)) (hn : n < 2 ^ 53) :
    float64OfNat n = n * float64One := by
  have hdvd : float64Spacing (n * float64One / 1) ∣ n * float64One := by
    apply Dvd.dvd.mul_left
    rw [hU]
    apply float64Spacing_dvd
    rw [Nat.div_one, pow_add 2 53 (53 + e)]
    exact Nat.mul_lt_mul_of_pos_right hn (by positivity)
  unfold float64OfNat
  exact le_antisymm (roundFloat64_le _ 1 _ Nat.one_pos (by simp) hdvd)
    (roundFloat64_ge _ 1 _ Nat.one_pos (by simp) hdvd)

/-- The rounded quotient of a remainder by its unit stays 2^-42 + 2^-53 below one. -/
theorem float64Div_le (e k D : Nat) (hU : float64One = 2 ^ (53 + e)) (hk : k < D)
    (hD : D * (2 ^ 11 + 1) ≤ 2 ^ 53) :
    float64Div (k * float64One) (D * float64One) ≤ 2 ^ e * (2 ^ 53 - 2 ^ 11 - 1) := by
  have hDpos : 0 < D := by omega
  have hUpos : 0 < float64One := by rw [hU]; positivity
  have hU2 : float64One = 2 ^ e * 2 ^ 53 := by rw [hU, pow_add, Nat.mul_comm]
  unfold float64Div
  apply roundFloat64_le
  · exact Nat.mul_pos hDpos hUpos
  · have h1 : k * 2 ^ 53 ≤ (2 ^ 53 - 2 ^ 11 - 1) * D := by omega
    calc k * float64One * float64One = 2 ^ e * (k * 2 ^ 53) * float64One := by
          rw [hU2]; ring
      _ ≤ 2 ^ e * ((2 ^ 53 - 2 ^ 11 - 1) * D) * float64One :=
          Nat.mul_le_mul_right _ (Nat.mul_le_mul_left _ h1)
      _ = 2 ^ e * (2 ^ 53 - 2 ^ 11 - 1) * (D * float64One) := by ring
  · apply Dvd.dvd.mul_right
    apply float64Spacing_dvd
    rw [Nat.mul_div_mul_right _ _ hUpos, Nat.div_lt_iff_lt_mul hDpos, ← hU, Nat.mul_comm k]
    exact Nat.mul_lt_mul_of_pos_left hk hUpos

theorem float64_floor_of (e n k D : Nat) (hU : float64One = 2 ^ (53 + e)) (hn : n < 4096)
    (hk : k < D) (hD : D * (2 ^ 11 + 1) ≤ 2 ^ 53) :
    float64ToNat (float64Add (float64OfNat n)
      (float64Div (float64OfNat k) (float64OfNat D))) = n := by
  have hUpos : 0 < float64One := by rw [hU]; positivity
  have hD53 : D < 2 ^ 53 := by omega
  rw [float64OfNat_exact e n hU (by omega), float64OfNat_exact e k hU (by omega),
    float64OfNat_exact e D hU hD53]
  have hq := float64Div_le e k D hU hk hD
  generalize float64Div (k * float64One) (D * float64One) = q at hq
  have hU2 : float64One = 2 ^ 53 * 2 ^ e := by rw [hU, pow_add]
  have hApos : 0 < 2 ^ e := by positivity
  have hnA : n * 2 ^ e ≤ 4095 * 2 ^ e := Nat.mul_le_mul_right _ (by omega)
  have hnU : n * float64One = 2 ^ 53 * (n * 2 ^ e) := by rw [hU2]; ring
  have hq2 : q ≤ (2 ^ 53 - 2 ^ 11 - 1) * 2 ^ e := by rw [Nat.mul_comm]; exact hq
  have hsum : n * float64One + q < 2 ^ (53 + (12 + e)) := by
    rw [pow_add, pow_add 2 12 e, hnU]
    generalize n * 2 ^ e = B at hnA
    generalize 2 ^ e = A at hq2 hApos hnA ⊢
    norm_num at hq2 ⊢
    omega
  have hdvd := float64Spacing_dvd (n * float64One + q) (12 + e) hsum
  have hdiv : (n * float64One + q) / 1 = n * float64One + q := Nat.div_one _
  have hUdvd : 2 ^ (12 + e) ∣ float64One := by
    rw [hU]; exact pow_dvd_pow 2 (by omega)
  have hple : float64Spacing (n * float64One + q) ≤ 2 ^ 12 * 2 ^ e := by
    rw [← pow_add]; exact Nat.le_of_dvd (by positivity) hdvd
  have hdvdU : float64Spacing (n * float64One + q) ∣ float64One := hdvd.trans hUdvd
  have hlo : n * float64One ≤ float64Add (n * float64One) q :=
    roundFloat64_ge _ 1 _ Nat.one_pos (by simp) (by rw [hdiv]; exact hdvdU.mul_left _)
  have hmid : 2 * (n * float64One + q) + float64Spacing ((n * float64One + q) / 1) * 1 <
      2 * ((n + 1) * float64One * 1) := by
    rw [hdiv]
    generalize float64Spacing (n * float64One + q) = p at hple
    rw [Nat.add_mul, hnU, hU2]
    generalize n * 2 ^ e = B at hnA
    generalize 2 ^ e = A at hq2 hple hApos hnA ⊢
    norm_num at hq2 hple ⊢
    omega
  have hhi : float64Add (n * float64One) q < (n + 1) * float64One :=
    roundFloat64_lt _ 1 _ Nat.one_pos (Nat.mul_pos (by omega) hUpos) hmid
      (by rw [hdiv]; exact hdvdU.mul_left _)
  unfold float64ToNat
  exact Nat.div_eq_of_lt_le hlo hhi

/-- Go conversion `int(float64(n) + float64(k) / float64(D))` for `k < D`: the float64 sum
truncates back to `n` as long as `n` is below 4096. -/
theorem float64_floor (n k D : Nat) (hn : n < 4096) (hk : k < D)
    (hD : D * (2 ^ 11 + 1) ≤ 2 ^ 53) :
    float64ToNat (float64Add (float64OfNat n)
      (float64Div (float64OfNat k) (float64OfNat D))) = n :=
  float64_floor_of 1021 n k D float64One_eq hn hk hD


/-- Go conversions `int(d.Seconds())`, `int(d.Minutes())` and `int(d.Hours())` on a
non-negative duration holding fewer than 4096 of the unit: the whole number of units. -/
theorem float64ToInt_duration (unit m : Nat) (hunit : 0 < unit)
    (hD : unit * (2 ^ 11 + 1) ≤ 2 ^ 53) (hm : m / unit < 4096) :
    float64ToInt (signedFloat64Duration unit (m : Int)) = ((m / unit : Nat) : Int) := by
  unfold float64ToInt signedFloat64Duration
  rw [if_neg (by omega), Int.natAbs_ofNat]
  unfold float64Duration
  have := float64_floor (m / unit) (m % unit) unit hm (Nat.mod_lt _ hunit) hD
  unfold float64ToNat at this
  rw [← Int.ofNat_tdiv, this]


/-- The rounded quotient of a remainder `k` by its unit `D` stays `G` parts in 2^53 below one
when the remainder is that far from the unit. -/
theorem float64Div_le_of (e k D G : Nat) (hU : float64One = 2 ^ (53 + e)) (hk : k < D)
    (hw : k * 2 ^ 53 ≤ (2 ^ 53 - G) * D) :
    float64Div (k * float64One) (D * float64One) ≤ 2 ^ e * (2 ^ 53 - G) := by
  have hDpos : 0 < D := by omega
  have hUpos : 0 < float64One := by rw [hU]; positivity
  have hU2 : float64One = 2 ^ e * 2 ^ 53 := by rw [hU, pow_add, Nat.mul_comm]
  unfold float64Div
  apply roundFloat64_le
  · exact Nat.mul_pos hDpos hUpos
  · calc k * float64One * float64One = 2 ^ e * (k * 2 ^ 53) * float64One := by
          rw [hU2]; ring
      _ ≤ 2 ^ e * ((2 ^ 53 - G) * D) * float64One :=
          Nat.mul_le_mul_right _ (Nat.mul_le_mul_left _ hw)
      _ = 2 ^ e * (2 ^ 53 - G) * (D * float64One) := by ring
  · apply Dvd.dvd.mul_right
    apply float64Spacing_dvd
    rw [Nat.mul_div_mul_right _ _ hUpos, Nat.div_lt_iff_lt_mul hDpos, ← hU, Nat.mul_comm k]
    exact Nat.mul_lt_mul_of_pos_left hk hUpos

/-- Go conversion `int(float64(n) + float64(k) / float64(D))` for `k < D` and `n` below 2^22:
the float64 sum truncates to `n` or to `n + 1`, and to `n` when `k` is at least
`D * (2^21 + 1) / 2^53` below `D`. -/
theorem float64_floor_wide_of (e n k D : Nat) (hU : float64One = 2 ^ (53 + e))
    (hn : n < 2 ^ 22) (hk : k < D) (hD : D < 2 ^ 53) :
    (float64ToNat (float64Add (float64OfNat n)
        (float64Div (float64OfNat k) (float64OfNat D))) = n ∨
      float64ToNat (float64Add (float64OfNat n)
        (float64Div (float64OfNat k) (float64OfNat D))) = n + 1) ∧
    (k * 2 ^ 53 ≤ (2 ^ 53 - (2 ^ 21 + 1)) * D →
      float64ToNat (float64Add (float64OfNat n)
        (float64Div (float64OfNat k) (float64OfNat D))) = n) := by
  have hUpos : 0 < float64One := by rw [hU]; positivity
  rw [float64OfNat_exact e n hU (by omega), float64OfNat_exact e k hU (by omega),
    float64OfNat_exact e D hU hD]
  have hq1 := float64Div_le_of e k D 0 hU hk (by
    rw [Nat.sub_zero, Nat.mul_comm]
    exact Nat.mul_le_mul_left _ (by omega))
  have hq2 := float64Div_le_of e k D (2 ^ 21 + 1) hU hk
  generalize float64Div (k * float64One) (D * float64One) = q at hq1 hq2
  have hU2 : float64One = 2 ^ 53 * 2 ^ e := by rw [hU, pow_add]
  have hApos : 0 < 2 ^ e := by positivity
  have hnA : n * 2 ^ e ≤ (2 ^ 22 - 1) * 2 ^ e := Nat.mul_le_mul_right _ (by omega)
  have hnU : n * float64One = 2 ^ 53 * (n * 2 ^ e) := by rw [hU2]; ring
  have hq1' : q ≤ 2 ^ 53 * 2 ^ e := by
    rw [Nat.sub_zero, Nat.mul_comm] at hq1; exact hq1
  have hsum : n * float64One + q < 2 ^ (53 + (23 + e)) := by
    rw [pow_add, pow_add 2 23 e, hnU]
    generalize n * 2 ^ e = B at hnA
    generalize 2 ^ e = A at hq1' hApos hnA ⊢
    norm_num at hq1' hnA ⊢
    omega
  have hdvd := float64Spacing_dvd (n * float64One + q) (23 + e) hsum
  have hdiv : (n * float64One + q) / 1 = n * float64One + q := Nat.div_one _
  have hUdvd : 2 ^ (23 + e) ∣ float64One := by
    rw [hU]; exact pow_dvd_pow 2 (by omega)
  have hdvdU : float64Spacing (n * float64One + q) ∣ float64One := hdvd.trans hUdvd
  have hlo : n * float64One ≤ float64Add (n * float64One) q :=
    roundFloat64_ge _ 1 _ Nat.one_pos (by simp) (by rw [hdiv]; exact hdvdU.mul_left _)
  have hup : float64Add (n * float64One) q ≤ (n + 1) * float64One :=
    roundFloat64_le _ 1 _ Nat.one_pos
      (by rw [Nat.mul_one, Nat.add_mul, Nat.one_mul, hU2]; exact Nat.add_le_add_left hq1' _)
      (by rw [hdiv]; exact hdvdU.mul_left _)
  have hexact : k * 2 ^ 53 ≤ (2 ^ 53 - (2 ^ 21 + 1)) * D →
      float64ToNat (float64Add (n * float64One) q) = n := by
    intro hw
    have hq := hq2 hw
    have hq' : q ≤ (2 ^ 53 - (2 ^ 21 + 1)) * 2 ^ e := by rw [Nat.mul_comm]; exact hq
    have hsum2 : n * float64One + q < 2 ^ (53 + (22 + e)) := by
      rw [pow_add, pow_add 2 22 e, hnU]
      generalize n * 2 ^ e = B at hnA
      generalize 2 ^ e = A at hq' hApos hnA ⊢
      norm_num at hq' hnA ⊢
      omega
    have hple : float64Spacing (n * float64One + q) ≤ 2 ^ 22 * 2 ^ e := by
      rw [← pow_add]
      exact Nat.le_of_dvd (by positivity)
        (float64Spacing_dvd (n * float64One + q) (22 + e) hsum2)
    have hmid : 2 * (n * float64One + q) + float64Spacing ((n * float64One + q) / 1) * 1 <
        2 * ((n + 1) * float64One * 1) := by
      rw [hdiv]
      generalize float64Spacing (n * float64One + q) = p at hple
      rw [Nat.add_mul, hnU, hU2]
      generalize n * 2 ^ e = B at hnA
      generalize 2 ^ e = A at hq' hple hApos hnA ⊢
      norm_num at hq' hple ⊢
      omega
    have hhi : float64Add (n * float64One) q < (n + 1) * float64One :=
      roundFloat64_lt _ 1 _ Nat.one_pos (Nat.mul_pos (by omega) hUpos) hmid
        (by rw [hdiv]; exact hdvdU.mul_left _)
    unfold float64ToNat
    exact Nat.div_eq_of_lt_le hlo hhi
  refine ⟨?_, hexact⟩
  unfold float64ToNat
  rcases Nat.lt_or_ge (float64Add (n * float64One) q) ((n + 1) * float64One) with hlt | hge
  · exact Or.inl (Nat.div_eq_of_lt_le hlo hlt)
  · right
    have heq : float64Add (n * float64One) q = (n + 1) * float64One := le_antisymm hup hge
    rw [heq]
    exact Nat.mul_div_cancel _ hUpos

/-- Go conversion `int(d.Hours())` on a non-negative duration of the int64 range: the whole
number of hours or one more, and the whole number of hours when the duration is at least
839 nanoseconds below the next whole hour. -/
theorem float64ToInt_hours (m : Nat) (hm : m < 2 ^ 63) :
    (float64ToInt (Duration.Hours (m : Int)) = ((m / 3600000000000 : Nat) : Int) ∨
      float64ToInt (Duration.Hours (m : Int)) = ((m / 3600000000000 + 1 : Nat) : Int)) ∧
    (m % 3600000000000 + 839 ≤ 3600000000000 →
      float64ToInt (Duration.Hours (m : Int)) = ((m / 3600000000000 : Nat) : Int)) := by
  have hmain := float64_floor_wide_of 1021 (m / 3600000000000) (m % 3600000000000)
    3600000000000 float64One_eq (by omega) (Nat.mod_lt _ (by norm_num)) (by norm_num)
  unfold float64ToNat at hmain
  unfold Duration.Hours float64ToInt signedFloat64Duration
  rw [if_neg (by omega), Int.natAbs_ofNat]
  unfold float64Duration
  rw [← Int.ofNat_tdiv]
  generalize float64Add (float64OfNat (m / 3600000000000))
    (float64Div (float64OfNat (m % 3600000000000)) (float64OfNat 3600000000000)) /
      float64One = x at hmain
  obtain ⟨h1, h2⟩ := hmain
  refine ⟨?_, ?_⟩
  · rcases h1 with h | h
    · left; exact_mod_cast h
    · right; exact_mod_cast h
  · intro hk
    have := h2 (by
      generalize m % 3600000000000 = k at hk
      norm_num
      omega)
    exact_mod_cast this


/-! ## C19: the short rendering of a duration -/

/-- Below 4096 hours `DurationTimeShort` names only the largest non-zero unit: it is
floor(d / 24h) followed by "d" when d >= 24h; otherwise floor(d / 1h) followed by "h" when
d >= 1h; otherwise floor(d / 1min) followed by "m" when d >= 1min; otherwise floor(d / 1s)
followed by "s". -/
theorem durationTimeShort_below_4096h (d : Int) (h0 : 0 ≤ d) (hlt : d < 4096 * (3600 * Second)) :
    DurationTimeShort d = specDurationTimeShort d := by
  obtain ⟨m, rfl⟩ := Int.eq_ofNat_of_zero_le h0
  have hm : m < 4096 * 3600000000000 := by
    unfold Second at hlt; omega
  have hours : float64ToInt (Duration.Hours (m : Int)) = ((m / 3600000000000 : Nat) : Int) :=
    float64ToInt_duration 3600000000000 m (by norm_num) (by norm_num) (by omega)
  have mins : m < 3600000000000 →
      float64ToInt (Duration.Minutes (m : Int)) = ((m / 60000000000 : Nat) : Int) :=
    fun h => float64ToInt_duration 60000000000 m (by norm_num) (by norm_num) (by omega)
  have secs : m < 60000000000 →
      float64ToInt (Duration.Seconds (m : Int)) = ((m / 1000000000 : Nat) : Int) :=
    fun h => float64ToInt_duration 1000000000 m (by norm_num) (by norm_num) (by omega)
  unfold DurationTimeShort specDurationTimeShort Second
  have days : Int.tdiv ((m / 3600000000000 : Nat) : Int) 24 =
      ((m / 3600000000000 / 24 : Nat) : Int) := by
    exact_mod_cast (Int.ofNat_tdiv (m / 3600000000000) 24).symm
  simp only [hours, days]
  generalize float64ToInt (Duration.Minutes (m : Int)) = M at mins
  generalize float64ToInt (Duration.Seconds (m : Int)) = S at secs
  clear hours days hlt h0
  by_cases hd : 24 * 3600000000000 ≤ m
  · have c1 : ((m / 3600000000000 / 24 : Nat) : Int) > 0 := by omega
    have c2 : (m : Int) ≥ 24 * (3600 * 1000000000) := by omega
    rw [if_pos c1, if_pos c2]
    congr 2
    omega
  · have c1 : ¬((m / 3600000000000 / 24 : Nat) : Int) > 0 := by omega
    have c2 : ¬(m : Int) ≥ 24 * (3600 * 1000000000) := by omega
    rw [if_neg c1, if_neg c2]
    by_cases hh : 3600000000000 ≤ m
    · have c3 : ((m / 3600000000000 : Nat) : Int) > 0 := by omega
      have c4 : (m : Int) ≥ 3600 * 1000000000 := by omega
      rw [if_pos c3, if_pos c4]
      congr 2
    · have c3 : ¬((m / 3600000000000 : Nat) : Int) > 0 := by omega
      have c4 : ¬(m : Int) ≥ 3600 * 1000000000 := by omega
      rw [if_neg c3, if_neg c4, mins (by omega)]
      by_cases hmin : 60000000000 ≤ m
      · have c5 : ((m / 60000000000 : Nat) : Int) > 0 := by omega
        have c6 : (m : Int) ≥ 60 * 1000000000 := by omega
        rw [if_pos c5, if_pos c6]
        congr 2
      · have c5 : ¬((m / 60000000000 : Nat) : Int) > 0 := by omega
        have c6 : ¬(m : Int) ≥ 60 * 1000000000 := by omega
        rw [if_neg c5, if_neg c6, secs (by omega)]
        congr 2

/-- From 4096 hours on, `DurationTimeShort` names the whole number of days as long as the
duration is at least 839 nanoseconds below the next whole day. -/
theorem durationTimeShort_days (m : Nat) (hm : m < 2 ^ 63)
    (hge : 4096 * 3600000000000 ≤ m)
    (hfar : m % 86400000000000 + 839 ≤ 86400000000000) :
    DurationTimeShort (m : Int) = specDurationTimeShort (m : Int) := by
  obtain ⟨h1, h2⟩ := float64ToInt_hours m hm
  have hdays : Int.tdiv (float64ToInt (Duration.Hours (m : Int))) 24 =
      ((m / 86400000000000 : Nat) : Int) := by
    have hdiv : ∀ x : Nat, Int.tdiv ((x : Nat) : Int) 24 = ((x / 24 : Nat) : Int) :=
      fun x => by exact_mod_cast (Int.ofNat_tdiv x 24).symm
    by_cases hk : m % 3600000000000 + 839 ≤ 3600000000000
    · rw [h2 hk, hdiv]
      omega
    · rcases h1 with h | h
      · rw [h, hdiv]
        omega
      · rw [h, hdiv]
        omega
  unfold DurationTimeShort specDurationTimeShort Second
  simp only [hdays]
  have c1 : ((m / 86400000000000 : Nat) : Int) > 0 := by omega
  have c2 : (m : Int) ≥ 24 * (3600 * 1000000000) := by omega
  rw [if_pos c1, if_pos c2]
  congr 2

/-- From 4096 hours on, `DurationTimeShort` names the whole number of days or one day
more. -/
theorem durationTimeShort_days_or_next (m : Nat) (hm : m < 2 ^ 63)
    (hge : 4096 * 3600000000000 ≤ m) :
    DurationTimeShort (m : Int) = specDurationTimeShort (m : Int) ∨
      DurationTimeShort (m : Int) =
        toString ((m : Int) / (24 * (3600 * Second)) + 1) ++ "d" := by
  obtain ⟨h1, -⟩ := float64ToInt_hours m hm
  have hdiv : ∀ x : Nat, Int.tdiv ((x : Nat) : Int) 24 = ((x / 24 : Nat) : Int) :=
    fun x => by exact_mod_cast (Int.ofNat_tdiv x 24).symm
  have hdays : Int.tdiv (float64ToInt (Duration.Hours (m : Int))) 24 =
        ((m / 86400000000000 : Nat) : Int) ∨
      Int.tdiv (float64ToInt (Duration.Hours (m : Int))) 24 =
        ((m / 86400000000000 + 1 : Nat) : Int) := by
    rcases h1 with h | h
    · left
      rw [h, hdiv]
      omega
    · rw [h, hdiv]
      omega
  unfold DurationTimeShort specDurationTimeShort Second
  have c2 : (m : Int) ≥ 24 * (3600 * 1000000000) := by omega
  rcases hdays with h | h
  · left
    simp only [h]
    have c1 : ((m / 86400000000000 : Nat) : Int) > 0 := by omega
    rw [if_pos c1, if_pos c2]
    congr 2
  · right
    simp only [h]
    have c1 : ((m / 86400000000000 + 1 : Nat) : Int) > 0 := by omega
    rw [if_pos c1]
    congr 2

/-- C19, the code against the claim: for the duration of 4104 hours less one nanosecond,
which is less than 171 days, `Duration.Hours` rounds to 4104.0 and `DurationTimeShort`
returns "171d", whereas the quotient by 24 hours rounded down is 170.  Everywhere else but
just below a whole day the claim's formula holds: for every non-negative duration of the
int64 range that is below 4096 hours, or at least 839 nanoseconds below the next whole number
of days, `DurationTimeShort` is floor(d / 24h) followed by "d" when d >= 24h; otherwise
floor(d / 1h) followed by "h" when d >= 1h; otherwise floor(d / 1min) followed by "m" when
d >= 1min; otherwise floor(d / 1s) followed by "s".  And for every non-negative duration of
the int64 range the result is that rendering or, just below a whole day, the next number of
days. -/
theorem C19_rounded_hours_reach_next_day :
    ((0 : Int) ≤ 14774399999999999 ∧
      (14774399999999999 : Int) / (24 * (3600 * Second)) = 170 ∧
      DurationTimeShort 14774399999999999 = "171d" ∧
      specDurationTimeShort 14774399999999999 = "170d") ∧
    (∀ d : Int, 0 ≤ d → d < 2 ^ 63 →
      (d < 4096 * (3600 * Second) ∨
        d % (24 * (3600 * Second)) + 839 ≤ 24 * (3600 * Second)) →
      DurationTimeShort d = specDurationTimeShort d) ∧
    ∀ d : Int, 0 ≤ d → d < 2 ^ 63 →
      DurationTimeShort d = specDurationTimeShort d ∨
        DurationTimeShort d = toString (d / (24 * (3600 * Second)) + 1) ++ "d" := by
  refine ⟨by decide, ?_, ?_⟩
  · intro d h0 hmax hok
    by_cases hlt : d < 4096 * (3600 * Second)
    · exact durationTimeShort_below_4096h d h0 hlt
    · obtain ⟨m, rfl⟩ := Int.eq_ofNat_of_zero_le h0
      have hfar : (m : Int) % (24 * (3600 * Second)) + 839 ≤ 24 * (3600 * Second) := by
        rcases hok with h | h
        · exact absurd h hlt
        · exact h
      unfold Second at hlt hfar
      exact durationTimeShort_days m (by omega) (by omega) (by omega)
  · intro d h0 hmax
    by_cases hlt : d < 4096 * (3600 * Second)
    · exact Or.inl (durationTimeShort_below_4096h d h0 hlt)
    · obtain ⟨m, rfl⟩ := Int.eq_ofNat_of_zero_le h0
      unfold Second at hlt
      exact durationTimeShort_days_or_next m (by omega) (by omega)

/-- Witness of C19: 4096 hours, 200 days, 365 days and the duration 839 nanoseconds below
171 days are rendered by the claim's formula, like 3 days, 5 hours, 12 minutes and
45 seconds. -/
theorem C19_rounded_hours_reach_next_day_witness :
    ((0 : Int) ≤ 14774399999999161 ∧ (14774399999999161 : Int) < 2 ^ 63 ∧
      (14774399999999161 : Int) % (24 * (3600 * Second)) + 839 ≤ 24 * (3600 * Second)) ∧
    DurationTimeShort 14774399999999161 = "170d" ∧
    DurationTimeShort 14745600000000000 = "170d" ∧
    DurationTimeShort 17280000000000000 = "200d" ∧
    DurationTimeShort 31536000000000000 = "365d" ∧
    DurationTimeShort 259200000000000 = "3d" ∧
    DurationTimeShort 18000000000000 = "5h" ∧
    DurationTimeShort 720000000000 = "12m" ∧
    DurationTimeShort 45000000000 = "45s" :=
  ⟨by decide,
    (C19_rounded_hours_reach_next_day.2.1 14774399999999161 (by decide) (by decide)
      (Or.inr (by decide))).trans (by decide),
    (C19_rounded_hours_reach_next_day.2.1 14745600000000000 (by decide) (by decide)
      (Or.inr (by decide))).trans (by decide),
    (C19_rounded_hours_reach_next_day.2.1 17280000000000000 (by decide) (by decide)
      (Or.inr (by decide))).trans (by decide),
    (C19_rounded_hours_reach_next_day.2.1 31536000000000000 (by decide) (by decide)
      (Or.inr (by decide))).trans (by decide),
    (C19_rounded_hours_reach_next_day.2.1 259200000000000 (by decide) (by decide)
      (Or.inl (by decide))).trans (by decide),
    (C19_rounded_hours_reach_next_day.2.1 18000000000000 (by decide) (by decide)
      (Or.inl (by decide))).trans (by decide),
    (C19_rounded_hours_reach_next_day.2.1 720000000000 (by decide) (by decide)
      (Or.inl (by decide))).trans (by decide),
    (C19_rounded_hours_reach_next_day.2.1 45000000000 (by decide) (by decide)
      (Or.inl (by decide))).trans (by decide)⟩

/-! ## C20: the autoscalers appended to the related list -/

/-- C20: when the identity is not visited, its resolver returns the list `rel` and the
autoscalers of its namespace are listed, the related list that becomes edges and is recursed
into is `rel` followed by one HorizontalPodAutoscaler identity for each listed autoscaler whose
scale target has the kind and the name of the identity, in listing order, and nothing else. -/
theorem C20_related_then_autoscalers (c : Clientset) (fuel : Nat) (dt : DAGTraverser)
    (kr : KubernetesResource) (rel : List KubernetesResource) (st : Status)
    (hpas : List HorizontalPodAutoscaler)
    (hv : kr.ResourceType ++ "_" ++ kr.ResourceName ∉ dt.Visited)
    (hres : resolveRelated c dt.Visited kr = .ok rel st)
    (hlist : c.ListHorizontalPodAutoscalers kr.ResourceNamespace = .ok hpas) :
    ∃ related : List KubernetesResource,
      related = rel ++
        (hpas.filter (fun hpa : HorizontalPodAutoscaler =>
            hpa.ScaleTargetRef.Kind = kr.ResourceType ∧
              hpa.ScaleTargetRef.Name = kr.ResourceName)).map
          (fun hpa : HorizontalPodAutoscaler =>
            ({ ResourceName := hpa.Name, ResourceType := "HorizontalPodAutoscaler",
               ResourceNamespace := hpa.Namespace } : KubernetesResource)) ∧
      GenerateDAGForResource c (fuel + 1) dt kr =
        recurse (GenerateDAGForResource c fuel) (expanded dt kr st related) related ∧
      (expanded dt kr st related).Graph.Edges =
        dt.Graph.Edges ++ related.map (fun r : KubernetesResource =>
          ({ Source := kr.ResourceName ++ "-" ++ kr.ResourceType,
             Target := r.ResourceName ++ "-" ++ r.ResourceType } : ResourceViewerEdges)) := by
  have hhpa : getHPAForController c kr = .ok ((hpas.filter (fun hpa : HorizontalPodAutoscaler =>
      hpa.ScaleTargetRef.Kind = kr.ResourceType ∧
        hpa.ScaleTargetRef.Name = kr.ResourceName)).map
      (fun hpa : HorizontalPodAutoscaler =>
        ({ ResourceName := hpa.Name, ResourceType := "HorizontalPodAutoscaler",
           ResourceNamespace := hpa.Namespace } : KubernetesResource))) := by
    simp only [getHPAForController, hlist]
  refine ⟨_, rfl, ?_, expanded_edges _ _ _ _⟩
  rcases GenerateDAGForResource_cases c fuel dt kr with h | ⟨_, h | h | h | h⟩
  · rcases h.2 with hvis | hun
    · exact absurd hvis hv
    · rw [hres] at hun; cases hun
  · obtain ⟨e, he, _⟩ := h; rw [hres] at he; cases he
  · rw [hres] at h; cases h.1
  · obtain ⟨r, s, e, _, he, _⟩ := h; rw [hhpa] at he; cases he
  · obtain ⟨r, s, hp, h1, h2, h3⟩ := h
    rw [hres] at h1; rw [hhpa] at h2
    cases h1; cases h2
    exact h3

/-- Witness of C20: Deployment "web" of `autoscalersCluster`, where four autoscalers are
listed and the first and the last target it. -/
theorem C20_related_then_autoscalers_witness :
    (deploymentRoot.ResourceType ++ "_" ++ deploymentRoot.ResourceName ∉
        freshTraverser.Visited ∧
      resolveRelated autoscalersCluster freshTraverser.Visited deploymentRoot =
        .ok [] (.Deployment
          { Ok := true, Namespace := "prod", Created := "0s", DeploymentStrategy := "",
            Selectors := [], Message := "Deployment is OK" }) ∧
      autoscalersCluster.ListHorizontalPodAutoscalers deploymentRoot.ResourceNamespace =
        .ok [hpaWeb, hpaApi, hpaWebSet, hpaWebBurst]) ∧
    ([hpaWeb, hpaApi, hpaWebSet, hpaWebBurst].filter (fun hpa : HorizontalPodAutoscaler =>
        hpa.ScaleTargetRef.Kind = deploymentRoot.ResourceType ∧
          hpa.ScaleTargetRef.Name = deploymentRoot.ResourceName)).map
      (fun hpa : HorizontalPodAutoscaler =>
        ({ ResourceName := hpa.Name, ResourceType := "HorizontalPodAutoscaler",
           ResourceNamespace := hpa.Namespace } : KubernetesResource)) =
      [{ ResourceName := "web-hpa", ResourceType := "HorizontalPodAutoscaler",
         ResourceNamespace := "prod" },
       { ResourceName := "web-burst", ResourceType := "HorizontalPodAutoscaler",
         ResourceNamespace := "prod" }] ∧
    ∃ related : List KubernetesResource,
      related = [] ++
        ([hpaWeb, hpaApi, hpaWebSet, hpaWebBurst].filter (fun hpa : HorizontalPodAutoscaler =>
            hpa.ScaleTargetRef.Kind = deploymentRoot.ResourceType ∧
              hpa.ScaleTargetRef.Name = deploymentRoot.ResourceName)).map
          (fun hpa : HorizontalPodAutoscaler =>
            ({ ResourceName := hpa.Name, ResourceType := "HorizontalPodAutoscaler",
               ResourceNamespace := hpa.Namespace } : KubernetesResource)) ∧
      GenerateDAGForResource autoscalersCluster (1 + 1) freshTraverser deploymentRoot =
        recurse (GenerateDAGForResource autoscalersCluster 1)
          (expanded freshTraverser deploymentRoot (.Deployment
            { Ok := true, Namespace := "prod", Created := "0s", DeploymentStrategy := "",
              Selectors := [], Message := "Deployment is OK" }) related) related ∧
      (expanded freshTraverser deploymentRoot (.Deployment
          { Ok := true, Namespace := "prod", Created := "0s", DeploymentStrategy := "",
            Selectors := [], Message := "Deployment is OK" }) related).Graph.Edges =
        freshTraverser.Graph.Edges ++ related.map (fun r : KubernetesResource =>
          ({ Source := deploymentRoot.ResourceName ++ "-" ++ deploymentRoot.ResourceType,
             Target := r.ResourceName ++ "-" ++ r.ResourceType } : ResourceViewerEdges)) :=
  ⟨⟨by decide, by rfl, rfl⟩, by decide,
    C20_related_then_autoscalers autoscalersCluster 1 freshTraverser deploymentRoot []
      (.Deployment
        { Ok := true, Namespace := "prod", Created := "0s", DeploymentStrategy := "",
          Selectors := [], Message := "Deployment is OK" })
      [hpaWeb, hpaApi, hpaWebSet, hpaWebBurst] (by decide) (by rfl) rfl⟩

/-! ## C21: relation categories skipped once their kind is visited -/

/-- A key kind + "_" + name in the Visited set sets the flag of its kind. -/
theorem kindVisited_of_key (kind name : String) (v : List String) (h : '_' ∉ kind.data)
    (hm : kind ++ "_" ++ name ∈ v) : kindVisited kind v = true := by
  unfold kindVisited
  rw [List.any_eq_true]
  exact ⟨_, hm, by rw [splitFirst_key _ _ h]; simp⟩

/-- The flag of a kind is down exactly when no visited key has that kind before its first
underscore. -/
theorem kindVisited_eq_false (kind : String) (v : List String) :
    kindVisited kind v = false ↔ ∀ key ∈ v, splitFirst key ≠ kind := by
  unfold kindVisited
  rw [List.any_eq_false]
  constructor
  · intro h key hk
    simpa using h key hk
  · intro h key hk
    simpa using h key hk

theorem replicaSet_related_complete (c : Clientset) (v : List String)
    (kr : KubernetesResource) (rel : List KubernetesResource) (st : ReplicaSetStatus)
    (h : getRelatedResourcesReplicaSet c v kr = .ok (rel, st))
    (hk : kindVisited "Deployment" v = false) (replicaSet : ReplicaSet)
    (hget : c.GetReplicaSet kr.ResourceNamespace kr.ResourceName = .ok replicaSet)
    (owner : OwnerReference) (hmem : owner ∈ replicaSet.OwnerReferences)
    (hkind : owner.Kind = "Deployment") (deployment : Deployment)
    (hdep : c.GetDeployment kr.ResourceNamespace owner.Name = .ok deployment) :
    ({ ResourceName := deployment.Name, ResourceType := "Deployment",
       ResourceNamespace := deployment.Namespace } : KubernetesResource) ∈ rel := by
  unfold getRelatedResourcesReplicaSet at h
  simp only [hget, hk, Bool.false_eq_true, if_false] at h
  split at h
  · cases h
  · rename_i fromOwners hOwners
    obtain ⟨xs, hxs, hsub⟩ := forEach_sub _ _ _ hOwners owner hmem
    simp only [hkind, if_true, hdep, Except.ok.injEq] at hxs
    subst hxs
    have hin := hsub _ (List.mem_singleton_self _)
    repeat (any_goals (first | (cases h; done) | split at h))
    all_goals
      simp only [Except.ok.injEq, Prod.mk.injEq] at h
      obtain ⟨rfl, -⟩ := h
      simp only [List.mem_append]
      first
        | exact Or.inl (Or.inl hin)
        | exact Or.inl hin

theorem pathsNameService_hit (name : String) :
    ∀ (paths : List HTTPIngressPath) (found : Bool), pathsNameService name paths = .ok found →
      (∃ path ∈ paths, path.Backend.Service = some name) → found = true
  | [], _, _, hex => by
    obtain ⟨p, hp, _⟩ := hex
    cases hp
  | path :: rest, found, h, hex => by
    simp only [pathsNameService] at h
    split at h
    · cases h
    · rename_i serviceName hsn
      split_ifs at h with heq
      · simp only [Except.ok.injEq] at h
        exact h.symm
      · refine pathsNameService_hit name rest found h ?_
        obtain ⟨p, hp, hps⟩ := hex
        rcases List.mem_cons.1 hp with rfl | hp
        · rw [hsn] at hps
          exact absurd (Option.some.inj hps) heq
        · exact ⟨p, hp, hps⟩

theorem service_related_complete (c : Clientset) (v : List String)
    (kr : KubernetesResource) (rel : List KubernetesResource) (st : ServiceStatus)
    (h : getRelatedResourcesService c v kr = .ok (rel, st)) (service : Service)
    (hget : c.GetService kr.ResourceNamespace kr.ResourceName = .ok service) :
    (kindVisited "Ingress" v = false →
      ∀ ingresses, c.ListIngresses kr.ResourceNamespace = .ok ingresses →
        ∀ ingress ∈ ingresses, ∀ rule ∈ ingress.Spec.Rules, ∀ paths, rule.HTTP = some paths →
          (∃ path ∈ paths, path.Backend.Service = some kr.ResourceName) →
          ({ ResourceName := ingress.Name, ResourceType := "Ingress",
             ResourceNamespace := ingress.Namespace } : KubernetesResource) ∈ rel) ∧
    (kindVisited "Pod" v = false →
      ∀ podList, c.ListPods service.Namespace (service.Spec.Selector.getD []) = .ok podList →
        ∀ pod ∈ podList,
          ({ ResourceName := pod.Name, ResourceType := "Pod",
             ResourceNamespace := pod.Namespace } : KubernetesResource) ∈ rel) ∧
    (kindVisited "Deployment" v = false →
      ∀ deployments,
        c.ListDeployments kr.ResourceNamespace (service.Spec.Selector.getD []) =
          .ok deployments →
        ∀ deployment ∈ deployments,
          selectorFromSetMatches (service.Spec.Selector.getD []) deployment.Labels = true →
          ({ ResourceName := deployment.Name, ResourceType := "Deployment",
             ResourceNamespace := deployment.Namespace } : KubernetesResource) ∈ rel) := by
  unfold getRelatedResourcesService at h
  simp only [hget] at h
  split at h
  · cases h
  · rename_i fromIngresses hIng
    split at h
    · cases h
    · rename_i fromPods hPods
      have hparts : ∃ fromDeployments, rel = fromIngresses ++ fromPods ++ fromDeployments ∧
          (kindVisited "Deployment" v = false →
            ∀ deployments,
              c.ListDeployments kr.ResourceNamespace (service.Spec.Selector.getD []) =
                .ok deployments →
              ∀ deployment ∈ deployments,
                selectorFromSetMatches (service.Spec.Selector.getD []) deployment.Labels
                  = true →
                ({ ResourceName := deployment.Name, ResourceType := "Deployment",
                   ResourceNamespace := deployment.Namespace } : KubernetesResource) ∈
                  fromDeployments) := by
        split at h
        · rename_i hk
          simp only [Except.ok.injEq, Prod.mk.injEq] at h
          refine ⟨[], by rw [List.append_nil]; exact h.1.symm, ?_⟩
          intro hk2
          rw [hk2] at hk
          cases hk
        · split at h
          · cases h
          · rename_i deployments hdeps
            simp only [Except.ok.injEq, Prod.mk.injEq] at h
            refine ⟨_, h.1.symm, ?_⟩
            intro _ ds hds d hd hmatch
            rw [hdeps] at hds
            simp only [Except.ok.injEq] at hds
            subst hds
            exact List.mem_map.2 ⟨d, List.mem_filter.2 ⟨hd, hmatch⟩, rfl⟩
      obtain ⟨fromDeployments, hrel, hdep⟩ := hparts
      subst hrel
      refine ⟨?_, ?_, ?_⟩
      · intro hk ingresses hlist ingress hmem rule hrule paths hpaths hex
        simp only [hk, Bool.false_eq_true, if_false, hlist] at hIng
        obtain ⟨xs, hxs, hsub⟩ := forEach_sub _ _ _ hIng ingress hmem
        unfold ingressRefs at hxs
        obtain ⟨ys, hys, hsub2⟩ := forEach_sub _ _ _ hxs rule hrule
        simp only [hpaths] at hys
        split at hys
        · cases hys
        · rename_i found hfound
          rw [pathsNameService_hit _ _ _ hfound hex] at hys
          simp only [if_true, Except.ok.injEq] at hys
          subst hys
          simp only [List.mem_append]
          exact Or.inl (Or.inl (hsub _ (hsub2 _ (List.mem_singleton_self _))))
      · intro hk podList hlist pod hmem
        simp only [hk, Bool.false_eq_true, if_false, hlist, Except.ok.injEq] at hPods
        subst hPods
        simp only [List.mem_append]
        exact Or.inl (Or.inr (List.mem_map.2 ⟨pod, hmem, rfl⟩))
      · intro hk deployments hlist deployment hmem hmatch
        simp only [List.mem_append]
        exact Or.inr (hdep hk deployments hlist deployment hmem hmatch)

theorem ingress_related_complete (c : Clientset) (v : List String)
    (kr : KubernetesResource) (rel : List KubernetesResource) (st : IngressStatus)
    (h : getRelatedResourcesIngress c v kr = .ok (rel, st)) (ingress : Ingress)
    (hget : c.GetIngress kr.ResourceNamespace kr.ResourceName = .ok ingress) :
    (kindVisited "Service" v = false →
      ∀ rule ∈ ingress.Spec.Rules, ∀ paths, rule.HTTP = some paths →
        ∀ path ∈ paths, ∀ name, path.Backend.Service = some name →
          ({ ResourceName := name, ResourceType := "Service",
             ResourceNamespace := ingress.Namespace } : KubernetesResource) ∈ rel) ∧
    (kindVisited "Secret" v = false →
      ∀ secretName ∈ ingress.Spec.TLS,
        ({ ResourceName := secretName, ResourceType := "Secret",
           ResourceNamespace := ingress.Namespace } : KubernetesResource) ∈ rel) := by
  unfold getRelatedResourcesIngress at h
  simp only [hget] at h
  split at h
  · cases h
  · split at h
    · cases h
    · rename_i fromRules hRules
      simp only [Except.ok.injEq, Prod.mk.injEq] at h
      obtain ⟨hrel, -⟩ := h
      subst hrel
      refine ⟨?_, ?_⟩
      · intro hk rule hrule paths hpaths path hpath name hname
        simp only [hk, Bool.false_eq_true, if_false] at hRules
        obtain ⟨xs, hxs, hsub⟩ := forEach_sub _ _ _ hRules rule hrule
        simp only [hpaths] at hxs
        obtain ⟨ys, hys, hsub2⟩ := forEach_sub _ _ _ hxs path hpath
        simp only [hname, Except.ok.injEq] at hys
        subst hys
        exact List.mem_append.2 (Or.inl (hsub _ (hsub2 _ (List.mem_singleton_self _))))
      · intro hk secretName hmem
        simp only [hk, Bool.false_eq_true, if_false]
        exact List.mem_append.2 (Or.inr (List.mem_map.2 ⟨secretName, hmem, rfl⟩))

/-- C21: a resolver whose Visited set holds a key of kind K (a key whose part before the
first underscore is K, as kind + "_" + name is) returns no identity of kind K, for the
Deployment resolver and K = ReplicaSet, the ReplicaSet resolver and K = Deployment, the
Service resolver and K = Ingress, Pod, Deployment, the Ingress resolver and K = Service,
Secret; and when no visited key has kind K, a successful resolver returns the identity of
every matching resource of that category: every listed ReplicaSet owned by the Deployment
with a positive replica count, every Deployment owner of the ReplicaSet, every listed Ingress
with a path to the Service, every Pod and every matching Deployment of the Service's
selector, every backend Service and every TLS Secret of the Ingress. -/
theorem C21_visited_kind_skips_category (c : Clientset) (v : List String)
    (kr : KubernetesResource) :
    (∀ rel st, getRelatedResourcesDeployments c v kr = .ok (rel, st) →
      ((∃ key ∈ v, splitFirst key = "ReplicaSet") → ∀ r ∈ rel, r.ResourceType ≠ "ReplicaSet") ∧
      ((∀ key ∈ v, splitFirst key ≠ "ReplicaSet") →
        ∀ items, c.ListReplicaSets kr.ResourceNamespace = .ok items →
          ∀ replica ∈ items, (∃ ref ∈ replica.OwnerReferences, ref.Name = kr.ResourceName) →
            ∀ n, replica.Spec.Replicas = some n → 0 < n →
              ({ ResourceName := replica.Name, ResourceType := "ReplicaSet",
                 ResourceNamespace := replica.Namespace } : KubernetesResource) ∈ rel)) ∧
    (∀ rel st, getRelatedResourcesReplicaSet c v kr = .ok (rel, st) →
      ((∃ key ∈ v, splitFirst key = "Deployment") → ∀ r ∈ rel, r.ResourceType ≠ "Deployment") ∧
      ((∀ key ∈ v, splitFirst key ≠ "Deployment") →
        ∀ replicaSet, c.GetReplicaSet kr.ResourceNamespace kr.ResourceName = .ok replicaSet →
          ∀ owner ∈ replicaSet.OwnerReferences, owner.Kind = "Deployment" →
            ∀ deployment, c.GetDeployment kr.ResourceNamespace owner.Name = .ok deployment →
              ({ ResourceName := deployment.Name, ResourceType := "Deployment",
                 ResourceNamespace := deployment.Namespace } : KubernetesResource) ∈ rel)) ∧
    (∀ rel st service, getRelatedResourcesService c v kr = .ok (rel, st) →
      c.GetService kr.ResourceNamespace kr.ResourceName = .ok service →
      (∀ K ∈ ["Ingress", "Pod", "Deployment"], (∃ key ∈ v, splitFirst key = K) →
        ∀ r ∈ rel, r.ResourceType ≠ K) ∧
      ((∀ key ∈ v, splitFirst key ≠ "Ingress") →
        ∀ ingresses, c.ListIngresses kr.ResourceNamespace = .ok ingresses →
          ∀ ingress ∈ ingresses, ∀ rule ∈ ingress.Spec.Rules, ∀ paths,
            rule.HTTP = some paths →
            (∃ path ∈ paths, path.Backend.Service = some kr.ResourceName) →
            ({ ResourceName := ingress.Name, ResourceType := "Ingress",
               ResourceNamespace := ingress.Namespace } : KubernetesResource) ∈ rel) ∧
      ((∀ key ∈ v, splitFirst key ≠ "Pod") →
        ∀ podList,
          c.ListPods service.Namespace (service.Spec.Selector.getD []) = .ok podList →
          ∀ pod ∈ podList,
            ({ ResourceName := pod.Name, ResourceType := "Pod",
               ResourceNamespace := pod.Namespace } : KubernetesResource) ∈ rel) ∧
      ((∀ key ∈ v, splitFirst key ≠ "Deployment") →
        ∀ deployments,
          c.ListDeployments kr.ResourceNamespace (service.Spec.Selector.getD []) =
            .ok deployments →
          ∀ deployment ∈ deployments,
            selectorFromSetMatches (service.Spec.Selector.getD []) deployment.Labels = true →
            ({ ResourceName := deployment.Name, ResourceType := "Deployment",
               ResourceNamespace := deployment.Namespace } : KubernetesResource) ∈ rel)) ∧
    (∀ rel st ingress, getRelatedResourcesIngress c v kr = .ok (rel, st) →
      c.GetIngress kr.ResourceNamespace kr.ResourceName = .ok ingress →
      (∀ K ∈ ["Service", "Secret"], (∃ key ∈ v, splitFirst key = K) →
        ∀ r ∈ rel, r.ResourceType ≠ K) ∧
      ((∀ key ∈ v, splitFirst key ≠ "Service") →
        ∀ rule ∈ ingress.Spec.Rules, ∀ paths, rule.HTTP = some paths →
          ∀ path ∈ paths, ∀ name, path.Backend.Service = some name →
            ({ ResourceName := name, ResourceType := "Service",
               ResourceNamespace := ingress.Namespace } : KubernetesResource) ∈ rel) ∧
      ((∀ key ∈ v, splitFirst key ≠ "Secret") →
        ∀ secretName ∈ ingress.Spec.TLS,
          ({ ResourceName := secretName, ResourceType := "Secret",
             ResourceNamespace := ingress.Namespace } : KubernetesResource) ∈ rel)) := by
  have hflag : ∀ K, (∃ key ∈ v, splitFirst key = K) → kindVisited K v ≠ false := by
    intro K hex hfalse
    obtain ⟨key, hkey, hk⟩ := hex
    exact (kindVisited_eq_false K v).1 hfalse key hkey hk
  refine ⟨?_, ?_, ?_, ?_⟩
  · intro rel st h
    refine ⟨?_, ?_⟩
    · intro hex r hr ht
      rcases deployments_related c v kr rel st h r hr with ⟨-, hk, -⟩ | ht2 | ht2
      · exact hflag _ hex hk
      · rw [ht] at ht2; exact absurd ht2 (by decide)
      · rw [ht] at ht2; exact absurd ht2 (by decide)
    · intro hno items hitems replica hmem hown n hn hpos
      exact deployments_related_complete c v kr rel st h
        ((kindVisited_eq_false _ v).2 hno) items hitems replica hmem hown n hn hpos
  · intro rel st h
    refine ⟨?_, ?_⟩
    · intro hex r hr ht
      rcases replicaSet_related c v kr rel st h r hr with ⟨-, hk⟩ | ht2 | ht2
      · exact hflag _ hex hk
      · rw [ht] at ht2; exact absurd ht2 (by decide)
      · rw [ht] at ht2; exact absurd ht2 (by decide)
    · intro hno replicaSet hget owner hmem hkind deployment hdep
      exact replicaSet_related_complete c v kr rel st h
        ((kindVisited_eq_false _ v).2 hno) replicaSet hget owner hmem hkind deployment hdep
  · intro rel st service h hget
    obtain ⟨h1, h2, h3⟩ := service_related_complete c v kr rel st h service hget
    refine ⟨?_, fun hno => h1 ((kindVisited_eq_false _ v).2 hno),
      fun hno => h2 ((kindVisited_eq_false _ v).2 hno),
      fun hno => h3 ((kindVisited_eq_false _ v).2 hno)⟩
    intro K _ hex r hr ht
    have hk := (service_related_flags c v kr rel st h r hr).2
    rw [ht] at hk
    exact hflag K hex hk
  · intro rel st ingress h hget
    obtain ⟨h1, h2⟩ := ingress_related_complete c v kr rel st h ingress hget
    refine ⟨?_, fun hno => h1 ((kindVisited_eq_false _ v).2 hno),
      fun hno => h2 ((kindVisited_eq_false _ v).2 hno)⟩
    intro K _ hex r hr ht
    have hk := (ingress_related_flags c v kr rel st h r hr).2
    rw [ht] at hk
    exact hflag K hex hk

/-- Witness of C21: Deployment "web-d" of `webCluster` owns ReplicaSet "web-rs"; with a
ReplicaSet key visited the Deployment resolver returns no ReplicaSet, with nothing visited it
returns "web-rs". -/
theorem C21_visited_kind_skips_category_witness :
    getRelatedResourcesDeployments webCluster ["ReplicaSet_other"]
        { ResourceName := "web-d", ResourceType := "Deployment", ResourceNamespace := "prod" } =
      .ok ([{ ResourceName := "web", ResourceType := "Service", ResourceNamespace := "prod" }],
        { Ok := true, Namespace := "prod", Created := "0s", DeploymentStrategy := "",
          Selectors := ["app:web2"], Message := "Deployment is OK" }) ∧
    (∃ key ∈ ["ReplicaSet_other"], splitFirst key = "ReplicaSet") ∧
    (∀ r ∈ [({ ResourceName := "web", ResourceType := "Service",
                ResourceNamespace := "prod" } : KubernetesResource)],
      r.ResourceType ≠ "ReplicaSet") ∧
    getRelatedResourcesDeployments webCluster []
        { ResourceName := "web-d", ResourceType := "Deployment", ResourceNamespace := "prod" } =
      .ok ([{ ResourceName := "web-rs", ResourceType := "ReplicaSet",
              ResourceNamespace := "prod" },
            { ResourceName := "web", ResourceType := "Service", ResourceNamespace := "prod" }],
        { Ok := true, Namespace := "prod", Created := "0s", DeploymentStrategy := "",
          Selectors := ["app:web2"], Message := "Deployment is OK" }) ∧
    ({ ResourceName := "web-rs", ResourceType := "ReplicaSet",
       ResourceNamespace := "prod" } : KubernetesResource) ∈
      [({ ResourceName := "web-rs", ResourceType := "ReplicaSet",
          ResourceNamespace := "prod" } : KubernetesResource),
        { ResourceName := "web", ResourceType := "Service", ResourceNamespace := "prod" }] :=
  ⟨by rfl, ⟨"ReplicaSet_other", List.mem_singleton.2 rfl, by decide⟩,
    ((C21_visited_kind_skips_category webCluster ["ReplicaSet_other"]
      { ResourceName := "web-d", ResourceType := "Deployment",
        ResourceNamespace := "prod" }).1 _ _ (by rfl)).1
      ⟨"ReplicaSet_other", List.mem_singleton.2 rfl, by decide⟩,
    by rfl,
    ((C21_visited_kind_skips_category webCluster []
      { ResourceName := "web-d", ResourceType := "Deployment",
        ResourceNamespace := "prod" }).1 _ _ (by rfl)).2
      (fun _ hkey => by cases hkey) [rsWeb] rfl rsWeb (List.mem_singleton.2 rfl)
      ⟨{ Kind := "Deployment", Name := "web-d" }, List.mem_singleton.2 rfl, rfl⟩ 1 rfl
      (by decide)⟩

/-! ## C22: one edge per related identity -/

/-- A call made when the key of `kr` is visited appends no edge whose source is the id of
`kr`, `kr` being of a supported kind. -/
theorem no_edge_from_visited (c : Clientset) (kr : KubernetesResource)
    (hsup : kr.ResourceType ∈ supportedKinds) (base : List ResourceViewerEdges)
    (fuel : Nat) (dt : DAGTraverser) (k : KubernetesResource) (res : DAGTraverser × Exit)
    (hI : kr.ResourceType ++ "_" ++ kr.ResourceName ∈ dt.Visited ∧
      ∃ more, dt.Graph.Edges = base ++ more ∧
        ∀ e ∈ more, e.Source ≠ kr.ResourceName ++ "-" ++ kr.ResourceType)
    (h : GenerateDAGForResource c fuel dt k = some res) :
    kr.ResourceType ++ "_" ++ kr.ResourceName ∈ res.1.Visited ∧
      ∃ more, res.1.Graph.Edges = base ++ more ∧
        ∀ e ∈ more, e.Source ≠ kr.ResourceName ++ "-" ++ kr.ResourceType := by
  refine GenerateDAGForResource_invariant c
    (fun d => kr.ResourceType ++ "_" ++ kr.ResourceName ∈ d.Visited ∧
      ∃ more, d.Graph.Edges = base ++ more ∧
        ∀ e ∈ more, e.Source ≠ kr.ResourceName ++ "-" ++ kr.ResourceType)
    (fun _ => True) ?_ fuel dt k res hI trivial h
  intro d x rel st hpa hP _ hx hr _
  obtain ⟨hmem, more, he, hsrc⟩ := hP
  refine ⟨⟨?_, ?_⟩, fun _ _ => trivial⟩
  · rw [expanded_visited]
    exact (mem_mapSet _ _ _).2 (Or.inl hmem)
  · refine ⟨more ++ (rel ++ hpa).map (fun r =>
        { Source := x.ResourceName ++ "-" ++ x.ResourceType
          Target := r.ResourceName ++ "-" ++ r.ResourceType }), ?_, ?_⟩
    · rw [expanded_edges, he, List.append_assoc]
    · intro e hmem'
      rcases List.mem_append.1 hmem' with h1 | h1
      · exact hsrc e h1
      · obtain ⟨r, -, rfl⟩ := List.mem_map.1 h1
        intro hid
        have hxsup : x.ResourceType ∈ supportedKinds :=
          resolveRelated_supported c d.Visited x (by rw [hr]; simp)
        obtain ⟨hn, ht⟩ := id_injective _ _ _ _ (supported_no_dash _ hxsup)
          (supported_no_dash _ hsup) hid
        exact hx (by rw [hn, ht]; exact hmem)

/-- C22: when an unvisited identity is resolved, with related list `rel ++ hpa`, the call on
it leaves the edges it found, then one edge from the identity to each element of the related
list, in the order of the list and with repetitions kept, then the edges the calls on the
children appended, none of which starts at the identity. -/
theorem C22_one_edge_per_related (c : Clientset) (fuel : Nat) (dt : DAGTraverser)
    (kr : KubernetesResource) (rel : List KubernetesResource) (st : Status)
    (hpa : List KubernetesResource) (res : DAGTraverser × Exit)
    (hv : kr.ResourceType ++ "_" ++ kr.ResourceName ∉ dt.Visited)
    (hres : resolveRelated c dt.Visited kr = .ok rel st)
    (hhpa : getHPAForController c kr = .ok hpa)
    (hrun : GenerateDAGForResource c (fuel + 1) dt kr = some res) :
    ∃ more : List ResourceViewerEdges,
      res.1.Graph.Edges =
        dt.Graph.Edges ++
          (rel ++ hpa).map (fun r : KubernetesResource =>
            ({ Source := kr.ResourceName ++ "-" ++ kr.ResourceType,
               Target := r.ResourceName ++ "-" ++ r.ResourceType } : ResourceViewerEdges)) ++
          more ∧
      ∀ e ∈ more, e.Source ≠ kr.ResourceName ++ "-" ++ kr.ResourceType := by
  rw [GenerateDAGForResource_succ, if_neg hv, hres] at hrun
  simp only [hhpa] at hrun
  have hsup : kr.ResourceType ∈ supportedKinds :=
    resolveRelated_supported c dt.Visited kr (by rw [hres]; simp)
  have key := recurse_invariant
    (fun d => kr.ResourceType ++ "_" ++ kr.ResourceName ∈ d.Visited ∧
      ∃ more, d.Graph.Edges = (expanded dt kr st (rel ++ hpa)).Graph.Edges ++ more ∧
        ∀ e ∈ more, e.Source ≠ kr.ResourceName ++ "-" ++ kr.ResourceType)
    (fun _ => True)
    (fun d k r hP _ hg => no_edge_from_visited c kr hsup _ fuel d k r hP hg)
    (rel ++ hpa) (expanded dt kr st (rel ++ hpa)) res
    ⟨by rw [expanded_visited]; exact (mem_mapSet _ _ _).2 (Or.inr rfl),
      [], by simp, by simp⟩
    (fun _ _ => trivial) hrun
  obtain ⟨-, more, he, hsrc⟩ := key
  exact ⟨more, by rw [he, expanded_edges], hsrc⟩

/-- Witness of C22: Pod "api-0" of `twiceCluster` names Secret "creds" in a volume and in an
`envFrom`; the traversal leaves two edges from the Pod to the Secret and one Secret node. -/
theorem C22_one_edge_per_related_witness :
    (podTwiceRoot.ResourceType ++ "_" ++ podTwiceRoot.ResourceName ∉ freshTraverser.Visited ∧
      resolveRelated twiceCluster freshTraverser.Visited podTwiceRoot =
        .ok [credsSecret, credsSecret] podTwiceStatus ∧
      getHPAForController twiceCluster podTwiceRoot = .ok [] ∧
      GenerateDAGForResource twiceCluster (1 + 1) freshTraverser podTwiceRoot =
        some (twiceFinal, .nil)) ∧
    (twiceFinal.Graph.Nodes.filter (fun n => n.Description = "Secret")).length = 1 ∧
    ∃ more : List ResourceViewerEdges,
      twiceFinal.Graph.Edges =
        freshTraverser.Graph.Edges ++
          ([credsSecret, credsSecret] ++ []).map (fun r : KubernetesResource =>
            ({ Source := podTwiceRoot.ResourceName ++ "-" ++ podTwiceRoot.ResourceType,
               Target := r.ResourceName ++ "-" ++ r.ResourceType } : ResourceViewerEdges)) ++
          more ∧
      ∀ e ∈ more, e.Source ≠ podTwiceRoot.ResourceName ++ "-" ++ podTwiceRoot.ResourceType :=
  ⟨⟨by decide, by rfl, rfl, by rfl⟩, by decide,
    C22_one_edge_per_related twiceCluster 1 freshTraverser podTwiceRoot
      [credsSecret, credsSecret] podTwiceStatus [] (twiceFinal, .nil)
      (by decide) (by rfl) rfl (by rfl)⟩

/-! ## C23: a call only appends to the graph -/

/-- C23: whatever way a call of `GenerateDAGForResource` ends, the node sequence and the edge
sequence of the graph before the call are prefixes of the sequences after the call: nodes
and edges are appended, none is changed, moved or removed. -/
theorem C23_only_appends (c : Clientset) (fuel : Nat) (dt : DAGTraverser)
    (kr : KubernetesResource) (res : DAGTraverser × Exit)
    (h : GenerateDAGForResource c fuel dt kr = some res) :
    dt.Graph.Nodes <+: res.1.Graph.Nodes ∧ dt.Graph.Edges <+: res.1.Graph.Edges := by
  obtain ⟨⟨mn, hn⟩, ⟨me, he⟩⟩ := GenerateDAGForResource_grows c fuel dt kr res h
  exact ⟨⟨mn, hn.symm⟩, ⟨me, he.symm⟩⟩

/-- Witness of C23: the traversal of `webCluster` from Service "web", started on the traverser
the traversal of `twoSecretsCluster` left. -/
theorem C23_only_appends_witness :
    GenerateDAGForResource webCluster 5 twoSecretsFinal webRoot =
      some ({ Visited := twoSecretsFinal.Visited ++ webFinal.Visited
              Graph := { Nodes := twoSecretsFinal.Graph.Nodes ++ webFinal.Graph.Nodes
                         Edges := twoSecretsFinal.Graph.Edges ++ webFinal.Graph.Edges } },
            .nil) ∧
    twoSecretsFinal.Graph.Nodes <+: twoSecretsFinal.Graph.Nodes ++ webFinal.Graph.Nodes ∧
    twoSecretsFinal.Graph.Edges <+: twoSecretsFinal.Graph.Edges ++ webFinal.Graph.Edges :=
  ⟨by rfl, C23_only_appends webCluster 5 twoSecretsFinal webRoot
    ({ Visited := twoSecretsFinal.Visited ++ webFinal.Visited
       Graph := { Nodes := twoSecretsFinal.Graph.Nodes ++ webFinal.Graph.Nodes
                  Edges := twoSecretsFinal.Graph.Edges ++ webFinal.Graph.Edges } }, .nil)
    (by rfl)⟩

/-! ## C24: the error of a child is returned as it is -/

/-- The loop over the children stops at the first child whose call returns an error, with
that error and the state that call left. -/
theorem recurse_stops_at_error
    (gen : DAGTraverser → KubernetesResource → Option (DAGTraverser × Exit))
    (child : KubernetesResource) (post : List KubernetesResource) (dt1 dt2 : DAGTraverser)
    (msg : String) (hchild : gen dt1 child = some (dt2, .error msg)) :
    ∀ (pre : List KubernetesResource) (dt : DAGTraverser),
      recurse gen dt pre = some (dt1, .nil) →
      recurse gen dt (pre ++ child :: post) = some (dt2, .error msg)
  | [], dt, h => by
    simp only [recurse, Option.some.injEq, Prod.mk.injEq, and_true] at h
    subst h
    simp only [List.nil_append, recurse, hchild]
  | r :: pre, dt, h => by
    simp only [List.cons_append, recurse] at h ⊢
    generalize gen dt r = g at h ⊢
    rcases g with _ | ⟨d, e⟩
    · cases h
    · cases e with
      | nil => exact recurse_stops_at_error gen child post dt1 dt2 msg hchild pre d h
      | error m => cases h
      | panic => cases h

/-- C24: when an unvisited identity is resolved, its related list is `pre ++ child :: post`,
the calls on `pre` return nil and the call on `child` returns an error, the call on the
identity returns that same error text, in the state the call on `child` left: the error is not
wrapped and no resource of `post` is expanded. -/
theorem C24_child_error_unchanged (c : Clientset) (fuel : Nat) (dt : DAGTraverser)
    (kr : KubernetesResource) (rel : List KubernetesResource) (st : Status)
    (hpa pre post : List KubernetesResource) (child : KubernetesResource)
    (dt1 dt2 : DAGTraverser) (msg : String)
    (hv : kr.ResourceType ++ "_" ++ kr.ResourceName ∉ dt.Visited)
    (hres : resolveRelated c dt.Visited kr = .ok rel st)
    (hhpa : getHPAForController c kr = .ok hpa)
    (hsplit : rel ++ hpa = pre ++ child :: post)
    (hpre : recurse (GenerateDAGForResource c fuel) (expanded dt kr st (rel ++ hpa)) pre =
      some (dt1, .nil))
    (hchild : GenerateDAGForResource c fuel dt1 child = some (dt2, .error msg)) :
    GenerateDAGForResource c (fuel + 1) dt kr = some (dt2, .error msg) := by
  rw [GenerateDAGForResource_succ, if_neg hv, hres]
  simp only [hhpa]
  generalize expanded dt kr st (rel ++ hpa) = start at hpre ⊢
  rw [hsplit]
  exact recurse_stops_at_error _ child post dt1 dt2 msg hchild pre start hpre

/-- Witness of C24: Deployment "web" of `brokenFirstChildCluster` has the related list
ReplicaSet "web-rs", ServiceAccount "runner"; fetching the ReplicaSet fails, the call on the
Deployment returns the error of the call on the ReplicaSet, and the ServiceAccount, which
exists, gets no node. -/
theorem C24_child_error_unchanged_witness :
    (deploymentRoot.ResourceType ++ "_" ++ deploymentRoot.ResourceName ∉
        freshTraverser.Visited ∧
      resolveRelated brokenFirstChildCluster freshTraverser.Visited deploymentRoot =
        .ok [{ ResourceName := "web-rs", ResourceType := "ReplicaSet",
               ResourceNamespace := "prod" },
             { ResourceName := "runner", ResourceType := "ServiceAccount",
               ResourceNamespace := "prod" }] webDeploymentStatus ∧
      getHPAForController brokenFirstChildCluster deploymentRoot = .ok [] ∧
      GenerateDAGForResource brokenFirstChildCluster 1 brokenFirstChildFinal
          { ResourceName := "web-rs", ResourceType := "ReplicaSet",
            ResourceNamespace := "prod" } =
        some (brokenFirstChildFinal, .error
          "unable to get related resources for ReplicaSet: unable to get replica set: forbidden")) ∧
    GenerateDAGForResource brokenFirstChildCluster (1 + 1) freshTraverser deploymentRoot =
      some (brokenFirstChildFinal, .error
        "unable to get related resources for ReplicaSet: unable to get replica set: forbidden") :=
  ⟨⟨by decide, by rfl, rfl, by rfl⟩,
    C24_child_error_unchanged brokenFirstChildCluster 1 freshTraverser deploymentRoot
      [{ ResourceName := "web-rs", ResourceType := "ReplicaSet", ResourceNamespace := "prod" },
       { ResourceName := "runner", ResourceType := "ServiceAccount",
         ResourceNamespace := "prod" }] webDeploymentStatus [] []
      [{ ResourceName := "runner", ResourceType := "ServiceAccount",
         ResourceNamespace := "prod" }]
      { ResourceName := "web-rs", ResourceType := "ReplicaSet", ResourceNamespace := "prod" }
      brokenFirstChildFinal brokenFirstChildFinal
      "unable to get related resources for ReplicaSet: unable to get replica set: forbidden"
      (by decide) (by rfl) rfl rfl (by rfl) (by rfl)⟩

/-! ## C25: the Visited set and the nodes -/

/-- The keys of the Visited set are, in order, the keys of the nodes; kept by expanding an
identity whose key is not visited. -/
theorem visited_eq_node_keys_expanded (dt : DAGTraverser) (kr : KubernetesResource)
    (st : Status) (rs : List KubernetesResource)
    (hv : kr.ResourceType ++ "_" ++ kr.ResourceName ∉ dt.Visited)
    (h : dt.Visited = dt.Graph.Nodes.map (fun n => n.Description ++ "_" ++ n.Title)) :
    (expanded dt kr st rs).Visited =
      (expanded dt kr st rs).Graph.Nodes.map (fun n => n.Description ++ "_" ++ n.Title) := by
  rw [expanded_visited, expanded_nodes, mapSet, if_neg hv, List.map_append, ← h]
  rfl

/-- Expanding an identity whose key is not visited keeps the keys of the Visited set free of
repetition. -/
theorem visited_nodup_expanded (dt : DAGTraverser) (kr : KubernetesResource)
    (st : Status) (rs : List KubernetesResource)
    (hv : kr.ResourceType ++ "_" ++ kr.ResourceName ∉ dt.Visited) (h : dt.Visited.Nodup) :
    (expanded dt kr st rs).Visited.Nodup := by
  rw [expanded_visited, mapSet, if_neg hv]
  refine List.Nodup.append h (List.nodup_singleton _) ?_
  intro a ha hb
  rw [List.mem_singleton] at hb
  exact hv (hb ▸ ha)

/-- The keys of the Visited set are, in order, the keys of the nodes; kept by a call. -/
theorem visited_eq_node_keys_call (c : Clientset) (fuel : Nat) (dt : DAGTraverser)
    (kr : KubernetesResource) (res : DAGTraverser × Exit)
    (hI : dt.Visited = dt.Graph.Nodes.map (fun n => n.Description ++ "_" ++ n.Title))
    (h : GenerateDAGForResource c fuel dt kr = some res) :
    res.1.Visited = res.1.Graph.Nodes.map (fun n => n.Description ++ "_" ++ n.Title) :=
  GenerateDAGForResource_invariant c
    (fun d => d.Visited = d.Graph.Nodes.map (fun n => n.Description ++ "_" ++ n.Title))
    (fun _ => True)
    (fun d k _ s _ hP _ hv _ _ =>
      ⟨visited_eq_node_keys_expanded d k s _ hv hP, fun _ _ => trivial⟩)
    fuel dt kr res hI trivial h

/-- C25: in every state of a traversal started on a fresh traverser - the state in which
children are visited and the state any call hands back, also with an error or a panic - the
keys of the Visited set are the keys kind + "_" + name of the nodes of the graph, in the
same order and without repetition, and there are as many nodes as visited keys. -/
theorem C25_visited_are_node_keys (c : Clientset) (dt : DAGTraverser) (h : Reachable c dt) :
    dt.Visited = dt.Graph.Nodes.map (fun n => n.Description ++ "_" ++ n.Title) ∧
    dt.Visited.Nodup ∧
    dt.Graph.Nodes.length = dt.Visited.length := by
  have key : dt.Visited = dt.Graph.Nodes.map (fun n => n.Description ++ "_" ++ n.Title) ∧
      dt.Visited.Nodup := by
    induction h with
    | fresh => exact ⟨rfl, List.nodup_nil⟩
    | expand d kr rel st hpa _ hv _ _ ih =>
      exact ⟨visited_eq_node_keys_expanded d kr st _ hv ih.1,
        visited_nodup_expanded d kr st _ hv ih.2⟩
    | call fuel d kr res _ hg ih =>
      refine ⟨visited_eq_node_keys_call c fuel d kr res ih.1 hg, ?_⟩
      exact GenerateDAGForResource_invariant c (fun d => d.Visited.Nodup) (fun _ => True)
        (fun d k _ s _ hP _ hv _ _ =>
          ⟨visited_nodup_expanded d k s _ hv hP, fun _ _ => trivial⟩)
        fuel d kr res ih.2 trivial hg
  exact ⟨key.1, key.2, by rw [key.1, List.length_map]⟩

/-- Witness of C25: the state the failed traversal of `brokenFirstChildCluster` left. -/
theorem C25_visited_are_node_keys_witness :
    Reachable brokenFirstChildCluster brokenFirstChildFinal ∧
    brokenFirstChildFinal.Visited =
      brokenFirstChildFinal.Graph.Nodes.map (fun n => n.Description ++ "_" ++ n.Title) ∧
    brokenFirstChildFinal.Visited.Nodup ∧
    brokenFirstChildFinal.Graph.Nodes.length = brokenFirstChildFinal.Visited.length :=
  ⟨Reachable.call 2 freshTraverser deploymentRoot (brokenFirstChildFinal, .error
      "unable to get related resources for ReplicaSet: unable to get replica set: forbidden")
      Reachable.fresh (by rfl),
    C25_visited_are_node_keys brokenFirstChildCluster brokenFirstChildFinal
      (Reachable.call 2 freshTraverser deploymentRoot (brokenFirstChildFinal, .error
        "unable to get related resources for ReplicaSet: unable to get replica set: forbidden")
        Reachable.fresh (by rfl))⟩

/-! ## C26: the root Deployment is the only Deployment -/

/-- The edges to identities of related kinds other than Deployment target no Deployment id. -/
theorem edges_miss_deployments (source : String) (rs : List KubernetesResource)
    (hkind : ∀ r ∈ rs, r.ResourceType ∈ relatedKinds)
    (hne : ∀ r ∈ rs, r.ResourceType ≠ "Deployment") :
    ∀ e ∈ rs.map (fun r =>
        ({ Source := source
           Target := r.ResourceName ++ "-" ++ r.ResourceType } : ResourceViewerEdges)),
      ∀ name, e.Target ≠ name ++ "-" ++ "Deployment" := by
  intro e he name heq
  obtain ⟨r, hr, rfl⟩ := List.mem_map.1 he
  exact hne r hr
    (id_injective _ _ _ _ (relatedKinds_no_dash _ (hkind r hr)) (by decide) heq).2

/-- With a Deployment key in the Visited set, a resolved identity has no related Deployment. -/
theorem no_deployment_once_visited (c : Clientset) (v : List String)
    (kr : KubernetesResource) (rel : List KubernetesResource) (st : Status)
    (hpa : List KubernetesResource) (hk : kindVisited "Deployment" v = true)
    (hr : resolveRelated c v kr = .ok rel st) (hh : getHPAForController c kr = .ok hpa) :
    ∀ r ∈ rel ++ hpa, r.ResourceType ≠ "Deployment" := by
  intro r hmem ht
  rcases List.mem_append.1 hmem with hmem | hmem
  · have := (resolveRelated_related c v kr rel st hr r hmem).2.1 ht
    rw [hk] at this
    cases this
  · have := hpa_related c kr hpa hh r hmem
    rw [ht] at this
    exact absurd this (by decide)

/-- The state kept by a traversal rooted at a Deployment: a Deployment key is visited, the
Deployment nodes are the node `rootNode` alone, no edge targets a Deployment id. -/
theorem onlyRoot_step (c : Clientset) (rootNode : ResourceViewerNodes) (dt : DAGTraverser)
    (kr : KubernetesResource) (rel : List KubernetesResource) (st : Status)
    (hpa : List KubernetesResource)
    (hP : kindVisited "Deployment" dt.Visited = true ∧
      dt.Graph.Nodes.filter (fun n => n.Description = "Deployment") = [rootNode] ∧
      ∀ e ∈ dt.Graph.Edges, ∀ name, e.Target ≠ name ++ "-" ++ "Deployment")
    (hA : kr.ResourceType ≠ "Deployment")
    (hr : resolveRelated c dt.Visited kr = .ok rel st)
    (hh : getHPAForController c kr = .ok hpa) :
    (kindVisited "Deployment" (expanded dt kr st (rel ++ hpa)).Visited = true ∧
      (expanded dt kr st (rel ++ hpa)).Graph.Nodes.filter
        (fun n => n.Description = "Deployment") = [rootNode] ∧
      ∀ e ∈ (expanded dt kr st (rel ++ hpa)).Graph.Edges, ∀ name,
        e.Target ≠ name ++ "-" ++ "Deployment") ∧
      ∀ r ∈ rel ++ hpa, r.ResourceType ≠ "Deployment" := by
  obtain ⟨hk, hnodes, hedges⟩ := hP
  have hrel := no_deployment_once_visited c dt.Visited kr rel st hpa hk hr hh
  refine ⟨⟨?_, ?_, ?_⟩, hrel⟩
  · rw [expanded_visited]
    exact kindVisited_mapSet _ _ _ hk
  · rw [expanded_nodes, List.filter_append, hnodes]
    simp [hA]
  · rw [expanded_edges]
    intro e he
    rcases List.mem_append.1 he with he | he
    · exact hedges e he
    · exact edges_miss_deployments _ _ (related_kind c _ kr rel st hpa hr hh) hrel e he

/-- C26: in a traversal from a fresh traverser whose root is a Deployment that was resolved
(resolver and autoscaler lookup succeeded), however the traversal ends, the nodes of kind
Deployment are the root's node alone and no edge has the id of a Deployment as target (so
none targets a Deployment other than the root); and once a key of kind Deployment is in the
Visited set, no resolved identity has a related identity of kind Deployment. -/
theorem C26_root_is_only_deployment (c : Clientset) (fuel : Nat) (root : KubernetesResource)
    (rel : List KubernetesResource) (st : Status) (hpa : List KubernetesResource)
    (res : DAGTraverser × Exit)
    (hroot : root.ResourceType = "Deployment")
    (hres : resolveRelated c [] root = .ok rel st)
    (hhpa : getHPAForController c root = .ok hpa)
    (hrun : GenerateDAGForResource c fuel freshTraverser root = some res) :
    res.1.Graph.Nodes.filter (fun n => n.Description = "Deployment") =
        [{ ID := root.ResourceName ++ "-" ++ "Deployment"
           Title := root.ResourceName
           Description := "Deployment"
           Status := .status st
           Color := if st.OK then "#63f828" else "#f10909" }] ∧
      (res.1.Graph.Nodes.filter (fun n => n.Description = "Deployment")).length = 1 ∧
      (∀ e ∈ res.1.Graph.Edges, ∀ name, e.Target ≠ name ++ "-" ++ "Deployment") ∧
      ∀ v kr rel1 st1 hpa1, (∃ key ∈ v, splitFirst key = "Deployment") →
        resolveRelated c v kr = .ok rel1 st1 → getHPAForController c kr = .ok hpa1 →
        ∀ r ∈ rel1 ++ hpa1, r.ResourceType ≠ "Deployment" := by
  have hlast : ∀ v kr rel1 st1 hpa1, (∃ key ∈ v, splitFirst key = "Deployment") →
      resolveRelated c v kr = .ok rel1 st1 → getHPAForController c kr = .ok hpa1 →
      ∀ r ∈ rel1 ++ hpa1, r.ResourceType ≠ "Deployment" := by
    intro v kr rel1 st1 hpa1 hex hr hh
    refine no_deployment_once_visited c v kr rel1 st1 hpa1 ?_ hr hh
    cases hkv : kindVisited "Deployment" v with
    | true => rfl
    | false =>
      obtain ⟨key, hkey, hk⟩ := hex
      exact absurd hk ((kindVisited_eq_false _ v).1 hkv key hkey)
  cases fuel with
  | zero => simp [GenerateDAGForResource] at hrun
  | succ n =>
    rw [GenerateDAGForResource_succ] at hrun
    have hfresh : freshTraverser.Visited = [] := rfl
    simp only [hfresh, List.not_mem_nil, if_false, hres, hhpa] at hrun
    have hrelne : ∀ r ∈ rel ++ hpa, r.ResourceType ≠ "Deployment" := by
      intro r hmem ht
      rcases List.mem_append.1 hmem with hmem | hmem
      · exact deployment_related_kinds c [] root rel st hroot hres r hmem ht
      · have := hpa_related c root hpa hhpa r hmem
        rw [ht] at this
        exact absurd this (by decide)
    have hP1 : kindVisited "Deployment"
          (expanded freshTraverser root st (rel ++ hpa)).Visited = true ∧
        (expanded freshTraverser root st (rel ++ hpa)).Graph.Nodes.filter
          (fun n => n.Description = "Deployment") =
          [{ ID := root.ResourceName ++ "-" ++ "Deployment"
             Title := root.ResourceName
             Description := "Deployment"
             Status := .status st
             Color := if st.OK then "#63f828" else "#f10909" }] ∧
        ∀ e ∈ (expanded freshTraverser root st (rel ++ hpa)).Graph.Edges, ∀ name,
          e.Target ≠ name ++ "-" ++ "Deployment" := by
      refine ⟨?_, ?_, ?_⟩
      · rw [expanded_visited, hroot]
        exact kindVisited_own_key _ _ _ (by decide)
      · rw [expanded_nodes, hroot]
        simp [freshTraverser, CreateGraph]
      · rw [expanded_edges]
        intro e he
        rcases List.mem_append.1 he with he | he
        · simp [freshTraverser, CreateGraph] at he
        · exact edges_miss_deployments _ _ (related_kind c _ root rel st hpa hres hhpa)
            hrelne e he
    have hfin := recurse_invariant
      (fun d => kindVisited "Deployment" d.Visited = true ∧
        d.Graph.Nodes.filter (fun n => n.Description = "Deployment") =
          [{ ID := root.ResourceName ++ "-" ++ "Deployment"
             Title := root.ResourceName
             Description := "Deployment"
             Status := .status st
             Color := if st.OK then "#63f828" else "#f10909" }] ∧
        ∀ e ∈ d.Graph.Edges, ∀ name, e.Target ≠ name ++ "-" ++ "Deployment")
      (fun r => r.ResourceType ≠ "Deployment")
      (GenerateDAGForResource_invariant c _ _
        (fun dt k rl s hp hP hA _ hr hh => onlyRoot_step c _ dt k rl s hp hP hA hr hh) n)
      _ _ res hP1 hrelne hrun
    exact ⟨hfin.2.1, by rw [hfin.2.1]; rfl, hfin.2.2, hlast⟩

/-- Witness of C26: the traversal of `webCluster` from Deployment "web-d", whose ReplicaSet and
Service both relate back to it. -/
theorem C26_root_is_only_deployment_witness :
    webDeploymentRoot.ResourceType = "Deployment" ∧
    GenerateDAGForResource webCluster 5 freshTraverser webDeploymentRoot =
      some (webDeploymentFinal, .nil) ∧
    webDeploymentFinal.Graph.Nodes.filter (fun n => n.Description = "Deployment") =
      [{ ID := "web-d" ++ "-" ++ "Deployment", Title := "web-d", Description := "Deployment"
         Status := .status depWebStatus
         Color := if depWebStatus.OK then "#63f828" else "#f10909" }] ∧
    (webDeploymentFinal.Graph.Nodes.filter (fun n => n.Description = "Deployment")).length = 1 ∧
    (∀ e ∈ webDeploymentFinal.Graph.Edges, ∀ name, e.Target ≠ name ++ "-" ++ "Deployment") :=
  ⟨rfl, by rfl,
    (C26_root_is_only_deployment webCluster 5 webDeploymentRoot
      [{ ResourceName := "web-rs", ResourceType := "ReplicaSet", ResourceNamespace := "prod" },
       { ResourceName := "web", ResourceType := "Service", ResourceNamespace := "prod" }]
      depWebStatus [] (webDeploymentFinal, .nil) rfl (by rfl) (by rfl) (by rfl)).1,
    (C26_root_is_only_deployment webCluster 5 webDeploymentRoot
      [{ ResourceName := "web-rs", ResourceType := "ReplicaSet", ResourceNamespace := "prod" },
       { ResourceName := "web", ResourceType := "Service", ResourceNamespace := "prod" }]
      depWebStatus [] (webDeploymentFinal, .nil) rfl (by rfl) (by rfl) (by rfl)).2.1,
    (C26_root_is_only_deployment webCluster 5 webDeploymentRoot
      [{ ResourceName := "web-rs", ResourceType := "ReplicaSet", ResourceNamespace := "prod" },
       { ResourceName := "web", ResourceType := "Service", ResourceNamespace := "prod" }]
      depWebStatus [] (webDeploymentFinal, .nil) rfl (by rfl) (by rfl) (by rfl)).2.2.1⟩

/-! ## C27: the replica counts of a ReplicaSet status -/

/-- C27: the status the ReplicaSet resolver builds has `DesiredReplicas` equal to
`CurrentReplicas`, both being the decimal rendering of `Status.Replicas` of the ReplicaSet;
`Spec.Replicas` is not read. -/
theorem C27_desired_is_current (c : Clientset) (v : List String) (kr : KubernetesResource)
    (replicaSet : ReplicaSet) (rel : List KubernetesResource) (status : ReplicaSetStatus)
    (hget : c.GetReplicaSet kr.ResourceNamespace kr.ResourceName = .ok replicaSet)
    (h : getRelatedResourcesReplicaSet c v kr = .ok (rel, status)) :
    status.DesiredReplicas = status.CurrentReplicas ∧
    status.CurrentReplicas = toString replicaSet.Status.Replicas := by
  simp only [getRelatedResourcesReplicaSet, hget] at h
  repeat (any_goals (first | (cases h; first | done | exact ⟨rfl, rfl⟩) | split at h))

/-- Witness of C27: ReplicaSet "web-rs" of `scalingCluster` asks for five replicas and reports
two; both fields of its status read "2". -/
theorem C27_desired_is_current_witness :
    (scalingCluster.GetReplicaSet "prod" "web-rs" = .ok rsScaling ∧
      rsScaling.Spec.Replicas = some 5 ∧
      getRelatedResourcesReplicaSet scalingCluster []
          { ResourceName := "web-rs", ResourceType := "ReplicaSet",
            ResourceNamespace := "prod" } =
        .ok ([], { Ok := true, Namespace := "prod", Created := "0s", CurrentReplicas := "2"
                   DesiredReplicas := "2", Message := "ReplicaSet is OK" })) ∧
    ("2" = "2" ∧ "2" = toString rsScaling.Status.Replicas) :=
  ⟨⟨rfl, rfl, by rfl⟩,
    C27_desired_is_current scalingCluster []
      { ResourceName := "web-rs", ResourceType := "ReplicaSet", ResourceNamespace := "prod" }
      rsScaling []
      { Ok := true, Namespace := "prod", Created := "0s", CurrentReplicas := "2"
        DesiredReplicas := "2", Message := "ReplicaSet is OK" } rfl (by rfl)⟩

/-! ## C28: Ingresses with missing parts -/

/-- A loop whose iterations fail with a panic only fails with a panic only. -/
theorem forEach_only_panic {α β : Type} (f : α → Res (List β))
    (honly : ∀ a e, f a = .error e → e = .panic) :
    ∀ (l : List α) (e : Failure), forEach f l = .error e → e = .panic
  | [], e, h => by cases h
  | a :: rest, e, h => by
    simp only [forEach] at h
    split at h
    · rename_i e1 he1
      cases h
      exact honly a _ he1
    · split at h
      · rename_i e1 he1
        cases h
        exact forEach_only_panic f honly rest _ he1
      · cases h

/-- A loop whose iterations fail with a panic only, and one of whose iterations fails, ends
in a panic. -/
theorem forEach_panic {α β : Type} {f : α → Res (List β)} {l : List α} {r : Res (List β)}
    (heq : forEach f l = r) (honly : ∀ a e, f a = .error e → e = .panic)
    (hex : ∃ a ∈ l, ∃ e, f a = .error e) : r = .error .panic := by
  subst heq
  induction l with
  | nil =>
    obtain ⟨a, ha, _⟩ := hex
    cases ha
  | cons a rest ih =>
    simp only [forEach]
    cases hfa : f a with
    | error e => rw [honly a e hfa]
    | ok xs =>
      have hrest : ∃ b ∈ rest, ∃ e, f b = .error e := by
        obtain ⟨b, hb, e, he⟩ := hex
        rcases List.mem_cons.1 hb with rfl | hb
        · rw [hfa] at he; cases he
        · exact ⟨b, hb, e, he⟩
      simp only [ih hrest]

/-- C28, the code against the claim: the Ingress resolver panics on an Ingress whose default
backend is not a Service, and, no Service being visited, on an Ingress with a rule without
HTTP section or with a path whose backend is not a Service; the Service resolver panics, no
Ingress being visited, when the first rule of the first listed Ingress has no HTTP section. -/
theorem C28_ingress_missing_parts_panic (c : Clientset) (v : List String)
    (kr : KubernetesResource) :
    (∀ ingress, c.GetIngress kr.ResourceNamespace kr.ResourceName = .ok ingress →
        ingress.Spec.DefaultBackend = some { Service := none } →
        getRelatedResourcesIngress c v kr = .error .panic) ∧
    (∀ ingress, c.GetIngress kr.ResourceNamespace kr.ResourceName = .ok ingress →
        (∀ backend, ingress.Spec.DefaultBackend = some backend → backend.Service ≠ none) →
        kindVisited "Service" v = false →
        ((∃ rule ∈ ingress.Spec.Rules, rule.HTTP = none) ∨
          ∃ rule ∈ ingress.Spec.Rules, ∃ paths, rule.HTTP = some paths ∧
            ∃ path ∈ paths, path.Backend.Service = none) →
        getRelatedResourcesIngress c v kr = .error .panic) ∧
    (∀ service ingress rule ingresses rules,
        c.GetService kr.ResourceNamespace kr.ResourceName = .ok service →
        kindVisited "Ingress" v = false →
        c.ListIngresses kr.ResourceNamespace = .ok (ingress :: ingresses) →
        ingress.Spec.Rules = rule :: rules → rule.HTTP = none →
        getRelatedResourcesService c v kr = .error .panic) := by
  refine ⟨?_, ?_, ?_⟩
  · intro ingress hget hdef
    simp only [getRelatedResourcesIngress, hget, hdef]
  · intro ingress hget hdef hv hrule
    simp only [getRelatedResourcesIngress, hget]
    have hback : ingress.Spec.DefaultBackend = none ∨
        ∃ backend name, ingress.Spec.DefaultBackend = some backend ∧
          backend.Service = some name := by
      cases hb : ingress.Spec.DefaultBackend with
      | none => exact Or.inl rfl
      | some backend =>
        cases hs : backend.Service with
        | none => exact absurd hs (hdef backend hb)
        | some name => exact Or.inr ⟨backend, name, rfl, hs⟩
    clear hdef
    rcases hback with hb | ⟨backend, name, hb, hs⟩
    all_goals simp only [hb, hv, Bool.false_eq_true, if_false]
    on_goal 2 => simp only [hs]
    all_goals
      split
    all_goals
      rename_i heq
      have hp := forEach_panic heq
        (by
          intro rule e he
          split at he
          · cases he; rfl
          · refine forEach_only_panic _ ?_ _ e he
            intro path e1 he1
            split at he1
            · cases he1; rfl
            · cases he1)
        (by
          rcases hrule with ⟨rule, hmem, hnone⟩ | ⟨rule, hmem, paths, hsome, path, hp, hnone⟩
          · exact ⟨rule, hmem, .panic, by simp only [hnone]⟩
          · refine ⟨rule, hmem, .panic, ?_⟩
            simp only [hsome]
            refine forEach_panic rfl ?_ ⟨path, hp, .panic, by simp only [hnone]⟩
            intro path e1 he1
            split at he1
            · cases he1; rfl
            · cases he1)
      cases hp <;> rfl
  · intro service ingress rule ingresses rules hget hv hlist hrules hnone
    simp only [getRelatedResourcesService, hget, hv, Bool.false_eq_true, if_false, hlist,
      forEach, ingressRefs, hrules, hnone]

/-- Witness of C28: the Ingresses "static", "tcp" and "bucket" of `ingressCluster` make the
Ingress resolver panic, and the listed Ingress "tcp" makes the Service resolver panic for
Service "web". -/
theorem C28_ingress_missing_parts_panic_witness :
    ingressCluster.GetIngress "prod" "static" = .ok ingressResourceDefault ∧
    getRelatedResourcesIngress ingressCluster []
      { ResourceName := "static", ResourceType := "Ingress", ResourceNamespace := "prod" } =
        .error .panic ∧
    getRelatedResourcesIngress ingressCluster []
      { ResourceName := "tcp", ResourceType := "Ingress", ResourceNamespace := "prod" } =
        .error .panic ∧
    getRelatedResourcesIngress ingressCluster []
      { ResourceName := "bucket", ResourceType := "Ingress", ResourceNamespace := "prod" } =
        .error .panic ∧
    getRelatedResourcesService ingressCluster []
      { ResourceName := "web", ResourceType := "Service", ResourceNamespace := "prod" } =
        .error .panic :=
  ⟨rfl,
    (C28_ingress_missing_parts_panic ingressCluster []
      { ResourceName := "static", ResourceType := "Ingress", ResourceNamespace := "prod" }).1
      ingressResourceDefault rfl rfl,
    (C28_ingress_missing_parts_panic ingressCluster []
      { ResourceName := "tcp", ResourceType := "Ingress", ResourceNamespace := "prod" }).2.1
      ingressNoHTTP rfl (fun _ hb => by cases hb) rfl
      (Or.inl ⟨{ HTTP := none }, List.mem_singleton.2 rfl, rfl⟩),
    (C28_ingress_missing_parts_panic ingressCluster []
      { ResourceName := "bucket", ResourceType := "Ingress", ResourceNamespace := "prod" }).2.1
      ingressResourcePath rfl (fun _ hb => by cases hb) rfl
      (Or.inr ⟨{ HTTP := some [{ Backend := { Service := none } }] }, List.mem_singleton.2 rfl,
        [{ Backend := { Service := none } }], rfl,
        { Backend := { Service := none } }, List.mem_singleton.2 rfl, rfl⟩),
    (C28_ingress_missing_parts_panic ingressCluster []
      { ResourceName := "web", ResourceType := "Service", ResourceNamespace := "prod" }).2.2
      svcWeb ingressNoHTTP { HTTP := none } [] [] rfl rfl rfl rfl rfl⟩

/-! ## C29: a Service without a selector -/

/-- The Service identities the Pod resolver returns come from Services of the listing that
have a selector. -/
theorem pod_related_service (c : Clientset) (v : List String) (kr : KubernetesResource)
    (pod : Pod) (svcList : List Service) (rel : List KubernetesResource) (st : PodStatus)
    (hget : c.GetPod kr.ResourceNamespace kr.ResourceName = .ok pod)
    (hlist : c.ListServices pod.Namespace = .ok svcList)
    (h : getRelatedResourcesPod c v kr = .ok (rel, st))
    (r : KubernetesResource) (hr : r ∈ rel) (hkind : r.ResourceType = "Service") :
    ∃ svc ∈ svcList, svc.Name = r.ResourceName ∧ svc.Spec.Selector ≠ none := by
  unfold getRelatedResourcesPod at h
  simp only [hget, hlist] at h
  cases hpdbs : c.ListPodDisruptionBudgets kr.ResourceNamespace with
  | error e => simp [hpdbs] at h
  | ok pdbs =>
    simp only [hpdbs] at h
    split at h
    · cases h
    · rename_i fromPDBs hPDB
      cases hnps : c.ListNetworkPolicies kr.ResourceNamespace with
      | error e => simp [hnps] at h
      | ok netpols =>
        simp only [hnps] at h
        split at h
        · cases h
        · rename_i fromNetpols hNP
          simp only [Except.ok.injEq, Prod.mk.injEq] at h
          obtain ⟨hrel, -⟩ := h
          subst hrel
          simp only [List.mem_append, List.mem_flatMap] at hr
          rcases hr with (((((⟨vol, -, hr⟩ | ⟨ct, -, hr⟩) | ⟨ct, -, hr⟩) | hr) | hr) | hr) | hr
          · have := volumeRefs_kind _ _ r hr
            rw [hkind] at this
            simp at this
          · have := containerRefs_kind _ _ r hr
            rw [hkind] at this
            simp at this
          · have := containerRefs_kind _ _ r hr
            rw [hkind] at this
            simp at this
          · split at hr
            · simp at hr; subst hr; simp at hkind
            · cases hr
          · obtain ⟨svc, hsvc, rfl⟩ := List.mem_map.mp hr
            obtain ⟨hmem, hsel⟩ := List.mem_filter.1 hsvc
            refine ⟨svc, hmem, rfl, ?_⟩
            intro hnone
            rw [hnone] at hsel
            simp at hsel
          · obtain ⟨pdb, -, xs, hxs, hmem⟩ := forEach_mem _ _ _ hPDB r hr
            split at hxs
            · cases hxs
            · simp at hxs; subst hxs
              split at hmem
              · simp at hmem; subst hmem; simp at hkind
              · cases hmem
          · obtain ⟨np, -, xs, hxs, hmem⟩ := forEach_mem _ _ _ hNP r hr
            split at hxs
            · cases hxs
            · simp at hxs; subst hxs
              split at hmem
              · simp at hmem; subst hmem; simp at hkind
              · cases hmem

/-- The Deployment resolver returns an identity for every listed Service whose selector, the
nil one read as empty, matches the labels of the Deployment. -/
theorem deployments_related_service (c : Clientset) (v : List String)
    (kr : KubernetesResource) (deployment : Deployment) (services : List Service)
    (rel : List KubernetesResource) (st : DeploymentStatus)
    (hget : c.GetDeployment kr.ResourceNamespace kr.ResourceName = .ok deployment)
    (hlist : c.ListServices deployment.Namespace = .ok services)
    (h : getRelatedResourcesDeployments c v kr = .ok (rel, st))
    (svc : Service) (hmem : svc ∈ services)
    (hsel : selectorFromSetMatches (svc.Spec.Selector.getD []) deployment.Labels = true) :
    ({ ResourceName := svc.Name, ResourceType := "Service",
       ResourceNamespace := svc.Namespace } : KubernetesResource) ∈ rel := by
  unfold getRelatedResourcesDeployments at h
  simp only [hget, hlist] at h
  repeat (any_goals (first | (cases h; done) | split at h))
  all_goals
    simp only [Except.ok.injEq, Prod.mk.injEq] at h
    obtain ⟨rfl, -⟩ := h
    exact List.mem_append_right _
      (List.mem_map.2 ⟨svc, List.mem_filter.2 ⟨hmem, by simpa using hsel⟩, rfl⟩)

/-- C29: a Service without a selector is returned as related by the Deployment resolver for
every Deployment whose namespace lists it, and, when no Service of the same name with a
selector is listed beside it, the Pod resolver returns no Service identity with its name. -/
theorem C29_selectorless_service (c : Clientset) (svc : Service)
    (hsel : svc.Spec.Selector = none) :
    (∀ (v : List String) (kr : KubernetesResource) (deployment : Deployment)
        (services : List Service) (rel : List KubernetesResource) (st : DeploymentStatus),
        c.GetDeployment kr.ResourceNamespace kr.ResourceName = .ok deployment →
        c.ListServices deployment.Namespace = .ok services →
        svc ∈ services →
        getRelatedResourcesDeployments c v kr = .ok (rel, st) →
        ({ ResourceName := svc.Name, ResourceType := "Service",
           ResourceNamespace := svc.Namespace } : KubernetesResource) ∈ rel) ∧
    (∀ (v : List String) (kr : KubernetesResource) (pod : Pod) (svcList : List Service)
        (rel : List KubernetesResource) (st : PodStatus),
        c.GetPod kr.ResourceNamespace kr.ResourceName = .ok pod →
        c.ListServices pod.Namespace = .ok svcList →
        (∀ other ∈ svcList, other.Name = svc.Name → other.Spec.Selector = none) →
        getRelatedResourcesPod c v kr = .ok (rel, st) →
        ∀ r ∈ rel, r.ResourceType = "Service" → r.ResourceName ≠ svc.Name) := by
  refine ⟨?_, ?_⟩
  · intro v kr deployment services rel st hget hlist hmem h
    exact deployments_related_service c v kr deployment services rel st hget hlist h svc hmem
      (by rw [hsel]; rfl)
  · intro v kr pod svcList rel st hget hlist huniq h r hr hkind hname
    obtain ⟨other, hmem, hn, hs⟩ := pod_related_service c v kr pod svcList rel st hget hlist h
      r hr hkind
    exact hs (huniq other hmem (hn.trans hname))


/-- Witness of C29: in `selectorlessCluster` the Service "ext" has no selector; the Deployment
resolver returns it for Deployment "web", the Pod resolver returns only Service "web" for
Pod "web-0". -/
theorem C29_selectorless_service_witness :
    svcExternal.Spec.Selector = none ∧
    getRelatedResourcesDeployments selectorlessCluster [] deploymentRoot =
      .ok ([{ ResourceName := "ext", ResourceType := "Service", ResourceNamespace := "prod" }],
        { Ok := true, Namespace := "prod", Created := "0s", DeploymentStrategy := "",
          Selectors := [], Message := "Deployment is OK" }) ∧
    ({ ResourceName := "ext", ResourceType := "Service", ResourceNamespace := "prod" } :
        KubernetesResource) ∈
      [({ ResourceName := "ext", ResourceType := "Service", ResourceNamespace := "prod" } :
        KubernetesResource)] ∧
    getRelatedResourcesPod selectorlessCluster []
        { ResourceName := "web-0", ResourceType := "Pod", ResourceNamespace := "prod" } =
      .ok ([{ ResourceName := "web", ResourceType := "Service", ResourceNamespace := "prod" }],
        { Ok := true, Namespace := "prod", Created := "0s", ServiceAccount := "", Node := "",
          ControlledBy := [], Message := "Pod is OK" }) ∧
    ∀ r ∈ [({ ResourceName := "web", ResourceType := "Service", ResourceNamespace := "prod" } :
        KubernetesResource)], r.ResourceType = "Service" → r.ResourceName ≠ "ext" :=
  ⟨rfl, by rfl,
    (C29_selectorless_service selectorlessCluster svcExternal rfl).1 [] deploymentRoot depPlain
      [svcExternal, svcWeb] _ _ rfl rfl (List.mem_cons_self _ _) (by rfl),
    by rfl,
    (C29_selectorless_service selectorlessCluster svcExternal rfl).2 []
      { ResourceName := "web-0", ResourceType := "Pod", ResourceNamespace := "prod" }
      podLabelled [svcExternal, svcWeb] _ _ rfl rfl (by decide) (by rfl)⟩

/-! ## C30: a Pod without container statuses -/

/-- The per-pod summary fails with a panic only. -/
theorem podSummary_only_panic (now : Int) (pod : Pod) (e : Failure)
    (h : podSummary now pod = .error e) : e = .panic := by
  unfold podSummary at h
  split at h
  · cases h; rfl
  · cases h

/-- C30, the code against the claim: when the traversal of the Deployment succeeded and the
Pods selected by the Deployment's selector hold a Pod that has no container status, the
handler panics reading the restart count of the first container status. -/
theorem C30_no_container_status_panics (fuel : Nat) (h : GetK8sDeploymentInfoHandler)
    (clientset : Clientset) (traverser : DAGTraverser) (deploy : Deployment)
    (replicas : Int) (selector : LabelSelector) (pods : List Pod) (pod : Pod)
    (hget : clientset.GetDeployment h.NS h.Deployment = .ok deploy)
    (hrun : GenerateDAGForResource clientset fuel freshTraverser
      { ResourceName := h.Deployment, ResourceType := "Deployment",
        ResourceNamespace := h.NS } = some (traverser, .nil))
    (hrep : deploy.Spec.Replicas = some replicas)
    (hsel : deploy.Spec.Selector = some selector)
    (hpods : clientset.ListPodsSelected h.NS selector = .ok pods)
    (hmem : pod ∈ pods) (hnone : pod.Status.ContainerStatuses = []) :
    podSummary clientset.Now pod = .error .panic ∧
      ServeHTTP fuel h (.ok clientset) = some .Panic := by
  have hpod : podSummary clientset.Now pod = .error .panic := by
    simp only [podSummary, hnone]
  have hloop : forEach (podSummary clientset.Now) pods = .error .panic :=
    forEach_panic rfl (podSummary_only_panic clientset.Now) ⟨pod, hmem, .panic, hpod⟩
  refine ⟨hpod, ?_⟩
  simp only [ServeHTTP, hget, hrun, hrep, hsel, hpods, hloop]

/-- Witness of C30: the selector `app=web` of Deployment "web" of `pendingCluster` selects the
Pod "web-new", which has no container status yet; the handler panics. -/
theorem C30_no_container_status_panics_witness :
    pendingCluster.GetDeployment "prod" "web" = .ok depSelecting ∧
    podPending.Status.ContainerStatuses = [] ∧
    podSummary pendingCluster.Now podPending = .error .panic ∧
    ServeHTTP 2 { Name := "web", NS := "prod", Deployment := "web" } (.ok pendingCluster) =
      some .Panic :=
  ⟨rfl, rfl,
    C30_no_container_status_panics 2 { Name := "web", NS := "prod", Deployment := "web" }
      pendingCluster _ depSelecting 1 { MatchLabels := [("app", "web")] } [podPending]
      podPending rfl (by rfl) rfl rfl (by rfl) (List.mem_singleton.2 rfl) rfl⟩

end K8sMon
